import Mathlib

/-!
# Windnerd Core: sample store, vector averager and aggregation loop

A shallow embedding of `Windnerd_Rolling_Buffer.cpp`, `Windnerd_Vector_Averager.cpp`
and `Windnerd_Core.cpp`.  Unsigned machine integers are natural numbers, reduced
modulo `2 ^ w` at the places where the C++ arithmetic can wrap.
-/

namespace Windnerd

/-! ## Machine integer widths -/

/-- Number of values of a `uint16_t`. -/
def UINT16_MOD : Nat := 65536

/-- Number of values of a `uint32_t` (also `size_t` and `unsigned long` on the 32-bit target). -/
def UINT32_MOD : Nat := 4294967296

/-! ## Windnerd_Rolling_Buffer -/

/-- Value of the `ROLLING_BUFFER_LENGTH` define (10 minutes of 3 s samples). -/
def ROLLING_BUFFER_LENGTH : Nat := 200

/-- The struct `wn_raw_wind_sample_t`. -/
structure wn_raw_wind_sample_t where
  pulses : Nat
  dir : Nat
  valid : Bool
deriving DecidableEq, Repr

/-- Default member initialisers of `wn_raw_wind_sample_t`: pulses 0, dir 0, valid true. -/
def wn_raw_wind_sample_t.init : wn_raw_wind_sample_t :=
  { pulses := 0, dir := 0, valid := true }

/-- The class `WN_ROLLINGBUFFER`: the array `samples` (200 slots), `head` and `count`. -/
structure WN_ROLLINGBUFFER where
  samples : List wn_raw_wind_sample_t
  head : Nat
  count : Nat
deriving DecidableEq, Repr

namespace WN_ROLLINGBUFFER

/-- A freshly constructed buffer: 200 default samples, `head = 0`, `count = 0`. -/
def fresh : WN_ROLLINGBUFFER :=
  { samples := List.replicate ROLLING_BUFFER_LENGTH wn_raw_wind_sample_t.init
    head := 0
    count := 0 }

/-- The method `addSample(pulses, dir)`:
`head = (head + 1) % 200; samples[head] = {pulses, dir, true}; if (count < 200) count++`. -/
def addSample (rb : WN_ROLLINGBUFFER) (pulses dir : Nat) : WN_ROLLINGBUFFER :=
  let head := ((rb.head + 1) % UINT32_MOD) % ROLLING_BUFFER_LENGTH
  { samples := rb.samples.set head { pulses := pulses, dir := dir, valid := true }
    head := head
    count := if rb.count < ROLLING_BUFFER_LENGTH then rb.count + 1 else rb.count }

/-- The method `get(index)`: the sentinel `{0, 0, false}` when `index >= count`, otherwise
`samples[(head + 200 - index) % 200]`, the subtraction being `size_t` arithmetic. -/
def get (rb : WN_ROLLINGBUFFER) (index : Nat) : wn_raw_wind_sample_t :=
  if index ≥ rb.count then
    { pulses := 0, dir := 0, valid := false }
  else
    let pos := ((rb.head + ROLLING_BUFFER_LENGTH + UINT32_MOD - index) % UINT32_MOD)
      % ROLLING_BUFFER_LENGTH
    rb.samples.getD pos wn_raw_wind_sample_t.init

/-- A fresh buffer after one `addSample` call per element of `xs`, in order;
each element is a `(pulses, dir)` pair. -/
def addSamples (xs : List (Nat × Nat)) : WN_ROLLINGBUFFER :=
  xs.foldl (fun rb p => rb.addSample p.1 p.2) fresh

/-- Modelled from the spec: `WN_ROLLINGBUFFER::addRawSample`, which `WN_Core::loop` calls and
the rolling buffer sources do not define.  It is the spec's `append(sample)`: advance the write
cursor, overwrite that slot with the sample, increment the live count up to capacity, exactly
as `addSample` does for a sample built from `pulses` and `dir`. -/
def addRawSample (rb : WN_ROLLINGBUFFER) (sample : wn_raw_wind_sample_t) : WN_ROLLINGBUFFER :=
  let head := ((rb.head + 1) % UINT32_MOD) % ROLLING_BUFFER_LENGTH
  { samples := rb.samples.set head sample
    head := head
    count := if rb.count < ROLLING_BUFFER_LENGTH then rb.count + 1 else rb.count }

/-- What holds of the buffer after the insertions `xs`: the `k`-th insertion (counted from 1)
sits in slot `k % 200` as long as fewer than 200 insertions followed it. -/
structure Tracks (rb : WN_ROLLINGBUFFER) (xs : List (Nat × Nat)) : Prop where
  len : rb.samples.length = 200
  head_eq : rb.head = xs.length % 200
  count_eq : rb.count = min xs.length 200
  slot : ∀ k p, xs[k]? = some p → xs.length - (k + 1) < 200 →
    rb.samples[(k + 1) % 200]? = some { pulses := p.1, dir := p.2, valid := true }

end WN_ROLLINGBUFFER

/-! ## Single-precision arithmetic

The averager and the unit conversion compute in `float`.  The embedding is written over an
arbitrary carrier `F` with `+`, `*`, `/`, conversions from integers and from decimal literals,
and the functions below.  Two carriers are given: `ℝ`, exact arithmetic, and `Binary32`,
in which every operation rounds its result to the nearest `float`. -/

/-- The `float` functions used by the sources beyond `+`, `*` and `/`. -/
class FloatFns (F : Type) where
  /-- The function `cosf`. -/
  cosf : F → F
  /-- The function `sinf`. -/
  sinf : F → F
  /-- The function `atan2f(y, x)`. -/
  atan2f : F → F → F
  /-- The function `sqrtf`. -/
  sqrtf : F → F
  /-- The constant `M_PI`. -/
  M_PI : F
  /-- The comparison `a < b`. -/
  lt : F → F → Bool
  /-- The conversion of a non-negative `float` to an unsigned integer (truncation). -/
  toUInt : F → Nat

/-- Exact real arithmetic: `atan2f(y, x)` is the argument of `x + y i` in `(-π, π]`, with
`atan2f(0, 0) = 0`, and the conversion to an unsigned integer is the floor. -/
noncomputable instance realFloatFns : FloatFns ℝ where
  cosf := Real.cos
  sinf := Real.sin
  atan2f := fun y x => Complex.arg { re := x, im := y }
  sqrtf := Real.sqrt
  M_PI := Real.pi
  lt := fun a b => decide (a < b)
  toUInt := fun a => Nat.floor a

/-- Round a real number to the nearest integer, a tie going to the even neighbour. -/
noncomputable def roundNearestEven (t : ℝ) : ℤ :=
  if t - ⌊t⌋ < 1 / 2 then ⌊t⌋
  else if 1 / 2 < t - ⌊t⌋ then ⌊t⌋ + 1
  else if ⌊t⌋ % 2 = 0 then ⌊t⌋ else ⌊t⌋ + 1

/-- Round a real number to the nearest `float` (IEEE 754 binary32, round to nearest, ties to
even): a number `x` with `2 ^ e <= |x| < 2 ^ (e + 1)` is rounded to the nearest multiple of
`2 ^ (e - 23)`, so that the result has a significand of 24 bits.  The exponent range is not
bounded: there is no overflow and there are no subnormal numbers, so the result is that of
binary32 whenever it lies between `2 ^ (-126)` and `2 ^ 128` in absolute value. -/
noncomputable def roundBinary32 (x : ℝ) : ℝ :=
  if x = 0 then 0
  else (roundNearestEven (x / (2 : ℝ) ^ (Int.log 2 |x| - 23)) : ℝ)
    * (2 : ℝ) ^ (Int.log 2 |x| - 23)

/-- A `float`: the real number it stands for. -/
structure Binary32 where
  toReal : ℝ

/-- The sum of two `float`s, rounded. -/
noncomputable instance binary32Add : Add Binary32 where
  add := fun a b => { toReal := roundBinary32 (a.toReal + b.toReal) }

/-- The product of two `float`s, rounded. -/
noncomputable instance binary32Mul : Mul Binary32 where
  mul := fun a b => { toReal := roundBinary32 (a.toReal * b.toReal) }

/-- The quotient of two `float`s, rounded. -/
noncomputable instance binary32Div : Div Binary32 where
  div := fun a b => { toReal := roundBinary32 (a.toReal / b.toReal) }

/-- The conversion of an unsigned integer to `float`, rounded. -/
noncomputable instance binary32NatCast : NatCast Binary32 where
  natCast := fun n => { toReal := roundBinary32 (n : ℝ) }

/-- A decimal literal read as a `float`: the nearest one. -/
noncomputable instance binary32RatCast : RatCast Binary32 where
  ratCast := fun q => { toReal := roundBinary32 (q : ℝ) }

/-- Single-precision arithmetic: the functions of the C library return the `float` nearest
to the exact result (the library is not part of the sources; its functions are taken to be
correctly rounded), and the conversion to an unsigned integer is the floor.  `M_PI` is read
as a `float`: the embedding has one carrier, so the two sub-expressions that C evaluates in
`double` because `M_PI` is a `double` constant, `dir * (M_PI / 180.0f)` and
`... * 180.0f / M_PI`, are evaluated in `float` here, each operation rounded. -/
noncomputable instance binary32FloatFns : FloatFns Binary32 where
  cosf := fun a => { toReal := roundBinary32 (Real.cos a.toReal) }
  sinf := fun a => { toReal := roundBinary32 (Real.sin a.toReal) }
  atan2f := fun y x =>
    { toReal := roundBinary32 (Complex.arg { re := x.toReal, im := y.toReal }) }
  sqrtf := fun a => { toReal := roundBinary32 (Real.sqrt a.toReal) }
  M_PI := { toReal := roundBinary32 Real.pi }
  lt := fun a b => decide (a.toReal < b.toReal)
  toUInt := fun a => Nat.floor a.toReal

/-- A computed number `a` is within `n` roundings of `b`: `a = b * ρ` for a factor `ρ`
between `(1 + 2 ^ (-23)) ^ (-n)` and `(1 + 2 ^ (-23)) ^ n`.  One rounding to `float` moves a
number by a factor in that range for `n = 1`. -/
def WithinRoundings (n : Nat) (a b : ℝ) : Prop :=
  ∃ ρ : ℝ, a = b * ρ ∧ ((1 + 1 / 8388608 : ℝ) ^ n)⁻¹ ≤ ρ ∧ ρ ≤ (1 + 1 / 8388608 : ℝ) ^ n

section Program

variable {F : Type} [Add F] [Mul F] [Div F] [NatCast F] [RatCast F] [FloatFns F]

/-! ## Windnerd_Vector_Averager -/

/-- The struct `wn_raw_wind_report_t`. -/
structure wn_raw_wind_report_t (F : Type) where
  pulses_avg : F
  dir_avg : Nat
  pulses_max : Nat
  pulses_min : Nat

/-- Default member initialisers of `wn_raw_wind_report_t`: all fields 0. -/
def wn_raw_wind_report_t.init : wn_raw_wind_report_t F :=
  { pulses_avg := ((0 : Nat) : F), dir_avg := 0, pulses_max := 0, pulses_min := 0 }

/-- The class `WN_VECTOR_AVERAGER`. -/
structure WN_VECTOR_AVERAGER (F : Type) where
  x : F
  y : F
  cnt : Nat
  wind_max : Nat
  wind_min : Nat

namespace WN_VECTOR_AVERAGER

/-- A freshly constructed averager: `x = y = 0`, `cnt = 0`, `wind_max = 0`,
`wind_min = 0xFFFFFFFF`. -/
def fresh : WN_VECTOR_AVERAGER F :=
  { x := ((0 : Nat) : F), y := ((0 : Nat) : F), cnt := 0, wind_max := 0, wind_min := 4294967295 }

/-- The method `accumulate(uint32_t pulses, uint16_t dir)`. -/
def accumulate (a : WN_VECTOR_AVERAGER F) (pulses dir : Nat) : WN_VECTOR_AVERAGER F :=
  let rad : F := (dir : F) * (FloatFns.M_PI / ((180 : ℚ) : F))
  { x := a.x + (pulses : F) * FloatFns.cosf rad
    y := a.y + (pulses : F) * FloatFns.sinf rad
    cnt := (a.cnt + 1) % UINT32_MOD
    wind_max := if pulses > a.wind_max then pulses else a.wind_max
    wind_min := if pulses < a.wind_min then pulses else a.wind_min }

/-- The overload `accumulate(wn_raw_wind_sample_t sample)`. -/
def accumulateSample (a : WN_VECTOR_AVERAGER F) (sample : wn_raw_wind_sample_t) :
    WN_VECTOR_AVERAGER F :=
  a.accumulate sample.pulses sample.dir

/-- The method `computeReportFromAccumulatedValues(report)`: returns the averager and the
caller's report after the call. -/
def computeReportFromAccumulatedValues (a : WN_VECTOR_AVERAGER F)
    (report : wn_raw_wind_report_t F) : WN_VECTOR_AVERAGER F × wn_raw_wind_report_t F :=
  if a.cnt = 0 then
    (a, report)
  else
    let avgX : F := a.x / (a.cnt : F)
    let avgY : F := a.y / (a.cnt : F)
    let dir : F := FloatFns.atan2f avgY avgX * ((180 : ℚ) : F) / FloatFns.M_PI
    let dir : F := if FloatFns.lt dir ((0 : Nat) : F) then dir + ((360 : ℚ) : F) else dir
    ({ a with x := ((0 : Nat) : F), y := ((0 : Nat) : F), cnt := 0 },
     { pulses_avg := FloatFns.sqrtf (avgX * avgX + avgY * avgY)
       dir_avg := FloatFns.toUInt (dir + ((1 / 2 : ℚ) : F)) % UINT16_MOD
       pulses_max := a.wind_max
       pulses_min := a.wind_min })

/-- One `accumulate(pulses, dir)` call per element of `obs`, in order. -/
def accumulateAll (a : WN_VECTOR_AVERAGER F) (obs : List (Nat × Nat)) : WN_VECTOR_AVERAGER F :=
  obs.foldl (fun b p => b.accumulate p.1 p.2) a

end WN_VECTOR_AVERAGER

/-! ## Windnerd_TMAG5273 -/

/-- The return value of `wn_read_then_make_angle_sensor_sleep`, from the two bytes read at
`ANGLE_RESULT_MSB`: `raw_angle = (angle_result[0] << 8) + angle_result[1]` as a `uint16_t`,
then `(raw_angle & 0b0001111111111111) >> 4`. -/
def wn_read_then_make_angle_sensor_sleep (angle_result0 angle_result1 : Nat) : Nat :=
  let raw_angle := ((angle_result0 <<< 8) + angle_result1) % UINT16_MOD
  (raw_angle &&& 8191) >>> 4

/-! ## Windnerd_Core -/

/-- The struct `wn_instant_wind_sample_t` (speed and direction of one sample). -/
structure wn_instant_wind_sample_t (F : Type) where
  speed : F
  dir : Nat

/-- The struct `wn_wind_report_t`. -/
structure wn_wind_report_t (F : Type) where
  avg_speed : F
  avg_dir : Nat
  min_speed : F
  max_speed : F

/-- Enumerator `UNIT_MS` of `wn_wind_unit_t`. -/
def UNIT_MS : Nat := 0
/-- Enumerator `UNIT_KN` of `wn_wind_unit_t`. -/
def UNIT_KN : Nat := 1
/-- Enumerator `UNIT_KPH` of `wn_wind_unit_t`. -/
def UNIT_KPH : Nat := 2
/-- Enumerator `UNIT_MPH` of `wn_wind_unit_t`. -/
def UNIT_MPH : Nat := 3

/-- Value of the `HZ_TO_MS` define, 1.31. -/
def HZ_TO_MS : ℚ := 131 / 100
/-- Value of the `DEFAULT_AVG_PERIOD_SEC` define. -/
def DEFAULT_AVG_PERIOD_SEC : Nat := 60
/-- Value of the `DEFAULT_UPDATE_PERIOD_SEC` define. -/
def DEFAULT_UPDATE_PERIOD_SEC : Nat := 60
/-- Value of the `TICK_HZ` define. -/
def TICK_HZ : Nat := 10
/-- Value of the `SAMPLING_WINDOW_TICKS` define. -/
def SAMPLING_WINDOW_TICKS : Nat := 30
/-- Value of the `SAMPLE_DURATION` define, `(SAMPLING_WINDOW_TICKS / TICK_HZ)`. -/
def SAMPLE_DURATION : Nat := SAMPLING_WINDOW_TICKS / TICK_HZ
/-- Value of the `LOW_POWER_VANE_TICKS` define. -/
def LOW_POWER_VANE_TICKS : Nat := 5

/-- The class `WN_Core` together with the three file-level variables of `Windnerd_Core.cpp`
(`wn_ticker`, `speed_pulse_count`, `low_power_mode`).  The callbacks are recorded as set or
unset, their invocations appear as events.  The pin-number members and `_timeBetweenRefresh`
are left out: the LEDs are named by the events `speedLed` and `northLed`. -/
structure WN_Core (F : Type) where
  _HZ_to_ms : F
  _wind_average_period_sec : Nat
  _wind_update_period_sec : Nat
  ticks_cnt : Nat
  _unit_in_use : Nat
  _invert_polarity : Bool
  RollingBuffer : WN_ROLLINGBUFFER
  VaneAverager : WN_VECTOR_AVERAGER F
  instantWindCb : Bool
  avgWindCb : Bool
  last_sampling_window_millis : Nat
  wn_ticker : Bool
  speed_pulse_count : Nat
  low_power_mode : Bool

/-- What a call makes visible outside the state: LED writes and callback invocations. -/
inductive Event (F : Type) where
  | speedLed (level : Bool)
  | northLed (level : Bool)
  | instantWind (sample : wn_instant_wind_sample_t F)
  | avgWind (report : wn_wind_report_t F)

/-- Whether an event is an invocation of the instant-wind callback. -/
def Event.isInstantWind : Event F → Bool
  | Event.instantWind _ => true
  | _ => false

/-- Whether an event is a write to the north LED; `signalIfNorth`, called once per angle
reading, is the only code that writes it after `begin()`. -/
def Event.isNorthLed : Event F → Bool
  | Event.northLed _ => true
  | _ => false

/-- What one `loop()` call reads from outside the state: the two sensor bytes an angle read
returns, the value of `millis()` in the drift comparison and the value of `millis()` stored as
the new window timestamp. -/
structure LoopEnv where
  angle_result0 : Nat
  angle_result1 : Nat
  millis_check : Nat
  millis_stamp : Nat
deriving DecidableEq, Repr

/-- A call of one of the two period setters, with the value passed as argument. -/
inductive ConfigCall where
  | setAveragingPeriodInSec (period : Nat)
  | setReportingIntervalInSec (period : Nat)
deriving DecidableEq, Repr

namespace WN_Core

/-- The constructor `WN_Core::WN_Core()` with the member initialisers of the class; the
variables of the file start as `false`, `0`, `false`, and `last_sampling_window_millis`,
first written by `begin()`, starts as 0. -/
def new : WN_Core F :=
  { _HZ_to_ms := (HZ_TO_MS : F)
    _wind_average_period_sec := DEFAULT_AVG_PERIOD_SEC
    _wind_update_period_sec := DEFAULT_UPDATE_PERIOD_SEC
    ticks_cnt := 0
    _unit_in_use := UNIT_MS
    _invert_polarity := false
    RollingBuffer := WN_ROLLINGBUFFER.fresh
    VaneAverager := WN_VECTOR_AVERAGER.fresh
    instantWindCb := false
    avgWindCb := false
    last_sampling_window_millis := 0
    wn_ticker := false
    speed_pulse_count := 0
    low_power_mode := false }

/-- The method `begin()`: both LEDs on, sensor, timer and interrupt set up (no effect on the
state), `last_sampling_window_millis = millis()`. -/
def begin (s : WN_Core F) (millis : Nat) : WN_Core F × List (Event F) :=
  ({ s with last_sampling_window_millis := millis }, [Event.speedLed true, Event.northLed true])

/-- The interrupt handler `onSpeedPulseISR`. -/
def onSpeedPulseISR (s : WN_Core F) : WN_Core F × List (Event F) :=
  ({ s with speed_pulse_count := (s.speed_pulse_count + 1) % UINT32_MOD },
   if !s.low_power_mode then [Event.speedLed true] else [])

/-- The interrupt handler `onTickerTimerISR`. -/
def onTickerTimerISR (s : WN_Core F) : WN_Core F :=
  { s with wn_ticker := true }

/-- The method `setAveragingPeriodInSec(period)`: the state after the call and the result. -/
def setAveragingPeriodInSec (s : WN_Core F) (period : Nat) : WN_Core F × Bool :=
  if period ≥ SAMPLE_DURATION ∧ period ≤ ROLLING_BUFFER_LENGTH * SAMPLE_DURATION then
    ({ s with _wind_average_period_sec := period }, true)
  else
    (s, false)

/-- The method `setReportingIntervalInSec(period)`: the state after the call and the result. -/
def setReportingIntervalInSec (s : WN_Core F) (period : Nat) : WN_Core F × Bool :=
  if period ≥ SAMPLE_DURATION then
    ({ s with _wind_update_period_sec := period }, true)
  else
    (s, false)

/-- The method `invertVanePolarity`. -/
def invertVanePolarity (s : WN_Core F) (should_invert : Bool) : WN_Core F :=
  { s with _invert_polarity := should_invert }

/-- The method `setSpeedUnit`. -/
def setSpeedUnit (s : WN_Core F) (unit : Nat) : WN_Core F :=
  { s with _unit_in_use := unit }

/-- The method `enableLowPowerMode`. -/
def enableLowPowerMode (s : WN_Core F) : WN_Core F :=
  { s with low_power_mode := true }

/-- The method `disableLowPowerMode`. -/
def disableLowPowerMode (s : WN_Core F) : WN_Core F :=
  { s with low_power_mode := false }

/-- The method `onInstantWindUpdate` with a callback that is not null. -/
def onInstantWindUpdate (s : WN_Core F) : WN_Core F :=
  { s with instantWindCb := true }

/-- The method `onNewWindReport` with a callback that is not null. -/
def onNewWindReport (s : WN_Core F) : WN_Core F :=
  { s with avgWindCb := true }

/-- The method `signalIfNorth(angle)`: the level written to the north LED. -/
def signalIfNorth (s : WN_Core F) (angle : Nat) : List (Event F) :=
  if !s.low_power_mode && (angle > 355 || angle < 5) then
    [Event.northLed true]
  else
    [Event.northLed false]

/-- The method `pulsesToSpeedUnitInUse(float pulses)`. -/
def pulsesToSpeedUnitInUse (s : WN_Core F) (pulses : F) : F :=
  let speed_ms : F := pulses * s._HZ_to_ms / ((SAMPLING_WINDOW_TICKS / TICK_HZ : Nat) : F)
  if s._unit_in_use = UNIT_MS then speed_ms
  else if s._unit_in_use = UNIT_KN then speed_ms * ((194384 / 100000 : ℚ) : F)
  else if s._unit_in_use = UNIT_KPH then speed_ms * ((36 / 10 : ℚ) : F)
  else if s._unit_in_use = UNIT_MPH then speed_ms * ((223694 / 100000 : ℚ) : F)
  else speed_ms

/-- The method `formatRawSample`. -/
def formatRawSample (s : WN_Core F) (raw_sample : wn_raw_wind_sample_t) :
    wn_instant_wind_sample_t F :=
  { speed := s.pulsesToSpeedUnitInUse (raw_sample.pulses : F)
    dir := raw_sample.dir }

/-- The method `formatRawReport`. -/
def formatRawReport (s : WN_Core F) (raw_report : wn_raw_wind_report_t F) :
    wn_wind_report_t F :=
  { avg_dir := raw_report.dir_avg
    avg_speed := s.pulsesToSpeedUnitInUse raw_report.pulses_avg
    min_speed := s.pulsesToSpeedUnitInUse (raw_report.pulses_min : F)
    max_speed := s.pulsesToSpeedUnitInUse (raw_report.pulses_max : F) }

/-- The method `triggerInstantWindCb`: the callback is called only if set. -/
def triggerInstantWindCb (s : WN_Core F) (instant_report : wn_instant_wind_sample_t F) :
    List (Event F) :=
  if s.instantWindCb then [Event.instantWind instant_report] else []

/-- The method `triggerAvgWindCb`: the callback is called only if set. -/
def triggerAvgWindCb (s : WN_Core F) (report : wn_wind_report_t F) : List (Event F) :=
  if s.avgWindCb then [Event.avgWind report] else []

/-- The `for` loop of `computeReportForPeriodInSecIndexedFromLast`, with the `uint16_t` counter
`i` and the bound `samples_to_average + shift` computed in `int`.  The first argument is fuel;
`none` means the fuel ran out. -/
def periodLoop (rb : WN_ROLLINGBUFFER) :
    Nat → Nat → Nat → WN_VECTOR_AVERAGER F → Option (WN_VECTOR_AVERAGER F)
  | 0, _, _, _ => none
  | fuel + 1, i, bound, periodAverager =>
    if i < bound then
      let sample := rb.get i
      let periodAverager :=
        if sample.valid then periodAverager.accumulateSample sample else periodAverager
      periodLoop rb fuel ((i + 1) % UINT16_MOD) bound periodAverager
    else
      some periodAverager

/-- Fuel that decides whether the `for` loop ends: the counter has 65536 values and the bound
does not change, so a loop that has not ended after 65536 iterations never ends. -/
def PERIOD_LOOP_FUEL : Nat := UINT16_MOD + 1

/-- The method `computeReportForPeriodInSecIndexedFromLast(period, index)`; `none` when its
`for` loop does not end.  The product `index * period` is computed without overflow: in the
source it is an `int` product of two promoted `uint16_t` values, equal to the exact product
whenever that is below `2 ^ 31`. -/
def computeReportForPeriodInSecIndexedFromLast (s : WN_Core F) (period index : Nat) :
    Option (wn_wind_report_t F) :=
  let samples_to_average := (period / (SAMPLING_WINDOW_TICKS / TICK_HZ)) % UINT16_MOD
  let shift := ((index * period) / (SAMPLING_WINDOW_TICKS / TICK_HZ)) % UINT16_MOD
  match periodLoop s.RollingBuffer PERIOD_LOOP_FUEL ((0 + shift) % UINT16_MOD)
      (samples_to_average + shift) (WN_VECTOR_AVERAGER.fresh : WN_VECTOR_AVERAGER F) with
  | none => none
  | some periodAverager =>
    let avg_raw_wind_report :=
      (periodAverager.computeReportFromAccumulatedValues wn_raw_wind_report_t.init).2
    some (s.formatRawReport avg_raw_wind_report)

/-- The method `computeReportForRecentPeriodInSec(period)`. -/
def computeReportForRecentPeriodInSec (s : WN_Core F) (period : Nat) :
    Option (wn_wind_report_t F) :=
  s.computeReportForPeriodInSecIndexedFromLast period 0

/-- The method `getSampleIndexedFromLast(index)`. -/
def getSampleIndexedFromLast (s : WN_Core F) (index : Nat) : wn_instant_wind_sample_t F :=
  s.formatRawSample (s.RollingBuffer.get index)

/-- The `unsigned long` difference `a - b`. -/
def millisDiff (a b : Nat) : Nat :=
  (a % UINT32_MOD + UINT32_MOD - b % UINT32_MOD) % UINT32_MOD

/-- First block of `loop()` after the tick is counted: when not in low-power mode, or on every
fifth tick, read the vane angle, apply the polarity, reduce it modulo 360, signal north and
accumulate it with magnitude 1. -/
def loopVane (s : WN_Core F) (env : LoopEnv) : WN_Core F × List (Event F) :=
  if !s.low_power_mode || s.ticks_cnt % LOW_POWER_VANE_TICKS == 0 then
    let angle := wn_read_then_make_angle_sensor_sleep env.angle_result0 env.angle_result1
    let angle := if s._invert_polarity then (angle + 180) % UINT16_MOD else angle
    let angle := angle % 360
    ({ s with VaneAverager := s.VaneAverager.accumulate 1 angle }, s.signalIfNorth angle)
  else
    (s, [])

/-- Second block of `loop()`: when the tick count is a multiple of `SAMPLING_WINDOW_TICKS`,
either record the sample of the window (elapsed time below
`SAMPLE_DURATION * 1000 + 1000 / TICK_HZ`) or drop it. -/
def loopWindow (s : WN_Core F) (env : LoopEnv) : WN_Core F × List (Event F) :=
  if s.ticks_cnt % SAMPLING_WINDOW_TICKS == 0 then
    if millisDiff env.millis_check s.last_sampling_window_millis
        < SAMPLE_DURATION * 1000 + 1000 / TICK_HZ then
      let r := s.VaneAverager.computeReportFromAccumulatedValues wn_raw_wind_report_t.init
      let vane_raw_report := r.2
      let raw_sample : wn_raw_wind_sample_t :=
        { pulses := s.speed_pulse_count % UINT16_MOD, dir := vane_raw_report.dir_avg,
          valid := true }
      let s := { s with VaneAverager := r.1, speed_pulse_count := 0,
                        last_sampling_window_millis := env.millis_stamp }
      let s := { s with RollingBuffer := s.RollingBuffer.addRawSample raw_sample }
      (s, s.triggerInstantWindCb (s.formatRawSample raw_sample))
    else
      ({ s with speed_pulse_count := 0, last_sampling_window_millis := env.millis_stamp }, [])
  else
    (s, [])

/-- Third block of `loop()`: when the tick count is a multiple of
`_wind_update_period_sec * TICK_HZ`, compute the report over the averaging period and call
the average-wind callback.  A reporting interval of 0 makes the C++ remainder undefined; here
`n % 0 = n`. -/
def loopReport (s : WN_Core F) : Option (List (Event F)) :=
  if s.ticks_cnt % (s._wind_update_period_sec * TICK_HZ) == 0 then
    match s.computeReportForRecentPeriodInSec s._wind_average_period_sec with
    | none => none
    | some report => some (s.triggerAvgWindCb report)
  else
    some []

/-- The method `loop()`: the state after the call and the events of the call, in order;
`none` when the call does not return. -/
def loop (s : WN_Core F) (env : LoopEnv) : Option (WN_Core F × List (Event F)) :=
  if !s.wn_ticker then
    some (s, [])
  else
    let s := { s with wn_ticker := false }
    let s := { s with ticks_cnt := (s.ticks_cnt + 1) % UINT32_MOD }
    let v := s.loopVane env
    let w := v.1.loopWindow env
    match w.1.loopReport with
    | none => none
    | some evs => some (w.1, v.2 ++ [Event.speedLed false] ++ w.2 ++ evs)

/-- One timer tick: `onTickerTimerISR` sets the flag, then the main program calls `loop()`. -/
def timerTick (s : WN_Core F) (env : LoopEnv) : Option (WN_Core F × List (Event F)) :=
  s.onTickerTimerISR.loop env

/-- A run of timer ticks, one `LoopEnv` per tick: the final state and the events of all the
`loop()` calls in order; `none` when a call does not return. -/
def runTicks (s : WN_Core F) : List LoopEnv → Option (WN_Core F × List (Event F))
  | [] => some (s, [])
  | env :: envs =>
    match s.timerTick env with
    | none => none
    | some r1 =>
      match runTicks r1.1 envs with
      | none => none
      | some r2 => some (r2.1, r1.2 ++ r2.2)

/-- What `loop()` reads on a tick whose angle reading is `deg` whole degrees (the sensor
result holds the degrees in bits 4 to 12) and on which `millis()` returns `now`. -/
def tickEnv (deg now : Nat) : LoopEnv :=
  { angle_result0 := (deg * 16) / 256, angle_result1 := (deg * 16) % 256,
    millis_check := now, millis_stamp := now }

/-- The 30 ticks of one sampling window in which every angle reading is `deg` degrees and
whose last tick, the window boundary, sees `millis() = now`. -/
def windowTicks (deg now : Nat) : List LoopEnv :=
  List.replicate 29 (tickEnv deg 0) ++ [tickEnv deg now]

/-- The state after one setter call, accepted or rejected; the argument is converted to the
`uint16_t` parameter of the setter. -/
def applyConfigCall (s : WN_Core F) : ConfigCall → WN_Core F
  | ConfigCall.setAveragingPeriodInSec period =>
    (s.setAveragingPeriodInSec (period % UINT16_MOD)).1
  | ConfigCall.setReportingIntervalInSec period =>
    (s.setReportingIntervalInSec (period % UINT16_MOD)).1

/-- The state after a sequence of setter calls, in order. -/
def applyConfigCalls (s : WN_Core F) (calls : List ConfigCall) : WN_Core F :=
  calls.foldl applyConfigCall s

/-- The ticks of `n` consecutive sampling windows of a main program that is 120 ms late on
every window: all angle readings are `deg` degrees and the boundary tick of window `j` sees
`millis() = 3120 * j` (as an `unsigned long`). -/
def slowWindows (deg : Nat) : Nat → List LoopEnv
  | 0 => []
  | n + 1 => slowWindows deg n ++ windowTicks deg (3120 * (n + 1) % UINT32_MOD)

/-- The state after `n` calls of the interrupt handler `onSpeedPulseISR`, one per speed
pulse. -/
def speedPulses (s : WN_Core F) : Nat → WN_Core F
  | 0 => s
  | n + 1 => (speedPulses s n).onSpeedPulseISR.1

/-- A run of timer periods, each given by the number of speed pulses that arrive in it and
by what `loop()` reads on the timer tick that ends it: the final state; `none` when a call
does not return. -/
def runPulsedTicks (s : WN_Core F) : List (Nat × LoopEnv) → Option (WN_Core F)
  | [] => some s
  | pe :: rest =>
    match (s.speedPulses pe.1).timerTick pe.2 with
    | none => none
    | some r => runPulsedTicks r.1 rest

/-- The timer periods of one sampling window `w` in which every angle reading is `deg`
degrees: `w.1` lists the pulses that arrive in each period before the last one, `w.2.1`
pulses arrive in the last period, and its tick, the window boundary, sees
`millis() = w.2.2`. -/
def pulsedWindow (deg : Nat) (w : List Nat × Nat × Nat) : List (Nat × LoopEnv) :=
  w.1.map (fun n => (n, tickEnv deg 0)) ++ [(w.2.1, tickEnv deg w.2.2)]

/-- The timer periods of consecutive sampling windows. -/
def pulsedWindows (deg : Nat) : List (List Nat × Nat × Nat) → List (Nat × LoopEnv)
  | [] => []
  | w :: rest => pulsedWindow deg w ++ pulsedWindows deg rest

/-- Whether each of the consecutive windows `ws` has 30 timer periods, counts exactly `p`
pulses and ends less than 3100 ms after the previous window boundary, the one before the
first window being at `last` ms: the windows that `loop()` does not drop. -/
def steadyWindows (p : Nat) : Nat → List (List Nat × Nat × Nat) → Bool
  | _, [] => true
  | last, w :: rest =>
    (w.1.length == 29 && w.1.sum + w.2.1 == p && decide (millisDiff w.2.2 last < 3100))
      && steadyWindows p w.2.2 rest

end WN_Core

/-- The two period settings are in their ranges and fit the `uint16_t` members. -/
def ConfigInRange (s : WN_Core F) : Prop :=
  3 ≤ s._wind_average_period_sec ∧ s._wind_average_period_sec ≤ 600 ∧
    3 ≤ s._wind_update_period_sec ∧ s._wind_update_period_sec < 65536

end Program

/-! ## Rolling buffer: reachable-state invariant -/

namespace WN_ROLLINGBUFFER

/-- The invariant holds of a fresh buffer with no insertion. -/
theorem tracks_fresh : Tracks fresh [] := by
  refine ⟨by simp only [fresh, List.length_replicate, ROLLING_BUFFER_LENGTH], rfl, rfl, ?_⟩
  intro k p h
  simp at h

/-- The invariant is kept by `addSample`. -/
theorem tracks_addSample {rb : WN_ROLLINGBUFFER} {xs : List (Nat × Nat)} (h : Tracks rb xs)
    (p : Nat × Nat) : Tracks (rb.addSample p.1 p.2) (xs ++ [p]) := by
  obtain ⟨hlen, hhead, hcount, hslot⟩ := h
  have hnew : ((rb.head + 1) % UINT32_MOD) % ROLLING_BUFFER_LENGTH = (xs.length + 1) % 200 := by
    simp only [UINT32_MOD, ROLLING_BUFFER_LENGTH]
    omega
  refine ⟨?_, ?_, ?_, ?_⟩
  · simp [addSample, hlen]
  · simp only [addSample, hnew, List.length_append, List.length_singleton]
  · simp only [addSample, ROLLING_BUFFER_LENGTH, List.length_append, List.length_singleton]
    split <;> omega
  · intro k q hk hrecent
    simp only [List.length_append, List.length_singleton] at hrecent
    simp only [addSample, hnew]
    by_cases hlast : k = xs.length
    · subst hlast
      have hq : q = p := by simpa using hk.symm
      subst hq
      rw [List.getElem?_set_self]
      rw [hlen]
      omega
    · have hklt : k < xs.length := by
        have := (List.getElem?_eq_some_iff.mp hk).1
        simp only [List.length_append, List.length_singleton] at this
        omega
      have hk2 : xs[k]? = some q := by
        rw [List.getElem?_append_left hklt] at hk
        exact hk
      rw [List.getElem?_set_ne]
      · exact hslot k q hk2 (by omega)
      · omega

/-- The invariant holds after any sequence of insertions into a fresh buffer. -/
theorem tracks_addSamples (xs : List (Nat × Nat)) : Tracks (addSamples xs) xs := by
  induction xs using List.reverseRecOn with
  | nil => exact tracks_fresh
  | append_singleton ys p ih =>
    have : addSamples (ys ++ [p]) = (addSamples ys).addSample p.1 p.2 := by
      simp [addSamples, List.foldl_append]
    rw [this]
    exact tracks_addSample ih p

/-- Reading below the live count returns the insertion of that age. -/
theorem get_addSamples_recent (xs : List (Nat × Nat)) (i : Nat) (p : Nat × Nat)
    (hp : xs[xs.length - 1 - i]? = some p) (hi : i < min xs.length 200) :
    (addSamples xs).get i = { pulses := p.1, dir := p.2, valid := true } := by
  obtain ⟨hlen, hhead, hcount, hslot⟩ := tracks_addSamples xs
  obtain ⟨hi1, hi2⟩ := lt_min_iff.mp hi
  clear hi
  have hpos : ((addSamples xs).head + ROLLING_BUFFER_LENGTH + UINT32_MOD - i) % UINT32_MOD
      % ROLLING_BUFFER_LENGTH = (xs.length - 1 - i + 1) % 200 := by
    simp only [hhead, UINT32_MOD, ROLLING_BUFFER_LENGTH]
    omega
  have hs := hslot (xs.length - 1 - i) p hp (by omega)
  have hge : ¬ i ≥ (addSamples xs).count := by
    rw [hcount, ge_iff_le, not_le]
    exact lt_min hi1 hi2
  simp only [get, hge, if_false, hpos]
  rw [List.getD_eq_getElem?_getD, hs]
  rfl

/-- Reading at or beyond the live count returns the sentinel. -/
theorem get_addSamples_old (xs : List (Nat × Nat)) (i : Nat) (hi : min xs.length 200 ≤ i) :
    (addSamples xs).get i = { pulses := 0, dir := 0, valid := false } := by
  have hcount := (tracks_addSamples xs).count_eq
  have hge : i ≥ (addSamples xs).count := by rw [hcount]; exact hi
  simp only [get, hge, if_true]

end WN_ROLLINGBUFFER

/-- Age 0 after `addRawSample` is the sample just stored. -/
theorem get_addRawSample_zero (rb : WN_ROLLINGBUFFER) (hlen : rb.samples.length = 200)
    (sample : wn_raw_wind_sample_t) : (rb.addRawSample sample).get 0 = sample := by
  have hpos : ((rb.head + 1) % UINT32_MOD % ROLLING_BUFFER_LENGTH + ROLLING_BUFFER_LENGTH
      + UINT32_MOD - 0) % UINT32_MOD % ROLLING_BUFFER_LENGTH
      = (rb.head + 1) % UINT32_MOD % ROLLING_BUFFER_LENGTH := by
    simp only [UINT32_MOD, ROLLING_BUFFER_LENGTH]
    omega
  have hlt : (rb.head + 1) % UINT32_MOD % ROLLING_BUFFER_LENGTH < rb.samples.length := by
    rw [hlen]
    exact Nat.mod_lt _ (by decide)
  have hcount : ¬ 0 ≥ (if rb.count < ROLLING_BUFFER_LENGTH then rb.count + 1 else rb.count) := by
    simp only [ROLLING_BUFFER_LENGTH]
    split <;> omega
  simp only [WN_ROLLINGBUFFER.get, WN_ROLLINGBUFFER.addRawSample, hpos, if_neg hcount]
  rw [List.getD_eq_getElem?_getD, List.getElem?_set_self hlt]
  rfl

/-- Storing a sample changes the buffer: the write cursor moves. -/
theorem addRawSample_ne (rb : WN_ROLLINGBUFFER) (sample : wn_raw_wind_sample_t) :
    rb.addRawSample sample ≠ rb := by
  intro h
  have hh := congrArg WN_ROLLINGBUFFER.head h
  simp only [WN_ROLLINGBUFFER.addRawSample, UINT32_MOD, ROLLING_BUFFER_LENGTH] at hh
  omega

/-! ## Claims on the rolling buffer -/

/-- C1: after the insertions `xs` (at least one) into a fresh buffer, for every index
`i < min (length xs) 200` the insertion number `length xs - i` exists and `get i` returns its
pulses and direction with `valid = true`; for `i = 0` this is the most recent insertion, also
when more than 200 samples were inserted. -/
theorem C1_get_returns_recent_insertion (xs : List (Nat × Nat)) (i : Nat)
    (hn : 1 ≤ xs.length) (hi : i < min xs.length 200) :
    ∃ p, xs[xs.length - 1 - i]? = some p ∧
      (WN_ROLLINGBUFFER.addSamples xs).get i = { pulses := p.1, dir := p.2, valid := true } := by
  have hlt : xs.length - 1 - i < xs.length := by omega
  refine ⟨xs[xs.length - 1 - i], List.getElem?_eq_getElem hlt, ?_⟩
  exact WN_ROLLINGBUFFER.get_addSamples_recent xs i _ (List.getElem?_eq_getElem hlt) hi

/-- Witness of C1: 201 insertions, so the buffer has wrapped; `get 0` is the last one. -/
theorem C1_get_returns_recent_insertion_witness :
    1 ≤ (List.replicate 200 (1, 1) ++ [(7, 42)]).length ∧
    0 < min (List.replicate 200 (1, 1) ++ [(7, 42)]).length 200 ∧
    (WN_ROLLINGBUFFER.addSamples (List.replicate 200 (1, 1) ++ [(7, 42)])).get 0
      = { pulses := 7, dir := 42, valid := true } := by
  have h1 : 1 ≤ (List.replicate 200 (1, 1) ++ [(7, 42)]).length := by
    simp only [List.length_append, List.length_replicate, List.length_singleton]
    omega
  have h2 : 0 < min (List.replicate 200 (1, 1) ++ [(7, 42)]).length 200 := by
    simp only [List.length_append, List.length_replicate, List.length_singleton]
    omega
  refine ⟨h1, h2, ?_⟩
  obtain ⟨p, hp, hget⟩ :=
    C1_get_returns_recent_insertion (List.replicate 200 (1, 1) ++ [(7, 42)]) 0 h1 h2
  have hlast : (List.replicate 200 (1, 1) ++ [(7, 42)])[
      (List.replicate 200 (1, 1) ++ [(7, 42)]).length - 1 - 0]? = some (7, 42) := by
    simp only [List.length_append, List.length_replicate, List.length_singleton]
    rw [List.getElem?_append_right (by simp only [List.length_replicate]; omega)]
    simp only [List.length_replicate]
    rfl
  rw [hlast] at hp
  cases hp
  exact hget

/-- C2: after the insertions `xs` (possibly none) into a fresh buffer, `get` at any index at
or beyond the live count `min (length xs) 200` returns the sentinel `{0, 0, false}`, and
`get i` is valid exactly when `i` is below the live count. -/
theorem C2_get_sentinel_beyond_live_count (xs : List (Nat × Nat)) (i j : Nat) :
    (WN_ROLLINGBUFFER.addSamples xs).get (min xs.length 200 + j)
        = { pulses := 0, dir := 0, valid := false } ∧
      (((WN_ROLLINGBUFFER.addSamples xs).get i).valid = true ↔ i < min xs.length 200) := by
  refine ⟨WN_ROLLINGBUFFER.get_addSamples_old xs _ (Nat.le_add_right _ _), ?_⟩
  constructor
  · intro hv
    by_contra hge
    rw [WN_ROLLINGBUFFER.get_addSamples_old xs i (not_lt.mp hge)] at hv
    exact Bool.false_ne_true hv
  · intro hi
    have hlt : xs.length - 1 - i < xs.length := by omega
    rw [WN_ROLLINGBUFFER.get_addSamples_recent xs i _ (List.getElem?_eq_getElem hlt) hi]

/-! ## Claims on the configuration setters -/

/-- C3: `setAveragingPeriodInSec(period)` returns true exactly when `3 ≤ period ≤ 600`; when
it returns true the averaging period is `period` and nothing else changed, when it returns
false the whole state is unchanged. -/
theorem C3_setAveragingPeriodInSec_range {F : Type} (s : WN_Core F) (period : Nat) :
    ((s.setAveragingPeriodInSec period).2 = true ↔ 3 ≤ period ∧ period ≤ 600) ∧
    ((s.setAveragingPeriodInSec period).2 = true →
      (s.setAveragingPeriodInSec period).1 = { s with _wind_average_period_sec := period }) ∧
    ((s.setAveragingPeriodInSec period).2 = false →
      (s.setAveragingPeriodInSec period).1 = s) := by
  have h3 : SAMPLE_DURATION = 3 := by decide
  have h600 : ROLLING_BUFFER_LENGTH * SAMPLE_DURATION = 600 := by decide
  unfold WN_Core.setAveragingPeriodInSec
  rw [h600, h3]
  by_cases h : period ≥ 3 ∧ period ≤ 600
  · rw [if_pos h]
    exact ⟨⟨fun _ => h, fun _ => rfl⟩, fun _ => rfl, fun hf => absurd hf.symm Bool.false_ne_true⟩
  · rw [if_neg h]
    refine ⟨?_, ?_, ?_⟩
    · constructor
      · intro hf
        exact absurd hf Bool.false_ne_true
      · intro hr
        exact absurd hr h
    · intro hf
      exact absurd hf Bool.false_ne_true
    · intro _
      rfl

/-- C4: `setReportingIntervalInSec(period)` returns true exactly when `period ≥ 3`; when it
returns true the reporting interval is `period` and nothing else changed, when it returns
false the whole state is unchanged. -/
theorem C4_setReportingIntervalInSec_range {F : Type} (s : WN_Core F) (period : Nat) :
    ((s.setReportingIntervalInSec period).2 = true ↔ 3 ≤ period) ∧
    ((s.setReportingIntervalInSec period).2 = true →
      (s.setReportingIntervalInSec period).1 = { s with _wind_update_period_sec := period }) ∧
    ((s.setReportingIntervalInSec period).2 = false →
      (s.setReportingIntervalInSec period).1 = s) := by
  have h3 : SAMPLE_DURATION = 3 := by decide
  unfold WN_Core.setReportingIntervalInSec
  rw [h3]
  by_cases h : period ≥ 3
  · rw [if_pos h]
    exact ⟨⟨fun _ => h, fun _ => rfl⟩, fun _ => rfl, fun hf => absurd hf.symm Bool.false_ne_true⟩
  · rw [if_neg h]
    refine ⟨?_, ?_, ?_⟩
    · constructor
      · intro hf
        exact absurd hf Bool.false_ne_true
      · intro hr
        exact absurd hr h
    · intro hf
      exact absurd hf Bool.false_ne_true
    · intro _
      rfl

/-! ## Vector averager: counting and reduction -/

section Averager

variable {F : Type} [Add F] [Mul F] [Div F] [NatCast F] [RatCast F] [FloatFns F]

/-- Accumulating a sequence and then one more observation. -/
theorem accumulateAll_append (a : WN_VECTOR_AVERAGER F) (obs : List (Nat × Nat))
    (p : Nat × Nat) :
    a.accumulateAll (obs ++ [p]) = (a.accumulateAll obs).accumulate p.1 p.2 := by
  simp [WN_VECTOR_AVERAGER.accumulateAll, List.foldl_append]

/-- One more observation equal to the `n` before it. -/
theorem accumulateAll_replicate_succ (a : WN_VECTOR_AVERAGER F) (n : Nat) (p : Nat × Nat) :
    (a.accumulateAll (List.replicate n p)).accumulate p.1 p.2
      = a.accumulateAll (List.replicate (n + 1) p) := by
  rw [List.replicate_succ', accumulateAll_append]

/-- Accumulating two sequences one after the other. -/
theorem accumulateAll_accumulateAll (a : WN_VECTOR_AVERAGER F) (l1 l2 : List (Nat × Nat)) :
    (a.accumulateAll l1).accumulateAll l2 = a.accumulateAll (l1 ++ l2) := by
  simp only [WN_VECTOR_AVERAGER.accumulateAll, List.foldl_append]

/-- The 32-bit observation counter after a sequence of `accumulate` calls. -/
theorem cnt_accumulateAll (a : WN_VECTOR_AVERAGER F) (obs : List (Nat × Nat))
    (h : a.cnt < UINT32_MOD) :
    (a.accumulateAll obs).cnt = (a.cnt + obs.length) % UINT32_MOD := by
  induction obs using List.reverseRecOn with
  | nil =>
    simp only [WN_VECTOR_AVERAGER.accumulateAll, List.foldl_nil, List.length_nil, Nat.add_zero]
    exact (Nat.mod_eq_of_lt h).symm
  | append_singleton ys p ih =>
    rw [accumulateAll_append]
    simp only [WN_VECTOR_AVERAGER.accumulate, ih, List.length_append, List.length_singleton]
    simp only [UINT32_MOD]
    omega

/-- The counter is 0 after every reduction. -/
theorem cnt_computeReport (a : WN_VECTOR_AVERAGER F) (report : wn_raw_wind_report_t F) :
    (a.computeReportFromAccumulatedValues report).1.cnt = 0 := by
  unfold WN_VECTOR_AVERAGER.computeReportFromAccumulatedValues
  by_cases h : a.cnt = 0
  · rw [if_pos h]
    exact h
  · rw [if_neg h]

/-- The counter after a reduction followed by a sequence of `accumulate` calls. -/
theorem cnt_accumulateAll_after_reduction (a : WN_VECTOR_AVERAGER F)
    (report : wn_raw_wind_report_t F) (obs : List (Nat × Nat)) :
    ((a.computeReportFromAccumulatedValues report).1.accumulateAll obs).cnt
      = obs.length % UINT32_MOD := by
  rw [cnt_accumulateAll _ _ (by rw [cnt_computeReport]; decide), cnt_computeReport, Nat.zero_add]

/-- A reduction with counter 0 changes neither the averager nor the report. -/
theorem computeReport_of_cnt_zero (b : WN_VECTOR_AVERAGER F) (h : b.cnt = 0)
    (report : wn_raw_wind_report_t F) :
    b.computeReportFromAccumulatedValues report = (b, report) := by
  unfold WN_VECTOR_AVERAGER.computeReportFromAccumulatedValues
  rw [if_pos h]

/-- A reduction with a counter other than 0 overwrites the report and resets `x`, `y`, `cnt`. -/
theorem computeReport_of_cnt_ne_zero (b : WN_VECTOR_AVERAGER F) (h : b.cnt ≠ 0) :
    ∃ computed : wn_raw_wind_report_t F,
      computed.pulses_max = b.wind_max ∧ computed.pulses_min = b.wind_min ∧
      ∀ report, b.computeReportFromAccumulatedValues report
        = ({ b with x := ((0 : Nat) : F), y := ((0 : Nat) : F), cnt := 0 }, computed) := by
  refine ⟨(b.computeReportFromAccumulatedValues wn_raw_wind_report_t.init).2, ?_, ?_, ?_⟩
  · unfold WN_VECTOR_AVERAGER.computeReportFromAccumulatedValues
    rw [if_neg h]
  · unfold WN_VECTOR_AVERAGER.computeReportFromAccumulatedValues
    rw [if_neg h]
  · intro report
    unfold WN_VECTOR_AVERAGER.computeReportFromAccumulatedValues
    rw [if_neg h, if_neg h]

end Averager

/-! ## Exact arithmetic -/

/-- Over the reals `cosf` is the cosine. -/
theorem real_cosf (t : ℝ) : FloatFns.cosf t = Real.cos t := rfl

/-- Over the reals `sinf` is the sine. -/
theorem real_sinf (t : ℝ) : FloatFns.sinf t = Real.sin t := rfl

/-- Over the reals `atan2f(y, x)` is the argument of `x + y i`. -/
theorem real_atan2f (y x : ℝ) : FloatFns.atan2f y x = Complex.arg { re := x, im := y } := rfl

/-- Over the reals `sqrtf` is the square root. -/
theorem real_sqrtf (t : ℝ) : FloatFns.sqrtf t = Real.sqrt t := rfl

/-- Over the reals `M_PI` is `π`. -/
theorem real_M_PI : (FloatFns.M_PI : ℝ) = Real.pi := rfl

/-- Over the reals the comparison is the order of the reals. -/
theorem real_lt (a b : ℝ) : FloatFns.lt a b = decide (a < b) := rfl

/-- Over the reals the conversion to an unsigned integer is the floor. -/
theorem real_toUInt (t : ℝ) : FloatFns.toUInt t = Nat.floor t := rfl

/-- The direction written by a reduction over the reals, in terms of the argument of the
average vector in degrees. -/
theorem real_dir_avg (a : WN_VECTOR_AVERAGER ℝ) (h : a.cnt ≠ 0)
    (report : wn_raw_wind_report_t ℝ) :
    (a.computeReportFromAccumulatedValues report).2.dir_avg
      = Nat.floor
          ((if Complex.arg { re := a.x / a.cnt, im := a.y / a.cnt } * 180 / Real.pi < 0
            then Complex.arg { re := a.x / a.cnt, im := a.y / a.cnt } * 180 / Real.pi + 360
            else Complex.arg { re := a.x / a.cnt, im := a.y / a.cnt } * 180 / Real.pi)
            + 1 / 2) % 65536 := by
  unfold WN_VECTOR_AVERAGER.computeReportFromAccumulatedValues
  rw [if_neg h]
  simp only [real_atan2f, real_M_PI, real_lt, real_toUInt, UINT16_MOD, Nat.cast_zero,
    decide_eq_true_eq]
  norm_num

/-- The `x` sum after one `accumulate` call, over the reals. -/
theorem real_accumulate_x (a : WN_VECTOR_AVERAGER ℝ) (pulses dir : Nat) :
    (a.accumulate pulses dir).x = a.x + pulses * Real.cos (dir * (Real.pi / 180)) := by
  simp only [WN_VECTOR_AVERAGER.accumulate, real_cosf, real_M_PI]
  norm_num

/-- The `y` sum after one `accumulate` call, over the reals. -/
theorem real_accumulate_y (a : WN_VECTOR_AVERAGER ℝ) (pulses dir : Nat) :
    (a.accumulate pulses dir).y = a.y + pulses * Real.sin (dir * (Real.pi / 180)) := by
  simp only [WN_VECTOR_AVERAGER.accumulate, real_sinf, real_M_PI]
  norm_num

/-- The sums after `n` equal observations, over the reals. -/
theorem real_accumulateAll_replicate (a : WN_VECTOR_AVERAGER ℝ) (n m d : Nat) :
    (a.accumulateAll (List.replicate n (m, d))).x
        = a.x + n * (m * Real.cos (d * (Real.pi / 180))) ∧
      (a.accumulateAll (List.replicate n (m, d))).y
        = a.y + n * (m * Real.sin (d * (Real.pi / 180))) := by
  induction n with
  | zero => simp [WN_VECTOR_AVERAGER.accumulateAll]
  | succ k ih =>
    rw [← accumulateAll_replicate_succ, real_accumulate_x, real_accumulate_y, ih.1, ih.2]
    push_cast
    constructor <;> ring

/-- In the right half plane the argument is the arctangent of `im / re`. -/
theorem arg_eq_arctan_of_re_pos (re im : ℝ) (h : 0 < re) :
    Complex.arg { re := re, im := im } = Real.arctan (im / re) := by
  have hz : |Complex.arg { re := re, im := im }| < Real.pi / 2 :=
    Complex.abs_arg_lt_pi_div_two_iff.mpr (Or.inl h)
  rw [abs_lt] at hz
  exact (Real.arctan_eq_of_tan_eq (Complex.tan_arg _) ⟨hz.1, hz.2⟩).symm

/-! ## Single-precision arithmetic: rounding -/

/-! ## Single-precision arithmetic: rounding -/

/-- Rounding to the nearest integer moves a number by at most one half. -/
theorem abs_roundNearestEven_sub_le (t : ℝ) : |(roundNearestEven t : ℝ) - t| ≤ 1 / 2 := by
  have h1 := Int.floor_le t
  have h2 := Int.lt_floor_add_one t
  unfold roundNearestEven
  split_ifs with ha hb hc
  · rw [abs_le]
    constructor <;> linarith
  · rw [abs_le]
    push_cast
    constructor <;> linarith
  · rw [abs_le]
    constructor <;> linarith
  · rw [abs_le]
    push_cast
    constructor <;> linarith

/-- A number less than one half away from an integer is rounded to that integer. -/
theorem roundNearestEven_eq (t : ℝ) (n : ℤ) (h1 : (n : ℝ) - 1 / 2 < t)
    (h2 : t < (n : ℝ) + 1 / 2) : roundNearestEven t = n := by
  unfold roundNearestEven
  by_cases hn : (n : ℝ) ≤ t
  · have hf : ⌊t⌋ = n := Int.floor_eq_iff.mpr ⟨hn, by linarith⟩
    rw [hf, if_pos (by linarith)]
  · have hf : ⌊t⌋ = n - 1 := Int.floor_eq_iff.mpr ⟨by push_cast; linarith, by push_cast; linarith⟩
    rw [hf]
    push_cast
    rw [if_neg (by linarith), if_pos (by linarith)]
    ring

/-- The binary exponent of a positive number. -/
theorem log_two_eq (x : ℝ) (e : ℤ) (h1 : (2 : ℝ) ^ e ≤ x) (h2 : x < (2 : ℝ) ^ (e + 1)) :
    Int.log 2 x = e := by
  have hx : 0 < x := lt_of_lt_of_le (zpow_pos (by norm_num) e) h1
  have ha : e ≤ Int.log 2 x :=
    (Int.zpow_le_iff_le_log (by norm_num) hx).mp (by exact_mod_cast h1)
  have hb : Int.log 2 x < e + 1 :=
    (Int.lt_zpow_iff_log_lt (by norm_num) hx).mp (by exact_mod_cast h2)
  omega

/-- The value of the rounding of a positive number, from its binade and the bracket of
half a unit in the last place around the result. -/
theorem roundBinary32_eq_of_pos (x : ℝ) (e n : ℤ) (h1 : (2 : ℝ) ^ e ≤ x)
    (h2 : x < (2 : ℝ) ^ (e + 1)) (h3 : ((n : ℝ) - 1 / 2) * (2 : ℝ) ^ (e - 23) < x)
    (h4 : x < ((n : ℝ) + 1 / 2) * (2 : ℝ) ^ (e - 23)) :
    roundBinary32 x = (n : ℝ) * (2 : ℝ) ^ (e - 23) := by
  have hx : 0 < x := lt_of_lt_of_le (zpow_pos (by norm_num) e) h1
  have hu : (0 : ℝ) < (2 : ℝ) ^ (e - 23) := zpow_pos (by norm_num) _
  unfold roundBinary32
  rw [if_neg (ne_of_gt hx), abs_of_pos hx, log_two_eq x e h1 h2,
    roundNearestEven_eq _ n (by rw [lt_div_iff₀ hu]; exact h3) (by rw [div_lt_iff₀ hu]; exact h4)]

/-- Rounding zero. -/
theorem roundBinary32_zero : roundBinary32 0 = 0 := by
  unfold roundBinary32
  rw [if_pos rfl]

/-- The relative error of a rounding is at most `2 ^ (-24)`. -/
theorem abs_roundBinary32_sub_le (x : ℝ) :
    |roundBinary32 x - x| ≤ (2 : ℝ) ^ (-24 : ℤ) * |x| := by
  by_cases hx : x = 0
  · rw [hx, roundBinary32_zero]
    simp
  · have hpos : 0 < |x| := abs_pos.mpr hx
    have hu : (0 : ℝ) < (2 : ℝ) ^ (Int.log 2 |x| - 23) := zpow_pos (by norm_num) _
    have hlog : ((2 : ℕ) : ℝ) ^ Int.log 2 |x| ≤ |x| := Int.zpow_log_le_self (by norm_num) hpos
    have hr := abs_roundNearestEven_sub_le (x / (2 : ℝ) ^ (Int.log 2 |x| - 23))
    unfold roundBinary32
    rw [if_neg hx]
    have hfac : (roundNearestEven (x / (2 : ℝ) ^ (Int.log 2 |x| - 23)) : ℝ)
          * (2 : ℝ) ^ (Int.log 2 |x| - 23) - x
        = ((roundNearestEven (x / (2 : ℝ) ^ (Int.log 2 |x| - 23)) : ℝ)
            - x / (2 : ℝ) ^ (Int.log 2 |x| - 23)) * (2 : ℝ) ^ (Int.log 2 |x| - 23) := by
      field_simp
    rw [hfac, abs_mul, abs_of_pos hu]
    have hsplit : (2 : ℝ) ^ (Int.log 2 |x| - 23)
        = (2 : ℝ) ^ (-23 : ℤ) * (2 : ℝ) ^ Int.log 2 |x| := by
      rw [← zpow_add₀ (by norm_num : (2 : ℝ) ≠ 0)]
      congr 1
      ring
    have h2 : (2 : ℝ) ^ Int.log 2 |x| ≤ |x| := by exact_mod_cast hlog
    have h3 : (2 : ℝ) ^ (-24 : ℤ) = 1 / 2 * (2 : ℝ) ^ (-23 : ℤ) := by norm_num
    have hp23 : (0 : ℝ) < (2 : ℝ) ^ (-23 : ℤ) := zpow_pos (by norm_num) _
    calc |(roundNearestEven (x / (2 : ℝ) ^ (Int.log 2 |x| - 23)) : ℝ)
            - x / (2 : ℝ) ^ (Int.log 2 |x| - 23)| * (2 : ℝ) ^ (Int.log 2 |x| - 23)
        ≤ 1 / 2 * (2 : ℝ) ^ (Int.log 2 |x| - 23) := mul_le_mul_of_nonneg_right hr hu.le
      _ = 1 / 2 * (2 : ℝ) ^ (-23 : ℤ) * (2 : ℝ) ^ Int.log 2 |x| := by rw [hsplit]; ring
      _ ≤ 1 / 2 * (2 : ℝ) ^ (-23 : ℤ) * |x| :=
          mul_le_mul_of_nonneg_left h2 (by positivity)
      _ = (2 : ℝ) ^ (-24 : ℤ) * |x| := by rw [h3]

/-- The value of the rounding of a positive number, given as a number. -/
theorem roundBinary32_val (x r : ℝ) (e n : ℤ) (h1 : (2 : ℝ) ^ e ≤ x)
    (h2 : x < (2 : ℝ) ^ (e + 1)) (h3 : ((n : ℝ) - 1 / 2) * (2 : ℝ) ^ (e - 23) < x)
    (h4 : x < ((n : ℝ) + 1 / 2) * (2 : ℝ) ^ (e - 23))
    (hr : r = (n : ℝ) * (2 : ℝ) ^ (e - 23)) : roundBinary32 x = r := by
  rw [hr]
  exact roundBinary32_eq_of_pos x e n h1 h2 h3 h4

/-- The rounding of a number lies within the relative error around it. -/
theorem roundBinary32_bounds (x : ℝ) :
    x - (2 : ℝ) ^ (-24 : ℤ) * |x| ≤ roundBinary32 x ∧
      roundBinary32 x ≤ x + (2 : ℝ) ^ (-24 : ℤ) * |x| := by
  have h := abs_le.mp (abs_roundBinary32_sub_le x)
  constructor <;> linarith [h.1, h.2]

/-- The rounding of a positive number is positive. -/
theorem roundBinary32_pos (x : ℝ) (hx : 0 < x) : 0 < roundBinary32 x := by
  have h := (roundBinary32_bounds x).1
  rw [abs_of_pos hx] at h
  have hu : (2 : ℝ) ^ (-24 : ℤ) < 1 := by norm_num
  nlinarith

/-- The rounding of a negative number is negative. -/
theorem roundBinary32_neg (x : ℝ) (hx : x < 0) : roundBinary32 x < 0 := by
  have h := (roundBinary32_bounds x).2
  rw [abs_of_neg hx] at h
  have hu : (2 : ℝ) ^ (-24 : ℤ) < 1 := by norm_num
  nlinarith

/-- The rounding of a number that is not negative is not negative. -/
theorem roundBinary32_nonneg (x : ℝ) (hx : 0 ≤ x) : 0 ≤ roundBinary32 x := by
  rcases hx.eq_or_lt with h | h
  · rw [← h, roundBinary32_zero]
  · exact (roundBinary32_pos x h).le

/-- Bounds on the rounding of a number that is not negative. -/
theorem roundBinary32_mem_of_nonneg (x lo hi : ℝ) (h0 : 0 ≤ lo) (h1 : lo ≤ x) (h2 : x ≤ hi) :
    lo * (1 - (2 : ℝ) ^ (-24 : ℤ)) ≤ roundBinary32 x ∧
      roundBinary32 x ≤ hi * (1 + (2 : ℝ) ^ (-24 : ℤ)) := by
  have hx : 0 ≤ x := le_trans h0 h1
  have h := roundBinary32_bounds x
  rw [abs_of_nonneg hx] at h
  have hu : (0 : ℝ) < (2 : ℝ) ^ (-24 : ℤ) := by norm_num
  have hu1 : (2 : ℝ) ^ (-24 : ℤ) < 1 := by norm_num
  constructor <;> nlinarith [h.1, h.2]

/-- Bounds on the rounding of a number that is not positive. -/
theorem roundBinary32_mem_of_nonpos (x lo hi : ℝ) (h0 : hi ≤ 0) (h1 : lo ≤ x) (h2 : x ≤ hi) :
    lo * (1 + (2 : ℝ) ^ (-24 : ℤ)) ≤ roundBinary32 x ∧
      roundBinary32 x ≤ hi * (1 - (2 : ℝ) ^ (-24 : ℤ)) := by
  have hx : x ≤ 0 := le_trans h2 h0
  have h := roundBinary32_bounds x
  rw [abs_of_nonpos hx] at h
  have hu : (0 : ℝ) < (2 : ℝ) ^ (-24 : ℤ) := by norm_num
  have hu1 : (2 : ℝ) ^ (-24 : ℤ) < 1 := by norm_num
  constructor <;> nlinarith [h.1, h.2]

/-! ## Single-precision arithmetic: the operations of `Binary32` -/

/-- Two `float`s that stand for the same number are equal. -/
theorem Binary32.ext_toReal (a b : Binary32) (h : a.toReal = b.toReal) : a = b := by
  cases a
  cases b
  simp only [Binary32.mk.injEq]
  exact h

/-- The sum of two `float`s is the rounded sum. -/
theorem Binary32.toReal_add (a b : Binary32) :
    (a + b).toReal = roundBinary32 (a.toReal + b.toReal) := rfl

/-- The product of two `float`s is the rounded product. -/
theorem Binary32.toReal_mul (a b : Binary32) :
    (a * b).toReal = roundBinary32 (a.toReal * b.toReal) := rfl

/-- The quotient of two `float`s is the rounded quotient. -/
theorem Binary32.toReal_div (a b : Binary32) :
    (a / b).toReal = roundBinary32 (a.toReal / b.toReal) := rfl

/-- An unsigned integer converted to `float` is rounded. -/
theorem Binary32.toReal_natCast (n : Nat) :
    ((n : Nat) : Binary32).toReal = roundBinary32 (n : ℝ) := rfl

/-- A decimal literal read as a `float` is rounded. -/
theorem Binary32.toReal_ratCast (q : ℚ) :
    ((q : ℚ) : Binary32).toReal = roundBinary32 (q : ℝ) := rfl

/-- In single precision `cosf` is the rounded cosine. -/
theorem Binary32.toReal_cosf (a : Binary32) :
    (FloatFns.cosf a).toReal = roundBinary32 (Real.cos a.toReal) := rfl

/-- In single precision `sinf` is the rounded sine. -/
theorem Binary32.toReal_sinf (a : Binary32) :
    (FloatFns.sinf a).toReal = roundBinary32 (Real.sin a.toReal) := rfl

/-- In single precision `atan2f(y, x)` is the rounded argument of `x + y i`. -/
theorem Binary32.toReal_atan2f (y x : Binary32) :
    (FloatFns.atan2f y x).toReal
      = roundBinary32 (Complex.arg { re := x.toReal, im := y.toReal }) := rfl

/-- In single precision `sqrtf` is the rounded square root. -/
theorem Binary32.toReal_sqrtf (a : Binary32) :
    (FloatFns.sqrtf a).toReal = roundBinary32 (Real.sqrt a.toReal) := rfl

/-- In single precision `M_PI` is the rounded `π`. -/
theorem Binary32.toReal_M_PI :
    (FloatFns.M_PI : Binary32).toReal = roundBinary32 Real.pi := rfl

/-- In single precision the comparison is the order of the numbers stood for. -/
theorem Binary32.lt_eq (a b : Binary32) : FloatFns.lt a b = decide (a.toReal < b.toReal) := rfl

/-- In single precision the conversion to an unsigned integer is the floor. -/
theorem Binary32.toUInt_eq (a : Binary32) : FloatFns.toUInt a = Nat.floor a.toReal := rfl

/-! ## Single-precision arithmetic: the constants of the averager -/

/-- The constant `M_PI` as a `float`. -/
theorem roundBinary32_pi : roundBinary32 Real.pi = 13176795 / 4194304 := by
  have h1 := Real.pi_gt_d20
  have h2 := Real.pi_lt_d20
  exact roundBinary32_val _ _ 1 13176795 (by norm_num; linarith) (by norm_num; linarith)
    (by norm_num; linarith) (by norm_num; linarith) (by norm_num)

/-- The literal `180.0f`. -/
theorem roundBinary32_180 : roundBinary32 180 = 180 :=
  roundBinary32_val _ _ 7 11796480 (by norm_num) (by norm_num) (by norm_num) (by norm_num)
    (by norm_num)

/-- The factor `M_PI / 180.0f` from degrees to radians. -/
theorem roundBinary32_deg : roundBinary32 (13176795 / 4194304 / 180) = 9370165 / 536870912 :=
  roundBinary32_val _ _ (-6) 9370165 (by norm_num) (by norm_num) (by norm_num) (by norm_num)
    (by norm_num)

/-! ## Single-precision arithmetic: the angle of 45 degrees -/

/-- Bounds on `√2 / 2`. -/
theorem sqrt_two_div_two_bounds :
    (70710678118 / 100000000000 : ℝ) < Real.sqrt 2 / 2 ∧
      Real.sqrt 2 / 2 < (70710678119 / 100000000000 : ℝ) := by
  have h1 : (141421356236 / 100000000000 : ℝ) < Real.sqrt 2 := by
    rw [Real.lt_sqrt (by norm_num)]
    norm_num
  have h2 : Real.sqrt 2 < (141421356238 / 100000000000 : ℝ) := by
    rw [Real.sqrt_lt' (by norm_num)]
    norm_num
  constructor <;> linarith

/-- The angle of 45 degrees in radians, as a `float`, exceeds `π / 4` by about `2.19e-8`. -/
theorem rad45_sub_bounds :
    (218556 / 10000000000000 : ℝ) < 13176795 / 16777216 - Real.pi / 4 ∧
      (13176795 / 16777216 - Real.pi / 4 : ℝ) < 218557 / 10000000000000 := by
  have h1 := Real.pi_gt_d20
  have h2 := Real.pi_lt_d20
  constructor <;> norm_num <;> linarith

/-- The cosine and the sine of the `float` angle of 45 degrees, in terms of the excess. -/
theorem cos_sin_rad45 :
    Real.cos (13176795 / 16777216)
        = Real.sqrt 2 / 2 * (Real.cos (13176795 / 16777216 - Real.pi / 4)
          - Real.sin (13176795 / 16777216 - Real.pi / 4)) ∧
      Real.sin (13176795 / 16777216)
        = Real.sqrt 2 / 2 * (Real.cos (13176795 / 16777216 - Real.pi / 4)
          + Real.sin (13176795 / 16777216 - Real.pi / 4)) := by
  have hr : (13176795 / 16777216 : ℝ) = Real.pi / 4 + (13176795 / 16777216 - Real.pi / 4) := by
    ring
  constructor
  · conv_lhs => rw [hr]
    rw [Real.cos_add, Real.cos_pi_div_four, Real.sin_pi_div_four]
    ring
  · conv_lhs => rw [hr]
    rw [Real.sin_add, Real.cos_pi_div_four, Real.sin_pi_div_four]
    ring

/-- The cosine and the sine of the `float` angle of 45 degrees lie strictly inside the
rounding interval of the same `float`, `11863283 / 2 ^ 24`. -/
theorem cos_sin_rad45_bounds :
    ((11863283 - 1 / 2) / 16777216 : ℝ) < Real.cos (13176795 / 16777216) ∧
      Real.cos (13176795 / 16777216) < ((11863283 + 1 / 2) / 16777216 : ℝ) ∧
      ((11863283 - 1 / 2) / 16777216 : ℝ) < Real.sin (13176795 / 16777216) ∧
      Real.sin (13176795 / 16777216) < ((11863283 + 1 / 2) / 16777216 : ℝ) := by
  obtain ⟨hlo, hhi⟩ := sqrt_two_div_two_bounds
  obtain ⟨elo, ehi⟩ := rad45_sub_bounds
  obtain ⟨hc, hs⟩ := cos_sin_rad45
  have he0 : (0 : ℝ) < 13176795 / 16777216 - Real.pi / 4 := by linarith
  have hcos1 := Real.cos_le_one (13176795 / 16777216 - Real.pi / 4)
  have hcos2 := Real.one_sub_sq_div_two_le_cos (x := 13176795 / 16777216 - Real.pi / 4)
  have hsin1 := Real.sin_lt he0
  have hsin2 := Real.sin_gt_sub_cube he0 (by linarith)
  generalize (13176795 / 16777216 - Real.pi / 4 : ℝ) = ε at *
  generalize Real.cos ε = c at *
  generalize Real.sin ε = t at *
  generalize Real.sqrt 2 / 2 = h at *
  have hε2 : ε ^ 2 < 1 / 1000000000000 := by nlinarith
  have hε3 : 0 < ε ^ 3 := by positivity
  have hc_lo : (1 - 1 / 1000000000000 : ℝ) < c := by linarith
  have ht_lo : (218555 / 10000000000000 : ℝ) < t := by nlinarith
  have hA1 : (1 - 218570 / 10000000000000 : ℝ) < c - t := by linarith
  have hA2 : c - t < (1 - 218555 / 10000000000000 : ℝ) := by linarith
  have hB1 : (1 + 218540 / 10000000000000 : ℝ) < c + t := by linarith
  have hB2 : c + t < (1 + 218557 / 10000000000000 : ℝ) := by linarith
  rw [hc, hs]
  refine ⟨?_, ?_, ?_, ?_⟩
  · have := mul_lt_mul hlo hA1.le (by norm_num) (by linarith)
    linarith
  · have := mul_lt_mul hhi hA2.le (by linarith) (by norm_num)
    linarith
  · have := mul_lt_mul hlo hB1.le (by norm_num) (by linarith)
    linarith
  · have := mul_lt_mul hhi hB2.le (by linarith) (by norm_num)
    linarith

/-- The functions `cosf` and `sinf` at the `float` angle of 45 degrees return the same
`float`. -/
theorem roundBinary32_cos_sin_rad45 :
    roundBinary32 (Real.cos (13176795 / 16777216)) = 11863283 / 16777216 ∧
      roundBinary32 (Real.sin (13176795 / 16777216)) = 11863283 / 16777216 := by
  obtain ⟨h1, h2, h3, h4⟩ := cos_sin_rad45_bounds
  constructor
  · exact roundBinary32_val _ _ (-1) 11863283 (by norm_num; linarith) (by norm_num; linarith)
      (by norm_num; linarith) (by norm_num; linarith) (by norm_num)
  · exact roundBinary32_val _ _ (-1) 11863283 (by norm_num; linarith) (by norm_num; linarith)
      (by norm_num; linarith) (by norm_num; linarith) (by norm_num)

/-- A number exactly half way between two neighbours is rounded to the even one; here the
lower neighbour is odd. -/
theorem roundNearestEven_tie_odd (n : ℤ) (hn : n % 2 = 1) :
    roundNearestEven ((n : ℝ) + 1 / 2) = n + 1 := by
  have hf : ⌊(n : ℝ) + 1 / 2⌋ = n :=
    Int.floor_eq_iff.mpr ⟨by linarith, by linarith⟩
  unfold roundNearestEven
  rw [hf, if_neg (by norm_num), if_neg (by norm_num), if_neg (by omega)]

/-- The value of the rounding of a positive number half way between two `float`s, the lower
one having an odd significand. -/
theorem roundBinary32_tie_val (x r : ℝ) (e n : ℤ) (h1 : (2 : ℝ) ^ e ≤ x)
    (h2 : x < (2 : ℝ) ^ (e + 1)) (hx : x = ((n : ℝ) + 1 / 2) * (2 : ℝ) ^ (e - 23))
    (hn : n % 2 = 1) (hr : r = ((n : ℝ) + 1) * (2 : ℝ) ^ (e - 23)) : roundBinary32 x = r := by
  have hpos : 0 < x := lt_of_lt_of_le (zpow_pos (by norm_num) e) h1
  have hu : (0 : ℝ) < (2 : ℝ) ^ (e - 23) := zpow_pos (by norm_num) _
  have hq : x / (2 : ℝ) ^ (e - 23) = (n : ℝ) + 1 / 2 := by
    rw [hx]
    field_simp
    ring
  unfold roundBinary32
  rw [if_neg (ne_of_gt hpos), abs_of_pos hpos, log_two_eq x e h1 h2, hq,
    roundNearestEven_tie_odd n hn, hr]
  push_cast
  ring

/-- The value of the rounding of the square root of a positive number. -/
theorem roundBinary32_sqrt_val (S r : ℝ) (e n : ℤ) (hn : (1 : ℝ) ≤ n)
    (h1 : ((2 : ℝ) ^ e) ^ 2 ≤ S) (h2 : S < ((2 : ℝ) ^ (e + 1)) ^ 2)
    (h3 : (((n : ℝ) - 1 / 2) * (2 : ℝ) ^ (e - 23)) ^ 2 < S)
    (h4 : S < (((n : ℝ) + 1 / 2) * (2 : ℝ) ^ (e - 23)) ^ 2)
    (hr : r = (n : ℝ) * (2 : ℝ) ^ (e - 23)) : roundBinary32 (Real.sqrt S) = r := by
  have hu : (0 : ℝ) < (2 : ℝ) ^ (e - 23) := zpow_pos (by norm_num) _
  have he : (0 : ℝ) < (2 : ℝ) ^ e := zpow_pos (by norm_num) _
  have he1 : (0 : ℝ) < (2 : ℝ) ^ (e + 1) := zpow_pos (by norm_num) _
  have hS : 0 ≤ S := le_trans (sq_nonneg _) h1
  refine roundBinary32_val _ _ e n ?_ ?_ ?_ ?_ hr
  · exact Real.le_sqrt_of_sq_le h1
  · rw [Real.sqrt_lt' he1]
    exact h2
  · rw [Real.lt_sqrt (by nlinarith)]
    exact h3
  · rw [Real.sqrt_lt' (by nlinarith)]
    exact h4

/-! ## Single-precision arithmetic: the averager -/

/-- The number 1 is a `float`. -/
theorem roundBinary32_one : roundBinary32 1 = 1 :=
  roundBinary32_val _ _ 0 8388608 (by norm_num) (by norm_num) (by norm_num) (by norm_num)
    (by norm_num)

/-- The number 2 is a `float`. -/
theorem roundBinary32_two : roundBinary32 2 = 2 :=
  roundBinary32_val _ _ 1 8388608 (by norm_num) (by norm_num) (by norm_num) (by norm_num)
    (by norm_num)

/-- The number 3 is a `float`. -/
theorem roundBinary32_three : roundBinary32 3 = 3 :=
  roundBinary32_val _ _ 1 12582912 (by norm_num) (by norm_num) (by norm_num) (by norm_num)
    (by norm_num)

/-- The number 10 is a `float`. -/
theorem roundBinary32_ten : roundBinary32 10 = 10 :=
  roundBinary32_val _ _ 3 10485760 (by norm_num) (by norm_num) (by norm_num) (by norm_num)
    (by norm_num)

/-- The number 45 is a `float`. -/
theorem roundBinary32_45 : roundBinary32 45 = 45 :=
  roundBinary32_val _ _ 5 11796480 (by norm_num) (by norm_num) (by norm_num) (by norm_num)
    (by norm_num)

/-- The literal `360.0f`. -/
theorem roundBinary32_360 : roundBinary32 360 = 360 :=
  roundBinary32_val _ _ 8 11796480 (by norm_num) (by norm_num) (by norm_num) (by norm_num)
    (by norm_num)

/-- The literal `0.5f`. -/
theorem roundBinary32_half : roundBinary32 (1 / 2) = 1 / 2 :=
  roundBinary32_val _ _ (-1) 8388608 (by norm_num) (by norm_num) (by norm_num) (by norm_num)
    (by norm_num)

/-- The factor from degrees to radians, `M_PI / 180.0f`, as a `float`. -/
theorem Binary32.toReal_deg :
    ((FloatFns.M_PI : Binary32) / ((180 : ℚ) : Binary32)).toReal = 9370165 / 536870912 := by
  rw [Binary32.toReal_div, Binary32.toReal_M_PI, Binary32.toReal_ratCast, roundBinary32_pi]
  have h : ((180 : ℚ) : ℝ) = 180 := by norm_num
  rw [h, roundBinary32_180, roundBinary32_deg]

/-- The sums after one `accumulate` call, in single precision. -/
theorem Binary32.accumulate_toReal (a : WN_VECTOR_AVERAGER Binary32) (pulses dir : Nat) :
    (a.accumulate pulses dir).x.toReal
        = roundBinary32 (a.x.toReal + roundBinary32 (roundBinary32 (pulses : ℝ)
            * roundBinary32 (Real.cos (roundBinary32 (roundBinary32 (dir : ℝ)
                * (9370165 / 536870912)))))) ∧
      (a.accumulate pulses dir).y.toReal
        = roundBinary32 (a.y.toReal + roundBinary32 (roundBinary32 (pulses : ℝ)
            * roundBinary32 (Real.sin (roundBinary32 (roundBinary32 (dir : ℝ)
                * (9370165 / 536870912)))))) := by
  have hd := Binary32.toReal_deg
  constructor
  · show roundBinary32 (a.x.toReal + roundBinary32 (roundBinary32 (pulses : ℝ)
      * roundBinary32 (Real.cos (roundBinary32 (roundBinary32 (dir : ℝ)
          * ((FloatFns.M_PI : Binary32) / ((180 : ℚ) : Binary32)).toReal))))) = _
    rw [hd]
  · show roundBinary32 (a.y.toReal + roundBinary32 (roundBinary32 (pulses : ℝ)
      * roundBinary32 (Real.sin (roundBinary32 (roundBinary32 (dir : ℝ)
          * ((FloatFns.M_PI : Binary32) / ((180 : ℚ) : Binary32)).toReal))))) = _
    rw [hd]

/-- The angle of 45 degrees in radians, as a `float`. -/
theorem roundBinary32_rad45 :
    roundBinary32 (roundBinary32 ((45 : Nat) : ℝ) * (9370165 / 536870912))
      = 13176795 / 16777216 := by
  have h : ((45 : Nat) : ℝ) = 45 := by norm_num
  rw [h, roundBinary32_45]
  exact roundBinary32_val _ _ (-1) 13176795 (by norm_num) (by norm_num) (by norm_num)
    (by norm_num) (by norm_num)

/-- The sums after one `accumulate` call with an angle of 45 degrees, in single precision:
both receive the same term. -/
theorem Binary32.accumulate_45 (a : WN_VECTOR_AVERAGER Binary32) (pulses : Nat) :
    (a.accumulate pulses 45).x.toReal
        = roundBinary32 (a.x.toReal
            + roundBinary32 (roundBinary32 (pulses : ℝ) * (11863283 / 16777216))) ∧
      (a.accumulate pulses 45).y.toReal
        = roundBinary32 (a.y.toReal
            + roundBinary32 (roundBinary32 (pulses : ℝ) * (11863283 / 16777216))) := by
  obtain ⟨hx, hy⟩ := Binary32.accumulate_toReal a pulses 45
  rw [hx, hy, roundBinary32_rad45, roundBinary32_cos_sin_rad45.1, roundBinary32_cos_sin_rad45.2]
  exact ⟨rfl, rfl⟩

/-- The absolute error of a rounding of a number bounded by `B`. -/
theorem abs_roundBinary32_sub_le_of_abs_le (x B : ℝ) (h : |x| ≤ B) :
    |roundBinary32 x - x| ≤ (2 : ℝ) ^ (-24 : ℤ) * B :=
  le_trans (abs_roundBinary32_sub_le x)
    (mul_le_mul_of_nonneg_left h (by norm_num))

/-- The zero of `Binary32`. -/
theorem Binary32.toReal_zero : (((0 : Nat) : Binary32)).toReal = 0 := by
  rw [Binary32.toReal_natCast, Nat.cast_zero, roundBinary32_zero]

/-- The magnitude written by a reduction in single precision. -/
theorem Binary32.pulses_avg_eq (a : WN_VECTOR_AVERAGER Binary32) (h : a.cnt ≠ 0)
    (report : wn_raw_wind_report_t Binary32) (ax ay : ℝ)
    (hax : ax = roundBinary32 (a.x.toReal / roundBinary32 (a.cnt : ℝ)))
    (hay : ay = roundBinary32 (a.y.toReal / roundBinary32 (a.cnt : ℝ))) :
    (a.computeReportFromAccumulatedValues report).2.pulses_avg.toReal
      = roundBinary32 (Real.sqrt (roundBinary32
          (roundBinary32 (ax * ax) + roundBinary32 (ay * ay)))) := by
  unfold WN_VECTOR_AVERAGER.computeReportFromAccumulatedValues
  rw [if_neg h, hax, hay]
  rfl

/-- The direction written by a reduction in single precision: the angle `atan2f(avgY, avgX)`
in degrees, plus 360 when negative, plus 0.5 and truncated. -/
theorem Binary32.dir_avg_eq (a : WN_VECTOR_AVERAGER Binary32) (h : a.cnt ≠ 0)
    (report : wn_raw_wind_report_t Binary32) (ax ay d : ℝ)
    (hax : ax = roundBinary32 (a.x.toReal / roundBinary32 (a.cnt : ℝ)))
    (hay : ay = roundBinary32 (a.y.toReal / roundBinary32 (a.cnt : ℝ)))
    (hd : d = roundBinary32 (roundBinary32 (roundBinary32 (Complex.arg { re := ax, im := ay })
      * 180) / (13176795 / 4194304))) :
    (a.computeReportFromAccumulatedValues report).2.dir_avg
      = Nat.floor (roundBinary32 ((if d < 0 then roundBinary32 (d + 360) else d) + 1 / 2))
          % UINT16_MOD := by
  have h180 : roundBinary32 ((180 : ℚ) : ℝ) = 180 := by
    have h : ((180 : ℚ) : ℝ) = 180 := by norm_num
    rw [h, roundBinary32_180]
  have h360 : roundBinary32 ((360 : ℚ) : ℝ) = 360 := by
    have h : ((360 : ℚ) : ℝ) = 360 := by norm_num
    rw [h, roundBinary32_360]
  have hhalf : roundBinary32 ((1 / 2 : ℚ) : ℝ) = 1 / 2 := by
    have h : ((1 / 2 : ℚ) : ℝ) = 1 / 2 := by norm_num
    rw [h, roundBinary32_half]
  have hdir : (FloatFns.atan2f (a.y / (a.cnt : Binary32)) (a.x / (a.cnt : Binary32))
      * ((180 : ℚ) : Binary32) / FloatFns.M_PI).toReal = d := by
    rw [hd, hax, hay, ← h180, ← roundBinary32_pi]
    rfl
  unfold WN_VECTOR_AVERAGER.computeReportFromAccumulatedValues
  rw [if_neg h]
  simp only [Binary32.lt_eq, Binary32.toReal_zero, hdir, decide_eq_true_eq, Binary32.toUInt_eq]
  by_cases hneg : d < 0
  · rw [if_pos hneg, if_pos hneg, Binary32.toReal_add, Binary32.toReal_add,
      Binary32.toReal_ratCast, Binary32.toReal_ratCast, hdir, h360, hhalf]
  · rw [if_neg hneg, if_neg hneg, Binary32.toReal_add, Binary32.toReal_ratCast, hdir, hhalf]

/-! ## Single precision: the pair of angles 359 and 1 -/

/-- The arc tangent of a negative number lies between that number and 0. -/
theorem arctan_mem_of_neg (t : ℝ) (ht : t < 0) : t < Real.arctan t ∧ Real.arctan t < 0 := by
  have h0 : Real.arctan t < 0 := by
    have h := Real.arctan_strictMono ht
    rwa [Real.arctan_zero] at h
  refine ⟨?_, h0⟩
  have hpos : 0 < Real.arctan (-t) := by
    rw [Real.arctan_neg]
    linarith
  have hlt := Real.lt_tan hpos (Real.arctan_lt_pi_div_two (-t))
  rw [Real.tan_arctan, Real.arctan_neg] at hlt
  linarith

/-- The sines and cosines of the `float` angles of 359 and 1 degrees: the two sines do not
cancel, because the `float` nearest to 359 degrees in radians is further from a full turn
than the `float` of 1 degree is from 0. -/
theorem wrap_pair_trig :
    -204 / 10 ^ 9 < Real.sin (410631 / 65536) + Real.sin (9370165 / 536870912) ∧
    Real.sin (410631 / 65536) + Real.sin (9370165 / 536870912) < -202 / 10 ^ 9 ∧
    -175 / 10 ^ 4 < Real.sin (410631 / 65536) ∧ Real.sin (410631 / 65536) < 0 ∧
    0 < Real.sin (9370165 / 536870912) ∧ Real.sin (9370165 / 536870912) < 175 / 10 ^ 4 ∧
    9998 / 10 ^ 4 < Real.cos (410631 / 65536) ∧ Real.cos (410631 / 65536) ≤ 1 ∧
    9998 / 10 ^ 4 < Real.cos (9370165 / 536870912) ∧ Real.cos (9370165 / 536870912) ≤ 1 := by
  have hp1 := Real.pi_gt_d20
  have hp2 := Real.pi_lt_d20
  have hA : (410631 / 65536 : ℝ) = 2 * Real.pi - (2 * Real.pi - 410631 / 65536) := by ring
  have hα1 : (174534956 / 10 ^ 10 : ℝ) < 2 * Real.pi - 410631 / 65536 := by
    norm_num
    linarith
  have hα2 : 2 * Real.pi - 410631 / 65536 < (174534957 / 10 ^ 10 : ℝ) := by
    norm_num
    linarith
  have hsA : Real.sin (410631 / 65536) = -Real.sin (2 * Real.pi - 410631 / 65536) := by
    conv_lhs => rw [hA]
    rw [Real.sin_two_pi_sub]
  have hcA : Real.cos (410631 / 65536) = Real.cos (2 * Real.pi - 410631 / 65536) := by
    conv_lhs => rw [hA]
    rw [Real.cos_two_pi_sub]
  generalize 2 * Real.pi - 410631 / 65536 = α at hα1 hα2 hsA hcA
  have hα0 : 0 < α := by
    norm_num at hα1
    linarith
  have hB0 : (0 : ℝ) < 9370165 / 536870912 := by norm_num
  -- the single sines and cosines
  have hsα1 : Real.sin α < α := Real.sin_lt hα0
  have hsα0 : 0 < Real.sin α := Real.sin_pos_of_pos_of_lt_pi hα0 (by norm_num at hα2; linarith)
  have hsB1 : Real.sin (9370165 / 536870912) < 9370165 / 536870912 := Real.sin_lt hB0
  have hsB0 : 0 < Real.sin (9370165 / 536870912) :=
    Real.sin_pos_of_pos_of_lt_pi hB0 (by linarith)
  have hcα := Real.one_sub_sq_div_two_le_cos (x := α)
  have hcB := Real.one_sub_sq_div_two_le_cos (x := (9370165 / 536870912 : ℝ))
  have hα2sq : α ^ 2 ≤ (175 / 10 ^ 4) ^ 2 :=
    pow_le_pow_left₀ hα0.le (by norm_num at hα2 ⊢; linarith) 2
  -- the difference of the sines
  have hdiff := Real.sin_sub_sin α (9370165 / 536870912)
  have hδ1 : (1016 / 10 ^ 10 : ℝ) < (α - 9370165 / 536870912) / 2 := by
    norm_num at hα1 ⊢
    linarith
  have hδ2 : (α - 9370165 / 536870912) / 2 < (1017 / 10 ^ 10 : ℝ) := by
    norm_num at hα2 ⊢
    linarith
  have hγ1 : (0 : ℝ) < (α + 9370165 / 536870912) / 2 := by positivity
  have hγ2 : (α + 9370165 / 536870912) / 2 < (175 / 10 ^ 4 : ℝ) := by
    norm_num at hα2 ⊢
    linarith
  generalize (α - 9370165 / 536870912) / 2 = δ at hdiff hδ1 hδ2
  generalize (α + 9370165 / 536870912) / 2 = γ at hdiff hγ1 hγ2
  have hδ0 : 0 < δ := lt_trans (by norm_num) hδ1
  have hsδ1 : Real.sin δ < δ := Real.sin_lt hδ0
  have hsδ2 := Real.sin_gt_sub_cube hδ0 (by norm_num at hδ2; linarith)
  have hδ3 : δ ^ 3 ≤ (1017 / 10 ^ 10) ^ 3 := pow_le_pow_left₀ hδ0.le hδ2.le 3
  have hsδ3 : (1015 / 10 ^ 10 : ℝ) < Real.sin δ := by
    norm_num at hδ3 hδ1 ⊢
    linarith
  have hcγ := Real.one_sub_sq_div_two_le_cos (x := γ)
  have hγsq : γ ^ 2 ≤ (175 / 10 ^ 4) ^ 2 := pow_le_pow_left₀ hγ1.le hγ2.le 2
  have hcγ1 : (9998 / 10 ^ 4 : ℝ) < Real.cos γ := by
    norm_num at hγsq ⊢
    linarith
  have hcγ2 : Real.cos γ ≤ 1 := Real.cos_le_one γ
  have hprod1 : (1015 / 10 ^ 10 : ℝ) * (9998 / 10 ^ 4) < Real.sin δ * Real.cos γ :=
    mul_lt_mul hsδ3 hcγ1.le (by norm_num) (by linarith)
  have hprod2 : Real.sin δ * Real.cos γ ≤ δ * 1 :=
    mul_le_mul hsδ1.le hcγ2 (by linarith) hδ0.le
  have hsum : Real.sin α - Real.sin (9370165 / 536870912)
      = 2 * (Real.sin δ * Real.cos γ) := by
    rw [hdiff]
    ring
  refine ⟨?_, ?_, ?_, ?_, hsB0, ?_, ?_, ?_, ?_, ?_⟩
  · rw [hsA]
    norm_num at hprod1 hδ2 ⊢
    linarith
  · rw [hsA]
    norm_num at hprod1 hδ2 ⊢
    linarith
  · rw [hsA]
    norm_num at hα2 ⊢
    linarith
  · rw [hsA]
    linarith
  · norm_num at hsB1 ⊢
    linarith
  · rw [hcA]
    norm_num at hα2sq ⊢
    linarith
  · rw [hcA]
    exact Real.cos_le_one α
  · norm_num at hcB ⊢
    linarith
  · exact Real.cos_le_one _

/-- The `float` angles of 359 degrees and of 1 degree, in radians. -/
theorem roundBinary32_rad359_rad1 :
    roundBinary32 (roundBinary32 ((359 : Nat) : ℝ) * (9370165 / 536870912)) = 410631 / 65536 ∧
    roundBinary32 (roundBinary32 ((1 : Nat) : ℝ) * (9370165 / 536870912))
      = 9370165 / 536870912 := by
  have h359 : roundBinary32 ((359 : Nat) : ℝ) = 359 := by
    have h : ((359 : Nat) : ℝ) = 359 := by norm_num
    rw [h]
    exact roundBinary32_val _ _ 8 11763712 (by norm_num) (by norm_num) (by norm_num)
      (by norm_num) (by norm_num)
  have h1 : roundBinary32 ((1 : Nat) : ℝ) = 1 := by
    rw [Nat.cast_one, roundBinary32_one]
  rw [h359, h1]
  constructor
  · exact roundBinary32_val _ _ 2 13140192 (by norm_num) (by norm_num) (by norm_num)
      (by norm_num) (by norm_num)
  · exact roundBinary32_val _ _ (-6) 9370165 (by norm_num) (by norm_num) (by norm_num)
      (by norm_num) (by norm_num)

/-- The sum computed by two `accumulate` calls of magnitude 1 on a fresh averager, with its
roundings, against the exact sum of the two terms `s` and `t`: eight relative errors at
most. -/
theorem wrap_pair_rounding (s t B : ℝ) (hs : |s| ≤ B) (ht : |t| ≤ B) :
    |roundBinary32 (roundBinary32 (roundBinary32 (roundBinary32 s))
        + roundBinary32 (roundBinary32 t)) - (s + t)| ≤ B / 2 ^ 20 := by
  have hB : 0 ≤ B := le_trans (abs_nonneg s) hs
  have hu : (2 : ℝ) ^ (-24 : ℤ) = 1 / 16777216 := by norm_num
  have hs2 := abs_le.mp hs
  have ht2 := abs_le.mp ht
  have ea1 := abs_le.mp (abs_roundBinary32_sub_le_of_abs_le s B hs)
  rw [hu] at ea1
  generalize roundBinary32 s = a1 at ea1 ⊢
  have ea2 := abs_le.mp (abs_roundBinary32_sub_le_of_abs_le a1 (2 * B)
    (abs_le.mpr ⟨by linarith [ea1.1], by linarith [ea1.2]⟩))
  rw [hu] at ea2
  generalize roundBinary32 a1 = a2 at ea2 ⊢
  have ea3 := abs_le.mp (abs_roundBinary32_sub_le_of_abs_le a2 (2 * B)
    (abs_le.mpr ⟨by linarith [ea1.1, ea2.1], by linarith [ea1.2, ea2.2]⟩))
  rw [hu] at ea3
  generalize roundBinary32 a2 = a3 at ea3 ⊢
  have eb1 := abs_le.mp (abs_roundBinary32_sub_le_of_abs_le t B ht)
  rw [hu] at eb1
  generalize roundBinary32 t = b1 at eb1 ⊢
  have eb2 := abs_le.mp (abs_roundBinary32_sub_le_of_abs_le b1 (2 * B)
    (abs_le.mpr ⟨by linarith [eb1.1], by linarith [eb1.2]⟩))
  rw [hu] at eb2
  generalize roundBinary32 b1 = b2 at eb2 ⊢
  have ey := abs_le.mp (abs_roundBinary32_sub_le_of_abs_le (a3 + b2) (4 * B)
    (abs_le.mpr ⟨by linarith [ea1.1, ea2.1, ea3.1, eb1.1, eb2.1],
      by linarith [ea1.2, ea2.2, ea3.2, eb1.2, eb2.2]⟩))
  rw [hu] at ey
  generalize roundBinary32 (a3 + b2) = y at ey ⊢
  rw [abs_le]
  constructor
  · linarith [ea1.1, ea2.1, ea3.1, eb1.1, eb2.1, ey.1]
  · linarith [ea1.2, ea2.2, ea3.2, eb1.2, eb2.2, ey.2]

/-- The sums after `accumulate(1, 359)` and `accumulate(1, 1)` on a fresh averager, in single
precision: `y` is negative, about `-2.03e-7`, and `x` is about 2. -/
theorem wrap_pair_sums :
    -23 / 10 ^ 8 <
      (((WN_VECTOR_AVERAGER.fresh : WN_VECTOR_AVERAGER Binary32).accumulate 1 359).accumulate
        1 1).y.toReal ∧
    (((WN_VECTOR_AVERAGER.fresh : WN_VECTOR_AVERAGER Binary32).accumulate 1 359).accumulate
        1 1).y.toReal < -18 / 10 ^ 8 ∧
    199 / 100 <
      (((WN_VECTOR_AVERAGER.fresh : WN_VECTOR_AVERAGER Binary32).accumulate 1 359).accumulate
        1 1).x.toReal ∧
    (((WN_VECTOR_AVERAGER.fresh : WN_VECTOR_AVERAGER Binary32).accumulate 1 359).accumulate
        1 1).x.toReal < 201 / 100 := by
  obtain ⟨hx1, hy1⟩ := Binary32.accumulate_toReal
    (WN_VECTOR_AVERAGER.fresh : WN_VECTOR_AVERAGER Binary32) 1 359
  obtain ⟨hx2, hy2⟩ := Binary32.accumulate_toReal
    ((WN_VECTOR_AVERAGER.fresh : WN_VECTOR_AVERAGER Binary32).accumulate 1 359) 1 1
  have hfx : (WN_VECTOR_AVERAGER.fresh : WN_VECTOR_AVERAGER Binary32).x.toReal = 0 :=
    Binary32.toReal_zero
  have hfy : (WN_VECTOR_AVERAGER.fresh : WN_VECTOR_AVERAGER Binary32).y.toReal = 0 :=
    Binary32.toReal_zero
  have h1 : roundBinary32 ((1 : Nat) : ℝ) = 1 := by
    rw [Nat.cast_one, roundBinary32_one]
  rw [hx1, hfx, roundBinary32_rad359_rad1.1, roundBinary32_rad359_rad1.2, h1, one_mul, one_mul,
    zero_add] at hx2
  rw [hy1, hfy, roundBinary32_rad359_rad1.1, roundBinary32_rad359_rad1.2, h1, one_mul, one_mul,
    zero_add] at hy2
  rw [hx2, hy2]
  obtain ⟨hs1, hs2, hsA1, hsA2, hsB1, hsB2, hcA1, hcA2, hcB1, hcB2⟩ := wrap_pair_trig
  have hy := abs_le.mp (wrap_pair_rounding (Real.sin (410631 / 65536))
    (Real.sin (9370165 / 536870912)) (2 / 100) (abs_le.mpr ⟨by linarith, by linarith⟩)
    (abs_le.mpr ⟨by linarith, by linarith⟩))
  have hx := abs_le.mp (wrap_pair_rounding (Real.cos (410631 / 65536))
    (Real.cos (9370165 / 536870912)) 1 (abs_le.mpr ⟨by linarith, by linarith⟩)
    (abs_le.mpr ⟨by linarith, by linarith⟩))
  generalize roundBinary32 (roundBinary32 (roundBinary32
    (roundBinary32 (Real.sin (410631 / 65536))))
      + roundBinary32 (roundBinary32 (Real.sin (9370165 / 536870912)))) = y at hy ⊢
  generalize roundBinary32 (roundBinary32 (roundBinary32
    (roundBinary32 (Real.cos (410631 / 65536))))
      + roundBinary32 (roundBinary32 (Real.cos (9370165 / 536870912)))) = x at hx ⊢
  norm_num at hy hx hs1 hs2 hcA1 hcB1 ⊢
  refine ⟨?_, ?_, ?_, ?_⟩
  · linarith [hy.1]
  · linarith [hy.2]
  · linarith [hx.1]
  · linarith [hx.2]

/-! ## Single precision: sums on the diagonal -/

/-- The `float` of `π / 4`, which `atan2f` returns on the diagonal of the first quadrant. -/
theorem roundBinary32_pi_div_four : roundBinary32 (Real.pi / 4) = 13176795 / 16777216 := by
  have h1 := Real.pi_gt_d20
  have h2 := Real.pi_lt_d20
  exact roundBinary32_val _ _ (-1) 13176795 (by norm_num; linarith) (by norm_num; linarith)
    (by norm_num; linarith) (by norm_num; linarith) (by norm_num)

/-- In single precision, a reduction of sums on the diagonal of the first quadrant writes
the direction 45. -/
theorem Binary32.dir_avg_diagonal (a : WN_VECTOR_AVERAGER Binary32) (h : a.cnt ≠ 0)
    (hxy : a.y.toReal = a.x.toReal) (hx : 0 < a.x.toReal)
    (report : wn_raw_wind_report_t Binary32) :
    (a.computeReportFromAccumulatedValues report).2.dir_avg = 45 := by
  have hc : (0 : ℝ) < ((a.cnt : Nat) : ℝ) := Nat.cast_pos.mpr (Nat.pos_of_ne_zero h)
  have hN := roundBinary32_pos _ hc
  have hre := roundBinary32_pos _ (div_pos hx hN)
  rw [Binary32.dir_avg_eq a h report _ _ _ rfl rfl rfl, hxy,
    arg_eq_arctan_of_re_pos _ _ hre, div_self (ne_of_gt hre), Real.arctan_one,
    roundBinary32_pi_div_four]
  have h1 : roundBinary32 ((13176795 : ℝ) / 16777216 * 180) = 4632467 / 32768 :=
    roundBinary32_val _ _ 7 9264934 (by norm_num) (by norm_num) (by norm_num) (by norm_num)
      (by norm_num)
  have h2 : roundBinary32 ((4632467 : ℝ) / 32768 / (13176795 / 4194304)) = 45 :=
    roundBinary32_val _ _ 5 11796480 (by norm_num) (by norm_num) (by norm_num) (by norm_num)
      (by norm_num)
  have h3 : roundBinary32 ((45 : ℝ) + 1 / 2) = 91 / 2 :=
    roundBinary32_val _ _ 5 11927552 (by norm_num) (by norm_num) (by norm_num) (by norm_num)
      (by norm_num)
  have hfloor : Nat.floor ((91 : ℝ) / 2) = 45 := by
    rw [Nat.floor_eq_iff (by norm_num)]
    constructor <;> norm_num
  rw [h1, h2, if_neg (by norm_num), h3, hfloor]
  decide

/-- In single precision, observations at 45 degrees keep the two sums equal, and positive
once an observation has a magnitude that is not 0. -/
theorem Binary32.accumulateAll_diagonal (m : Nat) (hm : 1 ≤ m) (n : Nat) :
    ∀ a : WN_VECTOR_AVERAGER Binary32, a.y.toReal = a.x.toReal → 0 ≤ a.x.toReal →
      (a.accumulateAll (List.replicate (n + 1) (m, 45))).y.toReal
          = (a.accumulateAll (List.replicate (n + 1) (m, 45))).x.toReal ∧
        0 < (a.accumulateAll (List.replicate (n + 1) (m, 45))).x.toReal := by
  have hmr : (0 : ℝ) < ((m : Nat) : ℝ) := Nat.cast_pos.mpr hm
  have ht : 0 < roundBinary32 (roundBinary32 ((m : Nat) : ℝ) * (11863283 / 16777216)) :=
    roundBinary32_pos _ (mul_pos (roundBinary32_pos _ hmr) (by norm_num))
  induction n with
  | zero =>
    intro a hxy hx
    obtain ⟨h1, h2⟩ := Binary32.accumulate_45 a m
    show (a.accumulate m 45).y.toReal = (a.accumulate m 45).x.toReal
      ∧ 0 < (a.accumulate m 45).x.toReal
    rw [h1, h2, hxy]
    exact ⟨rfl, roundBinary32_pos _ (by linarith)⟩
  | succ k ih =>
    intro a hxy hx
    obtain ⟨e1, e2⟩ := ih a hxy hx
    rw [← accumulateAll_replicate_succ]
    obtain ⟨h1, h2⟩ := Binary32.accumulate_45
      (a.accumulateAll (List.replicate (k + 1) (m, 45))) m
    rw [h1, h2, e1]
    exact ⟨rfl, roundBinary32_pos _ (by linarith)⟩

/-- In single precision, the reduction at the end of a window of 30 readings of 45 degrees,
on an accumulator that was empty at its start, writes the direction 45. -/
theorem Binary32.window_reduction (v : WN_VECTOR_AVERAGER Binary32)
    (hx : v.x = ((0 : Nat) : Binary32)) (hy : v.y = ((0 : Nat) : Binary32)) (hc : v.cnt = 0) :
    ((v.accumulateAll (List.replicate 30 (1, 45))).computeReportFromAccumulatedValues
        wn_raw_wind_report_t.init).2.dir_avg = 45 := by
  have hcnt : (v.accumulateAll (List.replicate 30 (1, 45))).cnt = 30 := by
    rw [cnt_accumulateAll _ _ (by rw [hc]; decide), hc, List.length_replicate]
    decide
  have hne : (v.accumulateAll (List.replicate 30 (1, 45))).cnt ≠ 0 := by
    rw [hcnt]
    decide
  have hx0 : v.x.toReal = 0 := by rw [hx, Binary32.toReal_zero]
  have hy0 : v.y.toReal = 0 := by rw [hy, Binary32.toReal_zero]
  obtain ⟨e1, e2⟩ := Binary32.accumulateAll_diagonal 1 le_rfl 29 v (by rw [hx0, hy0])
    (by rw [hx0])
  exact Binary32.dir_avg_diagonal _ hne e1 e2 _

/-! ## Claims on the vector averager -/

/-- C5 (amended): after one reduction followed by the `accumulate` calls `obs`, the next
reduction leaves the averager and the caller's report untouched when the number of calls is a
multiple of `2 ^ 32` (so when it is 0), and otherwise writes a report that does not depend on
the caller's report (its maximum and minimum are the running ones) and resets `x`, `y`
and `cnt` to 0. -/
theorem C5_reduction_writes_iff_count_not_wrapped {F : Type} [Add F] [Mul F] [Div F]
    [NatCast F] [RatCast F] [FloatFns F] (a : WN_VECTOR_AVERAGER F)
    (report0 : wn_raw_wind_report_t F) (obs : List (Nat × Nat)) :
    (obs.length % 4294967296 = 0 →
      ∀ report,
        ((a.computeReportFromAccumulatedValues report0).1.accumulateAll obs
            ).computeReportFromAccumulatedValues report
          = ((a.computeReportFromAccumulatedValues report0).1.accumulateAll obs, report)) ∧
    (obs.length % 4294967296 ≠ 0 →
      ∃ computed : wn_raw_wind_report_t F,
        computed.pulses_max
          = ((a.computeReportFromAccumulatedValues report0).1.accumulateAll obs).wind_max ∧
        computed.pulses_min
          = ((a.computeReportFromAccumulatedValues report0).1.accumulateAll obs).wind_min ∧
        ∀ report,
          ((a.computeReportFromAccumulatedValues report0).1.accumulateAll obs
              ).computeReportFromAccumulatedValues report
            = ({ (a.computeReportFromAccumulatedValues report0).1.accumulateAll obs with
                  x := ((0 : Nat) : F), y := ((0 : Nat) : F), cnt := 0 }, computed)) := by
  have hcnt := cnt_accumulateAll_after_reduction a report0 obs
  rw [show UINT32_MOD = 4294967296 from rfl] at hcnt
  constructor
  · intro h report
    exact computeReport_of_cnt_zero _ (by rw [hcnt]; exact h) report
  · intro h
    exact computeReport_of_cnt_ne_zero _ (by rw [hcnt]; exact h)

/-- Counterexample to C5 as stated: after a reduction and `2 ^ 32` calls of `accumulate(1, 0)`
the 32-bit counter is 0 again, so the next reduction leaves the caller's report (here with
`dir_avg = 999`) and the averager untouched; `x` stays `2 ^ 32`. -/
theorem C5_counterexample_count_wraps :
    0 < (List.replicate 4294967296 ((1 : Nat), (0 : Nat))).length ∧
    ((((WN_VECTOR_AVERAGER.fresh : WN_VECTOR_AVERAGER ℝ).computeReportFromAccumulatedValues
          wn_raw_wind_report_t.init).1.accumulateAll
        (List.replicate 4294967296 (1, 0))).computeReportFromAccumulatedValues
          { pulses_avg := 0, dir_avg := 999, pulses_max := 0, pulses_min := 0 })
      = ((((WN_VECTOR_AVERAGER.fresh : WN_VECTOR_AVERAGER ℝ).computeReportFromAccumulatedValues
            wn_raw_wind_report_t.init).1.accumulateAll (List.replicate 4294967296 (1, 0))),
          { pulses_avg := 0, dir_avg := 999, pulses_max := 0, pulses_min := 0 }) ∧
    (((WN_VECTOR_AVERAGER.fresh : WN_VECTOR_AVERAGER ℝ).computeReportFromAccumulatedValues
          wn_raw_wind_report_t.init).1.accumulateAll
        (List.replicate 4294967296 (1, 0))).x = 4294967296 := by
  refine ⟨?_, ?_, ?_⟩
  · rw [List.length_replicate]
    decide
  · apply computeReport_of_cnt_zero
    rw [cnt_accumulateAll_after_reduction, List.length_replicate]
    rfl
  · rw [computeReport_of_cnt_zero _ rfl, (real_accumulateAll_replicate _ 4294967296 1 0).1]
    simp [WN_VECTOR_AVERAGER.fresh]

/-- C6 (the code at the failing input): over exact arithmetic, accumulating `(2, 0)` and
`(1, 359)` on a fresh averager and reducing writes `dir_avg = 360`: the average direction,
about 359.67 degrees, is rounded after it was brought into `[0, 360)`. -/
theorem C6_dir_avg_can_be_360 (report : wn_raw_wind_report_t ℝ) :
    ((((WN_VECTOR_AVERAGER.fresh : WN_VECTOR_AVERAGER ℝ).accumulate 2 0).accumulate 1 359
      ).computeReportFromAccumulatedValues report).2.dir_avg = 360 := by
  have hcnt : (((WN_VECTOR_AVERAGER.fresh : WN_VECTOR_AVERAGER ℝ).accumulate 2 0
      ).accumulate 1 359).cnt = 2 := by
    simp [WN_VECTOR_AVERAGER.accumulate, WN_VECTOR_AVERAGER.fresh, UINT32_MOD]
  have hcast : (((359 : Nat) : ℝ)) * (Real.pi / 180) = 2 * Real.pi - Real.pi / 180 := by
    push_cast
    ring
  have hx : (((WN_VECTOR_AVERAGER.fresh : WN_VECTOR_AVERAGER ℝ).accumulate 2 0
      ).accumulate 1 359).x = 2 + Real.cos (Real.pi / 180) := by
    rw [real_accumulate_x, real_accumulate_x, hcast, Real.cos_two_pi_sub]
    simp [WN_VECTOR_AVERAGER.fresh]
  have hy : (((WN_VECTOR_AVERAGER.fresh : WN_VECTOR_AVERAGER ℝ).accumulate 2 0
      ).accumulate 1 359).y = - Real.sin (Real.pi / 180) := by
    rw [real_accumulate_y, real_accumulate_y, hcast, Real.sin_two_pi_sub]
    simp [WN_VECTOR_AVERAGER.fresh]
  have hpi := Real.pi_pos
  have ha_pos : 0 < Real.pi / 180 := by positivity
  have ha_lt : Real.pi / 180 < Real.pi / 2 := by linarith
  have hc : 0 < Real.cos (Real.pi / 180) :=
    Real.cos_pos_of_mem_Ioo ⟨by linarith, ha_lt⟩
  have hs : 0 < Real.sin (Real.pi / 180) :=
    Real.sin_pos_of_pos_of_lt_pi ha_pos (by linarith)
  have hs_lt : Real.sin (Real.pi / 180) < Real.pi / 180 := Real.sin_lt ha_pos
  have hre : 0 < (2 + Real.cos (Real.pi / 180)) / (2 : Nat) := by
    simp only [Nat.cast_ofNat]
    positivity
  have hquot : - Real.sin (Real.pi / 180) / (2 : Nat) / ((2 + Real.cos (Real.pi / 180)) / (2 : Nat))
      = - (Real.sin (Real.pi / 180) / (2 + Real.cos (Real.pi / 180))) := by
    simp only [Nat.cast_ofNat]
    field_simp
    ring
  have ht_pos : 0 < Real.sin (Real.pi / 180) / (2 + Real.cos (Real.pi / 180)) := by positivity
  have ht_lt : Real.sin (Real.pi / 180) / (2 + Real.cos (Real.pi / 180)) < Real.pi / 360 := by
    rw [div_lt_iff₀ (by positivity)]
    nlinarith
  have hat_pos : 0 < Real.arctan (Real.sin (Real.pi / 180) / (2 + Real.cos (Real.pi / 180))) := by
    have := Real.arctan_strictMono ht_pos
    rwa [Real.arctan_zero] at this
  have hat_lt : Real.arctan (Real.sin (Real.pi / 180) / (2 + Real.cos (Real.pi / 180)))
      < Real.pi / 360 := by
    have h360 : Real.pi / 360 < Real.tan (Real.pi / 360) :=
      Real.lt_tan (by positivity) (by linarith)
    have := Real.arctan_strictMono (lt_trans ht_lt h360)
    rwa [Real.arctan_tan (by linarith) (by linarith)] at this
  rw [real_dir_avg _ (by rw [hcnt]; decide), hx, hy, hcnt, arg_eq_arctan_of_re_pos _ _ hre, hquot,
    Real.arctan_neg]
  have hdeg_neg : -Real.arctan (Real.sin (Real.pi / 180) / (2 + Real.cos (Real.pi / 180)))
      * 180 / Real.pi < 0 := by
    apply div_neg_of_neg_of_pos _ hpi
    linarith
  have hdeg_gt : -(1 / 2 : ℝ) < -Real.arctan (Real.sin (Real.pi / 180)
      / (2 + Real.cos (Real.pi / 180))) * 180 / Real.pi := by
    rw [lt_div_iff₀ hpi]
    linarith
  rw [if_pos hdeg_neg]
  have hfloor : Nat.floor (-Real.arctan (Real.sin (Real.pi / 180)
      / (2 + Real.cos (Real.pi / 180))) * 180 / Real.pi + 360 + 1 / 2) = 360 := by
    rw [Nat.floor_eq_iff (by linarith)]
    constructor
    · push_cast
      linarith
    · push_cast
      linarith
  rw [hfloor]

/-- Over exact arithmetic, for every magnitude `m > 0` and every `d` with `1 ≤ d ≤ 89`,
accumulating `(m, 360 - d)` and `(m, d)` on a fresh averager and reducing writes
`dir_avg = 0`: the two sines cancel. -/
theorem real_wrap_pair_averages_to_zero (m d : Nat) (hm : 0 < m) (hd1 : 1 ≤ d) (hd2 : d ≤ 89)
    (report : wn_raw_wind_report_t ℝ) :
    ((((WN_VECTOR_AVERAGER.fresh : WN_VECTOR_AVERAGER ℝ).accumulate m (360 - d)).accumulate m d
      ).computeReportFromAccumulatedValues report).2.dir_avg = 0 := by
  have hcnt : (((WN_VECTOR_AVERAGER.fresh : WN_VECTOR_AVERAGER ℝ).accumulate m (360 - d)
      ).accumulate m d).cnt = 2 := by
    simp [WN_VECTOR_AVERAGER.accumulate, WN_VECTOR_AVERAGER.fresh, UINT32_MOD]
  have hcast : (((360 - d : Nat) : ℝ)) * (Real.pi / 180) = 2 * Real.pi - d * (Real.pi / 180) := by
    rw [Nat.cast_sub (by omega)]
    push_cast
    ring
  have hx : (((WN_VECTOR_AVERAGER.fresh : WN_VECTOR_AVERAGER ℝ).accumulate m (360 - d)
      ).accumulate m d).x = 2 * (m * Real.cos (d * (Real.pi / 180))) := by
    rw [real_accumulate_x, real_accumulate_x, hcast, Real.cos_two_pi_sub]
    simp only [WN_VECTOR_AVERAGER.fresh, Nat.cast_zero]
    ring
  have hy : (((WN_VECTOR_AVERAGER.fresh : WN_VECTOR_AVERAGER ℝ).accumulate m (360 - d)
      ).accumulate m d).y = 0 := by
    rw [real_accumulate_y, real_accumulate_y, hcast, Real.sin_two_pi_sub]
    simp only [WN_VECTOR_AVERAGER.fresh, Nat.cast_zero]
    ring
  have hd_pos : (0 : ℝ) < d := by exact_mod_cast hd1
  have hd_le : (d : ℝ) ≤ 89 := by exact_mod_cast hd2
  have hcos : 0 < Real.cos (d * (Real.pi / 180)) := by
    apply Real.cos_pos_of_mem_Ioo
    constructor
    · have := Real.pi_pos
      have : 0 < (d : ℝ) * (Real.pi / 180) := by positivity
      linarith
    · have := Real.pi_pos
      nlinarith
  have hm_pos : (0 : ℝ) < m := by exact_mod_cast hm
  have harg : Complex.arg (Complex.mk (2 * (m * Real.cos (d * (Real.pi / 180))) / (2 : Nat))
      ((0 : ℝ) / (2 : Nat))) = 0 := by
    rw [Complex.arg_eq_zero_iff]
    constructor
    · simp only [Nat.cast_ofNat]
      positivity
    · simp
  rw [real_dir_avg _ (by rw [hcnt]; decide), hx, hy, hcnt, harg]
  have hfloor : Nat.floor ((1 : ℝ) / 2) = 0 := Nat.floor_eq_zero.mpr (by norm_num)
  norm_num [hfloor]

/-- The direction in degrees computed from a mean vector just below the positive x axis is a
small negative number: adding 360 rounds to 360, and adding 0.5 and truncating gives 360. -/
theorem dir_avg_just_below_axis (ax ay : ℝ) (hx : 98 / 100 ≤ ax) (hy1 : -116 / 10 ^ 9 ≤ ay)
    (hy2 : ay < 0) (d : ℝ)
    (hd : d = roundBinary32 (roundBinary32 (roundBinary32 (Complex.arg { re := ax, im := ay })
      * 180) / (13176795 / 4194304))) :
    Nat.floor (roundBinary32 ((if d < 0 then roundBinary32 (d + 360) else d) + 1 / 2))
      % UINT16_MOD = 360 := by
  have hu : (2 : ℝ) ^ (-24 : ℤ) = 1 / 16777216 := by norm_num
  have hxpos : 0 < ax := by linarith
  have ht0 : ay / ax < 0 := div_neg_of_neg_of_pos hy2 hxpos
  have ht1 : -12 / 10 ^ 8 < ay / ax := by
    rw [lt_div_iff₀ hxpos]
    norm_num at hy1 ⊢
    linarith
  obtain ⟨ha1, ha2⟩ := arctan_mem_of_neg (ay / ax) ht0
  rw [arg_eq_arctan_of_re_pos ax ay hxpos] at hd
  generalize Real.arctan (ay / ax) = a at ha1 ha2 hd
  have hd0n := roundBinary32_neg a ha2
  have hd0b := (roundBinary32_mem_of_nonpos a (-12 / 10 ^ 8) 0 le_rfl (by linarith) ha2.le).1
  rw [hu] at hd0b
  generalize roundBinary32 a = d0 at hd0n hd0b hd
  have hd1n := roundBinary32_neg (d0 * 180) (by linarith)
  have hd1b := (roundBinary32_mem_of_nonpos (d0 * 180) (-22 / 10 ^ 6) 0 le_rfl
    (by norm_num at hd0b ⊢; linarith) (by linarith)).1
  rw [hu] at hd1b
  generalize roundBinary32 (d0 * 180) = d1 at hd1n hd1b hd
  have hq0 : d1 / (13176795 / 4194304) < 0 := div_neg_of_neg_of_pos hd1n (by norm_num)
  have hq1 : -8 / 10 ^ 6 ≤ d1 / (13176795 / 4194304) := by
    rw [le_div_iff₀ (by norm_num)]
    norm_num at hd1b ⊢
    linarith
  have hd2n := roundBinary32_neg _ hq0
  have hd2b := (roundBinary32_mem_of_nonpos _ (-8 / 10 ^ 6) 0 le_rfl hq1 hq0.le).1
  rw [hu] at hd2b
  rw [← hd] at hd2n hd2b
  have h360 : roundBinary32 (d + 360) = 360 :=
    roundBinary32_val _ _ 8 11796480 (by norm_num at hd2b ⊢; linarith)
      (by norm_num; linarith) (by norm_num at hd2b ⊢; linarith) (by norm_num; linarith)
      (by norm_num)
  have h3605 : roundBinary32 ((360 : ℝ) + 1 / 2) = 721 / 2 :=
    roundBinary32_val _ _ 8 11812864 (by norm_num) (by norm_num) (by norm_num) (by norm_num)
      (by norm_num)
  have hfloor : Nat.floor ((721 : ℝ) / 2) = 360 := by
    rw [Nat.floor_eq_iff (by norm_num)]
    constructor <;> norm_num
  rw [if_pos hd2n, h360, h3605, hfloor]
  decide

/-- C7 (the code at the failing input): in single precision, accumulating (1, 359) and
(1, 1), the pair of the claim for `m = 1` and `d = 1`, on a fresh `WN_VECTOR_AVERAGER` and
reducing yields dir_avg = 360, not 0: the two sines do not cancel (`y` is about
`-2.03e-7`), the direction is a small negative angle, adding 360 rounds to 360, and adding
0.5 and truncating writes 360. -/
theorem C7_wrap_pair_one_degree_yields_360 (report : wn_raw_wind_report_t Binary32) :
    ((((WN_VECTOR_AVERAGER.fresh : WN_VECTOR_AVERAGER Binary32).accumulate 1 359).accumulate
        1 1).computeReportFromAccumulatedValues report).2.dir_avg = 360 := by
  have hcnt : (((WN_VECTOR_AVERAGER.fresh : WN_VECTOR_AVERAGER Binary32).accumulate
      1 359).accumulate 1 1).cnt = 2 := rfl
  obtain ⟨hy1, hy2, hx1, hx2⟩ := wrap_pair_sums
  generalize ((WN_VECTOR_AVERAGER.fresh : WN_VECTOR_AVERAGER Binary32).accumulate
      1 359).accumulate 1 1 = acc at hcnt hy1 hy2 hx1 hx2 ⊢
  have hne : acc.cnt ≠ 0 := by
    rw [hcnt]
    decide
  have hu : (2 : ℝ) ^ (-24 : ℤ) = 1 / 16777216 := by norm_num
  have h2 : roundBinary32 ((acc.cnt : Nat) : ℝ) = 2 := by
    rw [hcnt]
    have h : ((2 : Nat) : ℝ) = 2 := by norm_num
    rw [h, roundBinary32_two]
  rw [Binary32.dir_avg_eq acc hne report _ _ _ rfl rfl rfl, h2]
  have hax := (roundBinary32_mem_of_nonneg (acc.x.toReal / 2) (99 / 100) (101 / 100)
    (by norm_num) (by linarith) (by linarith)).1
  have hay := roundBinary32_mem_of_nonpos (acc.y.toReal / 2) (-115 / 10 ^ 9) (-9 / 10 ^ 8)
    (by norm_num) (by norm_num at hy1 ⊢; linarith) (by norm_num at hy2 ⊢; linarith)
  rw [hu] at hax hay
  exact dir_avg_just_below_axis _ _ (by norm_num at hax ⊢; linarith)
    (by norm_num at hay ⊢; linarith [hay.1]) (by norm_num at hay; linarith [hay.2]) _ rfl

/-- C8 (the code at the failing input): on an averager that accumulated `(5, 0)` and was
reduced, accumulating `(3, 0)` and reducing again reports `pulses_max = 5`, not 3; and after
`(3, 0)`, a reduction and `(5, 0)`, the second reduction reports `pulses_min = 3`, not 5. -/
theorem C8_reduction_carries_min_max_over {F : Type} [Add F] [Mul F] [Div F]
    [NatCast F] [RatCast F] [FloatFns F] (report0 report : wn_raw_wind_report_t F) :
    (((((WN_VECTOR_AVERAGER.fresh : WN_VECTOR_AVERAGER F).accumulate 5 0
        ).computeReportFromAccumulatedValues report0).1.accumulate 3 0
        ).computeReportFromAccumulatedValues report).2.pulses_max = 5 ∧
    (((((WN_VECTOR_AVERAGER.fresh : WN_VECTOR_AVERAGER F).accumulate 3 0
        ).computeReportFromAccumulatedValues report0).1.accumulate 5 0
        ).computeReportFromAccumulatedValues report).2.pulses_min = 3 := by
  constructor <;>
    simp [WN_VECTOR_AVERAGER.fresh, WN_VECTOR_AVERAGER.accumulate,
      WN_VECTOR_AVERAGER.computeReportFromAccumulatedValues, UINT32_MOD]

/-! ## The loop: one call -/

section Loop

variable {F : Type} [Add F] [Mul F] [Div F] [NatCast F] [RatCast F] [FloatFns F]

/-- The `for` loop ends when its bound fits in 16 bits and the fuel covers the distance. -/
theorem periodLoop_some (rb : WN_ROLLINGBUFFER) (fuel : Nat) :
    ∀ (i bound : Nat) (avg : WN_VECTOR_AVERAGER F), i ≤ bound → bound < UINT16_MOD →
      bound - i < fuel → ∃ r, WN_Core.periodLoop rb fuel i bound avg = some r := by
  induction fuel with
  | zero =>
    intro i bound avg _ _ hfuel
    omega
  | succ n ih =>
    intro i bound avg hi hb hfuel
    unfold WN_Core.periodLoop
    by_cases hlt : i < bound
    · rw [if_pos hlt]
      have hnext : (i + 1) % UINT16_MOD = i + 1 := Nat.mod_eq_of_lt (by omega)
      rw [hnext]
      exact ih (i + 1) bound _ (by omega) hb (by omega)
    · rw [if_neg hlt]
      exact ⟨avg, rfl⟩

/-- The report over the most recent period always returns. -/
theorem computeReportForRecentPeriodInSec_some (s : WN_Core F) (period : Nat) :
    ∃ report, s.computeReportForRecentPeriodInSec period = some report := by
  unfold WN_Core.computeReportForRecentPeriodInSec
    WN_Core.computeReportForPeriodInSecIndexedFromLast
  have hshift : (0 * period / (SAMPLING_WINDOW_TICKS / TICK_HZ)) % UINT16_MOD = 0 := by
    simp
  have hb : period / (SAMPLING_WINDOW_TICKS / TICK_HZ) % UINT16_MOD < UINT16_MOD :=
    Nat.mod_lt _ (by decide)
  simp only [hshift, Nat.add_zero, Nat.zero_mod]
  obtain ⟨r, hr⟩ := periodLoop_some s.RollingBuffer WN_Core.PERIOD_LOOP_FUEL 0
    (period / (SAMPLING_WINDOW_TICKS / TICK_HZ) % UINT16_MOD)
    (WN_VECTOR_AVERAGER.fresh : WN_VECTOR_AVERAGER F)
    (Nat.zero_le _) hb (by simp only [WN_Core.PERIOD_LOOP_FUEL, UINT16_MOD] at hb ⊢; omega)
  rw [hr]
  exact ⟨_, rfl⟩

/-- The third block of `loop()` returns and invokes no instant-wind callback. -/
theorem loopReport_some (s : WN_Core F) :
    ∃ evs, s.loopReport = some evs ∧ ∀ e ∈ evs, Event.isInstantWind e = false := by
  unfold WN_Core.loopReport
  split
  · obtain ⟨report, hr⟩ := computeReportForRecentPeriodInSec_some s s._wind_average_period_sec
    rw [hr]
    refine ⟨_, rfl, ?_⟩
    intro e he
    unfold WN_Core.triggerAvgWindCb at he
    split at he
    · simp only [List.mem_singleton] at he
      subst he
      rfl
    · simp at he
  · exact ⟨[], rfl, by simp⟩

/-- The north LED write is not a callback invocation. -/
theorem signalIfNorth_not_instant {G : Type} (s : WN_Core G) (angle : Nat) :
    ∀ e ∈ s.signalIfNorth angle, Event.isInstantWind e = false := by
  intro e he
  unfold WN_Core.signalIfNorth at he
  split at he
  · rw [List.mem_singleton.mp he]
    rfl
  · rw [List.mem_singleton.mp he]
    rfl

/-- The first block of `loop()` changes only the averager and invokes no callback. -/
theorem loopVane_frame (s : WN_Core F) (env : LoopEnv) :
    (s.loopVane env).1 = { s with VaneAverager := (s.loopVane env).1.VaneAverager } ∧
      ∀ e ∈ (s.loopVane env).2, Event.isInstantWind e = false := by
  unfold WN_Core.loopVane
  split
  · exact ⟨rfl, fun e he => signalIfNorth_not_instant s _ e he⟩
  · exact ⟨rfl, by simp⟩

/-- The body of `loop()` when the tick flag is set. -/
theorem loop_of_ticker (s : WN_Core F) (env : LoopEnv) (ht : s.wn_ticker = true) :
    s.loop env =
      match ((({ s with wn_ticker := false, ticks_cnt := (s.ticks_cnt + 1) % UINT32_MOD }
          ).loopVane env).1.loopWindow env).1.loopReport with
      | none => none
      | some evs =>
        some (((({ s with wn_ticker := false, ticks_cnt := (s.ticks_cnt + 1) % UINT32_MOD }
            ).loopVane env).1.loopWindow env).1,
          (({ s with wn_ticker := false, ticks_cnt := (s.ticks_cnt + 1) % UINT32_MOD }
            ).loopVane env).2 ++ [Event.speedLed false]
          ++ ((({ s with wn_ticker := false, ticks_cnt := (s.ticks_cnt + 1) % UINT32_MOD }
            ).loopVane env).1.loopWindow env).2 ++ evs) := by
  unfold WN_Core.loop
  simp only [ht, Bool.not_true, Bool.false_eq_true, if_false]

/-- The second block of `loop()` at a boundary with 3100 ms or more elapsed. -/
theorem loopWindow_discard (s : WN_Core F) (env : LoopEnv)
    (hw : s.ticks_cnt % 30 = 0)
    (hd : 3100 ≤ WN_Core.millisDiff env.millis_check s.last_sampling_window_millis) :
    s.loopWindow env =
      ({ s with speed_pulse_count := 0, last_sampling_window_millis := env.millis_stamp }, []) := by
  unfold WN_Core.loopWindow
  have h30 : (s.ticks_cnt % SAMPLING_WINDOW_TICKS == 0) = true := by
    simp only [SAMPLING_WINDOW_TICKS, hw, beq_self_eq_true]
  have hb : SAMPLE_DURATION * 1000 + 1000 / TICK_HZ = 3100 := by decide
  rw [if_pos h30, hb, if_neg (by omega)]

/-- The second block of `loop()` at a boundary with less than 3100 ms elapsed. -/
theorem loopWindow_keep (s : WN_Core F) (env : LoopEnv)
    (hw : s.ticks_cnt % 30 = 0)
    (hd : WN_Core.millisDiff env.millis_check s.last_sampling_window_millis < 3100) :
    s.loopWindow env =
      ({ s with
          VaneAverager :=
            (s.VaneAverager.computeReportFromAccumulatedValues wn_raw_wind_report_t.init).1,
          speed_pulse_count := 0,
          last_sampling_window_millis := env.millis_stamp,
          RollingBuffer := s.RollingBuffer.addRawSample
            { pulses := s.speed_pulse_count % UINT16_MOD,
              dir := (s.VaneAverager.computeReportFromAccumulatedValues
                wn_raw_wind_report_t.init).2.dir_avg,
              valid := true } },
       s.triggerInstantWindCb (s.formatRawSample
            { pulses := s.speed_pulse_count % UINT16_MOD,
              dir := (s.VaneAverager.computeReportFromAccumulatedValues
                wn_raw_wind_report_t.init).2.dir_avg,
              valid := true })) := by
  unfold WN_Core.loopWindow
  have h30 : (s.ticks_cnt % SAMPLING_WINDOW_TICKS == 0) = true := by
    simp only [SAMPLING_WINDOW_TICKS, hw, beq_self_eq_true]
  have hb : SAMPLE_DURATION * 1000 + 1000 / TICK_HZ = 3100 := by decide
  rw [if_pos h30, hb, if_pos hd]
  rfl

/-- The second block of `loop()` away from a window boundary. -/
theorem loopWindow_skip (s : WN_Core F) (env : LoopEnv) (hw : s.ticks_cnt % 30 ≠ 0) :
    s.loopWindow env = (s, []) := by
  unfold WN_Core.loopWindow
  have h30 : ¬ (s.ticks_cnt % SAMPLING_WINDOW_TICKS == 0) = true := by
    simp only [SAMPLING_WINDOW_TICKS, beq_iff_eq]
    exact hw
  rw [if_neg h30]

/-- A call of `loop()` at a window boundary whose elapsed time is 3100 ms or more. -/
theorem loop_window_discard (s : WN_Core F) (env : LoopEnv) (ht : s.wn_ticker = true)
    (hw : (s.ticks_cnt + 1) % UINT32_MOD % 30 = 0)
    (hd : 3100 ≤ WN_Core.millisDiff env.millis_check s.last_sampling_window_millis) :
    ∃ evs, s.loop env = some
        ({ s with
            wn_ticker := false,
            ticks_cnt := (s.ticks_cnt + 1) % UINT32_MOD,
            VaneAverager :=
              (({ s with wn_ticker := false, ticks_cnt := (s.ticks_cnt + 1) % UINT32_MOD }
                ).loopVane env).1.VaneAverager,
            speed_pulse_count := 0,
            last_sampling_window_millis := env.millis_stamp }, evs) ∧
      ∀ e ∈ evs, Event.isInstantWind e = false := by
  rw [loop_of_ticker s env ht]
  obtain ⟨hv, hve⟩ := loopVane_frame
    ({ s with wn_ticker := false, ticks_cnt := (s.ticks_cnt + 1) % UINT32_MOD }) env
  generalize ({ s with wn_ticker := false, ticks_cnt := (s.ticks_cnt + 1) % UINT32_MOD }
    ).loopVane env = v at hv hve ⊢
  have hw2 : v.1.ticks_cnt % 30 = 0 := by rw [hv]; exact hw
  have hd2 : 3100 ≤ WN_Core.millisDiff env.millis_check v.1.last_sampling_window_millis := by
    rw [hv]; exact hd
  rw [loopWindow_discard v.1 env hw2 hd2]
  obtain ⟨evs, hr, hre⟩ := loopReport_some
    ({ v.1 with speed_pulse_count := 0, last_sampling_window_millis := env.millis_stamp })
  rw [hr]
  refine ⟨v.2 ++ [Event.speedLed false] ++ [] ++ evs, ?_, ?_⟩
  · simp only [Option.some.injEq, Prod.mk.injEq, and_true]
    conv_lhs => rw [hv]
  · intro e he
    simp only [List.mem_append, List.mem_singleton, List.not_mem_nil, or_false] at he
    rcases he with (he | he) | he
    · exact hve e he
    · subst he
      rfl
    · exact hre e he

/-- A call of `loop()` at a window boundary whose elapsed time is below 3100 ms. -/
theorem loop_window_keep (s : WN_Core F) (env : LoopEnv) (ht : s.wn_ticker = true)
    (hw : (s.ticks_cnt + 1) % UINT32_MOD % 30 = 0)
    (hd : WN_Core.millisDiff env.millis_check s.last_sampling_window_millis < 3100) :
    ∃ evs, s.loop env = some
        ({ s with
            wn_ticker := false,
            ticks_cnt := (s.ticks_cnt + 1) % UINT32_MOD,
            VaneAverager :=
              ((({ s with wn_ticker := false, ticks_cnt := (s.ticks_cnt + 1) % UINT32_MOD }
                ).loopVane env).1.VaneAverager.computeReportFromAccumulatedValues
                  wn_raw_wind_report_t.init).1,
            speed_pulse_count := 0,
            last_sampling_window_millis := env.millis_stamp,
            RollingBuffer := s.RollingBuffer.addRawSample
              { pulses := s.speed_pulse_count % UINT16_MOD,
                dir := ((({ s with wn_ticker := false,
                                   ticks_cnt := (s.ticks_cnt + 1) % UINT32_MOD }
                  ).loopVane env).1.VaneAverager.computeReportFromAccumulatedValues
                    wn_raw_wind_report_t.init).2.dir_avg,
                valid := true } }, evs) := by
  rw [loop_of_ticker s env ht]
  obtain ⟨hv, -⟩ := loopVane_frame
    ({ s with wn_ticker := false, ticks_cnt := (s.ticks_cnt + 1) % UINT32_MOD }) env
  generalize ({ s with wn_ticker := false, ticks_cnt := (s.ticks_cnt + 1) % UINT32_MOD }
    ).loopVane env = v at hv ⊢
  have hw2 : v.1.ticks_cnt % 30 = 0 := by rw [hv]; exact hw
  have hd2 : WN_Core.millisDiff env.millis_check v.1.last_sampling_window_millis < 3100 := by
    rw [hv]; exact hd
  rw [loopWindow_keep v.1 env hw2 hd2]
  obtain ⟨evs, hr, -⟩ := loopReport_some
    ({ v.1 with
        VaneAverager :=
          (v.1.VaneAverager.computeReportFromAccumulatedValues wn_raw_wind_report_t.init).1,
        speed_pulse_count := 0,
        last_sampling_window_millis := env.millis_stamp,
        RollingBuffer := v.1.RollingBuffer.addRawSample
          { pulses := v.1.speed_pulse_count % UINT16_MOD,
            dir := (v.1.VaneAverager.computeReportFromAccumulatedValues
              wn_raw_wind_report_t.init).2.dir_avg,
            valid := true } })
  rw [hr]
  refine ⟨v.2 ++ [Event.speedLed false]
    ++ v.1.triggerInstantWindCb (v.1.formatRawSample
        { pulses := v.1.speed_pulse_count % UINT16_MOD,
          dir := (v.1.VaneAverager.computeReportFromAccumulatedValues
            wn_raw_wind_report_t.init).2.dir_avg,
          valid := true }) ++ evs, ?_⟩
  simp only [Option.some.injEq, Prod.mk.injEq, and_true]
  conv_lhs => rw [hv]

/-- A call of `loop()` on a tick that is not a window boundary. -/
theorem loop_plain_tick (s : WN_Core F) (env : LoopEnv) (ht : s.wn_ticker = true)
    (hw : (s.ticks_cnt + 1) % UINT32_MOD % 30 ≠ 0) :
    ∃ evs, s.loop env = some
        ({ s with
            wn_ticker := false,
            ticks_cnt := (s.ticks_cnt + 1) % UINT32_MOD,
            VaneAverager :=
              (({ s with wn_ticker := false, ticks_cnt := (s.ticks_cnt + 1) % UINT32_MOD }
                ).loopVane env).1.VaneAverager }, evs) ∧
      ∀ e ∈ evs, Event.isInstantWind e = false := by
  rw [loop_of_ticker s env ht]
  obtain ⟨hv, hve⟩ := loopVane_frame
    ({ s with wn_ticker := false, ticks_cnt := (s.ticks_cnt + 1) % UINT32_MOD }) env
  generalize ({ s with wn_ticker := false, ticks_cnt := (s.ticks_cnt + 1) % UINT32_MOD }
    ).loopVane env = v at hv hve ⊢
  have hw2 : v.1.ticks_cnt % 30 ≠ 0 := by rw [hv]; exact hw
  rw [loopWindow_skip v.1 env hw2]
  obtain ⟨evs, hr, hre⟩ := loopReport_some v.1
  rw [hr]
  refine ⟨v.2 ++ [Event.speedLed false] ++ [] ++ evs, ?_, ?_⟩
  · simp only [Option.some.injEq, Prod.mk.injEq, and_true]
    conv_lhs => rw [hv]
  · intro e he
    simp only [List.mem_append, List.mem_singleton, List.not_mem_nil, or_false] at he
    rcases he with (he | he) | he
    · exact hve e he
    · subst he
      rfl
    · exact hre e he

/-- What `loop()` accumulates on a tick outside low-power mode. -/
theorem loopVane_not_low_power (s : WN_Core F) (env : LoopEnv) (hl : s.low_power_mode = false) :
    (s.loopVane env).1.VaneAverager =
      s.VaneAverager.accumulate 1
        ((if s._invert_polarity then
            (wn_read_then_make_angle_sensor_sleep env.angle_result0 env.angle_result1 + 180)
              % UINT16_MOD
          else wn_read_then_make_angle_sensor_sleep env.angle_result0 env.angle_result1)
          % 360) := by
  unfold WN_Core.loopVane
  simp only [hl, Bool.not_false, Bool.true_or, if_true]

end Loop

/-! ## Claims on the drift check -/

/-- C9 (amended): when `loop()` processes a tick whose count is a multiple of 30, then, if
3100 ms or more have elapsed since the last window boundary, the rolling buffer is
unchanged, no instant-wind callback is invoked, the pulse counter is 0 and the window
timestamp is the current time; if less than 3100 ms have elapsed, one sample holding the
pulse count is appended to the rolling buffer. -/
theorem C9_window_dropped_iff_elapsed_at_least_bound {F : Type} [Add F] [Mul F] [Div F]
    [NatCast F] [RatCast F] [FloatFns F] (s : WN_Core F) (env : LoopEnv)
    (ht : s.wn_ticker = true) (hw : (s.ticks_cnt + 1) % 4294967296 % 30 = 0) :
    (3100 ≤ WN_Core.millisDiff env.millis_check s.last_sampling_window_millis →
      ∃ s2 evs, s.loop env = some (s2, evs) ∧
        s2.RollingBuffer = s.RollingBuffer ∧
        (∀ e ∈ evs, Event.isInstantWind e = false) ∧
        s2.speed_pulse_count = 0 ∧
        s2.last_sampling_window_millis = env.millis_stamp) ∧
    (WN_Core.millisDiff env.millis_check s.last_sampling_window_millis < 3100 →
      ∃ s2 evs dir, s.loop env = some (s2, evs) ∧
        s2.RollingBuffer = s.RollingBuffer.addRawSample
          { pulses := s.speed_pulse_count % 65536, dir := dir, valid := true } ∧
        s2.RollingBuffer ≠ s.RollingBuffer) := by
  constructor
  · intro hd
    obtain ⟨evs, h, hev⟩ := loop_window_discard s env ht hw hd
    exact ⟨_, evs, h, rfl, hev, rfl, rfl⟩
  · intro hd
    obtain ⟨evs, h⟩ := loop_window_keep s env ht hw hd
    exact ⟨_, evs, _, h, rfl, addRawSample_ne _ _⟩

/-- Witness of C9: the 30th tick of a fresh orchestrator seen 6000 ms after the last window
boundary; the window is dropped. -/
theorem C9_window_dropped_iff_elapsed_at_least_bound_witness :
    ∃ s2 evs,
      ({ (WN_Core.new : WN_Core ℝ) with
          ticks_cnt := 29, wn_ticker := true, instantWindCb := true,
          speed_pulse_count := 7 }).loop
        { angle_result0 := 0, angle_result1 := 0, millis_check := 6000, millis_stamp := 6000 }
        = some (s2, evs) ∧
      s2.RollingBuffer = WN_ROLLINGBUFFER.fresh ∧
      (∀ e ∈ evs, Event.isInstantWind e = false) ∧
      s2.speed_pulse_count = 0 ∧
      s2.last_sampling_window_millis = 6000 :=
  (C9_window_dropped_iff_elapsed_at_least_bound
    ({ (WN_Core.new : WN_Core ℝ) with
        ticks_cnt := 29, wn_ticker := true, instantWindCb := true, speed_pulse_count := 7 })
    { angle_result0 := 0, angle_result1 := 0, millis_check := 6000, millis_stamp := 6000 }
    rfl (by decide)).1 (by decide)

/-- Counterexample to C9 as stated: on the 30th tick of a fresh orchestrator seen exactly
3100 ms after the last window boundary the elapsed time does not exceed 3000 ms + 100 ms,
yet the window is dropped: the buffer stays empty, the instant-wind callback, although set,
is not invoked, and the 7 counted pulses are cleared. -/
theorem C9_counterexample_elapsed_equal_to_bound :
    ¬ (3000 + 100 < WN_Core.millisDiff 3100
        ({ (WN_Core.new : WN_Core ℝ) with
            ticks_cnt := 29, wn_ticker := true, instantWindCb := true,
            speed_pulse_count := 7 }).last_sampling_window_millis) ∧
    ∃ s2 evs,
      ({ (WN_Core.new : WN_Core ℝ) with
          ticks_cnt := 29, wn_ticker := true, instantWindCb := true,
          speed_pulse_count := 7 }).loop
        { angle_result0 := 0, angle_result1 := 0, millis_check := 3100, millis_stamp := 3100 }
        = some (s2, evs) ∧
      s2.ticks_cnt % 30 = 0 ∧
      s2.RollingBuffer = WN_ROLLINGBUFFER.fresh ∧
      s2.RollingBuffer.count = 0 ∧
      (∀ e ∈ evs, Event.isInstantWind e = false) ∧
      s2.speed_pulse_count = 0 := by
  refine ⟨by decide, ?_⟩
  obtain ⟨evs, h, hev⟩ := loop_window_discard
    ({ (WN_Core.new : WN_Core ℝ) with
        ticks_cnt := 29, wn_ticker := true, instantWindCb := true, speed_pulse_count := 7 })
    { angle_result0 := 0, angle_result1 := 0, millis_check := 3100, millis_stamp := 3100 }
    rfl (by decide) (by decide)
  exact ⟨_, evs, h, by decide, rfl, rfl, hev, rfl⟩

/-! ## The loop: runs of ticks -/

section Run

variable {F : Type} [Add F] [Mul F] [Div F] [NatCast F] [RatCast F] [FloatFns F]

/-- A run over two lists of ticks is the run over the first followed by the second. -/
theorem runTicks_append (s : WN_Core F) (l1 l2 : List LoopEnv) :
    WN_Core.runTicks s (l1 ++ l2) =
      match WN_Core.runTicks s l1 with
      | none => none
      | some r1 =>
        match WN_Core.runTicks r1.1 l2 with
        | none => none
        | some r2 => some (r2.1, r1.2 ++ r2.2) := by
  induction l1 generalizing s with
  | nil =>
    simp only [List.nil_append, WN_Core.runTicks]
    cases WN_Core.runTicks s l2 with
    | none => rfl
    | some r => simp
  | cons e es ih =>
    rw [List.cons_append, WN_Core.runTicks, WN_Core.runTicks]
    cases WN_Core.timerTick s e with
    | none => rfl
    | some r1 =>
      simp only
      rw [ih r1.1]
      cases WN_Core.runTicks r1.1 es with
      | none => rfl
      | some r2 =>
        simp only
        cases WN_Core.runTicks r2.1 l2 with
        | none => rfl
        | some r3 => simp [List.append_assoc]

/-- A run of one tick. -/
theorem runTicks_singleton (s : WN_Core F) (env : LoopEnv) (r : WN_Core F × List (Event F))
    (h : s.timerTick env = some r) : s.runTicks [env] = some (r.1, r.2 ++ []) := by
  rw [WN_Core.runTicks, h]
  rfl

/-- A timer tick that is not a window boundary, outside low-power mode and without polarity
inversion. -/
theorem tick_plain (s : WN_Core F) (env : LoopEnv) (hl : s.low_power_mode = false)
    (hp : s._invert_polarity = false)
    (hw : (s.ticks_cnt + 1) % 30 ≠ 0) (hM : s.ticks_cnt + 1 < UINT32_MOD) :
    ∃ evs, s.timerTick env = some
        ({ s with
            wn_ticker := false,
            ticks_cnt := s.ticks_cnt + 1,
            VaneAverager := s.VaneAverager.accumulate 1
              (wn_read_then_make_angle_sensor_sleep env.angle_result0 env.angle_result1
                % 360) }, evs) := by
  have hmod : (s.ticks_cnt + 1) % UINT32_MOD = s.ticks_cnt + 1 := Nat.mod_eq_of_lt hM
  obtain ⟨evs, h, -⟩ := loop_plain_tick s.onTickerTimerISR env rfl
    (by simp only [WN_Core.onTickerTimerISR]; rw [hmod]; exact hw)
  refine ⟨evs, ?_⟩
  unfold WN_Core.timerTick
  rw [h, loopVane_not_low_power _ env (by simp only [WN_Core.onTickerTimerISR]; exact hl)]
  simp only [WN_Core.onTickerTimerISR, hmod, hp, Bool.false_eq_true, if_false]

/-- The timer tick that closes a window, outside low-power mode and without polarity
inversion, when 3100 ms or more have elapsed: the sample is dropped and the averager keeps
what it accumulated. -/
theorem tick_window_discard (s : WN_Core F) (env : LoopEnv) (hl : s.low_power_mode = false)
    (hp : s._invert_polarity = false)
    (hw : (s.ticks_cnt + 1) % 30 = 0) (hM : s.ticks_cnt + 1 < UINT32_MOD)
    (hd : 3100 ≤ WN_Core.millisDiff env.millis_check s.last_sampling_window_millis) :
    ∃ evs, s.timerTick env = some
        ({ s with
            wn_ticker := false,
            ticks_cnt := s.ticks_cnt + 1,
            VaneAverager := s.VaneAverager.accumulate 1
              (wn_read_then_make_angle_sensor_sleep env.angle_result0 env.angle_result1 % 360),
            speed_pulse_count := 0,
            last_sampling_window_millis := env.millis_stamp }, evs) := by
  have hmod : (s.ticks_cnt + 1) % UINT32_MOD = s.ticks_cnt + 1 := Nat.mod_eq_of_lt hM
  obtain ⟨evs, h, -⟩ := loop_window_discard s.onTickerTimerISR env rfl
    (by simp only [WN_Core.onTickerTimerISR]; rw [hmod]; exact hw)
    (by simp only [WN_Core.onTickerTimerISR]; exact hd)
  refine ⟨evs, ?_⟩
  unfold WN_Core.timerTick
  rw [h, loopVane_not_low_power _ env (by simp only [WN_Core.onTickerTimerISR]; exact hl)]
  simp only [WN_Core.onTickerTimerISR, hmod, hp, Bool.false_eq_true, if_false]

/-- The timer tick that closes a window, outside low-power mode and without polarity
inversion, when less than 3100 ms have elapsed: the sample is stored. -/
theorem tick_window_keep (s : WN_Core F) (env : LoopEnv) (hl : s.low_power_mode = false)
    (hp : s._invert_polarity = false)
    (hw : (s.ticks_cnt + 1) % 30 = 0) (hM : s.ticks_cnt + 1 < UINT32_MOD)
    (hd : WN_Core.millisDiff env.millis_check s.last_sampling_window_millis < 3100) :
    ∃ evs, s.timerTick env = some
        ({ s with
            wn_ticker := false,
            ticks_cnt := s.ticks_cnt + 1,
            VaneAverager :=
              ((s.VaneAverager.accumulate 1
                (wn_read_then_make_angle_sensor_sleep env.angle_result0 env.angle_result1
                  % 360)).computeReportFromAccumulatedValues wn_raw_wind_report_t.init).1,
            speed_pulse_count := 0,
            last_sampling_window_millis := env.millis_stamp,
            RollingBuffer := s.RollingBuffer.addRawSample
              { pulses := s.speed_pulse_count % UINT16_MOD,
                dir := ((s.VaneAverager.accumulate 1
                  (wn_read_then_make_angle_sensor_sleep env.angle_result0 env.angle_result1
                    % 360)).computeReportFromAccumulatedValues
                      wn_raw_wind_report_t.init).2.dir_avg,
                valid := true } }, evs) := by
  have hmod : (s.ticks_cnt + 1) % UINT32_MOD = s.ticks_cnt + 1 := Nat.mod_eq_of_lt hM
  obtain ⟨evs, h⟩ := loop_window_keep s.onTickerTimerISR env rfl
    (by simp only [WN_Core.onTickerTimerISR]; rw [hmod]; exact hw)
    (by simp only [WN_Core.onTickerTimerISR]; exact hd)
  refine ⟨evs, ?_⟩
  unfold WN_Core.timerTick
  rw [h, loopVane_not_low_power _ env (by simp only [WN_Core.onTickerTimerISR]; exact hl)]
  simp only [WN_Core.onTickerTimerISR, hmod, hp, Bool.false_eq_true, if_false]

/-- A run of `k` ticks with the same reading inside one window. -/
theorem runTicks_plain (k : Nat) (env : LoopEnv) :
    ∀ s : WN_Core F, s.wn_ticker = false → s.low_power_mode = false →
      s._invert_polarity = false → s.ticks_cnt % 30 + k < 30 → s.ticks_cnt + k < UINT32_MOD →
      ∃ evs, s.runTicks (List.replicate k env) = some
        ({ s with
            ticks_cnt := s.ticks_cnt + k,
            VaneAverager := s.VaneAverager.accumulateAll (List.replicate k
              (1, wn_read_then_make_angle_sensor_sleep env.angle_result0 env.angle_result1
                % 360)) }, evs) := by
  induction k with
  | zero =>
    intro s _ _ _ _ _
    exact ⟨[], rfl⟩
  | succ n ih =>
    intro s ht hl hp hw hM
    obtain ⟨evs1, h1⟩ := tick_plain s env hl hp (by omega) (by omega)
    obtain ⟨evs2, h2⟩ := ih
      ({ s with
          wn_ticker := false,
          ticks_cnt := s.ticks_cnt + 1,
          VaneAverager := s.VaneAverager.accumulate 1
            (wn_read_then_make_angle_sensor_sleep env.angle_result0 env.angle_result1 % 360) })
      rfl hl hp (by simp only; omega) (by simp only; omega)
    refine ⟨evs1 ++ evs2, ?_⟩
    rw [List.replicate_succ, WN_Core.runTicks, h1]
    simp only
    rw [h2]
    simp only [Option.some.injEq, Prod.mk.injEq, and_true, WN_Core.mk.injEq, true_and]
    refine ⟨by omega, ?_, ht.symm⟩
    rfl

/-- A whole sampling window of 30 ticks with the same reading whose boundary tick sees 3100 ms
or more elapsed: nothing is stored and the 30 readings stay in the averager. -/
theorem runTicks_window_discard (s : WN_Core F) (deg now : Nat) (ht : s.wn_ticker = false)
    (hl : s.low_power_mode = false) (hp : s._invert_polarity = false)
    (hw : s.ticks_cnt % 30 = 0) (hM : s.ticks_cnt + 30 < UINT32_MOD)
    (hd : 3100 ≤ WN_Core.millisDiff now s.last_sampling_window_millis) :
    ∃ evs, s.runTicks (WN_Core.windowTicks deg now) = some
        ({ s with
            ticks_cnt := s.ticks_cnt + 30,
            VaneAverager := s.VaneAverager.accumulateAll (List.replicate 30
              (1, wn_read_then_make_angle_sensor_sleep (deg * 16 / 256) (deg * 16 % 256) % 360)),
            speed_pulse_count := 0,
            last_sampling_window_millis := now }, evs) := by
  obtain ⟨evs1, h1⟩ := runTicks_plain 29 (WN_Core.tickEnv deg 0) s ht hl hp (by omega) (by omega)
  obtain ⟨evs2, h2⟩ := tick_window_discard
    ({ s with
        ticks_cnt := s.ticks_cnt + 29,
        VaneAverager := s.VaneAverager.accumulateAll (List.replicate 29
          (1, wn_read_then_make_angle_sensor_sleep (WN_Core.tickEnv deg 0).angle_result0
            (WN_Core.tickEnv deg 0).angle_result1 % 360)) })
    (WN_Core.tickEnv deg now) hl hp (by simp only; omega) (by simp only; omega) hd
  refine ⟨evs1 ++ (evs2 ++ []), ?_⟩
  unfold WN_Core.windowTicks
  rw [runTicks_append, h1]
  simp only
  rw [runTicks_singleton _ _ _ h2]
  simp only [Option.some.injEq, Prod.mk.injEq, and_true, WN_Core.mk.injEq, true_and]
  exact ⟨accumulateAll_replicate_succ s.VaneAverager 29 _, rfl, ht.symm⟩

/-- A whole sampling window of 30 ticks with the same reading whose boundary tick sees less
than 3100 ms elapsed: the averager is reduced and one sample is stored. -/
theorem runTicks_window_keep (s : WN_Core F) (deg now : Nat) (ht : s.wn_ticker = false)
    (hl : s.low_power_mode = false) (hp : s._invert_polarity = false)
    (hw : s.ticks_cnt % 30 = 0) (hM : s.ticks_cnt + 30 < UINT32_MOD)
    (hd : WN_Core.millisDiff now s.last_sampling_window_millis < 3100) :
    ∃ evs, s.runTicks (WN_Core.windowTicks deg now) = some
        ({ s with
            ticks_cnt := s.ticks_cnt + 30,
            VaneAverager :=
              ((s.VaneAverager.accumulateAll (List.replicate 30
                (1, wn_read_then_make_angle_sensor_sleep (deg * 16 / 256) (deg * 16 % 256)
                  % 360))).computeReportFromAccumulatedValues wn_raw_wind_report_t.init).1,
            speed_pulse_count := 0,
            last_sampling_window_millis := now,
            RollingBuffer := s.RollingBuffer.addRawSample
              { pulses := s.speed_pulse_count % UINT16_MOD,
                dir := ((s.VaneAverager.accumulateAll (List.replicate 30
                  (1, wn_read_then_make_angle_sensor_sleep (deg * 16 / 256) (deg * 16 % 256)
                    % 360))).computeReportFromAccumulatedValues
                      wn_raw_wind_report_t.init).2.dir_avg,
                valid := true } }, evs) := by
  obtain ⟨evs1, h1⟩ := runTicks_plain 29 (WN_Core.tickEnv deg 0) s ht hl hp (by omega) (by omega)
  obtain ⟨evs2, h2⟩ := tick_window_keep
    ({ s with
        ticks_cnt := s.ticks_cnt + 29,
        VaneAverager := s.VaneAverager.accumulateAll (List.replicate 29
          (1, wn_read_then_make_angle_sensor_sleep (WN_Core.tickEnv deg 0).angle_result0
            (WN_Core.tickEnv deg 0).angle_result1 % 360)) })
    (WN_Core.tickEnv deg now) hl hp (by simp only; omega) (by simp only; omega) hd
  refine ⟨evs1 ++ (evs2 ++ []), ?_⟩
  unfold WN_Core.windowTicks
  rw [runTicks_append, h1]
  simp only
  rw [runTicks_singleton _ _ _ h2]
  have hacc := accumulateAll_replicate_succ s.VaneAverager 29
    (1, wn_read_then_make_angle_sensor_sleep (deg * 16 / 256) (deg * 16 % 256) % 360)
  simp only [WN_Core.tickEnv] at hacc ⊢
  rw [hacc]
  simp only [Option.some.injEq, Prod.mk.injEq, and_true, WN_Core.mk.injEq, true_and]
  exact ht.symm

/-- Two consecutive sampling windows, the first dropped by the drift check and the second
stored: the direction stored for the second window is reduced from the readings of both. -/
theorem runTicks_discard_then_keep (s : WN_Core F) (deg1 deg2 now1 now2 : Nat)
    (ht : s.wn_ticker = false) (hl : s.low_power_mode = false)
    (hp : s._invert_polarity = false) (hw : s.ticks_cnt % 30 = 0)
    (hM : s.ticks_cnt + 60 < UINT32_MOD)
    (hd1 : 3100 ≤ WN_Core.millisDiff now1 s.last_sampling_window_millis)
    (hd2 : WN_Core.millisDiff now2 now1 < 3100) :
    ∃ s2 evs,
      s.runTicks (WN_Core.windowTicks deg1 now1 ++ WN_Core.windowTicks deg2 now2)
        = some (s2, evs) ∧
      s2.RollingBuffer = s.RollingBuffer.addRawSample
        { pulses := 0,
          dir := ((s.VaneAverager.accumulateAll
              (List.replicate 30
                (1, wn_read_then_make_angle_sensor_sleep (deg1 * 16 / 256) (deg1 * 16 % 256)
                  % 360)
              ++ List.replicate 30
                (1, wn_read_then_make_angle_sensor_sleep (deg2 * 16 / 256) (deg2 * 16 % 256)
                  % 360))).computeReportFromAccumulatedValues
                wn_raw_wind_report_t.init).2.dir_avg,
          valid := true } := by
  obtain ⟨evs1, h1⟩ := runTicks_window_discard s deg1 now1 ht hl hp hw (by omega) hd1
  obtain ⟨evs2, h2⟩ := runTicks_window_keep
    ({ s with
        ticks_cnt := s.ticks_cnt + 30,
        VaneAverager := s.VaneAverager.accumulateAll (List.replicate 30
          (1, wn_read_then_make_angle_sensor_sleep (deg1 * 16 / 256) (deg1 * 16 % 256) % 360)),
        speed_pulse_count := 0,
        last_sampling_window_millis := now1 })
    deg2 now2 ht hl hp (by simp only; omega) (by simp only; omega) hd2
  have h := runTicks_append s (WN_Core.windowTicks deg1 now1) (WN_Core.windowTicks deg2 now2)
  rw [h1] at h
  simp only at h
  rw [h2] at h
  refine ⟨_, _, h, ?_⟩
  simp only [accumulateAll_accumulateAll, Nat.zero_mod]

end Run

/-! ## Claims on the window after a dropped window -/

/-- Over the reals, the direction reduced from 30 readings of `d` degrees followed by 30
readings of 0 degrees, for `d = 0` and `d = 90`. -/
theorem real_dir_two_windows :
    (((WN_VECTOR_AVERAGER.fresh : WN_VECTOR_AVERAGER ℝ).accumulateAll
        (List.replicate 30 (1, 0) ++ List.replicate 30 (1, 0))
      ).computeReportFromAccumulatedValues wn_raw_wind_report_t.init).2.dir_avg = 0 ∧
    (((WN_VECTOR_AVERAGER.fresh : WN_VECTOR_AVERAGER ℝ).accumulateAll
        (List.replicate 30 (1, 90) ++ List.replicate 30 (1, 0))
      ).computeReportFromAccumulatedValues wn_raw_wind_report_t.init).2.dir_avg = 45 := by
  have hcnt : ∀ d : Nat, ((WN_VECTOR_AVERAGER.fresh : WN_VECTOR_AVERAGER ℝ).accumulateAll
      (List.replicate 30 (1, d) ++ List.replicate 30 (1, 0))).cnt = 60 := by
    intro d
    rw [cnt_accumulateAll _ _ (by decide)]
    simp [WN_VECTOR_AVERAGER.fresh, UINT32_MOD]
  have hxy : ∀ d : Nat,
      ((WN_VECTOR_AVERAGER.fresh : WN_VECTOR_AVERAGER ℝ).accumulateAll
        (List.replicate 30 (1, d) ++ List.replicate 30 (1, 0))).x
          = 30 * Real.cos (d * (Real.pi / 180)) + 30 ∧
      ((WN_VECTOR_AVERAGER.fresh : WN_VECTOR_AVERAGER ℝ).accumulateAll
        (List.replicate 30 (1, d) ++ List.replicate 30 (1, 0))).y
          = 30 * Real.sin (d * (Real.pi / 180)) := by
    intro d
    rw [← accumulateAll_accumulateAll]
    obtain ⟨hx2, hy2⟩ := real_accumulateAll_replicate
      ((WN_VECTOR_AVERAGER.fresh : WN_VECTOR_AVERAGER ℝ).accumulateAll
        (List.replicate 30 (1, d))) 30 1 0
    obtain ⟨hx1, hy1⟩ := real_accumulateAll_replicate
      (WN_VECTOR_AVERAGER.fresh : WN_VECTOR_AVERAGER ℝ) 30 1 d
    rw [hx2, hy2, hx1, hy1]
    simp [WN_VECTOR_AVERAGER.fresh]
  constructor
  · rw [real_dir_avg _ (by rw [hcnt]; decide), (hxy 0).1, (hxy 0).2, hcnt]
    have harg : Complex.arg (Complex.mk
        ((30 * Real.cos (((0 : Nat) : ℝ) * (Real.pi / 180)) + 30) / ((60 : Nat) : ℝ))
        (30 * Real.sin (((0 : Nat) : ℝ) * (Real.pi / 180)) / ((60 : Nat) : ℝ))) = 0 := by
      rw [Complex.arg_eq_zero_iff]
      constructor <;> norm_num
    rw [harg]
    have hfloor : Nat.floor ((1 : ℝ) / 2) = 0 := Nat.floor_eq_zero.mpr (by norm_num)
    norm_num [hfloor]
  · rw [real_dir_avg _ (by rw [hcnt]; decide), (hxy 90).1, (hxy 90).2, hcnt]
    have h90 : ((90 : Nat) : ℝ) * (Real.pi / 180) = Real.pi / 2 := by
      push_cast
      ring
    have harg : Complex.arg (Complex.mk
        ((30 * Real.cos (((90 : Nat) : ℝ) * (Real.pi / 180)) + 30) / ((60 : Nat) : ℝ))
        (30 * Real.sin (((90 : Nat) : ℝ) * (Real.pi / 180)) / ((60 : Nat) : ℝ)))
          = Real.pi / 4 := by
      rw [h90, Real.cos_pi_div_two, Real.sin_pi_div_two,
        arg_eq_arctan_of_re_pos _ _ (by norm_num)]
      have : (30 * 1 / ((60 : Nat) : ℝ)) / ((30 * 0 + 30) / ((60 : Nat) : ℝ)) = 1 := by
        norm_num
      rw [this, Real.arctan_one]
    rw [harg]
    have hdeg : Real.pi / 4 * 180 / Real.pi = 45 := by
      field_simp
      ring
    rw [hdeg]
    have hfloor : Nat.floor ((45 : ℝ) + 1 / 2) = 45 := by
      rw [Nat.floor_eq_iff (by norm_num)]
      constructor <;> norm_num
    rw [if_neg (by norm_num), hfloor]

/-- C10 (the code at the failing input): two runs of 60 ticks from a fresh orchestrator
started at 0 ms that differ only in the angle readings of the first window, 0 degrees in
one and 90 degrees in the other.  The first window ends at 6000 ms and is dropped, the second
window, with readings of 0 degrees in both runs, ends at 9000 ms and is stored as the only
sample.  Its stored direction is 0 in the first run and 45 in the second. -/
theorem C10_dropped_window_readings_reach_next_sample :
    ∃ sA sB evsA evsB,
      (WN_Core.begin (WN_Core.new : WN_Core ℝ) 0).1.runTicks
          (WN_Core.windowTicks 0 6000 ++ WN_Core.windowTicks 0 9000) = some (sA, evsA) ∧
      (WN_Core.begin (WN_Core.new : WN_Core ℝ) 0).1.runTicks
          (WN_Core.windowTicks 90 6000 ++ WN_Core.windowTicks 0 9000) = some (sB, evsB) ∧
      sA.RollingBuffer.count = 1 ∧ sB.RollingBuffer.count = 1 ∧
      sA.RollingBuffer.get 0 = { pulses := 0, dir := 0, valid := true } ∧
      sB.RollingBuffer.get 0 = { pulses := 0, dir := 45, valid := true } := by
  obtain ⟨sA, evsA, hA, hrbA⟩ := runTicks_discard_then_keep
    (WN_Core.begin (WN_Core.new : WN_Core ℝ) 0).1 0 0 6000 9000 rfl rfl rfl
    (by decide) (by decide) (by decide) (by decide)
  obtain ⟨sB, evsB, hB, hrbB⟩ := runTicks_discard_then_keep
    (WN_Core.begin (WN_Core.new : WN_Core ℝ) 0).1 90 0 6000 9000 rfl rfl rfl
    (by decide) (by decide) (by decide) (by decide)
  have hlen : (WN_Core.begin (WN_Core.new : WN_Core ℝ) 0).1.RollingBuffer.samples.length = 200 := by
    simp only [WN_Core.begin, WN_Core.new, WN_ROLLINGBUFFER.fresh, List.length_replicate,
      ROLLING_BUFFER_LENGTH]
  have h0 : wn_read_then_make_angle_sensor_sleep (0 * 16 / 256) (0 * 16 % 256) % 360 = 0 := by
    decide
  have h90 : wn_read_then_make_angle_sensor_sleep (90 * 16 / 256) (90 * 16 % 256) % 360 = 90 := by
    decide
  have hfresh : (WN_Core.begin (WN_Core.new : WN_Core ℝ) 0).1.VaneAverager
      = WN_VECTOR_AVERAGER.fresh := rfl
  rw [h0, hfresh, real_dir_two_windows.1] at hrbA
  rw [h0, h90, hfresh, real_dir_two_windows.2] at hrbB
  refine ⟨sA, sB, evsA, evsB, hA, hB, ?_, ?_, ?_, ?_⟩
  · rw [hrbA]; rfl
  · rw [hrbB]; rfl
  · rw [hrbA, get_addRawSample_zero _ hlen]
  · rw [hrbB, get_addRawSample_zero _ hlen]

/-! ## Claims on the stored window sample -/

/-- The sensor result has 9 bits. -/
theorem wn_read_then_make_angle_sensor_sleep_le (b0 b1 : Nat) :
    wn_read_then_make_angle_sensor_sleep b0 b1 ≤ 511 := by
  unfold wn_read_then_make_angle_sensor_sleep
  have h : ((b0 <<< 8 + b1) % UINT16_MOD) &&& 8191 ≤ 8191 := Nat.and_le_right
  simp only [Nat.shiftRight_eq_div_pow]
  omega

/-- An angle reading writes the north LED once. -/
theorem signalIfNorth_northLed_length {G : Type} (s : WN_Core G) (angle : Nat) :
    ((s.signalIfNorth angle).filter Event.isNorthLed).length = 1 := by
  unfold WN_Core.signalIfNorth
  split <;> rfl

section
variable {F : Type} [Add F] [Mul F] [Div F] [NatCast F] [RatCast F] [FloatFns F]

/-- The angle accumulated by the first block of `loop()`. -/
theorem loopVane_eq (s : WN_Core F) (env : LoopEnv) :
    (s.loopVane env).1.VaneAverager
        = (if s.low_power_mode = false ∨ s.ticks_cnt % 5 = 0 then
            s.VaneAverager.accumulate 1
              (if s._invert_polarity = true then
                (wn_read_then_make_angle_sensor_sleep env.angle_result0 env.angle_result1 + 180)
                  % 360
               else wn_read_then_make_angle_sensor_sleep env.angle_result0 env.angle_result1
                  % 360)
           else s.VaneAverager) ∧
      ((s.loopVane env).2.filter Event.isNorthLed).length
        = (if s.low_power_mode = false ∨ s.ticks_cnt % 5 = 0 then 1 else 0) := by
  have hr := wn_read_then_make_angle_sensor_sleep_le env.angle_result0 env.angle_result1
  unfold WN_Core.loopVane
  by_cases hc : s.low_power_mode = false ∨ s.ticks_cnt % 5 = 0
  · have hb : (!s.low_power_mode || s.ticks_cnt % LOW_POWER_VANE_TICKS == 0) = true := by
      simp only [LOW_POWER_VANE_TICKS, Bool.or_eq_true, Bool.not_eq_true', beq_iff_eq]
      exact hc
    rw [if_pos hb, if_pos hc, if_pos hc]
    constructor
    · by_cases hp : s._invert_polarity = true
      · simp only [hp, if_true]
        have : (wn_read_then_make_angle_sensor_sleep env.angle_result0 env.angle_result1 + 180)
            % UINT16_MOD % 360
            = (wn_read_then_make_angle_sensor_sleep env.angle_result0 env.angle_result1 + 180)
              % 360 := by
          simp only [UINT16_MOD]
          omega
        rw [this]
      · simp only [hp, if_false]
        rfl
    · exact signalIfNorth_northLed_length s _
  · have hb : ¬ (!s.low_power_mode || s.ticks_cnt % LOW_POWER_VANE_TICKS == 0) = true := by
      simp only [LOW_POWER_VANE_TICKS, Bool.or_eq_true, Bool.not_eq_true', beq_iff_eq]
      exact hc
    rw [if_neg hb, if_neg hc, if_neg hc]
    exact ⟨rfl, rfl⟩

/-- The second block of `loop()` leaves the averager alone or reduces it, and writes no
LED. -/
theorem loopWindow_vane (s : WN_Core F) (env : LoopEnv) :
    (s.ticks_cnt % 30 ≠ 0 → (s.loopWindow env).1.VaneAverager = s.VaneAverager) ∧
    ((s.loopWindow env).1.VaneAverager = s.VaneAverager ∨
      (s.loopWindow env).1.VaneAverager
        = (s.VaneAverager.computeReportFromAccumulatedValues wn_raw_wind_report_t.init).1) ∧
    (s.loopWindow env).2.filter Event.isNorthLed = [] := by
  refine ⟨fun h => by rw [loopWindow_skip s env h], ?_, ?_⟩
  · unfold WN_Core.loopWindow
    split
    · split
      · exact Or.inr rfl
      · exact Or.inl rfl
    · exact Or.inl rfl
  · unfold WN_Core.loopWindow
    split
    · split
      · simp only [WN_Core.triggerInstantWindCb]
        split <;> rfl
      · rfl
    · rfl

/-- The third block of `loop()` writes no LED. -/
theorem loopReport_no_northLed (s : WN_Core F) (evs : List (Event F))
    (h : s.loopReport = some evs) : evs.filter Event.isNorthLed = [] := by
  unfold WN_Core.loopReport at h
  split at h
  · split at h
    · exact absurd h (by simp)
    · simp only [Option.some.injEq] at h
      subst h
      simp only [WN_Core.triggerAvgWindCb]
      split <;> rfl
  · simp only [Option.some.injEq] at h
    subst h
    rfl

end

/-- The instant-wind callback events are instant-wind events. -/
theorem filter_triggerInstantWindCb {G : Type} (s : WN_Core G)
    (x : wn_instant_wind_sample_t G) :
    (s.triggerInstantWindCb x).filter Event.isInstantWind = s.triggerInstantWindCb x := by
  unfold WN_Core.triggerInstantWindCb
  split <;> rfl

section
variable {F : Type} [Add F] [Mul F] [Div F] [NatCast F] [RatCast F] [FloatFns F]

/-- A call of `loop()` at a window boundary whose elapsed time is below 3100 ms: the state
after the call and the invocations of the instant-wind callback. -/
theorem loop_window_keep_instant (s : WN_Core F) (env : LoopEnv) (ht : s.wn_ticker = true)
    (hw : (s.ticks_cnt + 1) % UINT32_MOD % 30 = 0)
    (hd : WN_Core.millisDiff env.millis_check s.last_sampling_window_millis < 3100) :
    ∃ evs, s.loop env = some
        ({ s with
            wn_ticker := false,
            ticks_cnt := (s.ticks_cnt + 1) % UINT32_MOD,
            VaneAverager :=
              ((({ s with wn_ticker := false, ticks_cnt := (s.ticks_cnt + 1) % UINT32_MOD }
                ).loopVane env).1.VaneAverager.computeReportFromAccumulatedValues
                  wn_raw_wind_report_t.init).1,
            speed_pulse_count := 0,
            last_sampling_window_millis := env.millis_stamp,
            RollingBuffer := s.RollingBuffer.addRawSample
              { pulses := s.speed_pulse_count % UINT16_MOD,
                dir := ((({ s with wn_ticker := false,
                                   ticks_cnt := (s.ticks_cnt + 1) % UINT32_MOD }
                  ).loopVane env).1.VaneAverager.computeReportFromAccumulatedValues
                    wn_raw_wind_report_t.init).2.dir_avg,
                valid := true } }, evs) ∧
      evs.filter Event.isInstantWind
        = s.triggerInstantWindCb (s.formatRawSample
            { pulses := s.speed_pulse_count % UINT16_MOD,
              dir := ((({ s with wn_ticker := false,
                                 ticks_cnt := (s.ticks_cnt + 1) % UINT32_MOD }
                ).loopVane env).1.VaneAverager.computeReportFromAccumulatedValues
                  wn_raw_wind_report_t.init).2.dir_avg,
              valid := true }) := by
  rw [loop_of_ticker s env ht]
  obtain ⟨hv, hve⟩ := loopVane_frame
    ({ s with wn_ticker := false, ticks_cnt := (s.ticks_cnt + 1) % UINT32_MOD }) env
  generalize ({ s with wn_ticker := false, ticks_cnt := (s.ticks_cnt + 1) % UINT32_MOD }
    ).loopVane env = v at hv hve ⊢
  have hw2 : v.1.ticks_cnt % 30 = 0 := by rw [hv]; exact hw
  have hd2 : WN_Core.millisDiff env.millis_check v.1.last_sampling_window_millis < 3100 := by
    rw [hv]; exact hd
  rw [loopWindow_keep v.1 env hw2 hd2]
  obtain ⟨evs, hr, hre⟩ := loopReport_some
    ({ v.1 with
        VaneAverager :=
          (v.1.VaneAverager.computeReportFromAccumulatedValues wn_raw_wind_report_t.init).1,
        speed_pulse_count := 0,
        last_sampling_window_millis := env.millis_stamp,
        RollingBuffer := v.1.RollingBuffer.addRawSample
          { pulses := v.1.speed_pulse_count % UINT16_MOD,
            dir := (v.1.VaneAverager.computeReportFromAccumulatedValues
              wn_raw_wind_report_t.init).2.dir_avg,
            valid := true } })
  rw [hr]
  have hf1 : v.2.filter Event.isInstantWind = [] :=
    List.filter_eq_nil_iff.mpr (fun e he => by rw [hve e he]; exact Bool.false_ne_true)
  have hf3 : evs.filter Event.isInstantWind = [] :=
    List.filter_eq_nil_iff.mpr (fun e he => by rw [hre e he]; exact Bool.false_ne_true)
  refine ⟨v.2 ++ [Event.speedLed false]
    ++ v.1.triggerInstantWindCb (v.1.formatRawSample
        { pulses := v.1.speed_pulse_count % UINT16_MOD,
          dir := (v.1.VaneAverager.computeReportFromAccumulatedValues
            wn_raw_wind_report_t.init).2.dir_avg,
          valid := true }) ++ evs, ?_, ?_⟩
  · simp only [Option.some.injEq, Prod.mk.injEq, and_true]
    conv_lhs => rw [hv]
  · rw [List.filter_append, List.filter_append, List.filter_append, hf1, hf3,
      filter_triggerInstantWindCb]
    simp only [List.nil_append, List.append_nil]
    conv_lhs => rw [hv]
    rfl

end

/-- C11 (amended): when `loop()` processes a tick whose count is a multiple of 30 and the
drift check passes, exactly one sample is appended to the rolling buffer, with pulses equal
to the shared pulse counter reduced modulo 2 ^ 16 (the sample field is a `uint16_t`), dir
equal to the direction reduced from the short-window accumulator (which holds the reading
of this tick) and valid = true; the pulse counter is then 0 and the accumulator count is 0;
`x` and `y` are reset to 0 unless the 32-bit observation count wrapped to 0 on this tick;
and the instant-wind callback, if set, is invoked exactly once, with
speed = pulsesToSpeedUnitInUse(stored pulses) and that same dir. -/
theorem C11_window_sample_stored_and_reported {F : Type} [Add F] [Mul F] [Div F]
    [NatCast F] [RatCast F] [FloatFns F] (s : WN_Core F) (env : LoopEnv)
    (ht : s.wn_ticker = true) (hw : (s.ticks_cnt + 1) % 4294967296 % 30 = 0)
    (hd : WN_Core.millisDiff env.millis_check s.last_sampling_window_millis < 3100) :
    ∃ s2 evs, s.loop env = some (s2, evs) ∧
      s2.RollingBuffer = s.RollingBuffer.addRawSample
        { pulses := s.speed_pulse_count % 65536,
          dir := ((s.VaneAverager.accumulate 1
            (if s._invert_polarity = true then
              (wn_read_then_make_angle_sensor_sleep env.angle_result0 env.angle_result1 + 180)
                % 360
             else wn_read_then_make_angle_sensor_sleep env.angle_result0 env.angle_result1
                % 360)).computeReportFromAccumulatedValues wn_raw_wind_report_t.init).2.dir_avg,
          valid := true } ∧
      s2.speed_pulse_count = 0 ∧
      s2.VaneAverager = ((s.VaneAverager.accumulate 1
            (if s._invert_polarity = true then
              (wn_read_then_make_angle_sensor_sleep env.angle_result0 env.angle_result1 + 180)
                % 360
             else wn_read_then_make_angle_sensor_sleep env.angle_result0 env.angle_result1
                % 360)).computeReportFromAccumulatedValues wn_raw_wind_report_t.init).1 ∧
      s2.VaneAverager.cnt = 0 ∧
      ((s.VaneAverager.cnt + 1) % 4294967296 ≠ 0 →
        s2.VaneAverager.x = ((0 : Nat) : F) ∧ s2.VaneAverager.y = ((0 : Nat) : F)) ∧
      evs.filter Event.isInstantWind
        = (if s.instantWindCb = true then
            [Event.instantWind
              { speed := s.pulsesToSpeedUnitInUse ((s.speed_pulse_count % 65536 : Nat) : F),
                dir := ((s.VaneAverager.accumulate 1
                  (if s._invert_polarity = true then
                    (wn_read_then_make_angle_sensor_sleep env.angle_result0 env.angle_result1
                      + 180) % 360
                   else wn_read_then_make_angle_sensor_sleep env.angle_result0
                      env.angle_result1 % 360)).computeReportFromAccumulatedValues
                        wn_raw_wind_report_t.init).2.dir_avg }]
           else []) := by
  obtain ⟨evs, h, hev⟩ := loop_window_keep_instant s env ht hw hd
  have hacc := (loopVane_eq
    ({ s with wn_ticker := false, ticks_cnt := (s.ticks_cnt + 1) % UINT32_MOD }) env).1
  have hcond : s.low_power_mode = false ∨ (s.ticks_cnt + 1) % UINT32_MOD % 5 = 0 := by
    right
    simp only [UINT32_MOD]
    omega
  simp only [if_pos hcond] at hacc
  rw [hacc] at h hev
  refine ⟨_, evs, h, rfl, rfl, rfl, cnt_computeReport _ _, ?_, ?_⟩
  · intro hne
    have hc : (s.VaneAverager.accumulate 1
        (if s._invert_polarity = true then
          (wn_read_then_make_angle_sensor_sleep env.angle_result0 env.angle_result1 + 180) % 360
         else wn_read_then_make_angle_sensor_sleep env.angle_result0 env.angle_result1
            % 360)).cnt ≠ 0 := hne
    simp only [WN_VECTOR_AVERAGER.computeReportFromAccumulatedValues, if_neg hc, and_self]
  · rw [hev]
    unfold WN_Core.triggerInstantWindCb
    by_cases hcb : s.instantWindCb = true
    · rw [if_pos hcb, if_pos hcb]
      rfl
    · rw [if_neg hcb, if_neg hcb]

/-- Witness of C11: the 30th tick of a fresh orchestrator with 7 counted pulses, seen 3000 ms
after the last window boundary. -/
theorem C11_window_sample_stored_and_reported_witness :
    ∃ s2 evs,
      ({ (WN_Core.new : WN_Core ℝ) with
          ticks_cnt := 29, wn_ticker := true, instantWindCb := true,
          speed_pulse_count := 7 }).loop
        { angle_result0 := 0, angle_result1 := 0, millis_check := 3000, millis_stamp := 3000 }
        = some (s2, evs) ∧
      s2.speed_pulse_count = 0 ∧ s2.VaneAverager.cnt = 0 := by
  obtain ⟨s2, evs, h, -, h0, -, hc, -⟩ := C11_window_sample_stored_and_reported
    ({ (WN_Core.new : WN_Core ℝ) with
        ticks_cnt := 29, wn_ticker := true, instantWindCb := true, speed_pulse_count := 7 })
    { angle_result0 := 0, angle_result1 := 0, millis_check := 3000, millis_stamp := 3000 }
    rfl (by decide) (by decide)
  exact ⟨s2, evs, h, h0, hc⟩

/-- Counterexample to C11 as stated: the 30th tick of an orchestrator whose pulse counter
holds 65543 and whose accumulator holds `x = 1` with an observation count of 2 ^ 32 - 1, seen
3000 ms after the last window boundary.  The drift check passes and a sample is stored, but
its pulses are 7, not the counter value 65543; and the accumulator is not reset: its count
has wrapped to 0, the reduction is skipped and `x` is 2. -/
theorem C11_counterexample_pulses_truncated_and_no_reset :
    ∃ s2 evs,
      ({ (WN_Core.new : WN_Core ℝ) with
          ticks_cnt := 29, wn_ticker := true, instantWindCb := true,
          speed_pulse_count := 65543,
          VaneAverager := { x := 1, y := 0, cnt := 4294967295, wind_max := 1, wind_min := 1 }
          }).loop
        { angle_result0 := 0, angle_result1 := 0, millis_check := 3000, millis_stamp := 3000 }
        = some (s2, evs) ∧
      (29 + 1) % 4294967296 % 30 = 0 ∧
      WN_Core.millisDiff 3000 0 < 3100 ∧
      (s2.RollingBuffer.get 0).pulses = 7 ∧
      ¬ (s2.RollingBuffer.get 0).pulses = 65543 ∧
      s2.VaneAverager.x = 2 ∧
      ¬ s2.VaneAverager.x = 0 := by
  obtain ⟨evs, h⟩ := loop_window_keep
    ({ (WN_Core.new : WN_Core ℝ) with
        ticks_cnt := 29, wn_ticker := true, instantWindCb := true,
        speed_pulse_count := 65543,
        VaneAverager := { x := 1, y := 0, cnt := 4294967295, wind_max := 1, wind_min := 1 } })
    { angle_result0 := 0, angle_result1 := 0, millis_check := 3000, millis_stamp := 3000 }
    rfl (by decide) (by decide)
  have hacc := loopVane_not_low_power
    ({ ({ (WN_Core.new : WN_Core ℝ) with
        ticks_cnt := 29, wn_ticker := true, instantWindCb := true,
        speed_pulse_count := 65543,
        VaneAverager := { x := 1, y := 0, cnt := 4294967295, wind_max := 1, wind_min := 1 } })
      with wn_ticker := false, ticks_cnt := (29 + 1) % UINT32_MOD })
    { angle_result0 := 0, angle_result1 := 0, millis_check := 3000, millis_stamp := 3000 }
    rfl
  simp only at h
  rw [hacc] at h
  have hcnt : (WN_VECTOR_AVERAGER.accumulate
      ({ x := 1, y := 0, cnt := 4294967295, wind_max := 1, wind_min := 1 } :
        WN_VECTOR_AVERAGER ℝ) 1 0).cnt = 0 := by
    simp only [WN_VECTOR_AVERAGER.accumulate, UINT32_MOD]
  have hx : (WN_VECTOR_AVERAGER.accumulate
      ({ x := 1, y := 0, cnt := 4294967295, wind_max := 1, wind_min := 1 } :
        WN_VECTOR_AVERAGER ℝ) 1 0).x = 2 := by
    rw [real_accumulate_x]
    norm_num
  have hsel : (if (WN_Core.new : WN_Core ℝ)._invert_polarity = true then
      (wn_read_then_make_angle_sensor_sleep 0 0 + 180) % UINT16_MOD
      else wn_read_then_make_angle_sensor_sleep 0 0) % 360 = 0 := by
    decide
  simp only [hsel] at h
  rw [computeReport_of_cnt_zero _ hcnt] at h
  have hlen : (WN_Core.new : WN_Core ℝ).RollingBuffer.samples.length = 200 := by
    simp only [WN_Core.new, WN_ROLLINGBUFFER.fresh, List.length_replicate,
      ROLLING_BUFFER_LENGTH]
  refine ⟨_, evs, h, by decide, by decide, ?_, ?_, ?_, ?_⟩
  · simp only
    rw [get_addRawSample_zero _ hlen]
    decide
  · simp only
    rw [get_addRawSample_zero _ hlen]
    decide
  · exact hx
  · simp only
    rw [hx]
    norm_num

/-! ## Claims on the period report -/

section
variable {F : Type} [Add F] [Mul F] [Div F] [NatCast F] [RatCast F] [FloatFns F]

/-- Feeding an averager the valid samples among those at the ages `ages`, in order: the body of
the `for` loop of the period report. -/
theorem foldl_feed_eq_accumulateAll (rb : WN_ROLLINGBUFFER) (ages : List Nat) :
    ∀ avg : WN_VECTOR_AVERAGER F,
      ages.foldl (fun a i => if (rb.get i).valid then a.accumulateSample (rb.get i) else a) avg
        = avg.accumulateAll
            (((ages.map rb.get).filter (fun x => x.valid)).map (fun x => (x.pulses, x.dir))) := by
  induction ages with
  | nil => intro avg; rfl
  | cons i rest ih =>
    intro avg
    rw [List.foldl_cons, ih, List.map_cons]
    by_cases hv : (rb.get i).valid = true
    · rw [if_pos hv, List.filter_cons_of_pos hv, List.map_cons]
      rfl
    · rw [if_neg hv, List.filter_cons_of_neg hv]

/-- The `for` loop of the period report, when its bound fits in 16 bits: it visits the ages
`i`, `i + 1`, ..., `bound - 1` once each. -/
theorem periodLoop_eq_foldl (rb : WN_ROLLINGBUFFER) (fuel : Nat) :
    ∀ (i bound : Nat) (avg : WN_VECTOR_AVERAGER F), i ≤ bound → bound < UINT16_MOD →
      bound - i < fuel →
      WN_Core.periodLoop rb fuel i bound avg
        = some ((List.range' i (bound - i)).foldl
            (fun a j => if (rb.get j).valid then a.accumulateSample (rb.get j) else a) avg) := by
  induction fuel with
  | zero =>
    intro i bound avg _ _ hfuel
    omega
  | succ n ih =>
    intro i bound avg hi hb hfuel
    unfold WN_Core.periodLoop
    by_cases hlt : i < bound
    · rw [if_pos hlt]
      have hnext : (i + 1) % UINT16_MOD = i + 1 := Nat.mod_eq_of_lt (by omega)
      have hlen : bound - i = (bound - (i + 1)) + 1 := by omega
      rw [hnext, ih (i + 1) bound _ (by omega) hb (by omega), hlen, List.range'_succ,
        List.foldl_cons]
    · rw [if_neg hlt]
      have hz : bound - i = 0 := by omega
      rw [hz]
      rfl

/-- The report over the most recent period reduces a fresh averager fed the valid samples at
the ages below `period / 3` (taken as a `uint16_t`). -/
theorem computeReportForRecentPeriodInSec_eq (s : WN_Core F) (period : Nat) :
    s.computeReportForRecentPeriodInSec period
      = some (s.formatRawReport
          (((WN_VECTOR_AVERAGER.fresh : WN_VECTOR_AVERAGER F).accumulateAll
            ((((List.range (period / 3 % 65536)).map s.RollingBuffer.get).filter
              (fun x => x.valid)).map (fun x => (x.pulses, x.dir)))
            ).computeReportFromAccumulatedValues wn_raw_wind_report_t.init).2) := by
  unfold WN_Core.computeReportForRecentPeriodInSec
    WN_Core.computeReportForPeriodInSecIndexedFromLast
  have hs : SAMPLING_WINDOW_TICKS / TICK_HZ = 3 := by decide
  have hshift : (0 * period / 3) % UINT16_MOD = 0 := by simp
  have hb : period / 3 % UINT16_MOD < UINT16_MOD := Nat.mod_lt _ (by decide)
  simp only [hs, hshift, Nat.add_zero, Nat.zero_mod]
  rw [periodLoop_eq_foldl s.RollingBuffer WN_Core.PERIOD_LOOP_FUEL 0 (period / 3 % UINT16_MOD)
    _ (Nat.zero_le _) hb (by simp only [WN_Core.PERIOD_LOOP_FUEL, UINT16_MOD] at hb ⊢; omega)]
  simp only [Nat.sub_zero, foldl_feed_eq_accumulateAll, ← List.range_eq_range', UINT16_MOD]

end

/-- C12: for every orchestrator state (so for every rolling-buffer state) and every period
`p` with 3 <= p <= 600, `computeReportForRecentPeriodInSec(p)` returns, and the report it
returns is the unit conversion of the raw report `raw` reduced from a fresh accumulator fed
exactly the samples at ages 0, 1, ..., floor(p / 3) - 1 that are valid, in that order:
avg_dir is `raw.dir_avg`, and avg_speed, min_speed and max_speed are `raw.pulses_avg`,
`raw.pulses_min` and `raw.pulses_max` times the calibration constant, divided by the 3 s of
a window, and then times 1.94384 for knots, 3.6 for km/h, 2.23694 for mph.  Every age at or
beyond the live count reads as invalid and is therefore skipped.  The method writes no
member: the embedding returns its result only, so the rolling buffer and the short-window
accumulator of the state are the same before and after. -/
theorem C12_recent_period_report_is_unit_converted_reduction {F : Type} [Add F] [Mul F]
    [Div F] [NatCast F] [RatCast F] [FloatFns F] (s : WN_Core F) (p : Nat)
    (h3 : 3 ≤ p) (h600 : p ≤ 600) :
    (∃ raw : wn_raw_wind_report_t F,
      raw = (((WN_VECTOR_AVERAGER.fresh : WN_VECTOR_AVERAGER F).accumulateAll
          ((((List.range (p / 3)).map s.RollingBuffer.get).filter
            (fun x => x.valid)).map (fun x => (x.pulses, x.dir)))
          ).computeReportFromAccumulatedValues wn_raw_wind_report_t.init).2 ∧
      s.computeReportForRecentPeriodInSec p = some
        { avg_dir := raw.dir_avg
          avg_speed :=
            if s._unit_in_use = UNIT_MS then raw.pulses_avg * s._HZ_to_ms / ((3 : Nat) : F)
            else if s._unit_in_use = UNIT_KN then
              raw.pulses_avg * s._HZ_to_ms / ((3 : Nat) : F) * ((194384 / 100000 : ℚ) : F)
            else if s._unit_in_use = UNIT_KPH then
              raw.pulses_avg * s._HZ_to_ms / ((3 : Nat) : F) * ((36 / 10 : ℚ) : F)
            else if s._unit_in_use = UNIT_MPH then
              raw.pulses_avg * s._HZ_to_ms / ((3 : Nat) : F) * ((223694 / 100000 : ℚ) : F)
            else raw.pulses_avg * s._HZ_to_ms / ((3 : Nat) : F)
          min_speed :=
            if s._unit_in_use = UNIT_MS then
              (raw.pulses_min : F) * s._HZ_to_ms / ((3 : Nat) : F)
            else if s._unit_in_use = UNIT_KN then
              (raw.pulses_min : F) * s._HZ_to_ms / ((3 : Nat) : F) * ((194384 / 100000 : ℚ) : F)
            else if s._unit_in_use = UNIT_KPH then
              (raw.pulses_min : F) * s._HZ_to_ms / ((3 : Nat) : F) * ((36 / 10 : ℚ) : F)
            else if s._unit_in_use = UNIT_MPH then
              (raw.pulses_min : F) * s._HZ_to_ms / ((3 : Nat) : F) * ((223694 / 100000 : ℚ) : F)
            else (raw.pulses_min : F) * s._HZ_to_ms / ((3 : Nat) : F)
          max_speed :=
            if s._unit_in_use = UNIT_MS then
              (raw.pulses_max : F) * s._HZ_to_ms / ((3 : Nat) : F)
            else if s._unit_in_use = UNIT_KN then
              (raw.pulses_max : F) * s._HZ_to_ms / ((3 : Nat) : F) * ((194384 / 100000 : ℚ) : F)
            else if s._unit_in_use = UNIT_KPH then
              (raw.pulses_max : F) * s._HZ_to_ms / ((3 : Nat) : F) * ((36 / 10 : ℚ) : F)
            else if s._unit_in_use = UNIT_MPH then
              (raw.pulses_max : F) * s._HZ_to_ms / ((3 : Nat) : F) * ((223694 / 100000 : ℚ) : F)
            else (raw.pulses_max : F) * s._HZ_to_ms / ((3 : Nat) : F) }) ∧
    ∀ i, s.RollingBuffer.count ≤ i → (s.RollingBuffer.get i).valid = false := by
  constructor
  · refine ⟨_, rfl, ?_⟩
    rw [computeReportForRecentPeriodInSec_eq]
    have hmod : p / 3 % 65536 = p / 3 := Nat.mod_eq_of_lt (by omega)
    rw [hmod]
    rfl
  · intro i hi
    have hge : i ≥ s.RollingBuffer.count := hi
    simp only [WN_ROLLINGBUFFER.get, hge, if_true]

/-- Witness of C12: a buffer that received the samples (7, 10), (3, 45), (5, 90), and the
period 12 s, in single precision with the settings of the constructor (calibration constant
1.31, m/s).  The ages 0, 1, 2, 3 are visited; age 3 is beyond the live count and is skipped,
so the accumulator is fed (5, 90), (3, 45), (7, 10), and the report is the conversion of its
reduction. -/
theorem C12_recent_period_report_is_unit_converted_reduction_witness :
    3 ≤ 12 ∧ 12 ≤ 600 ∧
    ((((List.range (12 / 3)).map
        (WN_ROLLINGBUFFER.addSamples [(7, 10), (3, 45), (5, 90)]).get).filter
          (fun x => x.valid)).map (fun x => (x.pulses, x.dir))) = [(5, 90), (3, 45), (7, 10)] ∧
    ({ (WN_Core.new : WN_Core Binary32) with
        RollingBuffer := WN_ROLLINGBUFFER.addSamples [(7, 10), (3, 45), (5, 90)]
      }).computeReportForRecentPeriodInSec 12 = some
      { avg_dir :=
          (((WN_VECTOR_AVERAGER.fresh : WN_VECTOR_AVERAGER Binary32).accumulateAll
            [(5, 90), (3, 45), (7, 10)]).computeReportFromAccumulatedValues
              wn_raw_wind_report_t.init).2.dir_avg
        avg_speed :=
          (((WN_VECTOR_AVERAGER.fresh : WN_VECTOR_AVERAGER Binary32).accumulateAll
            [(5, 90), (3, 45), (7, 10)]).computeReportFromAccumulatedValues
              wn_raw_wind_report_t.init).2.pulses_avg
            * ((131 / 100 : ℚ) : Binary32) / ((3 : Nat) : Binary32)
        min_speed := ((3 : Nat) : Binary32) * ((131 / 100 : ℚ) : Binary32) / ((3 : Nat) : Binary32)
        max_speed :=
          ((7 : Nat) : Binary32) * ((131 / 100 : ℚ) : Binary32) / ((3 : Nat) : Binary32) } := by
  have hfed : ((((List.range (12 / 3)).map
      (WN_ROLLINGBUFFER.addSamples [(7, 10), (3, 45), (5, 90)]).get).filter
        (fun x => x.valid)).map (fun x => (x.pulses, x.dir)))
      = [(5, 90), (3, 45), (7, 10)] := by decide
  obtain ⟨raw, hraw, hrep⟩ := (C12_recent_period_report_is_unit_converted_reduction
    ({ (WN_Core.new : WN_Core Binary32) with
        RollingBuffer := WN_ROLLINGBUFFER.addSamples [(7, 10), (3, 45), (5, 90)] })
    12 (by decide) (by decide)).1
  refine ⟨by decide, by decide, hfed, ?_⟩
  rw [hrep, hraw]
  rfl

/-! ## Claim on the end-to-end steady wind -/

section
variable {F : Type} [Add F] [Mul F] [Div F] [NatCast F] [RatCast F] [FloatFns F]

/-- Speed pulses only advance the pulse counter. -/
theorem speedPulses_eq {G : Type} (s : WN_Core G) (n : Nat) (h : s.speed_pulse_count + n < UINT32_MOD) :
    s.speedPulses n = { s with speed_pulse_count := s.speed_pulse_count + n } := by
  induction n with
  | zero => rfl
  | succ k ih =>
    rw [WN_Core.speedPulses, ih (by omega)]
    simp only [WN_Core.onSpeedPulseISR, WN_Core.mk.injEq, true_and, and_true]
    rw [Nat.mod_eq_of_lt (by omega)]
    omega

/-- A run is the run of its first part followed by the run of the rest. -/
theorem runPulsedTicks_append (l1 l2 : List (Nat × LoopEnv)) :
    ∀ s : WN_Core F, s.runPulsedTicks (l1 ++ l2)
      = match s.runPulsedTicks l1 with
        | none => none
        | some s1 => s1.runPulsedTicks l2 := by
  induction l1 with
  | nil => intro s; rfl
  | cons pe rest ih =>
    intro s
    rw [List.cons_append, WN_Core.runPulsedTicks, WN_Core.runPulsedTicks]
    cases (s.speedPulses pe.1).timerTick pe.2 with
    | none => rfl
    | some r => exact ih r.1

/-- A run of timer periods with the same reading inside one window, `ps` listing the pulses
of each period. -/
theorem runPulsedTicks_plain (env : LoopEnv) (ps : List Nat) :
    ∀ s : WN_Core F, s.wn_ticker = false → s.low_power_mode = false →
      s._invert_polarity = false → s.ticks_cnt % 30 + ps.length < 30 →
      s.ticks_cnt + ps.length < UINT32_MOD → s.speed_pulse_count + ps.sum < UINT32_MOD →
      s.runPulsedTicks (ps.map (fun n => (n, env))) = some
        { s with
            ticks_cnt := s.ticks_cnt + ps.length,
            VaneAverager := s.VaneAverager.accumulateAll (List.replicate ps.length
              (1, wn_read_then_make_angle_sensor_sleep env.angle_result0 env.angle_result1
                % 360)),
            speed_pulse_count := s.speed_pulse_count + ps.sum } := by
  induction ps with
  | nil =>
    intro s _ _ _ _ _ _
    rfl
  | cons n rest ih =>
    intro s ht hl hp hw hM hS
    simp only [List.length_cons, List.sum_cons] at hw hM hS
    obtain ⟨evs1, h1⟩ := tick_plain
      ({ s with speed_pulse_count := s.speed_pulse_count + n }) env hl hp
      (by simp only; omega) (by simp only; omega)
    have h2 := ih
      ({ s with
          wn_ticker := false,
          ticks_cnt := s.ticks_cnt + 1,
          VaneAverager := s.VaneAverager.accumulate 1
            (wn_read_then_make_angle_sensor_sleep env.angle_result0 env.angle_result1 % 360),
          speed_pulse_count := s.speed_pulse_count + n })
      rfl hl hp (by simp only; omega) (by simp only; omega) (by simp only; omega)
    rw [List.map_cons, WN_Core.runPulsedTicks, speedPulses_eq s n (by omega), h1]
    simp only
    rw [h2]
    simp only [List.length_cons, List.sum_cons, Option.some.injEq, WN_Core.mk.injEq, true_and,
      and_true]
    refine ⟨by omega, ?_, ht.symm, by omega⟩
    rfl

/-- One whole sampling window that passes the drift check, followed by further periods: the
accumulator is reduced and one sample, holding the pulses counted in the window, is
stored. -/
theorem runPulsedTicks_window (s : WN_Core F) (deg : Nat) (w : List Nat × Nat × Nat)
    (rest : List (Nat × LoopEnv)) (ht : s.wn_ticker = false)
    (hl : s.low_power_mode = false) (hp : s._invert_polarity = false)
    (hw : s.ticks_cnt % 30 = 0) (hM : s.ticks_cnt + 30 < UINT32_MOD)
    (hlen : w.1.length = 29)
    (hS : s.speed_pulse_count + w.1.sum + w.2.1 < UINT32_MOD)
    (hd : WN_Core.millisDiff w.2.2 s.last_sampling_window_millis < 3100) :
    s.runPulsedTicks (WN_Core.pulsedWindow deg w ++ rest)
      = WN_Core.runPulsedTicks
        ({ s with
            ticks_cnt := s.ticks_cnt + 30,
            VaneAverager :=
              ((s.VaneAverager.accumulateAll (List.replicate 30
                (1, wn_read_then_make_angle_sensor_sleep (deg * 16 / 256) (deg * 16 % 256)
                  % 360))).computeReportFromAccumulatedValues wn_raw_wind_report_t.init).1,
            speed_pulse_count := 0,
            last_sampling_window_millis := w.2.2,
            RollingBuffer := s.RollingBuffer.addRawSample
              { pulses := (s.speed_pulse_count + w.1.sum + w.2.1) % UINT16_MOD,
                dir := ((s.VaneAverager.accumulateAll (List.replicate 30
                  (1, wn_read_then_make_angle_sensor_sleep (deg * 16 / 256) (deg * 16 % 256)
                    % 360))).computeReportFromAccumulatedValues
                      wn_raw_wind_report_t.init).2.dir_avg,
                valid := true } }) rest := by
  have h1 := runPulsedTicks_plain (WN_Core.tickEnv deg 0) w.1 s ht hl hp (by omega) (by omega)
    (by omega)
  obtain ⟨evs2, h2⟩ := tick_window_keep
    ({ s with
        ticks_cnt := s.ticks_cnt + 29,
        VaneAverager := s.VaneAverager.accumulateAll (List.replicate 29
          (1, wn_read_then_make_angle_sensor_sleep (WN_Core.tickEnv deg 0).angle_result0
            (WN_Core.tickEnv deg 0).angle_result1 % 360)),
        speed_pulse_count := s.speed_pulse_count + w.1.sum + w.2.1 })
    (WN_Core.tickEnv deg w.2.2) hl hp (by simp only; omega) (by simp only; omega) hd
  have hacc := accumulateAll_replicate_succ s.VaneAverager 29
    (1, wn_read_then_make_angle_sensor_sleep (deg * 16 / 256) (deg * 16 % 256) % 360)
  simp only [WN_Core.tickEnv] at hacc h2
  rw [hacc] at h2
  unfold WN_Core.pulsedWindow
  rw [List.append_assoc, runPulsedTicks_append, h1, hlen]
  simp only [List.singleton_append]
  rw [WN_Core.runPulsedTicks, speedPulses_eq _ _ (by simp only; omega)]
  simp only [WN_Core.tickEnv]
  rw [h2]
  simp only
  refine congrArg (fun t => WN_Core.runPulsedTicks t rest) ?_
  simp only [WN_Core.mk.injEq, true_and, and_true]
  exact ht.symm

end

/-- The extremes after one `accumulate` call with a magnitude between them. -/
theorem accumulate_max_min {G : Type} [Add G] [Mul G] [Div G] [NatCast G] [RatCast G]
    [FloatFns G] (a : WN_VECTOR_AVERAGER G) (p d : Nat)
    (h1 : a.wind_max ≤ p) (h2 : p ≤ a.wind_min) :
    (a.accumulate p d).wind_max = p ∧ (a.accumulate p d).wind_min = p := by
  simp only [WN_VECTOR_AVERAGER.accumulate]
  constructor
  · split <;> omega
  · split <;> omega

/-- The extremes after one or more `accumulate` calls with the same magnitude. -/
theorem accumulateAll_replicate_max_min {G : Type} [Add G] [Mul G] [Div G] [NatCast G]
    [RatCast G] [FloatFns G] (a : WN_VECTOR_AVERAGER G) (p d : Nat)
    (h1 : a.wind_max ≤ p) (h2 : p ≤ a.wind_min) (n : Nat) :
    (a.accumulateAll (List.replicate (n + 1) (p, d))).wind_max = p ∧
      (a.accumulateAll (List.replicate (n + 1) (p, d))).wind_min = p := by
  induction n with
  | zero => exact accumulate_max_min a p d h1 h2
  | succ k ih =>
    rw [← accumulateAll_replicate_succ]
    exact accumulate_max_min _ p d (le_of_eq ih.1) (le_of_eq ih.2.symm)

/-- The magnitude written by a reduction over the reals. -/
theorem real_pulses_avg (a : WN_VECTOR_AVERAGER ℝ) (h : a.cnt ≠ 0)
    (report : wn_raw_wind_report_t ℝ) :
    (a.computeReportFromAccumulatedValues report).2.pulses_avg
      = Real.sqrt (a.x / a.cnt * (a.x / a.cnt) + a.y / a.cnt * (a.y / a.cnt)) := by
  unfold WN_VECTOR_AVERAGER.computeReportFromAccumulatedValues
  rw [if_neg h]
  rfl

/-- Over the reals, a reduction of sums on the diagonal of the first quadrant writes the
direction 45. -/
theorem real_dir_avg_diagonal (a : WN_VECTOR_AVERAGER ℝ) (h : a.cnt ≠ 0) (hxy : a.y = a.x)
    (hx : 0 < a.x) (report : wn_raw_wind_report_t ℝ) :
    (a.computeReportFromAccumulatedValues report).2.dir_avg = 45 := by
  have hc : (0 : ℝ) < a.cnt := Nat.cast_pos.mpr (Nat.pos_of_ne_zero h)
  have hre : 0 < a.x / a.cnt := div_pos hx hc
  rw [real_dir_avg _ h, hxy, arg_eq_arctan_of_re_pos _ _ hre, div_self (ne_of_gt hre),
    Real.arctan_one]
  have hdeg : Real.pi / 4 * 180 / Real.pi = 45 := by
    field_simp
    ring
  rw [hdeg]
  have hfloor : Nat.floor ((45 : ℝ) + 1 / 2) = 45 := by
    rw [Nat.floor_eq_iff (by norm_num)]
    constructor <;> norm_num
  rw [if_neg (by norm_num), hfloor]

/-- The sums after `n` observations of magnitude `m` at 45 degrees, over the reals. -/
theorem real_accumulateAll_diagonal (a : WN_VECTOR_AVERAGER ℝ) (n m : Nat) :
    (a.accumulateAll (List.replicate n (m, 45))).x = a.x + n * (m * (Real.sqrt 2 / 2)) ∧
      (a.accumulateAll (List.replicate n (m, 45))).y = a.y + n * (m * (Real.sqrt 2 / 2)) := by
  have h45 : ((45 : Nat) : ℝ) * (Real.pi / 180) = Real.pi / 4 := by
    push_cast
    ring
  obtain ⟨hx, hy⟩ := real_accumulateAll_replicate a n m 45
  rw [hx, hy, h45, Real.cos_pi_div_four, Real.sin_pi_div_four]
  exact ⟨rfl, rfl⟩

/-- Over the reals, the reduction at the end of a window of 30 readings of 45 degrees, on
an accumulator that was empty at its start: the direction is 45 and the accumulator is
empty again. -/
theorem real_window_reduction (v : WN_VECTOR_AVERAGER ℝ) (hx : v.x = 0) (hy : v.y = 0)
    (hc : v.cnt = 0) :
    ((v.accumulateAll (List.replicate 30 (1, 45))).computeReportFromAccumulatedValues
        wn_raw_wind_report_t.init).2.dir_avg = 45 ∧
    ((v.accumulateAll (List.replicate 30 (1, 45))).computeReportFromAccumulatedValues
        wn_raw_wind_report_t.init).1.x = 0 ∧
    ((v.accumulateAll (List.replicate 30 (1, 45))).computeReportFromAccumulatedValues
        wn_raw_wind_report_t.init).1.y = 0 ∧
    ((v.accumulateAll (List.replicate 30 (1, 45))).computeReportFromAccumulatedValues
        wn_raw_wind_report_t.init).1.cnt = 0 := by
  have hcnt : (v.accumulateAll (List.replicate 30 (1, 45))).cnt = 30 := by
    rw [cnt_accumulateAll _ _ (by rw [hc]; decide), hc, List.length_replicate]
    decide
  have hne : (v.accumulateAll (List.replicate 30 (1, 45))).cnt ≠ 0 := by
    rw [hcnt]
    decide
  obtain ⟨hax, hay⟩ := real_accumulateAll_diagonal v 30 1
  have hs : (0 : ℝ) < Real.sqrt 2 := Real.sqrt_pos.mpr (by norm_num)
  refine ⟨real_dir_avg_diagonal _ hne (by rw [hax, hay, hx, hy]) ?_ _, ?_, ?_,
    cnt_computeReport _ _⟩
  · rw [hax, hx]
    push_cast
    linarith
  · unfold WN_VECTOR_AVERAGER.computeReportFromAccumulatedValues
    rw [if_neg hne]
    exact Nat.cast_zero
  · unfold WN_VECTOR_AVERAGER.computeReportFromAccumulatedValues
    rw [if_neg hne]
    exact Nat.cast_zero

/-- Over the reals, consecutive kept windows in which every angle reading is 45 degrees and
`p` pulses are counted: each window stores the sample `(p, 45)`. -/
theorem runPulsedTicks_steady (p : Nat) (hp : p < UINT16_MOD) :
    ∀ (ws : List (List Nat × Nat × Nat)) (s : WN_Core ℝ), s.wn_ticker = false →
      s.low_power_mode = false → s._invert_polarity = false → s.ticks_cnt % 30 = 0 →
      s.ticks_cnt + 30 * ws.length < UINT32_MOD → s.speed_pulse_count = 0 →
      s.VaneAverager.x = 0 → s.VaneAverager.y = 0 → s.VaneAverager.cnt = 0 →
      WN_Core.steadyWindows p s.last_sampling_window_millis ws = true →
      ∃ s2, s.runPulsedTicks (WN_Core.pulsedWindows 45 ws) = some s2 ∧
        s2.RollingBuffer = (List.replicate ws.length (p, 45)).foldl
          (fun rb q => rb.addSample q.1 q.2) s.RollingBuffer ∧
        s2._HZ_to_ms = s._HZ_to_ms ∧ s2._unit_in_use = s._unit_in_use ∧
        s2._wind_average_period_sec = s._wind_average_period_sec := by
  intro ws
  induction ws with
  | nil =>
    intro s _ _ _ _ _ _ _ _ _ _
    exact ⟨s, rfl, rfl, rfl, rfl, rfl⟩
  | cons w rest ih =>
    intro s ht hl hpol hw hM hS hx hy hc hst
    simp only [WN_Core.steadyWindows, Bool.and_eq_true, beq_iff_eq, decide_eq_true_eq] at hst
    obtain ⟨⟨⟨hlen, hsum⟩, hd⟩, hrest⟩ := hst
    simp only [List.length_cons] at hM
    have hang : wn_read_then_make_angle_sensor_sleep (45 * 16 / 256) (45 * 16 % 256) % 360
        = 45 := by decide
    have hwin := runPulsedTicks_window s 45 w (WN_Core.pulsedWindows 45 rest) ht hl hpol hw
      (by omega) hlen (by rw [hS]; simp only [UINT16_MOD, UINT32_MOD] at hp ⊢; omega) hd
    rw [hang] at hwin
    obtain ⟨hdir, hx1, hy1, hc1⟩ := real_window_reduction s.VaneAverager hx hy hc
    have hpulses : (s.speed_pulse_count + w.1.sum + w.2.1) % UINT16_MOD = p := by
      rw [hS, Nat.zero_add, hsum]
      exact Nat.mod_eq_of_lt hp
    rw [hdir, hpulses] at hwin
    generalize ((s.VaneAverager.accumulateAll (List.replicate 30
      (1, 45))).computeReportFromAccumulatedValues wn_raw_wind_report_t.init).1 = v1
      at hwin hx1 hy1 hc1
    obtain ⟨s2, h2, hrb, hk, hu, ha⟩ := ih
      ({ s with
          ticks_cnt := s.ticks_cnt + 30,
          VaneAverager := v1,
          speed_pulse_count := 0,
          last_sampling_window_millis := w.2.2,
          RollingBuffer := s.RollingBuffer.addRawSample
            { pulses := p, dir := 45, valid := true } })
      ht hl hpol (by simp only; omega) (by simp only; omega) rfl hx1 hy1 hc1 hrest
    refine ⟨s2, ?_, ?_, hk, hu, ha⟩
    · rw [WN_Core.pulsedWindows, hwin]
      exact h2
    · rw [hrb]
      rfl

/-- Over the reals, the period report over 10 stored samples `(p, 45)`. -/
theorem real_report_steady (s : WN_Core ℝ) (p : Nat)
    (hrb : s.RollingBuffer = WN_ROLLINGBUFFER.addSamples (List.replicate 10 (p, 45))) :
    s.computeReportForRecentPeriodInSec 30
      = some (s.formatRawReport
          (((WN_VECTOR_AVERAGER.fresh : WN_VECTOR_AVERAGER ℝ).accumulateAll
            (List.replicate 10 (p, 45))).computeReportFromAccumulatedValues
              wn_raw_wind_report_t.init).2) := by
  rw [computeReportForRecentPeriodInSec_eq, hrb]
  have hget : ∀ i ∈ List.range (30 / 3 % 65536),
      (WN_ROLLINGBUFFER.addSamples (List.replicate 10 (p, 45))).get i
        = { pulses := p, dir := 45, valid := true } := by
    intro i hi
    have hi10 : i < 10 := by
      have := List.mem_range.mp hi
      omega
    refine WN_ROLLINGBUFFER.get_addSamples_recent _ i (p, 45) ?_ ?_
    · rw [List.length_replicate, List.getElem?_replicate]
      rw [if_pos (by omega)]
    · rw [List.length_replicate]
      omega
  rw [List.map_congr_left hget]
  rfl

/-- Over the reals, the raw report reduced from 10 samples `(p, 45)`: its extremes are `p`
and, for `p > 0`, its direction is 45 and its magnitude is `p`; for `p = 0` its direction
is 0. -/
theorem real_raw_report_steady (p : Nat) (hp : p ≤ 65535) :
    (((WN_VECTOR_AVERAGER.fresh : WN_VECTOR_AVERAGER ℝ).accumulateAll
        (List.replicate 10 (p, 45))).computeReportFromAccumulatedValues
          wn_raw_wind_report_t.init).2.pulses_max = p ∧
    (((WN_VECTOR_AVERAGER.fresh : WN_VECTOR_AVERAGER ℝ).accumulateAll
        (List.replicate 10 (p, 45))).computeReportFromAccumulatedValues
          wn_raw_wind_report_t.init).2.pulses_min = p ∧
    (((WN_VECTOR_AVERAGER.fresh : WN_VECTOR_AVERAGER ℝ).accumulateAll
        (List.replicate 10 (p, 45))).computeReportFromAccumulatedValues
          wn_raw_wind_report_t.init).2.pulses_avg = p ∧
    (1 ≤ p →
      (((WN_VECTOR_AVERAGER.fresh : WN_VECTOR_AVERAGER ℝ).accumulateAll
        (List.replicate 10 (p, 45))).computeReportFromAccumulatedValues
          wn_raw_wind_report_t.init).2.dir_avg = 45) ∧
    (p = 0 →
      (((WN_VECTOR_AVERAGER.fresh : WN_VECTOR_AVERAGER ℝ).accumulateAll
        (List.replicate 10 (p, 45))).computeReportFromAccumulatedValues
          wn_raw_wind_report_t.init).2.dir_avg = 0) := by
  have hcnt : ((WN_VECTOR_AVERAGER.fresh : WN_VECTOR_AVERAGER ℝ).accumulateAll
      (List.replicate 10 (p, 45))).cnt = 10 := by
    rw [cnt_accumulateAll _ _ (by decide), List.length_replicate]
    decide
  obtain ⟨hax, hay⟩ := real_accumulateAll_diagonal
    (WN_VECTOR_AVERAGER.fresh : WN_VECTOR_AVERAGER ℝ) 10 p
  have hfx : (WN_VECTOR_AVERAGER.fresh : WN_VECTOR_AVERAGER ℝ).x = 0 := Nat.cast_zero
  have hfy : (WN_VECTOR_AVERAGER.fresh : WN_VECTOR_AVERAGER ℝ).y = 0 := Nat.cast_zero
  rw [hfx, zero_add] at hax
  rw [hfy, zero_add] at hay
  obtain ⟨hmax, hmin⟩ := accumulateAll_replicate_max_min
    (WN_VECTOR_AVERAGER.fresh : WN_VECTOR_AVERAGER ℝ) p 45 (Nat.zero_le p)
    (by show p ≤ 4294967295; omega) 9
  generalize (WN_VECTOR_AVERAGER.fresh : WN_VECTOR_AVERAGER ℝ).accumulateAll
      (List.replicate (9 + 1) (p, 45)) = acc at hcnt hax hay hmax hmin ⊢
  have hne : acc.cnt ≠ 0 := by
    rw [hcnt]
    decide
  obtain ⟨computed, hcmax, hcmin, hall⟩ := computeReport_of_cnt_ne_zero acc hne
  have hs : (0 : ℝ) < Real.sqrt 2 := Real.sqrt_pos.mpr (by norm_num)
  have hss : Real.sqrt 2 * Real.sqrt 2 = 2 := Real.mul_self_sqrt (by norm_num)
  refine ⟨?_, ?_, ?_, ?_, ?_⟩
  · rw [hall]
    exact hcmax.trans hmax
  · rw [hall]
    exact hcmin.trans hmin
  · rw [real_pulses_avg _ hne, hax, hay, hcnt]
    have hsq : ((10 : Nat) : ℝ) * ((p : ℝ) * (Real.sqrt 2 / 2)) / ((10 : Nat) : ℝ)
          * (((10 : Nat) : ℝ) * ((p : ℝ) * (Real.sqrt 2 / 2)) / ((10 : Nat) : ℝ))
        + ((10 : Nat) : ℝ) * ((p : ℝ) * (Real.sqrt 2 / 2)) / ((10 : Nat) : ℝ)
          * (((10 : Nat) : ℝ) * ((p : ℝ) * (Real.sqrt 2 / 2)) / ((10 : Nat) : ℝ))
        = (p : ℝ) ^ 2 := by
      push_cast
      linear_combination ((p : ℝ) ^ 2 / 2) * hss
    rw [hsq]
    exact Real.sqrt_sq (Nat.cast_nonneg p)
  · intro h1
    refine real_dir_avg_diagonal _ hne (by rw [hax, hay]) ?_ _
    rw [hax]
    have hp0 : (1 : ℝ) ≤ p := by exact_mod_cast h1
    positivity
  · intro h0
    rw [real_dir_avg _ hne, hax, hay, h0, hcnt]
    have harg : Complex.arg (Complex.mk
        (((10 : Nat) : ℝ) * (((0 : Nat) : ℝ) * (Real.sqrt 2 / 2)) / ((10 : Nat) : ℝ))
        (((10 : Nat) : ℝ) * (((0 : Nat) : ℝ) * (Real.sqrt 2 / 2)) / ((10 : Nat) : ℝ)))
        = 0 := by
      rw [Complex.arg_eq_zero_iff]
      constructor <;> simp
    rw [harg]
    have hfloor : Nat.floor ((1 : ℝ) / 2) = 0 := Nat.floor_eq_zero.mpr (by norm_num)
    norm_num [hfloor]

/-- Over exact real arithmetic, for every calibration constant `k`, every unit `u` and
every pulse count `p` with 1 <= p <= 65535, starting from a fresh orchestrator with
averaging period 30 s started at `t0` ms, after 10 consecutive non-discarded 3-second
windows `ws` in each of which every angle reading is 45 degrees and exactly `p` pulses are
counted, the period report has avg_dir = 45, avg_speed = p * k / 3 converted to the active
unit, and min_speed = max_speed = avg_speed. -/
theorem real_steady_wind_period_report (k : ℝ) (u p t0 : Nat)
    (ws : List (List Nat × Nat × Nat)) (hp1 : 1 ≤ p) (hp2 : p ≤ 65535)
    (hlen : ws.length = 10) (hws : WN_Core.steadyWindows p t0 ws = true) :
    ∃ s2 report,
      (WN_Core.begin (({ (WN_Core.new : WN_Core ℝ) with
          _HZ_to_ms := k, _unit_in_use := u }).setAveragingPeriodInSec 30).1 t0
        ).1.runPulsedTicks (WN_Core.pulsedWindows 45 ws) = some s2 ∧
      s2._wind_average_period_sec = 30 ∧
      s2.computeReportForRecentPeriodInSec s2._wind_average_period_sec = some report ∧
      report.avg_dir = 45 ∧
      report.avg_speed
        = (if u = 1 then (p : ℝ) * k / 3 * 1.94384
           else if u = 2 then (p : ℝ) * k / 3 * 3.6
           else if u = 3 then (p : ℝ) * k / 3 * 2.23694
           else (p : ℝ) * k / 3) ∧
      report.min_speed = report.avg_speed ∧
      report.max_speed = report.avg_speed := by
  have hS0 : (WN_Core.begin (({ (WN_Core.new : WN_Core ℝ) with
      _HZ_to_ms := k, _unit_in_use := u }).setAveragingPeriodInSec 30).1 t0).1
      = ({ (WN_Core.new : WN_Core ℝ) with
          _HZ_to_ms := k, _unit_in_use := u, _wind_average_period_sec := 30,
          last_sampling_window_millis := t0 } : WN_Core ℝ) := by
    have hd : (30 ≥ SAMPLE_DURATION ∧ 30 ≤ ROLLING_BUFFER_LENGTH * SAMPLE_DURATION) := by
      decide
    simp only [WN_Core.setAveragingPeriodInSec, WN_Core.begin, if_pos hd]
  rw [hS0]
  have hp3 : p < UINT16_MOD := by
    show p < 65536
    omega
  obtain ⟨s2, hrun, hrb, hk, hu, ha⟩ := runPulsedTicks_steady p hp3 ws
    ({ (WN_Core.new : WN_Core ℝ) with
        _HZ_to_ms := k, _unit_in_use := u, _wind_average_period_sec := 30,
        last_sampling_window_millis := t0 } : WN_Core ℝ)
    rfl rfl rfl rfl (by rw [hlen]; show 0 + 30 * 10 < 4294967296; decide) rfl
    Nat.cast_zero Nat.cast_zero rfl hws
  rw [hlen] at hrb
  have hrb2 : s2.RollingBuffer = WN_ROLLINGBUFFER.addSamples (List.replicate 10 (p, 45)) := hrb
  have ha2 : s2._wind_average_period_sec = 30 := ha
  have hk2 : s2._HZ_to_ms = k := hk
  have hu2 : s2._unit_in_use = u := hu
  obtain ⟨hmax, hmin, havg, hdir, -⟩ := real_raw_report_steady p hp2
  have h3 : ((SAMPLING_WINDOW_TICKS / TICK_HZ : Nat) : ℝ) = 3 := by
    simp [SAMPLING_WINDOW_TICKS, TICK_HZ]
  refine ⟨s2, s2.formatRawReport
    (((WN_VECTOR_AVERAGER.fresh : WN_VECTOR_AVERAGER ℝ).accumulateAll
      (List.replicate 10 (p, 45))).computeReportFromAccumulatedValues
        wn_raw_wind_report_t.init).2, hrun, ha2, ?_, ?_, ?_, ?_, ?_⟩
  · rw [ha2]
    exact real_report_steady s2 p hrb2
  · exact hdir hp1
  · simp only [WN_Core.formatRawReport, havg, WN_Core.pulsesToSpeedUnitInUse, hk2, hu2, h3,
      UNIT_MS, UNIT_KN, UNIT_KPH, UNIT_MPH]
    split_ifs <;> first | omega | norm_num
  · simp only [WN_Core.formatRawReport, havg, hmin]
  · simp only [WN_Core.formatRawReport, havg, hmax]

/-! ## Steady wind, for any carrier -/

section
variable {F : Type} [Add F] [Mul F] [Div F] [NatCast F] [RatCast F] [FloatFns F]

/-- Consecutive kept windows in which every angle reading is 45 degrees and `p` pulses are
counted, for a carrier in which the reduction of 30 readings of 45 degrees writes the
direction 45: each window stores the sample `(p mod 2 ^ 16, 45)`. -/
theorem runPulsedTicks_steady_of
    (hred : ∀ v : WN_VECTOR_AVERAGER F, v.x = ((0 : Nat) : F) → v.y = ((0 : Nat) : F) →
      v.cnt = 0 →
      ((v.accumulateAll (List.replicate 30 (1, 45))).computeReportFromAccumulatedValues
        wn_raw_wind_report_t.init).2.dir_avg = 45)
    (p : Nat) (hp : p < UINT32_MOD) :
    ∀ (ws : List (List Nat × Nat × Nat)) (s : WN_Core F), s.wn_ticker = false →
      s.low_power_mode = false → s._invert_polarity = false → s.ticks_cnt % 30 = 0 →
      s.ticks_cnt + 30 * ws.length < UINT32_MOD → s.speed_pulse_count = 0 →
      s.VaneAverager.x = ((0 : Nat) : F) → s.VaneAverager.y = ((0 : Nat) : F) →
      s.VaneAverager.cnt = 0 →
      WN_Core.steadyWindows p s.last_sampling_window_millis ws = true →
      ∃ s2, s.runPulsedTicks (WN_Core.pulsedWindows 45 ws) = some s2 ∧
        s2.RollingBuffer = (List.replicate ws.length (p % UINT16_MOD, 45)).foldl
          (fun rb q => rb.addSample q.1 q.2) s.RollingBuffer ∧
        s2._HZ_to_ms = s._HZ_to_ms ∧ s2._unit_in_use = s._unit_in_use ∧
        s2._wind_average_period_sec = s._wind_average_period_sec := by
  intro ws
  induction ws with
  | nil =>
    intro s _ _ _ _ _ _ _ _ _ _
    exact ⟨s, rfl, rfl, rfl, rfl, rfl⟩
  | cons w rest ih =>
    intro s ht hl hpol hw hM hS hx hy hc hst
    simp only [WN_Core.steadyWindows, Bool.and_eq_true, beq_iff_eq, decide_eq_true_eq] at hst
    obtain ⟨⟨⟨hlen, hsum⟩, hd⟩, hrest⟩ := hst
    simp only [List.length_cons] at hM
    have hang : wn_read_then_make_angle_sensor_sleep (45 * 16 / 256) (45 * 16 % 256) % 360
        = 45 := by decide
    have hwin := runPulsedTicks_window s 45 w (WN_Core.pulsedWindows 45 rest) ht hl hpol hw
      (by omega) hlen (by rw [hS]; omega) hd
    rw [hang] at hwin
    have hdir := hred s.VaneAverager hx hy hc
    have hcnt30 : (s.VaneAverager.accumulateAll (List.replicate 30 (1, 45))).cnt ≠ 0 := by
      rw [cnt_accumulateAll _ _ (by rw [hc]; decide), hc, List.length_replicate]
      decide
    obtain ⟨computed, -, -, hall⟩ := computeReport_of_cnt_ne_zero _ hcnt30
    have hx1 : ((s.VaneAverager.accumulateAll (List.replicate 30
        (1, 45))).computeReportFromAccumulatedValues wn_raw_wind_report_t.init).1.x
        = ((0 : Nat) : F) := by rw [hall]
    have hy1 : ((s.VaneAverager.accumulateAll (List.replicate 30
        (1, 45))).computeReportFromAccumulatedValues wn_raw_wind_report_t.init).1.y
        = ((0 : Nat) : F) := by rw [hall]
    have hc1 := cnt_computeReport (s.VaneAverager.accumulateAll (List.replicate 30 (1, 45)))
      wn_raw_wind_report_t.init
    have hpulses : (s.speed_pulse_count + w.1.sum + w.2.1) % UINT16_MOD = p % UINT16_MOD := by
      rw [hS, Nat.zero_add, hsum]
    rw [hdir, hpulses] at hwin
    generalize ((s.VaneAverager.accumulateAll (List.replicate 30
      (1, 45))).computeReportFromAccumulatedValues wn_raw_wind_report_t.init).1 = v1
      at hwin hx1 hy1 hc1
    obtain ⟨s2, h2, hrb, hk, hu, ha⟩ := ih
      ({ s with
          ticks_cnt := s.ticks_cnt + 30,
          VaneAverager := v1,
          speed_pulse_count := 0,
          last_sampling_window_millis := w.2.2,
          RollingBuffer := s.RollingBuffer.addRawSample
            { pulses := p % UINT16_MOD, dir := 45, valid := true } })
      ht hl hpol (by simp only; omega) (by simp only; omega) rfl hx1 hy1 hc1 hrest
    refine ⟨s2, ?_, ?_, hk, hu, ha⟩
    · rw [WN_Core.pulsedWindows, hwin]
      exact h2
    · rw [hrb]
      rfl

/-- The period report over 10 stored samples `(p, 45)`. -/
theorem report_steady (s : WN_Core F) (p : Nat)
    (hrb : s.RollingBuffer = WN_ROLLINGBUFFER.addSamples (List.replicate 10 (p, 45))) :
    s.computeReportForRecentPeriodInSec 30
      = some (s.formatRawReport
          (((WN_VECTOR_AVERAGER.fresh : WN_VECTOR_AVERAGER F).accumulateAll
            (List.replicate 10 (p, 45))).computeReportFromAccumulatedValues
              wn_raw_wind_report_t.init).2) := by
  rw [computeReportForRecentPeriodInSec_eq, hrb]
  have hget : ∀ i ∈ List.range (30 / 3 % 65536),
      (WN_ROLLINGBUFFER.addSamples (List.replicate 10 (p, 45))).get i
        = { pulses := p, dir := 45, valid := true } := by
    intro i hi
    have hi10 : i < 10 := by
      have := List.mem_range.mp hi
      omega
    refine WN_ROLLINGBUFFER.get_addSamples_recent _ i (p, 45) ?_ ?_
    · rw [List.length_replicate, List.getElem?_replicate]
      rw [if_pos (by omega)]
    · rw [List.length_replicate]
      omega
  rw [List.map_congr_left hget]
  rfl

/-- The fresh orchestrator with calibration constant `k` and unit `u`, after
`setAveragingPeriodInSec(30)` and `begin()` at `t0` ms, run through 10 kept windows in each
of which every angle reading is 45 degrees and `p` pulses are counted: the run ends, and
the period report over the averaging period is the conversion of the reduction of 10 samples
`(p mod 2 ^ 16, 45)`. -/
theorem steady_run_report
    (hred : ∀ v : WN_VECTOR_AVERAGER F, v.x = ((0 : Nat) : F) → v.y = ((0 : Nat) : F) →
      v.cnt = 0 →
      ((v.accumulateAll (List.replicate 30 (1, 45))).computeReportFromAccumulatedValues
        wn_raw_wind_report_t.init).2.dir_avg = 45)
    (k : F) (u p t0 : Nat) (ws : List (List Nat × Nat × Nat)) (hp : p < UINT32_MOD)
    (hlen : ws.length = 10) (hws : WN_Core.steadyWindows p t0 ws = true) :
    ∃ s2,
      (WN_Core.begin (({ (WN_Core.new : WN_Core F) with
          _HZ_to_ms := k, _unit_in_use := u }).setAveragingPeriodInSec 30).1 t0
        ).1.runPulsedTicks (WN_Core.pulsedWindows 45 ws) = some s2 ∧
      s2._wind_average_period_sec = 30 ∧ s2._HZ_to_ms = k ∧ s2._unit_in_use = u ∧
      s2.computeReportForRecentPeriodInSec s2._wind_average_period_sec
        = some (s2.formatRawReport
          (((WN_VECTOR_AVERAGER.fresh : WN_VECTOR_AVERAGER F).accumulateAll
            (List.replicate 10 (p % UINT16_MOD, 45))).computeReportFromAccumulatedValues
              wn_raw_wind_report_t.init).2) := by
  have hS0 : (WN_Core.begin (({ (WN_Core.new : WN_Core F) with
      _HZ_to_ms := k, _unit_in_use := u }).setAveragingPeriodInSec 30).1 t0).1
      = ({ (WN_Core.new : WN_Core F) with
          _HZ_to_ms := k, _unit_in_use := u, _wind_average_period_sec := 30,
          last_sampling_window_millis := t0 } : WN_Core F) := by
    have hd : (30 ≥ SAMPLE_DURATION ∧ 30 ≤ ROLLING_BUFFER_LENGTH * SAMPLE_DURATION) := by
      decide
    simp only [WN_Core.setAveragingPeriodInSec, WN_Core.begin, if_pos hd]
  rw [hS0]
  obtain ⟨s2, hrun, hrb, hk, hu, ha⟩ := runPulsedTicks_steady_of hred p hp ws
    ({ (WN_Core.new : WN_Core F) with
        _HZ_to_ms := k, _unit_in_use := u, _wind_average_period_sec := 30,
        last_sampling_window_millis := t0 } : WN_Core F)
    rfl rfl rfl rfl (by rw [hlen]; show 0 + 30 * 10 < 4294967296; decide) rfl
    rfl rfl rfl hws
  rw [hlen] at hrb
  have hrb2 : s2.RollingBuffer
      = WN_ROLLINGBUFFER.addSamples (List.replicate 10 (p % UINT16_MOD, 45)) := hrb
  have ha2 : s2._wind_average_period_sec = 30 := ha
  refine ⟨s2, hrun, ha2, hk, hu, ?_⟩
  rw [ha2]
  exact report_steady s2 _ hrb2

end

/-! ## Single precision: ten samples of 3 pulses at 45 degrees -/

/-- One `accumulate(3, 45)` call in single precision, on sums that are equal. -/
theorem Binary32.accumulate_3_45 (a : WN_VECTOR_AVERAGER Binary32) (X Y : ℝ)
    (hx : a.x.toReal = X) (hy : a.y.toReal = X)
    (h : roundBinary32 (X + 4448731 / 2097152) = Y) :
    (a.accumulate 3 45).x.toReal = Y ∧ (a.accumulate 3 45).y.toReal = Y := by
  obtain ⟨h1, h2⟩ := Binary32.accumulate_45 a 3
  have h3 : roundBinary32 ((3 : Nat) : ℝ) = 3 := by
    have h : ((3 : Nat) : ℝ) = 3 := by norm_num
    rw [h, roundBinary32_three]
  have ht : roundBinary32 ((3 : ℝ) * (11863283 / 16777216)) = 4448731 / 2097152 :=
    roundBinary32_val _ _ 1 8897462 (by norm_num) (by norm_num) (by norm_num) (by norm_num)
      (by norm_num)
  rw [h1, h2, hx, hy, h3, ht, h]
  exact ⟨rfl, rfl⟩

/-- The sums after ten `accumulate(3, 45)` calls on a fresh averager, in single precision:
both are `11121829 / 524288`, a little more than `10 * 3 * cos(45 degrees)`. -/
theorem Binary32.ten_samples_sums :
    ((WN_VECTOR_AVERAGER.fresh : WN_VECTOR_AVERAGER Binary32).accumulateAll
        (List.replicate 10 (3, 45))).x.toReal = 11121829 / 524288 ∧
    ((WN_VECTOR_AVERAGER.fresh : WN_VECTOR_AVERAGER Binary32).accumulateAll
        (List.replicate 10 (3, 45))).y.toReal = 11121829 / 524288 := by
  have hA : (WN_VECTOR_AVERAGER.fresh : WN_VECTOR_AVERAGER Binary32).accumulateAll
      (List.replicate 10 (3, 45))
      = ((((((((((WN_VECTOR_AVERAGER.fresh : WN_VECTOR_AVERAGER Binary32).accumulate
          3 45).accumulate 3 45).accumulate 3 45).accumulate 3 45).accumulate 3 45).accumulate
          3 45).accumulate 3 45).accumulate 3 45).accumulate 3 45).accumulate 3 45 := rfl
  rw [hA]
  have h0x : (WN_VECTOR_AVERAGER.fresh : WN_VECTOR_AVERAGER Binary32).x.toReal = 0 :=
    Binary32.toReal_zero
  have h0y : (WN_VECTOR_AVERAGER.fresh : WN_VECTOR_AVERAGER Binary32).y.toReal = 0 :=
    Binary32.toReal_zero
  generalize (WN_VECTOR_AVERAGER.fresh : WN_VECTOR_AVERAGER Binary32) = a0 at h0x h0y ⊢
  obtain ⟨h1x, h1y⟩ := Binary32.accumulate_3_45 a0 0 (4448731 / 2097152) h0x h0y
    (roundBinary32_val _ _ 1 8897462 (by norm_num) (by norm_num) (by norm_num) (by norm_num)
      (by norm_num))
  generalize a0.accumulate 3 45 = a1 at h1x h1y ⊢
  obtain ⟨h2x, h2y⟩ := Binary32.accumulate_3_45 a1 _ (4448731 / 1048576) h1x h1y
    (roundBinary32_val _ _ 2 8897462 (by norm_num) (by norm_num) (by norm_num) (by norm_num)
      (by norm_num))
  generalize a1.accumulate 3 45 = a2 at h2x h2y ⊢
  obtain ⟨h3x, h3y⟩ := Binary32.accumulate_3_45 a2 _ (13346193 / 2097152) h2x h2y
    (roundBinary32_val _ _ 2 13346193 (by norm_num) (by norm_num) (by norm_num) (by norm_num)
      (by norm_num))
  generalize a2.accumulate 3 45 = a3 at h3x h3y ⊢
  obtain ⟨h4x, h4y⟩ := Binary32.accumulate_3_45 a3 _ (4448731 / 524288) h3x h3y
    (roundBinary32_val _ _ 3 8897462 (by norm_num) (by norm_num) (by norm_num) (by norm_num)
      (by norm_num))
  generalize a3.accumulate 3 45 = a4 at h4x h4y ⊢
  obtain ⟨h5x, h5y⟩ := Binary32.accumulate_3_45 a4 _ (2780457 / 262144) h4x h4y
    (roundBinary32_tie_val _ _ 3 11121827 (by norm_num) (by norm_num) (by norm_num)
      (by decide) (by norm_num))
  generalize a4.accumulate 3 45 = a5 at h5x h5y ⊢
  obtain ⟨h6x, h6y⟩ := Binary32.accumulate_3_45 a5 _ (6673097 / 524288) h5x h5y
    (roundBinary32_tie_val _ _ 3 13346193 (by norm_num) (by norm_num) (by norm_num)
      (by decide) (by norm_num))
  generalize a5.accumulate 3 45 = a6 at h6x h6y ⊢
  obtain ⟨h7x, h7y⟩ := Binary32.accumulate_3_45 a6 _ (121645 / 8192) h6x h6y
    (roundBinary32_tie_val _ _ 3 15570559 (by norm_num) (by norm_num) (by norm_num)
      (by decide) (by norm_num))
  generalize a6.accumulate 3 45 = a7 at h7x h7y ⊢
  obtain ⟨h8x, h8y⟩ := Binary32.accumulate_3_45 a7 _ (8897463 / 524288) h7x h7y
    (roundBinary32_val _ _ 4 8897463 (by norm_num) (by norm_num) (by norm_num) (by norm_num)
      (by norm_num))
  generalize a7.accumulate 3 45 = a8 at h8x h8y ⊢
  obtain ⟨h9x, h9y⟩ := Binary32.accumulate_3_45 a8 _ (5004823 / 262144) h8x h8y
    (roundBinary32_val _ _ 4 10009646 (by norm_num) (by norm_num) (by norm_num) (by norm_num)
      (by norm_num))
  generalize a8.accumulate 3 45 = a9 at h9x h9y ⊢
  exact Binary32.accumulate_3_45 a9 _ (11121829 / 524288) h9x h9y
    (roundBinary32_val _ _ 4 11121829 (by norm_num) (by norm_num) (by norm_num) (by norm_num)
      (by norm_num))

/-- The magnitude written by the reduction of ten samples `(3, 45)` in single precision:
`12582913 / 4194304`, one unit in the last place above 3. -/
theorem Binary32.ten_samples_pulses_avg (report : wn_raw_wind_report_t Binary32) :
    (((WN_VECTOR_AVERAGER.fresh : WN_VECTOR_AVERAGER Binary32).accumulateAll
        (List.replicate 10 (3, 45))).computeReportFromAccumulatedValues
          report).2.pulses_avg.toReal = 12582913 / 4194304 := by
  have hcnt : ((WN_VECTOR_AVERAGER.fresh : WN_VECTOR_AVERAGER Binary32).accumulateAll
      (List.replicate 10 (3, 45))).cnt = 10 := by
    rw [cnt_accumulateAll _ _ (by decide), List.length_replicate]
    decide
  obtain ⟨hx, hy⟩ := Binary32.ten_samples_sums
  generalize (WN_VECTOR_AVERAGER.fresh : WN_VECTOR_AVERAGER Binary32).accumulateAll
      (List.replicate 10 (3, 45)) = acc at hcnt hx hy ⊢
  have hne : acc.cnt ≠ 0 := by
    rw [hcnt]
    decide
  have h10 : roundBinary32 ((acc.cnt : Nat) : ℝ) = 10 := by
    rw [hcnt]
    have h : ((10 : Nat) : ℝ) = 10 := by norm_num
    rw [h, roundBinary32_ten]
  have hax : roundBinary32 ((11121829 : ℝ) / 524288 / 10) = 8897463 / 4194304 :=
    roundBinary32_val _ _ 1 8897463 (by norm_num) (by norm_num) (by norm_num) (by norm_num)
      (by norm_num)
  have hsq : roundBinary32 ((8897463 : ℝ) / 4194304 * (8897463 / 4194304))
      = 9437185 / 2097152 :=
    roundBinary32_val _ _ 2 9437185 (by norm_num) (by norm_num) (by norm_num) (by norm_num)
      (by norm_num)
  have hss : roundBinary32 ((9437185 : ℝ) / 2097152 + 9437185 / 2097152)
      = 9437185 / 1048576 :=
    roundBinary32_val _ _ 3 9437185 (by norm_num) (by norm_num) (by norm_num) (by norm_num)
      (by norm_num)
  have hsqrt : roundBinary32 (Real.sqrt (9437185 / 1048576)) = 12582913 / 4194304 :=
    roundBinary32_sqrt_val _ _ 1 12582913 (by norm_num) (by norm_num) (by norm_num)
      (by norm_num) (by norm_num) (by norm_num)
  rw [Binary32.pulses_avg_eq acc hne report _ _ rfl rfl, hx, hy, h10, hax, hsq, hss, hsqrt]

/-! ## Single precision: the raw report of ten equal samples at 45 degrees -/

/-- In single precision, observations of magnitude 0 leave sums that are 0 at 0. -/
theorem Binary32.accumulateAll_zero_magnitude (n : Nat) :
    ∀ a : WN_VECTOR_AVERAGER Binary32, a.x.toReal = 0 → a.y.toReal = 0 →
      (a.accumulateAll (List.replicate n (0, 45))).x.toReal = 0 ∧
        (a.accumulateAll (List.replicate n (0, 45))).y.toReal = 0 := by
  induction n with
  | zero =>
    intro a hx hy
    exact ⟨hx, hy⟩
  | succ k ih =>
    intro a hx hy
    obtain ⟨e1, e2⟩ := ih a hx hy
    rw [← accumulateAll_replicate_succ]
    obtain ⟨h1, h2⟩ := Binary32.accumulate_45 (a.accumulateAll (List.replicate k (0, 45))) 0
    rw [h1, h2, e1, e2, Nat.cast_zero, roundBinary32_zero, zero_mul, roundBinary32_zero,
      add_zero, roundBinary32_zero]
    exact ⟨rfl, rfl⟩

/-- In single precision, a reduction of sums that are both 0 writes the direction 0. -/
theorem Binary32.dir_avg_of_zero_sums (a : WN_VECTOR_AVERAGER Binary32) (h : a.cnt ≠ 0)
    (hx : a.x.toReal = 0) (hy : a.y.toReal = 0) (report : wn_raw_wind_report_t Binary32) :
    (a.computeReportFromAccumulatedValues report).2.dir_avg = 0 := by
  have harg : Complex.arg { re := 0, im := 0 } = 0 := Complex.arg_zero
  have hfloor : Nat.floor ((1 : ℝ) / 2) = 0 := Nat.floor_eq_zero.mpr (by norm_num)
  rw [Binary32.dir_avg_eq a h report _ _ _ rfl rfl rfl, hx, hy, zero_div, roundBinary32_zero,
    harg, roundBinary32_zero, zero_mul, roundBinary32_zero, zero_div, roundBinary32_zero,
    if_neg (lt_irrefl 0), zero_add, roundBinary32_half, hfloor]
  decide

/-- In single precision, the raw report reduced from 10 samples `(p, 45)`: its extremes are
`p`; for `p > 0` its direction is 45, for `p = 0` its direction is 0. -/
theorem Binary32.raw_report_steady (p : Nat) (hp : p ≤ 65535) :
    (((WN_VECTOR_AVERAGER.fresh : WN_VECTOR_AVERAGER Binary32).accumulateAll
        (List.replicate 10 (p, 45))).computeReportFromAccumulatedValues
          wn_raw_wind_report_t.init).2.pulses_max = p ∧
    (((WN_VECTOR_AVERAGER.fresh : WN_VECTOR_AVERAGER Binary32).accumulateAll
        (List.replicate 10 (p, 45))).computeReportFromAccumulatedValues
          wn_raw_wind_report_t.init).2.pulses_min = p ∧
    (1 ≤ p →
      (((WN_VECTOR_AVERAGER.fresh : WN_VECTOR_AVERAGER Binary32).accumulateAll
        (List.replicate 10 (p, 45))).computeReportFromAccumulatedValues
          wn_raw_wind_report_t.init).2.dir_avg = 45) ∧
    (p = 0 →
      (((WN_VECTOR_AVERAGER.fresh : WN_VECTOR_AVERAGER Binary32).accumulateAll
        (List.replicate 10 (p, 45))).computeReportFromAccumulatedValues
          wn_raw_wind_report_t.init).2.dir_avg = 0) := by
  have hcnt : ((WN_VECTOR_AVERAGER.fresh : WN_VECTOR_AVERAGER Binary32).accumulateAll
      (List.replicate 10 (p, 45))).cnt = 10 := by
    rw [cnt_accumulateAll _ _ (by decide), List.length_replicate]
    decide
  have hfx : (WN_VECTOR_AVERAGER.fresh : WN_VECTOR_AVERAGER Binary32).x.toReal = 0 :=
    Binary32.toReal_zero
  have hfy : (WN_VECTOR_AVERAGER.fresh : WN_VECTOR_AVERAGER Binary32).y.toReal = 0 :=
    Binary32.toReal_zero
  have hdiag : 1 ≤ p →
      ((WN_VECTOR_AVERAGER.fresh : WN_VECTOR_AVERAGER Binary32).accumulateAll
        (List.replicate (9 + 1) (p, 45))).y.toReal
        = ((WN_VECTOR_AVERAGER.fresh : WN_VECTOR_AVERAGER Binary32).accumulateAll
          (List.replicate (9 + 1) (p, 45))).x.toReal ∧
      0 < ((WN_VECTOR_AVERAGER.fresh : WN_VECTOR_AVERAGER Binary32).accumulateAll
        (List.replicate (9 + 1) (p, 45))).x.toReal :=
    fun h1 => Binary32.accumulateAll_diagonal p h1 9 _ (by rw [hfx, hfy]) (by rw [hfx])
  have hzero : p = 0 →
      ((WN_VECTOR_AVERAGER.fresh : WN_VECTOR_AVERAGER Binary32).accumulateAll
        (List.replicate (9 + 1) (p, 45))).x.toReal = 0 ∧
      ((WN_VECTOR_AVERAGER.fresh : WN_VECTOR_AVERAGER Binary32).accumulateAll
        (List.replicate (9 + 1) (p, 45))).y.toReal = 0 := by
    intro h0
    rw [h0]
    exact Binary32.accumulateAll_zero_magnitude _ _ hfx hfy
  obtain ⟨hmax, hmin⟩ := accumulateAll_replicate_max_min
    (WN_VECTOR_AVERAGER.fresh : WN_VECTOR_AVERAGER Binary32) p 45 (Nat.zero_le p)
    (by show p ≤ 4294967295; omega) 9
  generalize (WN_VECTOR_AVERAGER.fresh : WN_VECTOR_AVERAGER Binary32).accumulateAll
      (List.replicate (9 + 1) (p, 45)) = acc at hcnt hdiag hzero hmax hmin ⊢
  have hne : acc.cnt ≠ 0 := by
    rw [hcnt]
    decide
  obtain ⟨computed, hcmax, hcmin, hall⟩ := computeReport_of_cnt_ne_zero acc hne
  refine ⟨?_, ?_, ?_, ?_⟩
  · rw [hall]
    exact hcmax.trans hmax
  · rw [hall]
    exact hcmin.trans hmin
  · intro h1
    exact Binary32.dir_avg_diagonal acc hne (hdiag h1).1 (hdiag h1).2 _
  · intro h0
    exact Binary32.dir_avg_of_zero_sums acc hne (hzero h0).1 (hzero h0).2 _

/-! ## Single precision: the unit conversion of 3 pulses -/

/-- The calibration constant 1.31 as a `float`. -/
theorem roundBinary32_131 : roundBinary32 ((131 / 100 : ℚ) : ℝ) = 2747269 / 2097152 := by
  have h : ((131 / 100 : ℚ) : ℝ) = 131 / 100 := by norm_num
  rw [h]
  exact roundBinary32_val _ _ 0 10989076 (by norm_num) (by norm_num) (by norm_num)
    (by norm_num) (by norm_num)

/-- The conversion to m/s in single precision: a product and a quotient, each rounded. -/
theorem Binary32.pulsesToSpeedUnitInUse_ms (s : WN_Core Binary32) (hu : s._unit_in_use = 0)
    (pulses : Binary32) :
    (s.pulsesToSpeedUnitInUse pulses).toReal
      = roundBinary32 (roundBinary32 (pulses.toReal * s._HZ_to_ms.toReal) / 3) := by
  have h3 : roundBinary32 (((SAMPLING_WINDOW_TICKS / TICK_HZ : Nat) : Nat) : ℝ) = 3 := by
    have h : (((SAMPLING_WINDOW_TICKS / TICK_HZ : Nat) : Nat) : ℝ) = 3 := by
      simp [SAMPLING_WINDOW_TICKS, TICK_HZ]
    rw [h, roundBinary32_three]
  unfold WN_Core.pulsesToSpeedUnitInUse
  simp only [UNIT_MS]
  rw [if_pos hu, Binary32.toReal_div, Binary32.toReal_mul, Binary32.toReal_natCast, h3]

/-- With the calibration constant 1.31 and the unit m/s, in single precision: the speed of
the average magnitude of ten samples `(3, 45)`, the speed of 3 pulses, and the speed of 65539
pulses. -/
theorem Binary32.speeds_of_3 (s : WN_Core Binary32) (hu : s._unit_in_use = 0)
    (hk : s._HZ_to_ms = ((131 / 100 : ℚ) : Binary32)) (a : Binary32)
    (ha : a.toReal = 12582913 / 4194304) :
    (s.pulsesToSpeedUnitInUse a).toReal = 10989077 / 8388608 ∧
    (s.pulsesToSpeedUnitInUse ((3 : Nat) : Binary32)).toReal = 2747269 / 2097152 ∧
    (s.pulsesToSpeedUnitInUse ((65539 : Nat) : Binary32)).toReal = 3663193 / 128 := by
  have hkr : s._HZ_to_ms.toReal = 2747269 / 2097152 := by
    rw [hk, Binary32.toReal_ratCast, roundBinary32_131]
  have h3 : roundBinary32 ((3 : Nat) : ℝ) = 3 := by
    have h : ((3 : Nat) : ℝ) = 3 := by norm_num
    rw [h, roundBinary32_three]
  have h65539 : roundBinary32 ((65539 : Nat) : ℝ) = 65539 := by
    have h : ((65539 : Nat) : ℝ) = 65539 := by norm_num
    rw [h]
    exact roundBinary32_val _ _ 16 8388992 (by norm_num) (by norm_num) (by norm_num)
      (by norm_num) (by norm_num)
  refine ⟨?_, ?_, ?_⟩
  · rw [Binary32.pulsesToSpeedUnitInUse_ms s hu, ha, hkr]
    have e1 : roundBinary32 ((12582913 : ℝ) / 4194304 * (2747269 / 2097152))
        = 16483615 / 4194304 :=
      roundBinary32_val _ _ 1 16483615 (by norm_num) (by norm_num) (by norm_num)
        (by norm_num) (by norm_num)
    have e2 : roundBinary32 ((16483615 : ℝ) / 4194304 / 3) = 10989077 / 8388608 :=
      roundBinary32_val _ _ 0 10989077 (by norm_num) (by norm_num) (by norm_num)
        (by norm_num) (by norm_num)
    rw [e1, e2]
  · rw [Binary32.pulsesToSpeedUnitInUse_ms s hu, Binary32.toReal_natCast, h3, hkr]
    have e1 : roundBinary32 ((3 : ℝ) * (2747269 / 2097152)) = 8241807 / 2097152 :=
      roundBinary32_val _ _ 1 16483614 (by norm_num) (by norm_num) (by norm_num)
        (by norm_num) (by norm_num)
    have e2 : roundBinary32 ((8241807 : ℝ) / 2097152 / 3) = 2747269 / 2097152 :=
      roundBinary32_val _ _ 0 10989076 (by norm_num) (by norm_num) (by norm_num)
        (by norm_num) (by norm_num)
    rw [e1, e2]
  · rw [Binary32.pulsesToSpeedUnitInUse_ms s hu, Binary32.toReal_natCast, h65539, hkr]
    have e1 : roundBinary32 ((65539 : ℝ) * (2747269 / 2097152)) = 10989579 / 128 :=
      roundBinary32_val _ _ 16 10989579 (by norm_num) (by norm_num) (by norm_num)
        (by norm_num) (by norm_num)
    have e2 : roundBinary32 ((10989579 : ℝ) / 128 / 3) = 3663193 / 128 :=
      roundBinary32_val _ _ 14 14652772 (by norm_num) (by norm_num) (by norm_num)
        (by norm_num) (by norm_num)
    rw [e1, e2]

/-! ## Single precision: relative error of a chain of operations -/

/-- The bound of `n` roundings is at least 1. -/
theorem one_le_roundingBound (n : Nat) : (1 : ℝ) ≤ (1 + 1 / 8388608 : ℝ) ^ n :=
  one_le_pow₀ (by norm_num)

/-- A number is within 0 roundings of itself. -/
theorem WithinRoundings.refl (n : Nat) (a : ℝ) : WithinRoundings n a a := by
  have h1 := one_le_roundingBound n
  refine ⟨1, (mul_one a).symm, ?_, h1⟩
  exact inv_le_one_of_one_le₀ h1

/-- More roundings allow more. -/
theorem WithinRoundings.mono {m n : Nat} {a b : ℝ} (h : WithinRoundings m a b)
    (hmn : m ≤ n) : WithinRoundings n a b := by
  obtain ⟨ρ, he, h1, h2⟩ := h
  have hle : (1 + 1 / 8388608 : ℝ) ^ m ≤ (1 + 1 / 8388608 : ℝ) ^ n :=
    pow_le_pow_right₀ (by norm_num) hmn
  have hpos : (0 : ℝ) < (1 + 1 / 8388608 : ℝ) ^ m := by positivity
  refine ⟨ρ, he, le_trans ?_ h1, le_trans h2 hle⟩
  exact inv_anti₀ hpos hle

/-- The factor of a relation is positive. -/
theorem roundingBound_inv_pos (n : Nat) : (0 : ℝ) < ((1 + 1 / 8388608 : ℝ) ^ n)⁻¹ := by
  positivity

/-- Relations compose, the numbers of roundings add up. -/
theorem WithinRoundings.trans {m n : Nat} {a b c : ℝ} (h1 : WithinRoundings m a b)
    (h2 : WithinRoundings n b c) : WithinRoundings (m + n) a c := by
  obtain ⟨ρ1, e1, l1, u1⟩ := h1
  obtain ⟨ρ2, e2, l2, u2⟩ := h2
  have p1 := roundingBound_inv_pos m
  have p2 := roundingBound_inv_pos n
  refine ⟨ρ1 * ρ2, by rw [e1, e2]; ring, ?_, ?_⟩
  · rw [pow_add, mul_inv]
    exact mul_le_mul l1 l2 p2.le (le_trans p1.le l1)
  · rw [pow_add]
    exact mul_le_mul u1 u2 (le_trans p2.le l2) (le_trans (le_trans p1.le l1) u1)

/-- The relation is symmetric. -/
theorem WithinRoundings.symm {n : Nat} {a b : ℝ} (h : WithinRoundings n a b) :
    WithinRoundings n b a := by
  obtain ⟨ρ, e, l, u⟩ := h
  have p := roundingBound_inv_pos n
  have hρ : 0 < ρ := lt_of_lt_of_le p l
  have hU : (0 : ℝ) < (1 + 1 / 8388608 : ℝ) ^ n := by positivity
  refine ⟨ρ⁻¹, ?_, ?_, ?_⟩
  · rw [e, mul_assoc, mul_inv_cancel₀ (ne_of_gt hρ), mul_one]
  · exact inv_anti₀ hρ u
  · rw [inv_le_comm₀ hρ hU]
    exact l

/-- Products: the numbers of roundings add up. -/
theorem WithinRoundings.mul {m n : Nat} {a b c d : ℝ} (h1 : WithinRoundings m a b)
    (h2 : WithinRoundings n c d) : WithinRoundings (m + n) (a * c) (b * d) := by
  obtain ⟨ρ1, e1, l1, u1⟩ := h1
  obtain ⟨ρ2, e2, l2, u2⟩ := h2
  have p1 := roundingBound_inv_pos m
  have p2 := roundingBound_inv_pos n
  refine ⟨ρ1 * ρ2, by rw [e1, e2]; ring, ?_, ?_⟩
  · rw [pow_add, mul_inv]
    exact mul_le_mul l1 l2 p2.le (le_trans p1.le l1)
  · rw [pow_add]
    exact mul_le_mul u1 u2 (le_trans p2.le l2) (le_trans (le_trans p1.le l1) u1)

/-- Quotients: the numbers of roundings add up. -/
theorem WithinRoundings.div {m n : Nat} {a b c d : ℝ} (h1 : WithinRoundings m a b)
    (h2 : WithinRoundings n c d) : WithinRoundings (m + n) (a / c) (b / d) := by
  obtain ⟨ρ2, e2, l2, u2⟩ := h2
  have p2 := roundingBound_inv_pos n
  have hρ : 0 < ρ2 := lt_of_lt_of_le p2 l2
  have hU : (0 : ℝ) < (1 + 1 / 8388608 : ℝ) ^ n := by positivity
  have hinv : WithinRoundings n c⁻¹ d⁻¹ := by
    refine ⟨ρ2⁻¹, by rw [e2, mul_inv], inv_anti₀ hρ u2, ?_⟩
    rw [inv_le_comm₀ hρ hU]
    exact l2
  rw [div_eq_mul_inv, div_eq_mul_inv]
  exact h1.mul hinv

/-- Sums of numbers that are not negative. -/
theorem WithinRoundings.add {n : Nat} {a b c d : ℝ} (h1 : WithinRoundings n a b)
    (h2 : WithinRoundings n c d) (hb : 0 ≤ b) (hd : 0 ≤ d) :
    WithinRoundings n (a + c) (b + d) := by
  obtain ⟨ρ1, e1, l1, u1⟩ := h1
  obtain ⟨ρ2, e2, l2, u2⟩ := h2
  rcases (add_nonneg hb hd).eq_or_lt with h0 | hpos
  · have hb0 : b = 0 := by linarith
    have hd0 : d = 0 := by linarith
    rw [e1, e2, hb0, hd0, zero_mul, zero_mul, add_zero]
    exact WithinRoundings.refl n 0
  · refine ⟨(b * ρ1 + d * ρ2) / (b + d), ?_, ?_, ?_⟩
    · rw [e1, e2]
      field_simp
    · rw [le_div_iff₀ hpos]
      have ha := mul_le_mul_of_nonneg_left l1 hb
      have hc := mul_le_mul_of_nonneg_left l2 hd
      linarith
    · rw [div_le_iff₀ hpos]
      have ha := mul_le_mul_of_nonneg_left u1 hb
      have hc := mul_le_mul_of_nonneg_left u2 hd
      linarith

/-- Square roots halve the number of roundings. -/
theorem WithinRoundings.sqrt {n : Nat} {a b : ℝ} (h : WithinRoundings (2 * n) a b)
    (hb : 0 ≤ b) : WithinRoundings n (Real.sqrt a) (Real.sqrt b) := by
  obtain ⟨ρ, e, l, u⟩ := h
  have hU : (0 : ℝ) < (1 + 1 / 8388608 : ℝ) ^ n := by positivity
  have p := roundingBound_inv_pos n
  have hsq : (1 + 1 / 8388608 : ℝ) ^ (2 * n) = ((1 + 1 / 8388608 : ℝ) ^ n) ^ 2 := by
    rw [mul_comm, pow_mul]
  rw [hsq] at l u
  refine ⟨Real.sqrt ρ, by rw [e, Real.sqrt_mul hb], ?_, ?_⟩
  · apply Real.le_sqrt_of_sq_le
    rw [inv_pow]
    exact l
  · rw [Real.sqrt_le_left hU.le]
    exact u

/-- One rounding to `float`. -/
theorem WithinRoundings.round (x : ℝ) : WithinRoundings 1 (roundBinary32 x) x := by
  by_cases hx : x = 0
  · rw [hx, roundBinary32_zero]
    exact WithinRoundings.refl 1 0
  · have h := abs_roundBinary32_sub_le x
    have hu : (2 : ℝ) ^ (-24 : ℤ) = 1 / 16777216 := by norm_num
    rw [hu] at h
    generalize roundBinary32 x = r at h
    have hx2 : 0 < |x| := abs_pos.mpr hx
    have hq : |r / x - 1| ≤ 1 / 16777216 := by
      have he : r / x - 1 = (r - x) / x := by
        field_simp
      rw [he, abs_div, div_le_iff₀ hx2]
      exact h
    obtain ⟨q1, q2⟩ := abs_le.mp hq
    refine ⟨r / x, by field_simp, ?_, ?_⟩
    · norm_num
      linarith
    · norm_num
      linarith

/-- The rounding of a number within `n` roundings of `b` is within `n + 1` roundings. -/
theorem WithinRoundings.round_of {n : Nat} {a b : ℝ} (h : WithinRoundings n a b) :
    WithinRoundings (n + 1) (roundBinary32 a) b := by
  have h1 := (WithinRoundings.round a).trans h
  rwa [Nat.add_comm] at h1

/-- The distance of two numbers within `n` roundings. -/
theorem WithinRoundings.abs_sub_le {n : Nat} {a b : ℝ} (h : WithinRoundings n a b) :
    |a - b| ≤ ((1 + 1 / 8388608 : ℝ) ^ n - 1) * |b| := by
  obtain ⟨ρ, e, l, u⟩ := h
  have hU : (0 : ℝ) < (1 + 1 / 8388608 : ℝ) ^ n := by positivity
  have h1 := one_le_roundingBound n
  have hinv : 1 - ((1 + 1 / 8388608 : ℝ) ^ n - 1) ≤ ((1 + 1 / 8388608 : ℝ) ^ n)⁻¹ := by
    generalize (1 + 1 / 8388608 : ℝ) ^ n = U at hU h1 ⊢
    have hd : U⁻¹ - (1 - (U - 1)) = (U - 1) ^ 2 / U := by
      field_simp
      ring
    have hnn : 0 ≤ (U - 1) ^ 2 / U := by positivity
    linarith
  have hab : a - b = b * (ρ - 1) := by
    rw [e]
    ring
  rw [hab, abs_mul, mul_comm]
  refine mul_le_mul_of_nonneg_right ?_ (abs_nonneg b)
  rw [abs_le]
  constructor <;> linarith

/-! ## Single precision: the average magnitude of ten equal samples at 45 degrees -/

/-- The sums after `n` observations `(p, 45)` on a fresh averager, in single precision, are
within `n + 1` roundings of `n` times the exact term. -/
theorem Binary32.steady_sums_within (p n : Nat) :
    WithinRoundings (n + 1)
      ((WN_VECTOR_AVERAGER.fresh : WN_VECTOR_AVERAGER Binary32).accumulateAll
        (List.replicate n (p, 45))).x.toReal
      ((n : ℝ) * (roundBinary32 ((p : Nat) : ℝ) * (11863283 / 16777216))) := by
  have hP : 0 ≤ roundBinary32 ((p : Nat) : ℝ) := roundBinary32_nonneg _ (Nat.cast_nonneg p)
  have hb : 0 ≤ roundBinary32 ((p : Nat) : ℝ) * (11863283 / 16777216) :=
    mul_nonneg hP (by norm_num)
  induction n with
  | zero =>
    have h0 : ((WN_VECTOR_AVERAGER.fresh : WN_VECTOR_AVERAGER Binary32).accumulateAll
        (List.replicate 0 (p, 45))).x.toReal = 0 := Binary32.toReal_zero
    rw [h0, Nat.cast_zero, zero_mul]
    exact WithinRoundings.refl _ 0
  | succ k ih =>
    rw [← accumulateAll_replicate_succ]
    obtain ⟨h1, -⟩ := Binary32.accumulate_45
      ((WN_VECTOR_AVERAGER.fresh : WN_VECTOR_AVERAGER Binary32).accumulateAll
        (List.replicate k (p, 45))) p
    show WithinRoundings (k + 1 + 1)
      ((((WN_VECTOR_AVERAGER.fresh : WN_VECTOR_AVERAGER Binary32).accumulateAll
        (List.replicate k (p, 45))).accumulate p 45).x.toReal) _
    rw [h1]
    have hsum : ((k + 1 : Nat) : ℝ) * (roundBinary32 ((p : Nat) : ℝ) * (11863283 / 16777216))
        = (k : ℝ) * (roundBinary32 ((p : Nat) : ℝ) * (11863283 / 16777216))
          + roundBinary32 ((p : Nat) : ℝ) * (11863283 / 16777216) := by
      push_cast
      ring
    rw [hsum]
    exact (ih.add ((WithinRoundings.round _).mono (by omega))
      (mul_nonneg (Nat.cast_nonneg k) hb) hb).round_of

/-- The `float` cosine of 45 degrees times the square root of 2 is within one rounding
of 1. -/
theorem sqrt_two_mul_cos45_within (P : ℝ) :
    WithinRoundings 1 (Real.sqrt 2 * (P * (11863283 / 16777216))) P := by
  obtain ⟨h1, h2⟩ := sqrt_two_div_two_bounds
  refine ⟨Real.sqrt 2 * (11863283 / 16777216), by ring, ?_, ?_⟩
  · norm_num at h1 ⊢
    linarith
  · norm_num at h2 ⊢
    linarith

/-- In single precision, the magnitude written by the reduction of ten samples `(p, 45)`,
`p >= 1`, is within 15 roundings of `p` as a `float`. -/
theorem Binary32.steady_pulses_avg_within (p : Nat) (hp : 1 ≤ p)
    (report : wn_raw_wind_report_t Binary32) :
    WithinRoundings 15
      (((WN_VECTOR_AVERAGER.fresh : WN_VECTOR_AVERAGER Binary32).accumulateAll
        (List.replicate 10 (p, 45))).computeReportFromAccumulatedValues
          report).2.pulses_avg.toReal
      (roundBinary32 ((p : Nat) : ℝ)) := by
  have hcnt : ((WN_VECTOR_AVERAGER.fresh : WN_VECTOR_AVERAGER Binary32).accumulateAll
      (List.replicate 10 (p, 45))).cnt = 10 := by
    rw [cnt_accumulateAll _ _ (by decide), List.length_replicate]
    decide
  have hfx : (WN_VECTOR_AVERAGER.fresh : WN_VECTOR_AVERAGER Binary32).x.toReal = 0 :=
    Binary32.toReal_zero
  have hfy : (WN_VECTOR_AVERAGER.fresh : WN_VECTOR_AVERAGER Binary32).y.toReal = 0 :=
    Binary32.toReal_zero
  obtain ⟨hyx, -⟩ := Binary32.accumulateAll_diagonal p hp 9
    (WN_VECTOR_AVERAGER.fresh : WN_VECTOR_AVERAGER Binary32) (by rw [hfx, hfy]) (by rw [hfx])
  have hsum := Binary32.steady_sums_within p (9 + 1)
  generalize (WN_VECTOR_AVERAGER.fresh : WN_VECTOR_AVERAGER Binary32).accumulateAll
      (List.replicate (9 + 1) (p, 45)) = acc at hcnt hyx hsum ⊢
  have hne : acc.cnt ≠ 0 := by
    rw [hcnt]
    decide
  have h10 : roundBinary32 ((acc.cnt : Nat) : ℝ) = 10 := by
    rw [hcnt]
    have h : ((10 : Nat) : ℝ) = 10 := by norm_num
    rw [h, roundBinary32_ten]
  have hP : 0 ≤ roundBinary32 ((p : Nat) : ℝ) := roundBinary32_nonneg _ (Nat.cast_nonneg p)
  rw [Binary32.pulses_avg_eq acc hne report _ _ rfl rfl, hyx, h10]
  generalize roundBinary32 ((p : Nat) : ℝ) = P at hsum hP ⊢
  have hb : 0 ≤ P * (11863283 / 16777216) := mul_nonneg hP (by norm_num)
  have hten : (((9 + 1 : Nat) : Nat) : ℝ) * (P * (11863283 / 16777216)) / 10
      = P * (11863283 / 16777216) := by
    push_cast
    ring
  have hax : WithinRoundings 12 (roundBinary32 (acc.x.toReal / 10))
      (P * (11863283 / 16777216)) := by
    have h := (hsum.div (WithinRoundings.refl 0 (10 : ℝ))).round_of
    rwa [hten] at h
  generalize roundBinary32 (acc.x.toReal / 10) = ax at hax ⊢
  have hq := (hax.mul hax).round_of
  have hs := (hq.add hq (mul_nonneg hb hb) (mul_nonneg hb hb)).round_of
  have hr := (WithinRoundings.sqrt (n := 13) hs
    (add_nonneg (mul_nonneg hb hb) (mul_nonneg hb hb))).round_of
  have hroot : Real.sqrt (P * (11863283 / 16777216) * (P * (11863283 / 16777216))
      + P * (11863283 / 16777216) * (P * (11863283 / 16777216)))
      = Real.sqrt 2 * (P * (11863283 / 16777216)) := by
    have he : P * (11863283 / 16777216) * (P * (11863283 / 16777216))
        + P * (11863283 / 16777216) * (P * (11863283 / 16777216))
        = 2 * (P * (11863283 / 16777216)) ^ 2 := by ring
    rw [he, Real.sqrt_mul (by norm_num), Real.sqrt_sq hb]
  rw [hroot] at hr
  exact hr.trans (sqrt_two_mul_cos45_within P)

/-! ## Single precision: the unit conversion of two close magnitudes -/

/-- Rounding two numbers within `n` roundings of each other. -/
theorem WithinRoundings.round_both {n : Nat} {a b : ℝ} (h : WithinRoundings n a b) :
    WithinRoundings (n + 2) (roundBinary32 a) (roundBinary32 b) :=
  h.round_of.trans (WithinRoundings.round b).symm

/-- The unit conversion in single precision has at most three operations: it takes two
magnitudes within `n` roundings of each other to speeds within `n + 6` roundings. -/
theorem Binary32.pulsesToSpeedUnitInUse_within (s : WN_Core Binary32) (a b : Binary32)
    (n : Nat) (h : WithinRoundings n a.toReal b.toReal) :
    WithinRoundings (n + 6) (s.pulsesToSpeedUnitInUse a).toReal
      (s.pulsesToSpeedUnitInUse b).toReal := by
  have hbase : WithinRoundings (n + 4)
      (a * s._HZ_to_ms / ((SAMPLING_WINDOW_TICKS / TICK_HZ : Nat) : Binary32)).toReal
      (b * s._HZ_to_ms / ((SAMPLING_WINDOW_TICKS / TICK_HZ : Nat) : Binary32)).toReal :=
    (((h.mul (WithinRoundings.refl 0 s._HZ_to_ms.toReal)).round_both).div
      (WithinRoundings.refl 0 _)).round_both
  have hunit : ∀ c : Binary32, WithinRoundings (n + 6)
      (a * s._HZ_to_ms / ((SAMPLING_WINDOW_TICKS / TICK_HZ : Nat) : Binary32) * c).toReal
      (b * s._HZ_to_ms / ((SAMPLING_WINDOW_TICKS / TICK_HZ : Nat) : Binary32) * c).toReal :=
    fun c => (hbase.mul (WithinRoundings.refl 0 c.toReal)).round_both
  unfold WN_Core.pulsesToSpeedUnitInUse
  simp only
  split_ifs
  · exact hbase.mono (by omega)
  · exact hunit _
  · exact hunit _
  · exact hunit _
  · exact hbase.mono (by omega)

/-- Twenty-one roundings move a number by less than `2 ^ (-18)` of its size. -/
theorem roundingBound_21 : (1 + 1 / 8388608 : ℝ) ^ 21 - 1 ≤ 1 / 262144 := by
  norm_num

/-- C13 (amended): in single precision, for every calibration constant `k`, every unit `u`
and every pulse count `p` with 1 <= p <= 65535, starting from a fresh orchestrator with
averaging period 30 s started at `t0` ms, after 10 consecutive non-discarded 3-second
windows `ws` in each of which every angle reading is 45 degrees and exactly `p` pulses are
counted, the run ends and the period report has avg_dir = 45, max_speed equal to the
`float` computation of `p * k / 3` converted to the active unit (times 1.94384 for
`UNIT_KN = 1`, 3.6 for `UNIT_KPH = 2`, 2.23694 for `UNIT_MPH = 3`, unconverted for every
other unit value), min_speed = max_speed, and avg_speed within `2 ^ (-18)` of max_speed,
relative to its size. -/
theorem C13_steady_wind_period_report_single_precision (k : Binary32) (u p t0 : Nat)
    (ws : List (List Nat × Nat × Nat)) (hp1 : 1 ≤ p) (hp2 : p ≤ 65535)
    (hlen : ws.length = 10) (hws : WN_Core.steadyWindows p t0 ws = true) :
    ∃ s2 report,
      (WN_Core.begin (({ (WN_Core.new : WN_Core Binary32) with
          _HZ_to_ms := k, _unit_in_use := u }).setAveragingPeriodInSec 30).1 t0
        ).1.runPulsedTicks (WN_Core.pulsedWindows 45 ws) = some s2 ∧
      s2._wind_average_period_sec = 30 ∧
      s2.computeReportForRecentPeriodInSec s2._wind_average_period_sec = some report ∧
      report.avg_dir = 45 ∧
      report.max_speed
        = (if u = 0 then ((p : Nat) : Binary32) * k / ((3 : Nat) : Binary32)
           else if u = 1 then
             ((p : Nat) : Binary32) * k / ((3 : Nat) : Binary32)
               * ((194384 / 100000 : ℚ) : Binary32)
           else if u = 2 then
             ((p : Nat) : Binary32) * k / ((3 : Nat) : Binary32) * ((36 / 10 : ℚ) : Binary32)
           else if u = 3 then
             ((p : Nat) : Binary32) * k / ((3 : Nat) : Binary32)
               * ((223694 / 100000 : ℚ) : Binary32)
           else ((p : Nat) : Binary32) * k / ((3 : Nat) : Binary32)) ∧
      report.min_speed = report.max_speed ∧
      |report.avg_speed.toReal - report.max_speed.toReal|
        ≤ 1 / 262144 * |report.max_speed.toReal| := by
  have hp3 : p % UINT16_MOD = p := Nat.mod_eq_of_lt (by show p < 65536; omega)
  obtain ⟨s2, hrun, ha, hk, hu, hrep⟩ := steady_run_report Binary32.window_reduction
    k u p t0 ws (by show p < 4294967296; omega) hlen hws
  rw [hp3] at hrep
  obtain ⟨hmax, hmin, hdir, -⟩ := Binary32.raw_report_steady p hp2
  have hwithin := Binary32.pulsesToSpeedUnitInUse_within s2 _ ((p : Nat) : Binary32) 15
    (Binary32.steady_pulses_avg_within p hp1 wn_raw_wind_report_t.init)
  have hmx : (s2.formatRawReport
      (((WN_VECTOR_AVERAGER.fresh : WN_VECTOR_AVERAGER Binary32).accumulateAll
        (List.replicate 10 (p, 45))).computeReportFromAccumulatedValues
          wn_raw_wind_report_t.init).2).max_speed
      = s2.pulsesToSpeedUnitInUse ((p : Nat) : Binary32) := by
    show s2.pulsesToSpeedUnitInUse
      (((((WN_VECTOR_AVERAGER.fresh : WN_VECTOR_AVERAGER Binary32).accumulateAll
        (List.replicate 10 (p, 45))).computeReportFromAccumulatedValues
          wn_raw_wind_report_t.init).2.pulses_max : Nat) : Binary32) = _
    rw [hmax]
  have hmn : (s2.formatRawReport
      (((WN_VECTOR_AVERAGER.fresh : WN_VECTOR_AVERAGER Binary32).accumulateAll
        (List.replicate 10 (p, 45))).computeReportFromAccumulatedValues
          wn_raw_wind_report_t.init).2).min_speed
      = s2.pulsesToSpeedUnitInUse ((p : Nat) : Binary32) := by
    show s2.pulsesToSpeedUnitInUse
      (((((WN_VECTOR_AVERAGER.fresh : WN_VECTOR_AVERAGER Binary32).accumulateAll
        (List.replicate 10 (p, 45))).computeReportFromAccumulatedValues
          wn_raw_wind_report_t.init).2.pulses_min : Nat) : Binary32) = _
    rw [hmin]
  refine ⟨s2, _, hrun, ha, hrep, hdir hp1, ?_, ?_, ?_⟩
  · rw [hmx]
    simp only [WN_Core.pulsesToSpeedUnitInUse, hk, hu, UNIT_MS, UNIT_KN, UNIT_KPH, UNIT_MPH]
    rfl
  · rw [hmx, hmn]
  · rw [hmx]
    refine le_trans hwithin.abs_sub_le ?_
    exact mul_le_mul_of_nonneg_right roundingBound_21 (abs_nonneg _)

/-- Witness of C13: calibration constant 1.31, knots, 3 pulses per window, all of them in
the last timer period, window boundaries 3000 ms apart. -/
theorem C13_steady_wind_period_report_single_precision_witness :
    WN_Core.steadyWindows 3 0
        ((List.range 10).map (fun j => (List.replicate 29 0, 3, 3000 * (j + 1)))) = true ∧
    ∃ s2 report,
      (WN_Core.begin (({ (WN_Core.new : WN_Core Binary32) with
          _HZ_to_ms := ((131 / 100 : ℚ) : Binary32), _unit_in_use := 1
        }).setAveragingPeriodInSec 30).1 0).1.runPulsedTicks (WN_Core.pulsedWindows 45
          ((List.range 10).map (fun j => (List.replicate 29 0, 3, 3000 * (j + 1)))))
        = some s2 ∧
      s2.computeReportForRecentPeriodInSec s2._wind_average_period_sec = some report ∧
      report.avg_dir = 45 ∧
      report.max_speed = ((3 : Nat) : Binary32) * ((131 / 100 : ℚ) : Binary32)
        / ((3 : Nat) : Binary32) * ((194384 / 100000 : ℚ) : Binary32) ∧
      report.min_speed = report.max_speed ∧
      |report.avg_speed.toReal - report.max_speed.toReal|
        ≤ 1 / 262144 * |report.max_speed.toReal| := by
  have hws : WN_Core.steadyWindows 3 0
      ((List.range 10).map (fun j => (List.replicate 29 0, 3, 3000 * (j + 1)))) = true := by
    decide
  obtain ⟨s2, report, hrun, -, hrep, hdir, hmax, hmin, havg⟩ :=
    C13_steady_wind_period_report_single_precision ((131 / 100 : ℚ) : Binary32) 1 3 0
      ((List.range 10).map (fun j => (List.replicate 29 0, 3, 3000 * (j + 1))))
      (by decide) (by decide) (by decide) hws
  exact ⟨hws, s2, report, hrun, hrep, hdir, hmax, hmin, havg⟩

/-- Counterexample to C13 as stated: three runs of the fresh orchestrator in single
precision with the calibration constant 1.31, the unit m/s and the averaging period 30 s,
each of 10 kept windows 3000 ms apart in which every angle reading is 45 degrees and `p`
pulses are counted.  With `p = 0` the period report has avg_dir = 0, not 45.  With
`p = 65539` the stored sample holds `65539 mod 2 ^ 16 = 3` pulses, and max_speed is the
speed of 3 pulses, not that of 65539.  With `p = 3` the average magnitude is rounded to one
unit in the last place above 3, and avg_speed (`10989077 / 8388608`) differs from
min_speed = max_speed (`10989076 / 8388608`). -/
theorem C13_counterexample_calm_truncated_rounded :
    (WN_Core.steadyWindows 0 0
        ((List.range 10).map (fun j => (List.replicate 29 0, 0, 3000 * (j + 1)))) = true ∧
      ∃ s2 report,
        (WN_Core.begin (({ (WN_Core.new : WN_Core Binary32) with
            _HZ_to_ms := ((131 / 100 : ℚ) : Binary32), _unit_in_use := 0
          }).setAveragingPeriodInSec 30).1 0).1.runPulsedTicks (WN_Core.pulsedWindows 45
            ((List.range 10).map (fun j => (List.replicate 29 0, 0, 3000 * (j + 1)))))
          = some s2 ∧
        s2.computeReportForRecentPeriodInSec s2._wind_average_period_sec = some report ∧
        report.avg_dir = 0 ∧ ¬ report.avg_dir = 45) ∧
    (WN_Core.steadyWindows 65539 0
        ((List.range 10).map (fun j => (List.replicate 29 0, 65539, 3000 * (j + 1)))) = true ∧
      ∃ s2 report,
        (WN_Core.begin (({ (WN_Core.new : WN_Core Binary32) with
            _HZ_to_ms := ((131 / 100 : ℚ) : Binary32), _unit_in_use := 0
          }).setAveragingPeriodInSec 30).1 0).1.runPulsedTicks (WN_Core.pulsedWindows 45
            ((List.range 10).map (fun j => (List.replicate 29 0, 65539, 3000 * (j + 1)))))
          = some s2 ∧
        s2.computeReportForRecentPeriodInSec s2._wind_average_period_sec = some report ∧
        report.max_speed.toReal = 2747269 / 2097152 ∧
        (s2.pulsesToSpeedUnitInUse ((65539 : Nat) : Binary32)).toReal = 3663193 / 128 ∧
        ¬ report.max_speed = s2.pulsesToSpeedUnitInUse ((65539 : Nat) : Binary32)) ∧
    (WN_Core.steadyWindows 3 0
        ((List.range 10).map (fun j => (List.replicate 29 0, 3, 3000 * (j + 1)))) = true ∧
      ∃ s2 report,
        (WN_Core.begin (({ (WN_Core.new : WN_Core Binary32) with
            _HZ_to_ms := ((131 / 100 : ℚ) : Binary32), _unit_in_use := 0
          }).setAveragingPeriodInSec 30).1 0).1.runPulsedTicks (WN_Core.pulsedWindows 45
            ((List.range 10).map (fun j => (List.replicate 29 0, 3, 3000 * (j + 1)))))
          = some s2 ∧
        s2.computeReportForRecentPeriodInSec s2._wind_average_period_sec = some report ∧
        report.avg_dir = 45 ∧
        report.avg_speed.toReal = 10989077 / 8388608 ∧
        report.max_speed.toReal = 10989076 / 8388608 ∧
        report.min_speed = report.max_speed ∧
        ¬ report.avg_speed = report.max_speed) := by
  have hws0 : WN_Core.steadyWindows 0 0
      ((List.range 10).map (fun j => (List.replicate 29 0, 0, 3000 * (j + 1)))) = true := by
    decide
  have hws1 : WN_Core.steadyWindows 65539 0
      ((List.range 10).map (fun j => (List.replicate 29 0, 65539, 3000 * (j + 1)))) = true := by
    decide
  have hws3 : WN_Core.steadyWindows 3 0
      ((List.range 10).map (fun j => (List.replicate 29 0, 3, 3000 * (j + 1)))) = true := by
    decide
  refine ⟨⟨hws0, ?_⟩, ⟨hws1, ?_⟩, ⟨hws3, ?_⟩⟩
  · obtain ⟨s2, hrun, -, -, -, hrep⟩ := steady_run_report Binary32.window_reduction
      ((131 / 100 : ℚ) : Binary32) 0 0 0 _ (by decide) (by decide) hws0
    obtain ⟨-, -, -, hdir⟩ := Binary32.raw_report_steady 0 (by decide)
    have hdir0 := hdir rfl
    refine ⟨s2, _, hrun, hrep, hdir0, ?_⟩
    show ¬ (((WN_VECTOR_AVERAGER.fresh : WN_VECTOR_AVERAGER Binary32).accumulateAll
      (List.replicate 10 (0, 45))).computeReportFromAccumulatedValues
        wn_raw_wind_report_t.init).2.dir_avg = 45
    rw [hdir0]
    decide
  · obtain ⟨s2, hrun, -, hk, hu, hrep⟩ := steady_run_report Binary32.window_reduction
      ((131 / 100 : ℚ) : Binary32) 0 65539 0 _ (by decide) (by decide) hws1
    obtain ⟨hmax, -, -, -⟩ := Binary32.raw_report_steady 3 (by decide)
    obtain ⟨-, h3, h65539⟩ := Binary32.speeds_of_3 s2 hu hk
      { toReal := 12582913 / 4194304 } rfl
    have hm : (s2.formatRawReport
        (((WN_VECTOR_AVERAGER.fresh : WN_VECTOR_AVERAGER Binary32).accumulateAll
          (List.replicate 10 (65539 % UINT16_MOD, 45))).computeReportFromAccumulatedValues
            wn_raw_wind_report_t.init).2).max_speed
        = s2.pulsesToSpeedUnitInUse ((3 : Nat) : Binary32) := by
      show s2.pulsesToSpeedUnitInUse
        (((((WN_VECTOR_AVERAGER.fresh : WN_VECTOR_AVERAGER Binary32).accumulateAll
          (List.replicate 10 (3, 45))).computeReportFromAccumulatedValues
            wn_raw_wind_report_t.init).2.pulses_max : Nat) : Binary32) = _
      rw [hmax]
    refine ⟨s2, _, hrun, hrep, ?_, h65539, ?_⟩
    · rw [hm, h3]
    · rw [hm]
      intro hcon
      have hr := congrArg Binary32.toReal hcon
      rw [h3, h65539] at hr
      norm_num at hr
  · obtain ⟨s2, hrun, -, hk, hu, hrep⟩ := steady_run_report Binary32.window_reduction
      ((131 / 100 : ℚ) : Binary32) 0 3 0 _ (by decide) (by decide) hws3
    obtain ⟨hmax, hmin, hdir, -⟩ := Binary32.raw_report_steady 3 (by decide)
    have hpav := Binary32.ten_samples_pulses_avg wn_raw_wind_report_t.init
    obtain ⟨havg, h3, -⟩ := Binary32.speeds_of_3 s2 hu hk _ hpav
    have hmx : (s2.formatRawReport
        (((WN_VECTOR_AVERAGER.fresh : WN_VECTOR_AVERAGER Binary32).accumulateAll
          (List.replicate 10 (3 % UINT16_MOD, 45))).computeReportFromAccumulatedValues
            wn_raw_wind_report_t.init).2).max_speed
        = s2.pulsesToSpeedUnitInUse ((3 : Nat) : Binary32) := by
      show s2.pulsesToSpeedUnitInUse
        (((((WN_VECTOR_AVERAGER.fresh : WN_VECTOR_AVERAGER Binary32).accumulateAll
          (List.replicate 10 (3, 45))).computeReportFromAccumulatedValues
            wn_raw_wind_report_t.init).2.pulses_max : Nat) : Binary32) = _
      rw [hmax]
    have hmn : (s2.formatRawReport
        (((WN_VECTOR_AVERAGER.fresh : WN_VECTOR_AVERAGER Binary32).accumulateAll
          (List.replicate 10 (3 % UINT16_MOD, 45))).computeReportFromAccumulatedValues
            wn_raw_wind_report_t.init).2).min_speed
        = s2.pulsesToSpeedUnitInUse ((3 : Nat) : Binary32) := by
      show s2.pulsesToSpeedUnitInUse
        (((((WN_VECTOR_AVERAGER.fresh : WN_VECTOR_AVERAGER Binary32).accumulateAll
          (List.replicate 10 (3, 45))).computeReportFromAccumulatedValues
            wn_raw_wind_report_t.init).2.pulses_min : Nat) : Binary32) = _
      rw [hmin]
    have hav : (s2.formatRawReport
        (((WN_VECTOR_AVERAGER.fresh : WN_VECTOR_AVERAGER Binary32).accumulateAll
          (List.replicate 10 (3 % UINT16_MOD, 45))).computeReportFromAccumulatedValues
            wn_raw_wind_report_t.init).2).avg_speed.toReal = 10989077 / 8388608 := havg
    refine ⟨s2, _, hrun, hrep, hdir (by decide), hav, ?_, ?_, ?_⟩
    · rw [hmx, h3]
      norm_num
    · rw [hmx, hmn]
    · intro hcon
      have hr := congrArg Binary32.toReal hcon
      rw [hav, hmx, h3] at hr
      norm_num at hr

/-! ## Claims on the unit conversion, the tick flag and the sample getter -/

/-- C14: over exact real arithmetic, for every pulse value and every calibration constant
`k = _HZ_to_ms`, `pulsesToSpeedUnitInUse` returns `s = pulses * k / 3` when the unit is m/s,
`s * 1.94384` for knots, `s * 3.6` for km/h, `s * 2.23694` for mph, and `s` for every unit
value outside the four known ones; so 1 m/s converts to 1.94384 kn, 3.6 km/h and
2.23694 mph. -/
theorem C14_pulsesToSpeedUnitInUse_units (s : WN_Core ℝ) (pulses : ℝ) :
    (s._unit_in_use = UNIT_MS →
      s.pulsesToSpeedUnitInUse pulses = pulses * s._HZ_to_ms / 3) ∧
    (s._unit_in_use = UNIT_KN →
      s.pulsesToSpeedUnitInUse pulses = pulses * s._HZ_to_ms / 3 * 1.94384) ∧
    (s._unit_in_use = UNIT_KPH →
      s.pulsesToSpeedUnitInUse pulses = pulses * s._HZ_to_ms / 3 * 3.6) ∧
    (s._unit_in_use = UNIT_MPH →
      s.pulsesToSpeedUnitInUse pulses = pulses * s._HZ_to_ms / 3 * 2.23694) ∧
    (3 < s._unit_in_use →
      s.pulsesToSpeedUnitInUse pulses = pulses * s._HZ_to_ms / 3) ∧
    (pulses * s._HZ_to_ms / 3 = 1 →
      (s._unit_in_use = UNIT_KN → s.pulsesToSpeedUnitInUse pulses = 1.94384) ∧
      (s._unit_in_use = UNIT_KPH → s.pulsesToSpeedUnitInUse pulses = 3.6) ∧
      (s._unit_in_use = UNIT_MPH → s.pulsesToSpeedUnitInUse pulses = 2.23694)) := by
  have h3 : ((SAMPLING_WINDOW_TICKS / TICK_HZ : Nat) : ℝ) = 3 := by
    simp [SAMPLING_WINDOW_TICKS, TICK_HZ]
  have hkn : s._unit_in_use = UNIT_KN →
      s.pulsesToSpeedUnitInUse pulses = pulses * s._HZ_to_ms / 3 * 1.94384 := by
    intro h
    simp only [WN_Core.pulsesToSpeedUnitInUse, h, h3, UNIT_MS, UNIT_KN]
    norm_num
  have hkph : s._unit_in_use = UNIT_KPH →
      s.pulsesToSpeedUnitInUse pulses = pulses * s._HZ_to_ms / 3 * 3.6 := by
    intro h
    simp only [WN_Core.pulsesToSpeedUnitInUse, h, h3, UNIT_MS, UNIT_KN, UNIT_KPH]
    norm_num
  have hmph : s._unit_in_use = UNIT_MPH →
      s.pulsesToSpeedUnitInUse pulses = pulses * s._HZ_to_ms / 3 * 2.23694 := by
    intro h
    simp only [WN_Core.pulsesToSpeedUnitInUse, h, h3, UNIT_MS, UNIT_KN, UNIT_KPH, UNIT_MPH]
    norm_num
  refine ⟨?_, hkn, hkph, hmph, ?_, ?_⟩
  · intro h
    simp only [WN_Core.pulsesToSpeedUnitInUse, h, h3, if_true]
  · intro h
    have h0 : s._unit_in_use ≠ UNIT_MS := by simp only [UNIT_MS]; omega
    have h1 : s._unit_in_use ≠ UNIT_KN := by simp only [UNIT_KN]; omega
    have h2 : s._unit_in_use ≠ UNIT_KPH := by simp only [UNIT_KPH]; omega
    have h4 : s._unit_in_use ≠ UNIT_MPH := by simp only [UNIT_MPH]; omega
    simp only [WN_Core.pulsesToSpeedUnitInUse, h0, h1, h2, h4, h3, if_false]
  · intro h1
    refine ⟨fun h => ?_, fun h => ?_, fun h => ?_⟩
    · rw [hkn h, h1, one_mul]
    · rw [hkph h, h1, one_mul]
    · rw [hmph h, h1, one_mul]

section
variable {F : Type} [Add F] [Mul F] [Div F] [NatCast F] [RatCast F] [FloatFns F]

/-- The second block of `loop()` leaves the tick flag and the tick counter alone. -/
theorem loopWindow_frame (s : WN_Core F) (env : LoopEnv) :
    (s.loopWindow env).1.wn_ticker = s.wn_ticker ∧
      (s.loopWindow env).1.ticks_cnt = s.ticks_cnt := by
  unfold WN_Core.loopWindow
  split
  · split
    · exact ⟨rfl, rfl⟩
    · exact ⟨rfl, rfl⟩
  · exact ⟨rfl, rfl⟩

/-- A call of `loop()` with the tick flag set returns, with the flag cleared and the tick
counter incremented as a `uint32_t`. -/
theorem loop_processes_tick (s : WN_Core F) (env : LoopEnv) (ht : s.wn_ticker = true) :
    ∃ s2 evs, s.loop env = some (s2, evs) ∧ s2.wn_ticker = false ∧
      s2.ticks_cnt = (s.ticks_cnt + 1) % UINT32_MOD := by
  rw [loop_of_ticker s env ht]
  obtain ⟨hv, -⟩ := loopVane_frame
    ({ s with wn_ticker := false, ticks_cnt := (s.ticks_cnt + 1) % UINT32_MOD }) env
  generalize ({ s with wn_ticker := false, ticks_cnt := (s.ticks_cnt + 1) % UINT32_MOD }
    ).loopVane env = v at hv ⊢
  obtain ⟨hw1, hw2⟩ := loopWindow_frame v.1 env
  obtain ⟨evs, hr, -⟩ := loopReport_some (v.1.loopWindow env).1
  rw [hr]
  refine ⟨_, _, rfl, ?_, ?_⟩
  · rw [hw1, hv]
  · rw [hw2, hv]

end

/-- C15: for every orchestrator state in which the tick flag is not set, `loop()` returns
the state it was called on and invokes nothing (no callback, no LED write); a `loop()` call
that processes a tick returns with the flag cleared and the tick counter advanced by 1 (as
a `uint32_t`, so by exactly 1 below 2 ^ 32 - 1), and every `loop()` call that follows it
without a new tick interrupt is such a no-op. -/
theorem C15_loop_is_noop_without_tick {F : Type} [Add F] [Mul F] [Div F]
    [NatCast F] [RatCast F] [FloatFns F] (s : WN_Core F) (env : LoopEnv) :
    (s.wn_ticker = false → s.loop env = some (s, [])) ∧
    (s.wn_ticker = true →
      ∃ s2 evs, s.loop env = some (s2, evs) ∧
        s2.wn_ticker = false ∧
        s2.ticks_cnt = (s.ticks_cnt + 1) % 4294967296 ∧
        (s.ticks_cnt + 1 < 4294967296 → s2.ticks_cnt = s.ticks_cnt + 1) ∧
        ∀ env2, s2.loop env2 = some (s2, [])) := by
  have hnoop : ∀ (t : WN_Core F) (e : LoopEnv), t.wn_ticker = false → t.loop e = some (t, []) := by
    intro t e h
    unfold WN_Core.loop
    simp only [h, Bool.not_false, if_true]
  refine ⟨hnoop s env, ?_⟩
  intro ht
  obtain ⟨s2, evs, h, h1, h2⟩ := loop_processes_tick s env ht
  exact ⟨s2, evs, h, h1, h2, fun hlt => by rw [h2]; exact Nat.mod_eq_of_lt hlt,
    fun env2 => hnoop s2 env2 h1⟩

/-- C16: for every orchestrator state whose rolling buffer holds the insertions `xs` and
every index, `getSampleIndexedFromLast(index)` (which writes no member: the embedding
returns its result only) returns, when the index is less than the live sample count
`min(|xs|, 200)`, speed = pulsesToSpeedUnitInUse(pulses) and dir of the stored sample that
is `index` insertions older than the newest; when the index is out of range it returns the
conversion of the invalid sentinel of the store, which is speed = pulsesToSpeedUnitInUse(0)
and dir = 0. -/
theorem C16_getSampleIndexedFromLast_reads_store {F : Type} [Add F] [Mul F] [Div F]
    [NatCast F] [RatCast F] [FloatFns F] (s : WN_Core F) (xs : List (Nat × Nat))
    (index : Nat) :
    (index < min xs.length 200 →
      ∃ p, xs[xs.length - 1 - index]? = some p ∧
        ({ s with RollingBuffer := WN_ROLLINGBUFFER.addSamples xs }).getSampleIndexedFromLast
            index
          = { speed := s.pulsesToSpeedUnitInUse ((p.1 : Nat) : F), dir := p.2 }) ∧
    (min xs.length 200 ≤ index →
      ({ s with RollingBuffer := WN_ROLLINGBUFFER.addSamples xs }).getSampleIndexedFromLast index
        = ({ s with RollingBuffer := WN_ROLLINGBUFFER.addSamples xs }).formatRawSample
            { pulses := 0, dir := 0, valid := false } ∧
      ({ s with RollingBuffer := WN_ROLLINGBUFFER.addSamples xs }).getSampleIndexedFromLast index
        = { speed := s.pulsesToSpeedUnitInUse ((0 : Nat) : F), dir := 0 }) := by
  constructor
  · intro hi
    have hlt : xs.length - 1 - index < xs.length := by
      have := lt_min_iff.mp hi
      omega
    refine ⟨xs[xs.length - 1 - index], List.getElem?_eq_getElem hlt, ?_⟩
    simp only [WN_Core.getSampleIndexedFromLast]
    rw [WN_ROLLINGBUFFER.get_addSamples_recent xs index _ (List.getElem?_eq_getElem hlt) hi]
    rfl
  · intro hi
    simp only [WN_Core.getSampleIndexedFromLast]
    rw [WN_ROLLINGBUFFER.get_addSamples_old xs index hi]
    exact ⟨rfl, rfl⟩

/-! ## Claims on the vane reading -/

/-- C17: on every processed tick the raw sensor angle `r` is at most 511 and the angle
derived from it, `(r + 180) mod 360` when polarity inversion is on and `r mod 360` when it
is off, is in [0, 360); `loop()` returns and reads the angle sensor exactly once (one write
of the north LED by `signalIfNorth`) if low-power mode is off or the incremented tick count
is a multiple of 5, and not at all otherwise; in the first case the accumulator receives
one `accumulate` call with weight 1 and that angle, in the second none: after the call the
accumulator is that value, or, at a window boundary, possibly its reduction. -/
theorem C17_vane_read_once_per_eligible_tick {F : Type} [Add F] [Mul F] [Div F]
    [NatCast F] [RatCast F] [FloatFns F] (s : WN_Core F) (env : LoopEnv)
    (ht : s.wn_ticker = true) :
    wn_read_then_make_angle_sensor_sleep env.angle_result0 env.angle_result1 ≤ 511 ∧
    (if s._invert_polarity = true then
        (wn_read_then_make_angle_sensor_sleep env.angle_result0 env.angle_result1 + 180) % 360
      else wn_read_then_make_angle_sensor_sleep env.angle_result0 env.angle_result1 % 360)
      < 360 ∧
    ∃ s2 evs, s.loop env = some (s2, evs) ∧
      (evs.filter Event.isNorthLed).length
        = (if s.low_power_mode = false ∨ (s.ticks_cnt + 1) % 4294967296 % 5 = 0
            then 1 else 0) ∧
      ((s.ticks_cnt + 1) % 4294967296 % 30 ≠ 0 →
        s2.VaneAverager
          = (if s.low_power_mode = false ∨ (s.ticks_cnt + 1) % 4294967296 % 5 = 0 then
              s.VaneAverager.accumulate 1
                (if s._invert_polarity = true then
                  (wn_read_then_make_angle_sensor_sleep env.angle_result0 env.angle_result1
                    + 180) % 360
                 else wn_read_then_make_angle_sensor_sleep env.angle_result0
                    env.angle_result1 % 360)
             else s.VaneAverager)) ∧
      (s2.VaneAverager
          = (if s.low_power_mode = false ∨ (s.ticks_cnt + 1) % 4294967296 % 5 = 0 then
              s.VaneAverager.accumulate 1
                (if s._invert_polarity = true then
                  (wn_read_then_make_angle_sensor_sleep env.angle_result0 env.angle_result1
                    + 180) % 360
                 else wn_read_then_make_angle_sensor_sleep env.angle_result0
                    env.angle_result1 % 360)
             else s.VaneAverager) ∨
        s2.VaneAverager
          = ((if s.low_power_mode = false ∨ (s.ticks_cnt + 1) % 4294967296 % 5 = 0 then
              s.VaneAverager.accumulate 1
                (if s._invert_polarity = true then
                  (wn_read_then_make_angle_sensor_sleep env.angle_result0 env.angle_result1
                    + 180) % 360
                 else wn_read_then_make_angle_sensor_sleep env.angle_result0
                    env.angle_result1 % 360)
             else s.VaneAverager).computeReportFromAccumulatedValues
              wn_raw_wind_report_t.init).1) := by
  refine ⟨wn_read_then_make_angle_sensor_sleep_le _ _, ?_, ?_⟩
  · split <;> exact Nat.mod_lt _ (by decide)
  · rw [loop_of_ticker s env ht]
    obtain ⟨hacc, hled⟩ := loopVane_eq
      ({ s with wn_ticker := false, ticks_cnt := (s.ticks_cnt + 1) % UINT32_MOD }) env
    obtain ⟨hv, -⟩ := loopVane_frame
      ({ s with wn_ticker := false, ticks_cnt := (s.ticks_cnt + 1) % UINT32_MOD }) env
    simp only [show UINT32_MOD = 4294967296 from rfl] at hacc hled hv ⊢
    generalize ({ s with wn_ticker := false, ticks_cnt := (s.ticks_cnt + 1) % 4294967296 }
      ).loopVane env = v at hacc hled hv ⊢
    obtain ⟨hw1, hw2, hw3⟩ := loopWindow_vane v.1 env
    obtain ⟨evs, hr, -⟩ := loopReport_some (v.1.loopWindow env).1
    have hr3 := loopReport_no_northLed _ evs hr
    rw [hr]
    refine ⟨_, _, rfl, ?_, ?_, ?_⟩
    · simp only [List.filter_append, hw3, hr3, List.append_nil, List.length_append]
      rw [hled]
      rfl
    · intro h30
      rw [hw1 (by rw [hv]; exact h30), hacc]
    · rw [← hacc]
      exact hw2

/-- Witness of C17: the first tick of a fresh orchestrator in low-power mode; 1 is not a
multiple of 5, so the sensor is not read and the accumulator is unchanged. -/
theorem C17_vane_read_once_per_eligible_tick_witness :
    ∃ s2 evs,
      ({ (WN_Core.new : WN_Core ℝ) with wn_ticker := true, low_power_mode := true }).loop
        { angle_result0 := 0, angle_result1 := 0, millis_check := 100, millis_stamp := 100 }
        = some (s2, evs) ∧
      (evs.filter Event.isNorthLed).length = 0 ∧
      s2.VaneAverager = (WN_VECTOR_AVERAGER.fresh : WN_VECTOR_AVERAGER ℝ) := by
  obtain ⟨-, -, s2, evs, h, hled, hacc, -⟩ := C17_vane_read_once_per_eligible_tick
    ({ (WN_Core.new : WN_Core ℝ) with wn_ticker := true, low_power_mode := true })
    { angle_result0 := 0, angle_result1 := 0, millis_check := 100, millis_stamp := 100 } rfl
  have hcond : ¬ (({ (WN_Core.new : WN_Core ℝ) with
      wn_ticker := true, low_power_mode := true }).low_power_mode = false ∨
      (({ (WN_Core.new : WN_Core ℝ) with
        wn_ticker := true, low_power_mode := true }).ticks_cnt + 1) % 4294967296 % 5 = 0) := by
    show ¬ (true = false ∨ (0 + 1) % 4294967296 % 5 = 0)
    decide
  rw [if_neg hcond] at hled
  have hacc2 := hacc (by show (0 + 1) % 4294967296 % 30 ≠ 0; decide)
  rw [if_neg hcond] at hacc2
  exact ⟨s2, evs, h, hled, hacc2⟩

/-! ## Claims on reachable buffer and configuration states -/

/-- C18: in every `WN_ROLLINGBUFFER` state reachable from a fresh buffer by `addSample`
calls (one per element of `xs`), the array has 200 slots, head < 200 and
count = min(number of insertions, 200) <= 200; hence the position written by the next
`addSample` and the position `(head + 200 - index) mod 200` read by `get(index)` for
index < count (both computed in `size_t` arithmetic) are inside the array, and the position
read holds a sample that an insertion wrote. -/
theorem C18_reachable_buffer_indices_in_bounds (xs : List (Nat × Nat)) :
    (WN_ROLLINGBUFFER.addSamples xs).samples.length = 200 ∧
    (WN_ROLLINGBUFFER.addSamples xs).head < 200 ∧
    (WN_ROLLINGBUFFER.addSamples xs).count = min xs.length 200 ∧
    (WN_ROLLINGBUFFER.addSamples xs).count ≤ 200 ∧
    ((WN_ROLLINGBUFFER.addSamples xs).head + 1) % 4294967296 % 200
      < (WN_ROLLINGBUFFER.addSamples xs).samples.length ∧
    ∀ index, index < (WN_ROLLINGBUFFER.addSamples xs).count →
      ((WN_ROLLINGBUFFER.addSamples xs).head + 200 + 4294967296 - index) % 4294967296 % 200
        < (WN_ROLLINGBUFFER.addSamples xs).samples.length ∧
      ∃ k p, xs[k]? = some p ∧
        (k + 1) % 200
          = ((WN_ROLLINGBUFFER.addSamples xs).head + 200 + 4294967296 - index)
              % 4294967296 % 200 ∧
        (WN_ROLLINGBUFFER.addSamples xs).samples[
            ((WN_ROLLINGBUFFER.addSamples xs).head + 200 + 4294967296 - index)
              % 4294967296 % 200]?
          = some { pulses := p.1, dir := p.2, valid := true } := by
  obtain ⟨hlen, hhead, hcount, hslot⟩ := WN_ROLLINGBUFFER.tracks_addSamples xs
  refine ⟨hlen, ?_, hcount, ?_, ?_, ?_⟩
  · rw [hhead]
    exact Nat.mod_lt _ (by decide)
  · rw [hcount]
    exact min_le_right _ _
  · rw [hlen]
    exact Nat.mod_lt _ (by decide)
  · intro index hi
    rw [hcount] at hi
    obtain ⟨hi1, hi2⟩ := lt_min_iff.mp hi
    have hpos : ((WN_ROLLINGBUFFER.addSamples xs).head + 200 + 4294967296 - index)
        % 4294967296 % 200 = (xs.length - 1 - index + 1) % 200 := by
      rw [hhead]
      omega
    have hlt : xs.length - 1 - index < xs.length := by omega
    refine ⟨?_, xs.length - 1 - index, xs[xs.length - 1 - index],
      List.getElem?_eq_getElem hlt, hpos.symm, ?_⟩
    · rw [hlen]
      exact Nat.mod_lt _ (by decide)
    · rw [hpos]
      exact hslot _ _ (List.getElem?_eq_getElem hlt) (by omega)

/-- One setter call keeps the period settings in range. -/
theorem configInRange_applyConfigCall {G : Type} (s : WN_Core G) (c : ConfigCall)
    (h : ConfigInRange s) : ConfigInRange (s.applyConfigCall c) := by
  obtain ⟨h1, h2, h3, h4⟩ := h
  cases c with
  | setAveragingPeriodInSec period =>
    simp only [WN_Core.applyConfigCall, WN_Core.setAveragingPeriodInSec]
    have hd : SAMPLE_DURATION = 3 := by decide
    have hm : ROLLING_BUFFER_LENGTH * SAMPLE_DURATION = 600 := by decide
    rw [hm, hd]
    split
    · rename_i hc
      exact ⟨hc.1, hc.2, h3, h4⟩
    · exact ⟨h1, h2, h3, h4⟩
  | setReportingIntervalInSec period =>
    simp only [WN_Core.applyConfigCall, WN_Core.setReportingIntervalInSec]
    have hd : SAMPLE_DURATION = 3 := by decide
    rw [hd]
    split
    · rename_i hc
      exact ⟨h1, h2, hc, Nat.mod_lt _ (by decide)⟩
    · exact ⟨h1, h2, h3, h4⟩

/-- Any sequence of setter calls keeps the period settings in range. -/
theorem configInRange_applyConfigCalls {G : Type} (calls : List ConfigCall) :
    ∀ s : WN_Core G, ConfigInRange s → ConfigInRange (s.applyConfigCalls calls) := by
  induction calls with
  | nil => intro s h; exact h
  | cons c cs ih =>
    intro s h
    exact ih _ (configInRange_applyConfigCall s c h)

/-- C19: in every orchestrator state reachable from the constructor by any sequence of
`setAveragingPeriodInSec` and `setReportingIntervalInSec` calls, accepted or rejected, the
averaging period lies in [3, 600] and the reporting interval is at least 3; hence the
divisor `_wind_update_period_sec * TICK_HZ` of the modulo test in `loop()` is never 0 (and,
computed in `int`, does not overflow), and the period report requests at most 200
samples. -/
theorem C19_period_settings_stay_in_range {F : Type} [Add F] [Mul F] [Div F]
    [NatCast F] [RatCast F] [FloatFns F] (calls : List ConfigCall) :
    3 ≤ ((WN_Core.new : WN_Core F).applyConfigCalls calls)._wind_average_period_sec ∧
    ((WN_Core.new : WN_Core F).applyConfigCalls calls)._wind_average_period_sec ≤ 600 ∧
    3 ≤ ((WN_Core.new : WN_Core F).applyConfigCalls calls)._wind_update_period_sec ∧
    ((WN_Core.new : WN_Core F).applyConfigCalls calls)._wind_update_period_sec * TICK_HZ ≠ 0 ∧
    ((WN_Core.new : WN_Core F).applyConfigCalls calls)._wind_update_period_sec * TICK_HZ
      < 2147483648 ∧
    ((WN_Core.new : WN_Core F).applyConfigCalls calls)._wind_average_period_sec
      / (SAMPLING_WINDOW_TICKS / TICK_HZ) % UINT16_MOD ≤ 200 := by
  have hnew : ConfigInRange (WN_Core.new : WN_Core F) := by
    simp only [ConfigInRange, WN_Core.new, DEFAULT_AVG_PERIOD_SEC, DEFAULT_UPDATE_PERIOD_SEC]
    omega
  obtain ⟨h1, h2, h3, h4⟩ := configInRange_applyConfigCalls calls _ hnew
  have ht : TICK_HZ = 10 := rfl
  have hs : SAMPLING_WINDOW_TICKS / TICK_HZ = 3 := by decide
  refine ⟨h1, h2, h3, ?_, ?_, ?_⟩
  · rw [ht]; omega
  · rw [ht]; omega
  · rw [hs]
    simp only [UINT16_MOD]
    omega

/-! ## Claims on the accumulator at a window boundary -/

section
variable {F : Type} [Add F] [Mul F] [Div F] [NatCast F] [RatCast F] [FloatFns F]

/-- After `n` late windows from a started fresh orchestrator nothing was stored and the
averager holds all `30 * n` readings. -/
theorem runTicks_slowWindows (F : Type) [Add F] [Mul F] [Div F]
    [NatCast F] [RatCast F] [FloatFns F] (deg n : Nat) (hn : 30 * n < UINT32_MOD) :
    ∃ evs, (WN_Core.begin (WN_Core.new : WN_Core F) 0).1.runTicks (WN_Core.slowWindows deg n)
      = some
        ({ (WN_Core.begin (WN_Core.new : WN_Core F) 0).1 with
            ticks_cnt := 30 * n,
            VaneAverager := (WN_VECTOR_AVERAGER.fresh : WN_VECTOR_AVERAGER F).accumulateAll
              (List.replicate (30 * n)
                (1, wn_read_then_make_angle_sensor_sleep (deg * 16 / 256) (deg * 16 % 256)
                  % 360)),
            speed_pulse_count := 0,
            last_sampling_window_millis := 3120 * n % UINT32_MOD }, evs) := by
  induction n with
  | zero => exact ⟨[], rfl⟩
  | succ k ih =>
    obtain ⟨evs1, h1⟩ := ih (by omega)
    obtain ⟨evs2, h2⟩ := runTicks_window_discard
      ({ (WN_Core.begin (WN_Core.new : WN_Core F) 0).1 with
          ticks_cnt := 30 * k,
          VaneAverager := (WN_VECTOR_AVERAGER.fresh : WN_VECTOR_AVERAGER F).accumulateAll
            (List.replicate (30 * k)
              (1, wn_read_then_make_angle_sensor_sleep (deg * 16 / 256) (deg * 16 % 256)
                % 360)),
          speed_pulse_count := 0,
          last_sampling_window_millis := 3120 * k % UINT32_MOD })
      deg (3120 * (k + 1) % UINT32_MOD) rfl rfl rfl
      (by simp only; omega) (by simp only; omega)
      (by simp only [WN_Core.millisDiff, UINT32_MOD]; omega)
    refine ⟨evs1 ++ evs2, ?_⟩
    rw [WN_Core.slowWindows, runTicks_append, h1]
    simp only
    rw [h2]
    simp only [accumulateAll_accumulateAll, List.append_replicate_replicate,
      Option.some.injEq, Prod.mk.injEq, and_true, WN_Core.mk.injEq, true_and]
    have h30 : 30 * k + 30 = 30 * (k + 1) := by ring
    rw [h30]
    exact ⟨rfl, rfl⟩

/-- After `n` late windows and `k < 30` further ticks. -/
theorem runTicks_slowWindows_then (F : Type) [Add F] [Mul F] [Div F]
    [NatCast F] [RatCast F] [FloatFns F] (deg n k : Nat) (hk : k < 30)
    (hn : 30 * n + k < UINT32_MOD) :
    ∃ evs, (WN_Core.begin (WN_Core.new : WN_Core F) 0).1.runTicks
        (WN_Core.slowWindows deg n ++ List.replicate k (WN_Core.tickEnv deg 0))
      = some
        ({ (WN_Core.begin (WN_Core.new : WN_Core F) 0).1 with
            ticks_cnt := 30 * n + k,
            VaneAverager := (WN_VECTOR_AVERAGER.fresh : WN_VECTOR_AVERAGER F).accumulateAll
              (List.replicate (30 * n + k)
                (1, wn_read_then_make_angle_sensor_sleep (deg * 16 / 256) (deg * 16 % 256)
                  % 360)),
            speed_pulse_count := 0,
            last_sampling_window_millis := 3120 * n % UINT32_MOD }, evs) := by
  obtain ⟨evsA, hA⟩ := runTicks_slowWindows F deg n (by omega)
  obtain ⟨evsB, hB⟩ := runTicks_plain k (WN_Core.tickEnv deg 0)
    ({ (WN_Core.begin (WN_Core.new : WN_Core F) 0).1 with
        ticks_cnt := 30 * n,
        VaneAverager := (WN_VECTOR_AVERAGER.fresh : WN_VECTOR_AVERAGER F).accumulateAll
          (List.replicate (30 * n)
            (1, wn_read_then_make_angle_sensor_sleep (deg * 16 / 256) (deg * 16 % 256) % 360)),
        speed_pulse_count := 0,
        last_sampling_window_millis := 3120 * n % UINT32_MOD })
    rfl rfl rfl (by simp only; omega) (by simp only; omega)
  refine ⟨evsA ++ evsB, ?_⟩
  rw [runTicks_append, hA]
  simp only
  rw [hB]
  simp only [accumulateAll_accumulateAll, List.append_replicate_replicate, WN_Core.tickEnv]

/-- A kept window whose boundary reading wraps the observation counter to 0: the reduction
is skipped and the stored direction is the 0 of the untouched report. -/
theorem loop_window_keep_of_cnt_wrap (s : WN_Core F) (env : LoopEnv)
    (ht : s.wn_ticker = true) (hl : s.low_power_mode = false)
    (hw : (s.ticks_cnt + 1) % UINT32_MOD % 30 = 0)
    (hd : WN_Core.millisDiff env.millis_check s.last_sampling_window_millis < 3100)
    (hc : (s.VaneAverager.cnt + 1) % UINT32_MOD = 0) :
    (({ s with wn_ticker := false, ticks_cnt := (s.ticks_cnt + 1) % UINT32_MOD }).loopVane
        env).1.VaneAverager.cnt = 0 ∧
    ∃ s2 evs, s.loop env = some (s2, evs) ∧
      s2.RollingBuffer = s.RollingBuffer.addRawSample
        { pulses := s.speed_pulse_count % UINT16_MOD, dir := 0, valid := true } := by
  have hcnt0 : (({ s with wn_ticker := false, ticks_cnt := (s.ticks_cnt + 1) % UINT32_MOD }
      ).loopVane env).1.VaneAverager.cnt = 0 := by
    rw [loopVane_not_low_power
      ({ s with wn_ticker := false, ticks_cnt := (s.ticks_cnt + 1) % UINT32_MOD }) env hl]
    exact hc
  obtain ⟨evs, h⟩ := loop_window_keep s env ht hw hd
  rw [computeReport_of_cnt_zero _ hcnt0] at h
  exact ⟨hcnt0, _, evs, h, rfl⟩

/-- When the tick counter and the observation counter wrap together: after `n` late windows
and 15 further ticks with `30 * n + 16 = 2 ^ 32`, the next tick is a window boundary at
which the averager, its reading taken, holds a count of 0; the window passes the drift check
and the stored direction is the 0 of the untouched report. -/
theorem runTicks_until_counters_wrap (F : Type) [Add F] [Mul F] [Div F]
    [NatCast F] [RatCast F] [FloatFns F] (deg n : Nat) (hn : 30 * n + 16 = UINT32_MOD) :
    ∃ s1 evs1 s2 evs2,
      (WN_Core.begin (WN_Core.new : WN_Core F) 0).1.runTicks
          (WN_Core.slowWindows deg n ++ List.replicate 15 (WN_Core.tickEnv deg 0))
        = some (s1, evs1) ∧
      s1.ticks_cnt = 30 * n + 15 ∧
      (s1.ticks_cnt + 1) % UINT32_MOD % 30 = 0 ∧
      (({ s1.onTickerTimerISR with
            wn_ticker := false, ticks_cnt := (s1.ticks_cnt + 1) % UINT32_MOD }).loopVane
          (WN_Core.tickEnv deg 0)).1.VaneAverager.cnt = 0 ∧
      WN_Core.millisDiff 0 s1.last_sampling_window_millis < 3100 ∧
      s1.timerTick (WN_Core.tickEnv deg 0) = some (s2, evs2) ∧
      s2.RollingBuffer.count = 1 ∧
      s2.RollingBuffer.get 0 = { pulses := 0, dir := 0, valid := true } := by
  obtain ⟨evs1, h1⟩ := runTicks_slowWindows_then F deg n 15 (by decide) (by omega)
  generalize hV : (WN_VECTOR_AVERAGER.fresh : WN_VECTOR_AVERAGER F).accumulateAll
      (List.replicate (30 * n + 15)
        (1, wn_read_then_make_angle_sensor_sleep (deg * 16 / 256) (deg * 16 % 256) % 360))
      = V at h1
  have hVcnt : V.cnt = 30 * n + 15 := by
    rw [← hV, cnt_accumulateAll (WN_VECTOR_AVERAGER.fresh : WN_VECTOR_AVERAGER F) _
      (by show 0 < UINT32_MOD; decide), List.length_replicate]
    show (0 + (30 * n + 15)) % UINT32_MOD = 30 * n + 15
    simp only [UINT32_MOD] at hn ⊢
    omega
  have hw : (30 * n + 15 + 1) % UINT32_MOD % 30 = 0 := by
    simp only [UINT32_MOD] at hn ⊢
    omega
  have hd : WN_Core.millisDiff 0 (3120 * n % UINT32_MOD) < 3100 := by
    simp only [WN_Core.millisDiff, UINT32_MOD] at hn ⊢
    omega
  have hc : (V.cnt + 1) % UINT32_MOD = 0 := by
    rw [hVcnt]
    simp only [UINT32_MOD] at hn ⊢
    omega
  obtain ⟨hcnt0, s2, evs2, h2, hrb⟩ := loop_window_keep_of_cnt_wrap
    (WN_Core.onTickerTimerISR
      ({ (WN_Core.begin (WN_Core.new : WN_Core F) 0).1 with
          ticks_cnt := 30 * n + 15, VaneAverager := V, speed_pulse_count := 0,
          last_sampling_window_millis := 3120 * n % UINT32_MOD }))
    (WN_Core.tickEnv deg 0) rfl rfl hw hd hc
  refine ⟨_, evs1, s2, evs2, h1, rfl, hw, hcnt0, hd, h2, ?_, ?_⟩
  · rw [hrb]
    rfl
  · rw [hrb, get_addRawSample_zero _ (by
      simp only [WN_Core.onTickerTimerISR, WN_Core.begin, WN_Core.new, WN_ROLLINGBUFFER.fresh,
        List.length_replicate, ROLLING_BUFFER_LENGTH])]
    rfl

end

/-- C20 (amended): in every orchestrator state, whatever the low-power mode, when `loop()`
processes a tick whose count is a multiple of 30 the angle is read on that tick (30 is a
multiple of 5), so the window block finds an accumulator whose count is the count before
the tick plus 1 modulo 2 ^ 32.  Unless that 32-bit count has wrapped to 0, the accumulator
holds at least one observation (cnt >= 1), and when the drift check passes the reduction
that produces the stored sample's direction computes a report whatever report it is
given (it does not take the empty branch), resets the count and the rolling buffer receives
the sample with the computed direction. -/
theorem C20_boundary_reading_precedes_reduction {F : Type} [Add F] [Mul F] [Div F]
    [NatCast F] [RatCast F] [FloatFns F] (s : WN_Core F) (env : LoopEnv)
    (ht : s.wn_ticker = true) (hw : (s.ticks_cnt + 1) % 4294967296 % 30 = 0) :
    (({ s with wn_ticker := false, ticks_cnt := (s.ticks_cnt + 1) % 4294967296 }).loopVane
        env).1.VaneAverager.cnt = (s.VaneAverager.cnt + 1) % 4294967296 ∧
    ((s.VaneAverager.cnt + 1) % 4294967296 ≠ 0 →
      1 ≤ (({ s with wn_ticker := false, ticks_cnt := (s.ticks_cnt + 1) % 4294967296 }).loopVane
        env).1.VaneAverager.cnt ∧
      (WN_Core.millisDiff env.millis_check s.last_sampling_window_millis < 3100 →
        ∃ s2 evs computed, s.loop env = some (s2, evs) ∧
          (∀ report,
            (({ s with wn_ticker := false, ticks_cnt := (s.ticks_cnt + 1) % 4294967296 }
              ).loopVane env).1.VaneAverager.computeReportFromAccumulatedValues report
              = (s2.VaneAverager, computed)) ∧
          s2.VaneAverager.cnt = 0 ∧
          s2.RollingBuffer = s.RollingBuffer.addRawSample
            { pulses := s.speed_pulse_count % 65536, dir := computed.dir_avg,
              valid := true })) := by
  have hcond : s.low_power_mode = false ∨ (s.ticks_cnt + 1) % 4294967296 % 5 = 0 := by
    right
    omega
  have hacc := (loopVane_eq
    ({ s with wn_ticker := false, ticks_cnt := (s.ticks_cnt + 1) % 4294967296 }) env).1
  simp only [if_pos hcond] at hacc
  have hcnt : (({ s with wn_ticker := false, ticks_cnt := (s.ticks_cnt + 1) % 4294967296 }
      ).loopVane env).1.VaneAverager.cnt = (s.VaneAverager.cnt + 1) % 4294967296 := by
    rw [hacc]
    rfl
  refine ⟨hcnt, ?_⟩
  intro hne
  refine ⟨by rw [hcnt]; omega, ?_⟩
  intro hd
  obtain ⟨evs, h⟩ := loop_window_keep s env ht hw hd
  obtain ⟨computed, -, -, hcomp⟩ := computeReport_of_cnt_ne_zero
    (({ s with wn_ticker := false, ticks_cnt := (s.ticks_cnt + 1) % 4294967296 }).loopVane
      env).1.VaneAverager (by rw [hcnt]; exact hne)
  refine ⟨_, evs, computed, h, ?_, ?_, ?_⟩
  · intro report
    simp only [show UINT32_MOD = 4294967296 from rfl]
    rw [hcomp report, hcomp wn_raw_wind_report_t.init]
  · exact cnt_computeReport _ _
  · simp only [show UINT32_MOD = 4294967296 from rfl, show UINT16_MOD = 65536 from rfl]
    rw [hcomp wn_raw_wind_report_t.init]

/-- Witness of C20: the 30th tick of a fresh orchestrator in low-power mode, seen 3000 ms
after the last window boundary: the accumulator holds the reading of that tick. -/
theorem C20_boundary_reading_precedes_reduction_witness :
    (({ ({ (WN_Core.new : WN_Core ℝ) with
            ticks_cnt := 29, wn_ticker := true, low_power_mode := true }) with
          wn_ticker := false, ticks_cnt := (29 + 1) % 4294967296 }).loopVane
        { angle_result0 := 0, angle_result1 := 0, millis_check := 3000, millis_stamp := 3000 }
      ).1.VaneAverager.cnt = 1 :=
  (C20_boundary_reading_precedes_reduction
    ({ (WN_Core.new : WN_Core ℝ) with
        ticks_cnt := 29, wn_ticker := true, low_power_mode := true })
    { angle_result0 := 0, angle_result1 := 0, millis_check := 3000, millis_stamp := 3000 }
    rfl (by decide)).1

/-- Counterexample to C20 as stated: a fresh orchestrator started at 0 ms whose main program
is late, so that every one of the first 143165576 windows ends 3120 ms after the previous
one and is dropped; the dropped windows do not reduce the accumulator, whose count follows
the tick counter.  After 15 more ticks both counters hold 2 ^ 32 - 1.  The next tick wraps
the tick counter to 0, a multiple of 30, so it is a window boundary; the reading of that
tick wraps the observation count to 0 as well: the accumulator counts no observation at
the boundary.  `millis()` has wrapped to 0 too, 1664 ms after the last boundary, so the
window is kept, the reduction takes the empty branch, and the stored direction is the 0 of
the untouched report although every reading was 90 degrees. -/
theorem C20_counterexample_counter_wraps_at_boundary :
    ∃ s1 evs1 s2 evs2,
      (WN_Core.begin (WN_Core.new : WN_Core ℝ) 0).1.runTicks
          (WN_Core.slowWindows 90 143165576 ++ List.replicate 15 (WN_Core.tickEnv 90 0))
        = some (s1, evs1) ∧
      s1.ticks_cnt = 30 * 143165576 + 15 ∧
      (s1.ticks_cnt + 1) % UINT32_MOD % 30 = 0 ∧
      (({ s1.onTickerTimerISR with
            wn_ticker := false, ticks_cnt := (s1.ticks_cnt + 1) % UINT32_MOD }).loopVane
          (WN_Core.tickEnv 90 0)).1.VaneAverager.cnt = 0 ∧
      WN_Core.millisDiff 0 s1.last_sampling_window_millis < 3100 ∧
      s1.timerTick (WN_Core.tickEnv 90 0) = some (s2, evs2) ∧
      s2.RollingBuffer.count = 1 ∧
      s2.RollingBuffer.get 0 = { pulses := 0, dir := 0, valid := true } :=
  runTicks_until_counters_wrap ℝ 90 143165576 (by decide)

/-! ## Claim on the termination of the period report -/

section
variable {F : Type} [Add F] [Mul F] [Div F] [NatCast F] [RatCast F] [FloatFns F]

/-- The `for` loop of the period report never ends when its bound does not fit in 16 bits:
the `uint16_t` counter stays below the bound, whatever the number of iterations allowed. -/
theorem periodLoop_none (rb : WN_ROLLINGBUFFER) (bound : Nat) (hb : UINT16_MOD ≤ bound) :
    ∀ (fuel i : Nat) (avg : WN_VECTOR_AVERAGER F), i < UINT16_MOD →
      WN_Core.periodLoop rb fuel i bound avg = none := by
  intro fuel
  induction fuel with
  | zero =>
    intro i avg _
    rfl
  | succ n ih =>
    intro i avg hi
    unfold WN_Core.periodLoop
    rw [if_pos (by omega)]
    exact ih _ _ (Nat.mod_lt _ (by decide))

/-- The period report with an age shift, when the bound of its loop fits in 16 bits: the
loop visits the ages `shift`, ..., `shift + period / 3 - 1` once each and the report reduces
a fresh averager fed the valid samples among them. -/
theorem computeReportForPeriodInSecIndexedFromLast_eq (s : WN_Core F) (period index : Nat)
    (h : period / 3 % 65536 + index * period / 3 % 65536 < 65536) :
    s.computeReportForPeriodInSecIndexedFromLast period index
      = some (s.formatRawReport
          (((WN_VECTOR_AVERAGER.fresh : WN_VECTOR_AVERAGER F).accumulateAll
            ((((List.range' (index * period / 3 % 65536) (period / 3 % 65536)).map
              s.RollingBuffer.get).filter (fun x => x.valid)).map (fun x => (x.pulses, x.dir)))
            ).computeReportFromAccumulatedValues wn_raw_wind_report_t.init).2) := by
  unfold WN_Core.computeReportForPeriodInSecIndexedFromLast
  have hs : SAMPLING_WINDOW_TICKS / TICK_HZ = 3 := by decide
  have hi : (0 + index * period / 3 % UINT16_MOD) % UINT16_MOD
      = index * period / 3 % 65536 := by
    simp only [UINT16_MOD]
    omega
  simp only [hs, hi]
  rw [periodLoop_eq_foldl s.RollingBuffer WN_Core.PERIOD_LOOP_FUEL (index * period / 3 % 65536)
    (period / 3 % UINT16_MOD + index * period / 3 % UINT16_MOD) _
    (by simp only [UINT16_MOD]; omega) (by simp only [UINT16_MOD]; omega)
    (by simp only [WN_Core.PERIOD_LOOP_FUEL, UINT16_MOD]; omega)]
  have hlen : period / 3 % UINT16_MOD + index * period / 3 % UINT16_MOD
      - index * period / 3 % 65536 = period / 3 % 65536 := by
    simp only [UINT16_MOD]
    omega
  simp only [hlen, foldl_feed_eq_accumulateAll]

/-- The period report with an age shift does not return when the bound of its loop does not
fit in 16 bits. -/
theorem computeReportForPeriodInSecIndexedFromLast_none (s : WN_Core F) (period index : Nat)
    (h : 65536 ≤ period / 3 % 65536 + index * period / 3 % 65536) :
    s.computeReportForPeriodInSecIndexedFromLast period index = none := by
  unfold WN_Core.computeReportForPeriodInSecIndexedFromLast
  have hs : SAMPLING_WINDOW_TICKS / TICK_HZ = 3 := by decide
  simp only [hs]
  rw [periodLoop_none s.RollingBuffer _ (by simp only [UINT16_MOD]; omega) _ _ _
    (Nat.mod_lt _ (by decide))]

end

/-- C21 (the code at the failing inputs, and the inputs on which the claim holds): with
`n = floor(period / 3)` and `shift = (index * period) / 3`, both truncated to 16 bits,
`computeReportForPeriodInSecIndexedFromLast(period, index)` returns when `n + shift` fits
in 16 bits, after exactly `n` iterations that read the ages `shift`, ..., `shift + n - 1`
(its report reduces a fresh averager fed the valid samples among them); when
`n + shift >= 65536` the loop reaches no exit, whatever the number of iterations allowed,
and the call does not return.  This happens for period 3 with index 65535 (bound 65536)
and for period 600 with index 327 (ages from 65400, bound 65600). -/
theorem C21_period_loop_diverges_when_bound_exceeds_16_bits {F : Type} [Add F] [Mul F]
    [Div F] [NatCast F] [RatCast F] [FloatFns F] (s : WN_Core F) (period index : Nat) :
    (period / 3 % 65536 + index * period / 3 % 65536 < 65536 →
      s.computeReportForPeriodInSecIndexedFromLast period index
        = some (s.formatRawReport
            (((WN_VECTOR_AVERAGER.fresh : WN_VECTOR_AVERAGER F).accumulateAll
              ((((List.range' (index * period / 3 % 65536) (period / 3 % 65536)).map
                s.RollingBuffer.get).filter (fun x => x.valid)).map
                  (fun x => (x.pulses, x.dir)))
              ).computeReportFromAccumulatedValues wn_raw_wind_report_t.init).2) ∧
      (List.range' (index * period / 3 % 65536) (period / 3 % 65536)).length
        = period / 3 % 65536) ∧
    (65536 ≤ period / 3 % 65536 + index * period / 3 % 65536 →
      (∀ fuel avg, WN_Core.periodLoop s.RollingBuffer fuel (index * period / 3 % 65536)
          (period / 3 % 65536 + index * period / 3 % 65536) (avg : WN_VECTOR_AVERAGER F)
            = none) ∧
      s.computeReportForPeriodInSecIndexedFromLast period index = none) ∧
    (∀ fuel, WN_Core.periodLoop s.RollingBuffer fuel 65535 (1 + 65535)
        (WN_VECTOR_AVERAGER.fresh : WN_VECTOR_AVERAGER F) = none) ∧
    s.computeReportForPeriodInSecIndexedFromLast 3 65535 = none ∧
    s.computeReportForPeriodInSecIndexedFromLast 600 327 = none := by
  refine ⟨fun h => ⟨computeReportForPeriodInSecIndexedFromLast_eq s period index h,
    List.length_range' _ _ _⟩, fun h => ⟨fun fuel avg => ?_,
    computeReportForPeriodInSecIndexedFromLast_none s period index h⟩, fun fuel => ?_,
    computeReportForPeriodInSecIndexedFromLast_none s 3 65535 (by decide),
    computeReportForPeriodInSecIndexedFromLast_none s 600 327 (by decide)⟩
  · exact periodLoop_none s.RollingBuffer _ (by simp only [UINT16_MOD]; omega) fuel _ avg
      (Nat.mod_lt _ (by decide))
  · exact periodLoop_none s.RollingBuffer _ (by decide) fuel _ _ (by decide)

/-! ## Claim on the average and the maximum of a reduction -/

/-- After an `accumulate` call the magnitude just accumulated lies between the extremes,
and the maximum has not decreased. -/
theorem accumulate_extremes {G : Type} [Add G] [Mul G] [Div G] [NatCast G] [RatCast G]
    [FloatFns G] (a : WN_VECTOR_AVERAGER G) (p d : Nat) :
    (a.accumulate p d).wind_min ≤ p ∧ p ≤ (a.accumulate p d).wind_max ∧
      a.wind_max ≤ (a.accumulate p d).wind_max := by
  simp only [WN_VECTOR_AVERAGER.accumulate]
  refine ⟨?_, ?_, ?_⟩ <;> split <;> omega

/-- After one or more `accumulate` calls the minimum is at most the maximum. -/
theorem accumulateAll_min_le_max {G : Type} [Add G] [Mul G] [Div G] [NatCast G] [RatCast G]
    [FloatFns G] (a : WN_VECTOR_AVERAGER G) (obs : List (Nat × Nat)) (hne : obs ≠ []) :
    (a.accumulateAll obs).wind_min ≤ (a.accumulateAll obs).wind_max := by
  induction obs using List.reverseRecOn with
  | nil => exact absurd rfl hne
  | append_singleton ys p _ =>
    rw [accumulateAll_append]
    obtain ⟨h1, h2, -⟩ := accumulate_extremes (a.accumulateAll ys) p.1 p.2
    exact le_trans h1 h2

/-- The sum of the accumulated magnitudes is at most their number times the maximum. -/
theorem sum_le_length_mul_wind_max {G : Type} [Add G] [Mul G] [Div G] [NatCast G]
    [RatCast G] [FloatFns G] (a : WN_VECTOR_AVERAGER G) (obs : List (Nat × Nat)) :
    (obs.map Prod.fst).sum ≤ obs.length * (a.accumulateAll obs).wind_max := by
  induction obs using List.reverseRecOn with
  | nil => simp
  | append_singleton ys p ih =>
    rw [accumulateAll_append]
    obtain ⟨-, h2, h3⟩ := accumulate_extremes (a.accumulateAll ys) p.1 p.2
    have hm := Nat.mul_le_mul_left ys.length h3
    simp only [List.map_append, List.map_cons, List.map_nil, List.sum_append, List.sum_cons,
      List.sum_nil, List.length_append, List.length_singleton, Nat.add_zero, Nat.add_mul,
      Nat.one_mul]
    omega

/-- Over the reals, the length of the summed vector is at most the sum of the accumulated
magnitudes (triangle inequality). -/
theorem real_sums_le_total (obs : List (Nat × Nat)) :
    ((WN_VECTOR_AVERAGER.fresh : WN_VECTOR_AVERAGER ℝ).accumulateAll obs).x ^ 2
      + ((WN_VECTOR_AVERAGER.fresh : WN_VECTOR_AVERAGER ℝ).accumulateAll obs).y ^ 2
      ≤ (((obs.map Prod.fst).sum : Nat) : ℝ) ^ 2 := by
  induction obs using List.reverseRecOn with
  | nil =>
    have hx : ((WN_VECTOR_AVERAGER.fresh : WN_VECTOR_AVERAGER ℝ).accumulateAll []).x = 0 :=
      Nat.cast_zero
    have hy : ((WN_VECTOR_AVERAGER.fresh : WN_VECTOR_AVERAGER ℝ).accumulateAll []).y = 0 :=
      Nat.cast_zero
    rw [hx, hy]
    simp
  | append_singleton ys p ih =>
    rw [accumulateAll_append, real_accumulate_x, real_accumulate_y]
    simp only [List.map_append, List.map_cons, List.map_nil, List.sum_append, List.sum_cons,
      List.sum_nil, Nat.add_zero, Nat.cast_add]
    have hr : (0 : ℝ) ≤ (((ys.map Prod.fst).sum : Nat) : ℝ) := Nat.cast_nonneg _
    have hm : (0 : ℝ) ≤ ((p.1 : Nat) : ℝ) := Nat.cast_nonneg _
    have hcs := Real.cos_sq_add_sin_sq (((p.2 : Nat) : ℝ) * (Real.pi / 180))
    generalize ((WN_VECTOR_AVERAGER.fresh : WN_VECTOR_AVERAGER ℝ).accumulateAll ys).x = x
      at ih ⊢
    generalize ((WN_VECTOR_AVERAGER.fresh : WN_VECTOR_AVERAGER ℝ).accumulateAll ys).y = y
      at ih ⊢
    generalize (((ys.map Prod.fst).sum : Nat) : ℝ) = r at ih hr ⊢
    generalize ((p.1 : Nat) : ℝ) = m at hm ⊢
    generalize Real.cos (((p.2 : Nat) : ℝ) * (Real.pi / 180)) = c at hcs ⊢
    generalize Real.sin (((p.2 : Nat) : ℝ) * (Real.pi / 180)) = t at hcs ⊢
    have hid : (x * c + y * t) ^ 2 + (x * t - y * c) ^ 2 = (x ^ 2 + y ^ 2) * (c ^ 2 + t ^ 2) := by
      ring
    rw [hcs, mul_one] at hid
    have hdot : x * c + y * t ≤ r := by
      by_contra hcon
      rw [not_le] at hcon
      have hpos := mul_pos (sub_pos.mpr hcon) (by linarith : 0 < x * c + y * t + r)
      nlinarith [sq_nonneg (x * t - y * c)]
    have hmd := mul_le_mul_of_nonneg_left hdot hm
    have hl : (x + m * c) ^ 2 + (y + m * t) ^ 2
        = (x ^ 2 + y ^ 2) + 2 * (m * (x * c + y * t)) + m ^ 2 * (c ^ 2 + t ^ 2) := by
      ring
    have hrm : (r + m) ^ 2 = r ^ 2 + 2 * (m * r) + m ^ 2 := by
      ring
    rw [hl, hrm, hcs]
    linarith

/-- Over the reals, the magnitude written by a reduction after fewer than 2 ^ 32
`accumulate` calls on a fresh averager is at most the maximum it writes; the report passed
in is the default one, left untouched when there was no call. -/
theorem real_raw_avg_le_max (obs : List (Nat × Nat)) (hlen : obs.length < UINT32_MOD) :
    (((WN_VECTOR_AVERAGER.fresh : WN_VECTOR_AVERAGER ℝ).accumulateAll obs
      ).computeReportFromAccumulatedValues wn_raw_wind_report_t.init).2.pulses_avg
      ≤ (((((WN_VECTOR_AVERAGER.fresh : WN_VECTOR_AVERAGER ℝ).accumulateAll obs
        ).computeReportFromAccumulatedValues wn_raw_wind_report_t.init).2.pulses_max : Nat)
          : ℝ) := by
  have hcnt : ((WN_VECTOR_AVERAGER.fresh : WN_VECTOR_AVERAGER ℝ).accumulateAll obs).cnt
      = obs.length := by
    rw [cnt_accumulateAll _ _ (by decide)]
    show (0 + obs.length) % UINT32_MOD = obs.length
    rw [Nat.zero_add, Nat.mod_eq_of_lt hlen]
  have hsum := sum_le_length_mul_wind_max (WN_VECTOR_AVERAGER.fresh : WN_VECTOR_AVERAGER ℝ) obs
  have hnorm := real_sums_le_total obs
  generalize (WN_VECTOR_AVERAGER.fresh : WN_VECTOR_AVERAGER ℝ).accumulateAll obs = acc
    at hcnt hsum hnorm ⊢
  by_cases h0 : acc.cnt = 0
  · rw [computeReport_of_cnt_zero acc h0]
    show ((0 : Nat) : ℝ) ≤ ((0 : Nat) : ℝ)
    exact le_refl _
  · obtain ⟨computed, hcmax, -, hall⟩ := computeReport_of_cnt_ne_zero acc h0
    have hmax : (acc.computeReportFromAccumulatedValues
        wn_raw_wind_report_t.init).2.pulses_max = acc.wind_max := by
      rw [hall]
      exact hcmax
    rw [real_pulses_avg acc h0, hmax, hcnt]
    have hn : (0 : ℝ) < ((obs.length : Nat) : ℝ) :=
      Nat.cast_pos.mpr (Nat.pos_of_ne_zero (by rw [← hcnt]; exact h0))
    have hsumr : (((obs.map Prod.fst).sum : Nat) : ℝ)
        ≤ ((obs.length : Nat) : ℝ) * ((acc.wind_max : Nat) : ℝ) := by
      exact_mod_cast hsum
    have hs0 : (0 : ℝ) ≤ (((obs.map Prod.fst).sum : Nat) : ℝ) := Nat.cast_nonneg _
    have hw0 : (0 : ℝ) ≤ ((acc.wind_max : Nat) : ℝ) := Nat.cast_nonneg _
    rw [Real.sqrt_le_left hw0]
    have hexp : acc.x / ((obs.length : Nat) : ℝ) * (acc.x / ((obs.length : Nat) : ℝ))
        + acc.y / ((obs.length : Nat) : ℝ) * (acc.y / ((obs.length : Nat) : ℝ))
        = (acc.x ^ 2 + acc.y ^ 2) / ((obs.length : Nat) : ℝ) ^ 2 := by
      field_simp
      ring
    rw [hexp, div_le_iff₀ (by positivity)]
    nlinarith [mul_self_le_mul_self hs0 hsumr]

/-- Over the reals and with a calibration constant that is not negative, the unit
conversion is monotone. -/
theorem real_pulsesToSpeedUnitInUse_mono (s : WN_Core ℝ) (hk : 0 ≤ s._HZ_to_ms) (a b : ℝ)
    (h : a ≤ b) : s.pulsesToSpeedUnitInUse a ≤ s.pulsesToSpeedUnitInUse b := by
  have h3 : ((SAMPLING_WINDOW_TICKS / TICK_HZ : Nat) : ℝ) = 3 := by
    simp [SAMPLING_WINDOW_TICKS, TICK_HZ]
  have hab := mul_le_mul_of_nonneg_right h hk
  simp only [WN_Core.pulsesToSpeedUnitInUse, h3]
  split_ifs <;> push_cast <;> linarith

/-- Over the reals and with a calibration constant that is not negative, every period
report that is returned has an average speed at most its maximum speed. -/
theorem real_period_report_avg_le_max (s : WN_Core ℝ) (hk : 0 ≤ s._HZ_to_ms)
    (period index : Nat) (r : wn_wind_report_t ℝ)
    (h : s.computeReportForPeriodInSecIndexedFromLast period index = some r) :
    r.avg_speed ≤ r.max_speed := by
  by_cases hfit : period / 3 % 65536 + index * period / 3 % 65536 < 65536
  · rw [computeReportForPeriodInSecIndexedFromLast_eq s period index hfit] at h
    simp only [Option.some.injEq] at h
    subst h
    have hlen : ((((List.range' (index * period / 3 % 65536) (period / 3 % 65536)).map
        s.RollingBuffer.get).filter (fun x => x.valid)).map
          (fun x => (x.pulses, x.dir))).length < UINT32_MOD := by
      have hle := List.length_filter_le (fun x : wn_raw_wind_sample_t => x.valid)
        ((List.range' (index * period / 3 % 65536) (period / 3 % 65536)).map s.RollingBuffer.get)
      rw [List.length_map, List.length_range'] at hle
      rw [List.length_map]
      simp only [UINT32_MOD]
      omega
    exact real_pulsesToSpeedUnitInUse_mono s hk _ _ (real_raw_avg_le_max _ hlen)
  · rw [computeReportForPeriodInSecIndexedFromLast_none s period index (by omega)] at h
    exact absurd h (by simp)

/-- Over the reals, for every non-empty sequence of fewer than 2 ^ 32 `accumulate(m_i, a_i)`
calls on a fresh `WN_VECTOR_AVERAGER`, whatever the report passed in, the reduction writes
pulses_avg = sqrt(avgX^2 + avgY^2) <= pulses_max and pulses_min <= pulses_max;
consequently, in every orchestrator state whose calibration constant is not negative,
every period report that is returned has avg_speed <= max_speed. -/
theorem real_average_at_most_maximum (obs : List (Nat × Nat)) (hne : obs ≠ [])
    (hlen : obs.length < 4294967296) (report : wn_raw_wind_report_t ℝ) :
    (((WN_VECTOR_AVERAGER.fresh : WN_VECTOR_AVERAGER ℝ).accumulateAll obs
      ).computeReportFromAccumulatedValues report).2.pulses_avg
      = Real.sqrt
          (((WN_VECTOR_AVERAGER.fresh : WN_VECTOR_AVERAGER ℝ).accumulateAll obs).x
              / (obs.length : ℝ)
            * (((WN_VECTOR_AVERAGER.fresh : WN_VECTOR_AVERAGER ℝ).accumulateAll obs).x
              / (obs.length : ℝ))
          + ((WN_VECTOR_AVERAGER.fresh : WN_VECTOR_AVERAGER ℝ).accumulateAll obs).y
              / (obs.length : ℝ)
            * (((WN_VECTOR_AVERAGER.fresh : WN_VECTOR_AVERAGER ℝ).accumulateAll obs).y
              / (obs.length : ℝ))) ∧
    (((WN_VECTOR_AVERAGER.fresh : WN_VECTOR_AVERAGER ℝ).accumulateAll obs
      ).computeReportFromAccumulatedValues report).2.pulses_avg
      ≤ (((((WN_VECTOR_AVERAGER.fresh : WN_VECTOR_AVERAGER ℝ).accumulateAll obs
        ).computeReportFromAccumulatedValues report).2.pulses_max : Nat) : ℝ) ∧
    (((WN_VECTOR_AVERAGER.fresh : WN_VECTOR_AVERAGER ℝ).accumulateAll obs
      ).computeReportFromAccumulatedValues report).2.pulses_min
      ≤ (((WN_VECTOR_AVERAGER.fresh : WN_VECTOR_AVERAGER ℝ).accumulateAll obs
        ).computeReportFromAccumulatedValues report).2.pulses_max ∧
    (0 : ℝ) ≤ (WN_Core.new : WN_Core ℝ)._HZ_to_ms ∧
    ∀ s : WN_Core ℝ, 0 ≤ s._HZ_to_ms → ∀ (period index : Nat) (r : wn_wind_report_t ℝ),
      s.computeReportForPeriodInSecIndexedFromLast period index = some r →
        r.avg_speed ≤ r.max_speed := by
  have hcnt : ((WN_VECTOR_AVERAGER.fresh : WN_VECTOR_AVERAGER ℝ).accumulateAll obs).cnt
      = obs.length := by
    rw [cnt_accumulateAll _ _ (by decide)]
    show (0 + obs.length) % 4294967296 = obs.length
    rw [Nat.zero_add, Nat.mod_eq_of_lt hlen]
  have hpos : obs.length ≠ 0 := fun h => hne (List.length_eq_zero.mp h)
  have hbound := real_raw_avg_le_max obs (by show obs.length < 4294967296; exact hlen)
  have hmm := accumulateAll_min_le_max (WN_VECTOR_AVERAGER.fresh : WN_VECTOR_AVERAGER ℝ) obs
    hne
  generalize (WN_VECTOR_AVERAGER.fresh : WN_VECTOR_AVERAGER ℝ).accumulateAll obs = acc
    at hcnt hbound hmm ⊢
  have h0 : acc.cnt ≠ 0 := by
    rw [hcnt]
    exact hpos
  obtain ⟨computed, hcmax, hcmin, hall⟩ := computeReport_of_cnt_ne_zero acc h0
  have hpa := real_pulses_avg acc h0 report
  rw [hcnt] at hpa
  rw [hall wn_raw_wind_report_t.init] at hbound
  rw [hall report] at hpa ⊢
  refine ⟨hpa, hbound, ?_, ?_, fun s hk period index r h =>
    real_period_report_avg_le_max s hk period index r h⟩
  · show computed.pulses_min ≤ computed.pulses_max
    rw [hcmax, hcmin]
    exact hmm
  · show (0 : ℝ) ≤ ((HZ_TO_MS : ℚ) : ℝ)
    simp only [HZ_TO_MS]
    norm_num

/-! ## Single precision: the length of the summed vector -/

/-- A rounding multiplies the square of a number by at most `(1 + 2 ^ (-23)) ^ 2`. -/
theorem sq_roundBinary32_le (z : ℝ) :
    roundBinary32 z ^ 2 ≤ (1 + 1 / 8388608 : ℝ) ^ 2 * z ^ 2 := by
  obtain ⟨ρ, e, l, u⟩ := WithinRoundings.round z
  have hρ : 0 < ρ := lt_of_lt_of_le (roundingBound_inv_pos 1) l
  rw [pow_one] at u
  have h2 : ρ ^ 2 ≤ (1 + 1 / 8388608 : ℝ) ^ 2 := pow_le_pow_left₀ hρ.le u 2
  rw [e, mul_pow, mul_comm]
  exact mul_le_mul_of_nonneg_right h2 (sq_nonneg z)

/-- The rounding of a number that is not negative, against that number. -/
theorem roundBinary32_le_of_nonneg (z : ℝ) (hz : 0 ≤ z) :
    roundBinary32 z ≤ (1 + 1 / 8388608 : ℝ) * z ∧
      z ≤ (1 + 1 / 8388608 : ℝ) * roundBinary32 z := by
  obtain ⟨ρ, e, l, u⟩ := WithinRoundings.round z
  obtain ⟨σ, e2, l2, u2⟩ := (WithinRoundings.round z).symm
  rw [pow_one] at u u2
  have hr : 0 ≤ roundBinary32 z := roundBinary32_nonneg z hz
  constructor
  · rw [e, mul_comm]
    exact mul_le_mul_of_nonneg_right u hz
  · conv_lhs => rw [e2]
    rw [mul_comm]
    exact mul_le_mul_of_nonneg_right u2 hr

/-- The triangle inequality for two plane vectors given by bounds on their lengths. -/
theorem sq_add_sq_add_le (x y a b R T : ℝ) (hR : 0 ≤ R) (hT : 0 ≤ T)
    (h1 : x ^ 2 + y ^ 2 ≤ R ^ 2) (h2 : a ^ 2 + b ^ 2 ≤ T ^ 2) :
    (x + a) ^ 2 + (y + b) ^ 2 ≤ (R + T) ^ 2 := by
  have hid : (x * a + y * b) ^ 2 + (x * b - y * a) ^ 2 = (x ^ 2 + y ^ 2) * (a ^ 2 + b ^ 2) := by
    ring
  have hprod : (x ^ 2 + y ^ 2) * (a ^ 2 + b ^ 2) ≤ R ^ 2 * T ^ 2 :=
    mul_le_mul h1 h2 (by positivity) (by positivity)
  have hdot : x * a + y * b ≤ R * T := by
    by_contra hcon
    rw [not_le] at hcon
    have hRT : 0 ≤ R * T := mul_nonneg hR hT
    have hlt : (R * T) ^ 2 < (x * a + y * b) ^ 2 := pow_lt_pow_left₀ hcon hRT (by norm_num)
    nlinarith [sq_nonneg (x * b - y * a)]
  nlinarith

/-- The term that one `accumulate` call adds, in single precision, is a vector of length at
most `(1 + 2 ^ (-23)) ^ 3` times a bound `M` on the magnitude. -/
theorem Binary32.term_norm_le (m M : Nat) (hm : m ≤ M) (θ : ℝ) :
    roundBinary32 (roundBinary32 ((m : Nat) : ℝ) * roundBinary32 (Real.cos θ)) ^ 2
      + roundBinary32 (roundBinary32 ((m : Nat) : ℝ) * roundBinary32 (Real.sin θ)) ^ 2
      ≤ ((1 + 1 / 8388608 : ℝ) ^ 3 * (M : ℝ)) ^ 2 := by
  have h1 := sq_roundBinary32_le (roundBinary32 ((m : Nat) : ℝ) * roundBinary32 (Real.cos θ))
  have h2 := sq_roundBinary32_le (roundBinary32 ((m : Nat) : ℝ) * roundBinary32 (Real.sin θ))
  have hc := sq_roundBinary32_le (Real.cos θ)
  have hs := sq_roundBinary32_le (Real.sin θ)
  have hP := sq_roundBinary32_le ((m : Nat) : ℝ)
  have hcs := Real.cos_sq_add_sin_sq θ
  have hmM : ((m : Nat) : ℝ) ^ 2 ≤ ((M : Nat) : ℝ) ^ 2 :=
    pow_le_pow_left₀ (Nat.cast_nonneg m) (by exact_mod_cast hm) 2
  generalize roundBinary32 (roundBinary32 ((m : Nat) : ℝ) * roundBinary32 (Real.cos θ)) = tx
    at h1 ⊢
  generalize roundBinary32 (roundBinary32 ((m : Nat) : ℝ) * roundBinary32 (Real.sin θ)) = ty
    at h2 ⊢
  generalize roundBinary32 (Real.cos θ) = c at h1 hc
  generalize roundBinary32 (Real.sin θ) = s at h2 hs
  generalize roundBinary32 ((m : Nat) : ℝ) = P at h1 h2 hP
  generalize Real.cos θ = c0 at hc hcs
  generalize Real.sin θ = s0 at hs hcs
  generalize ((m : Nat) : ℝ) = m0 at hP hmM
  generalize ((M : Nat) : ℝ) = M0 at hmM ⊢
  have hβ : (0 : ℝ) ≤ (1 + 1 / 8388608 : ℝ) ^ 2 := by positivity
  have e : ((1 + 1 / 8388608 : ℝ) ^ 3 * M0) ^ 2
      = (1 + 1 / 8388608 : ℝ) ^ 2 * ((1 + 1 / 8388608 : ℝ) ^ 2
        * ((1 + 1 / 8388608 : ℝ) ^ 2 * M0 ^ 2)) := by ring
  rw [e]
  generalize (1 + 1 / 8388608 : ℝ) ^ 2 = B at h1 h2 hc hs hP hβ ⊢
  have hP2 : 0 ≤ P ^ 2 := sq_nonneg P
  have hangle : c ^ 2 + s ^ 2 ≤ B := by
    have h : B * c0 ^ 2 + B * s0 ^ 2 = B := by
      rw [← mul_add, hcs, mul_one]
    linarith
  have hsum : tx ^ 2 + ty ^ 2 ≤ B * (P ^ 2 * (c ^ 2 + s ^ 2)) := by
    have h : B * (P * c) ^ 2 + B * (P * s) ^ 2 = B * (P ^ 2 * (c ^ 2 + s ^ 2)) := by ring
    linarith
  have hstep1 : P ^ 2 * (c ^ 2 + s ^ 2) ≤ P ^ 2 * B := mul_le_mul_of_nonneg_left hangle hP2
  have hstep2 : P ^ 2 * B ≤ B * m0 ^ 2 * B := mul_le_mul_of_nonneg_right hP hβ
  have hstep3 : B * m0 ^ 2 * B ≤ B * M0 ^ 2 * B :=
    mul_le_mul_of_nonneg_right (mul_le_mul_of_nonneg_left hmM hβ) hβ
  have hall : P ^ 2 * (c ^ 2 + s ^ 2) ≤ B * M0 ^ 2 * B :=
    le_trans hstep1 (le_trans hstep2 hstep3)
  have hfin := mul_le_mul_of_nonneg_left hall hβ
  have e2 : B * (B * M0 ^ 2 * B) = B * (B * (B * M0 ^ 2)) := by ring
  rw [e2] at hfin
  exact le_trans hsum hfin

/-- In single precision, the summed vector after the observations `obs`, none of a magnitude
above `M`, on a fresh averager has a length of at most
`n * (1 + 2 ^ (-23)) ^ (n + 3) * M`, where `n` is their number. -/
theorem Binary32.sums_norm_le (M : Nat) (obs : List (Nat × Nat)) :
    (∀ q ∈ obs, q.1 ≤ M) →
    ((WN_VECTOR_AVERAGER.fresh : WN_VECTOR_AVERAGER Binary32).accumulateAll obs).x.toReal ^ 2
      + ((WN_VECTOR_AVERAGER.fresh : WN_VECTOR_AVERAGER Binary32).accumulateAll obs).y.toReal ^ 2
      ≤ ((obs.length : ℝ) * ((1 + 1 / 8388608 : ℝ) ^ (obs.length + 3) * (M : ℝ))) ^ 2 := by
  induction obs using List.reverseRecOn with
  | nil =>
    intro _
    have hx : ((WN_VECTOR_AVERAGER.fresh : WN_VECTOR_AVERAGER Binary32).accumulateAll
        []).x.toReal = 0 := Binary32.toReal_zero
    have hy : ((WN_VECTOR_AVERAGER.fresh : WN_VECTOR_AVERAGER Binary32).accumulateAll
        []).y.toReal = 0 := Binary32.toReal_zero
    rw [hx, hy]
    simp
  | append_singleton ys p ih =>
    intro hM
    have hMys : ∀ q ∈ ys, q.1 ≤ M := fun q hq => hM q (List.mem_append_left _ hq)
    have hp : p.1 ≤ M := hM p (List.mem_append_right _ (List.mem_singleton_self p))
    have ih2 := ih hMys
    rw [accumulateAll_append]
    obtain ⟨hx, hy⟩ := Binary32.accumulate_toReal
      ((WN_VECTOR_AVERAGER.fresh : WN_VECTOR_AVERAGER Binary32).accumulateAll ys) p.1 p.2
    rw [hx, hy]
    have ht := Binary32.term_norm_le p.1 M hp
      (roundBinary32 (roundBinary32 ((p.2 : Nat) : ℝ) * (9370165 / 536870912)))
    generalize roundBinary32 (roundBinary32 ((p.1 : Nat) : ℝ) * roundBinary32 (Real.cos
      (roundBinary32 (roundBinary32 ((p.2 : Nat) : ℝ) * (9370165 / 536870912))))) = tx
      at ht ⊢
    generalize roundBinary32 (roundBinary32 ((p.1 : Nat) : ℝ) * roundBinary32 (Real.sin
      (roundBinary32 (roundBinary32 ((p.2 : Nat) : ℝ) * (9370165 / 536870912))))) = ty
      at ht ⊢
    generalize ((WN_VECTOR_AVERAGER.fresh : WN_VECTOR_AVERAGER Binary32).accumulateAll
      ys).x.toReal = x at ih2 ⊢
    generalize ((WN_VECTOR_AVERAGER.fresh : WN_VECTOR_AVERAGER Binary32).accumulateAll
      ys).y.toReal = y at ih2 ⊢
    have hlen : (ys ++ [p]).length = ys.length + 1 := by simp
    rw [hlen]
    have hM0 : (0 : ℝ) ≤ (M : ℝ) := Nat.cast_nonneg M
    have hi0 : (0 : ℝ) ≤ (ys.length : ℝ) := Nat.cast_nonneg _
    have hβ1 : (1 : ℝ) ≤ (1 + 1 / 8388608 : ℝ) := by norm_num
    have hβ0 : (0 : ℝ) ≤ (1 + 1 / 8388608 : ℝ) := by norm_num
    have hR : 0 ≤ (ys.length : ℝ) * ((1 + 1 / 8388608 : ℝ) ^ (ys.length + 3) * (M : ℝ)) := by
      positivity
    have hT : 0 ≤ (1 + 1 / 8388608 : ℝ) ^ 3 * (M : ℝ) := by positivity
    have htri := sq_add_sq_add_le x y tx ty _ _ hR hT ih2 ht
    have h1 := sq_roundBinary32_le (x + tx)
    have h2 := sq_roundBinary32_le (y + ty)
    have hpow : (1 + 1 / 8388608 : ℝ) ^ 3 ≤ (1 + 1 / 8388608 : ℝ) ^ (ys.length + 3) :=
      pow_le_pow_right₀ hβ1 (by omega)
    have hgrow : (1 + 1 / 8388608 : ℝ)
          * ((ys.length : ℝ) * ((1 + 1 / 8388608 : ℝ) ^ (ys.length + 3) * (M : ℝ))
            + (1 + 1 / 8388608 : ℝ) ^ 3 * (M : ℝ))
        ≤ ((ys.length + 1 : Nat) : ℝ)
          * ((1 + 1 / 8388608 : ℝ) ^ (ys.length + 1 + 3) * (M : ℝ)) := by
      have e : ((ys.length + 1 : Nat) : ℝ)
            * ((1 + 1 / 8388608 : ℝ) ^ (ys.length + 1 + 3) * (M : ℝ))
          = (1 + 1 / 8388608 : ℝ)
            * ((ys.length : ℝ) * ((1 + 1 / 8388608 : ℝ) ^ (ys.length + 3) * (M : ℝ))
              + (1 + 1 / 8388608 : ℝ) ^ (ys.length + 3) * (M : ℝ)) := by
        push_cast
        ring
      rw [e]
      refine mul_le_mul_of_nonneg_left ?_ hβ0
      have := mul_le_mul_of_nonneg_right hpow hM0
      linarith
    have hsq := pow_le_pow_left₀ (mul_nonneg hβ0 (add_nonneg hR hT)) hgrow 2
    rw [mul_pow] at hsq
    have hscaled := mul_le_mul_of_nonneg_left htri (sq_nonneg (1 + 1 / 8388608 : ℝ))
    generalize roundBinary32 (x + tx) = x1 at h1 ⊢
    generalize roundBinary32 (y + ty) = y1 at h2 ⊢
    linarith

/-- Every accumulated magnitude is at most the maximum kept by the averager. -/
theorem le_wind_max_of_mem {G : Type} [Add G] [Mul G] [Div G] [NatCast G] [RatCast G]
    [FloatFns G] (a : WN_VECTOR_AVERAGER G) (obs : List (Nat × Nat)) :
    ∀ q ∈ obs, q.1 ≤ (a.accumulateAll obs).wind_max := by
  induction obs using List.reverseRecOn with
  | nil =>
    intro q hq
    exact absurd hq (List.not_mem_nil q)
  | append_singleton ys p ih =>
    intro q hq
    rw [accumulateAll_append]
    obtain ⟨-, h2, h3⟩ := accumulate_extremes (a.accumulateAll ys) p.1 p.2
    rcases List.mem_append.mp hq with h | h
    · exact le_trans (ih q h) h3
    · rw [List.mem_singleton.mp h]
      exact h2

/-- In single precision, the average vector of sums of length at most `n * L`, `n >= 1`
being the count, gives a magnitude of at most `(1 + 2 ^ (-23)) ^ 4 * L`. -/
theorem Binary32.magnitude_le (x y L : ℝ) (n : Nat) (hn : 1 ≤ n) (hL : 0 ≤ L)
    (h : x ^ 2 + y ^ 2 ≤ ((n : ℝ) * L) ^ 2) :
    roundBinary32 (Real.sqrt (roundBinary32
      (roundBinary32 (roundBinary32 (x / roundBinary32 (n : ℝ))
          * roundBinary32 (x / roundBinary32 (n : ℝ)))
        + roundBinary32 (roundBinary32 (y / roundBinary32 (n : ℝ))
          * roundBinary32 (y / roundBinary32 (n : ℝ))))))
      ≤ (1 + 1 / 8388608 : ℝ) ^ 4 * L := by
  have hn0 : (0 : ℝ) < (n : ℝ) := Nat.cast_pos.mpr hn
  have hN := roundBinary32_pos _ hn0
  have hnN := (roundBinary32_le_of_nonneg (n : ℝ) hn0.le).2
  generalize roundBinary32 (n : ℝ) = N at hN hnN ⊢
  have hβ0 : (0 : ℝ) ≤ (1 + 1 / 8388608 : ℝ) := by norm_num
  -- the average vector
  have hax := sq_roundBinary32_le (x / N)
  have hay := sq_roundBinary32_le (y / N)
  have hquot : (x / N) ^ 2 + (y / N) ^ 2 ≤ ((1 + 1 / 8388608 : ℝ) * L) ^ 2 := by
    have e : (x / N) ^ 2 + (y / N) ^ 2 = (x ^ 2 + y ^ 2) / N ^ 2 := by
      field_simp
    rw [e, div_le_iff₀ (by positivity)]
    have h2 : (n : ℝ) * L ≤ (1 + 1 / 8388608 : ℝ) * N * L :=
      mul_le_mul_of_nonneg_right hnN hL
    have h3 := pow_le_pow_left₀ (mul_nonneg hn0.le hL) h2 2
    have e2 : ((1 + 1 / 8388608 : ℝ) * N * L) ^ 2
        = ((1 + 1 / 8388608 : ℝ) * L) ^ 2 * N ^ 2 := by ring
    rw [e2] at h3
    exact le_trans h h3
  generalize roundBinary32 (x / N) = ax at hax ⊢
  generalize roundBinary32 (y / N) = ay at hay ⊢
  have havg : ax ^ 2 + ay ^ 2 ≤ ((1 + 1 / 8388608 : ℝ) ^ 2 * L) ^ 2 := by
    have h1 := mul_le_mul_of_nonneg_left hquot (sq_nonneg (1 + 1 / 8388608 : ℝ))
    have e : (1 + 1 / 8388608 : ℝ) ^ 2 * ((1 + 1 / 8388608 : ℝ) * L) ^ 2
        = ((1 + 1 / 8388608 : ℝ) ^ 2 * L) ^ 2 := by ring
    rw [e] at h1
    have e3 : (1 + 1 / 8388608 : ℝ) ^ 2 * ((x / N) ^ 2 + (y / N) ^ 2)
        = (1 + 1 / 8388608 : ℝ) ^ 2 * (x / N) ^ 2
          + (1 + 1 / 8388608 : ℝ) ^ 2 * (y / N) ^ 2 := by ring
    rw [e3] at h1
    linarith
  -- the squares and their sum
  have hq1 := (roundBinary32_le_of_nonneg (ax * ax) (mul_self_nonneg ax)).1
  have hq2 := (roundBinary32_le_of_nonneg (ay * ay) (mul_self_nonneg ay)).1
  have hq1n := roundBinary32_nonneg (ax * ax) (mul_self_nonneg ax)
  have hq2n := roundBinary32_nonneg (ay * ay) (mul_self_nonneg ay)
  generalize roundBinary32 (ax * ax) = q1 at hq1 hq1n ⊢
  generalize roundBinary32 (ay * ay) = q2 at hq2 hq2n ⊢
  have hS := (roundBinary32_le_of_nonneg (q1 + q2) (add_nonneg hq1n hq2n)).1
  have hSn := roundBinary32_nonneg (q1 + q2) (add_nonneg hq1n hq2n)
  generalize roundBinary32 (q1 + q2) = S at hS hSn ⊢
  have hSle : S ≤ ((1 + 1 / 8388608 : ℝ) ^ 3 * L) ^ 2 := by
    have h1 : S ≤ (1 + 1 / 8388608 : ℝ) ^ 2 * (ax ^ 2 + ay ^ 2) := by
      have h2 := mul_le_mul_of_nonneg_left (add_le_add hq1 hq2) hβ0
      have e : (1 + 1 / 8388608 : ℝ) * ((1 + 1 / 8388608 : ℝ) * (ax * ax)
          + (1 + 1 / 8388608 : ℝ) * (ay * ay))
          = (1 + 1 / 8388608 : ℝ) ^ 2 * (ax ^ 2 + ay ^ 2) := by ring
      rw [e] at h2
      exact le_trans hS h2
    have h3 := mul_le_mul_of_nonneg_left havg (sq_nonneg (1 + 1 / 8388608 : ℝ))
    have e : (1 + 1 / 8388608 : ℝ) ^ 2 * ((1 + 1 / 8388608 : ℝ) ^ 2 * L) ^ 2
        = ((1 + 1 / 8388608 : ℝ) ^ 3 * L) ^ 2 := by ring
    rw [e] at h3
    exact le_trans h1 h3
  have hroot : Real.sqrt S ≤ (1 + 1 / 8388608 : ℝ) ^ 3 * L :=
    (Real.sqrt_le_left (by positivity)).mpr hSle
  have hfin := (roundBinary32_le_of_nonneg (Real.sqrt S) (Real.sqrt_nonneg S)).1
  have h4 := mul_le_mul_of_nonneg_left hroot hβ0
  have e : (1 + 1 / 8388608 : ℝ) * ((1 + 1 / 8388608 : ℝ) ^ 3 * L)
      = (1 + 1 / 8388608 : ℝ) ^ 4 * L := by ring
  rw [e] at h4
  exact le_trans hfin h4

/-- In single precision, the magnitude written by a reduction after `n < 2 ^ 32`
`accumulate` calls on a fresh averager is at most `(1 + 2 ^ (-23)) ^ (n + 7)` times the
maximum it writes; the report passed in is the default one, left untouched when there was no
call. -/
theorem Binary32.raw_avg_le (obs : List (Nat × Nat)) (hlen : obs.length < UINT32_MOD) :
    (((WN_VECTOR_AVERAGER.fresh : WN_VECTOR_AVERAGER Binary32).accumulateAll obs
      ).computeReportFromAccumulatedValues wn_raw_wind_report_t.init).2.pulses_avg.toReal
      ≤ (1 + 1 / 8388608 : ℝ) ^ (obs.length + 7)
        * (((((WN_VECTOR_AVERAGER.fresh : WN_VECTOR_AVERAGER Binary32).accumulateAll obs
          ).computeReportFromAccumulatedValues wn_raw_wind_report_t.init).2.pulses_max : Nat)
            : ℝ) := by
  have hcnt : ((WN_VECTOR_AVERAGER.fresh : WN_VECTOR_AVERAGER Binary32).accumulateAll obs).cnt
      = obs.length := by
    rw [cnt_accumulateAll _ _ (by decide)]
    show (0 + obs.length) % UINT32_MOD = obs.length
    rw [Nat.zero_add, Nat.mod_eq_of_lt hlen]
  have hnorm := Binary32.sums_norm_le
    ((WN_VECTOR_AVERAGER.fresh : WN_VECTOR_AVERAGER Binary32).accumulateAll obs).wind_max obs
    (le_wind_max_of_mem _ obs)
  generalize (WN_VECTOR_AVERAGER.fresh : WN_VECTOR_AVERAGER Binary32).accumulateAll obs = acc
    at hcnt hnorm ⊢
  by_cases h0 : acc.cnt = 0
  · rw [computeReport_of_cnt_zero acc h0]
    show (((0 : Nat) : Binary32)).toReal ≤ _ * (((0 : Nat) : Nat) : ℝ)
    rw [Binary32.toReal_zero, Nat.cast_zero, mul_zero]
  · obtain ⟨computed, hcmax, -, hall⟩ := computeReport_of_cnt_ne_zero acc h0
    have hmax : (acc.computeReportFromAccumulatedValues
        wn_raw_wind_report_t.init).2.pulses_max = acc.wind_max := by
      rw [hall]
      exact hcmax
    have hn : 1 ≤ obs.length := Nat.pos_of_ne_zero (by rw [← hcnt]; exact h0)
    rw [Binary32.pulses_avg_eq acc h0 _ _ _ rfl rfl, hmax, hcnt]
    have hL : 0 ≤ (1 + 1 / 8388608 : ℝ) ^ (obs.length + 3) * (acc.wind_max : ℝ) := by
      positivity
    have hm := Binary32.magnitude_le acc.x.toReal acc.y.toReal _ obs.length hn hL hnorm
    have e : (1 + 1 / 8388608 : ℝ) ^ 4
          * ((1 + 1 / 8388608 : ℝ) ^ (obs.length + 3) * (acc.wind_max : ℝ))
        = (1 + 1 / 8388608 : ℝ) ^ (obs.length + 7) * (acc.wind_max : ℝ) := by
      ring
    rw [e] at hm
    exact hm

/-! ## Single precision: the average speed against the maximum speed -/

/-- Two numbers within `n` roundings, the second not negative: each is at most
`(1 + 2 ^ (-23)) ^ n` times the other, and the first is not negative. -/
theorem WithinRoundings.le_of_nonneg {n : Nat} {a b : ℝ} (h : WithinRoundings n a b)
    (hb : 0 ≤ b) :
    a ≤ (1 + 1 / 8388608 : ℝ) ^ n * b ∧ b ≤ (1 + 1 / 8388608 : ℝ) ^ n * a ∧ 0 ≤ a := by
  obtain ⟨ρ, e, l, u⟩ := h
  have hρ : 0 < ρ := lt_of_lt_of_le (roundingBound_inv_pos n) l
  have ha : 0 ≤ a := by
    rw [e]
    exact mul_nonneg hb hρ.le
  obtain ⟨σ, e2, -, u2⟩ := (show WithinRoundings n a b from ⟨ρ, e, l, u⟩).symm
  refine ⟨?_, ?_, ha⟩
  · rw [e, mul_comm]
    exact mul_le_mul_of_nonneg_right u hb
  · conv_lhs => rw [e2]
    rw [mul_comm]
    exact mul_le_mul_of_nonneg_right u2 ha

/-- The unit conversion in single precision, against the exact product of the magnitude and
a factor that is not negative when the calibration constant is not negative. -/
theorem Binary32.pulsesToSpeedUnitInUse_factor (s : WN_Core Binary32)
    (hk : 0 ≤ s._HZ_to_ms.toReal) :
    ∃ K : ℝ, 0 ≤ K ∧ ∀ a : Binary32,
      WithinRoundings 3 (s.pulsesToSpeedUnitInUse a).toReal (a.toReal * K) := by
  have hN : 0 ≤ (((SAMPLING_WINDOW_TICKS / TICK_HZ : Nat) : Nat) : Binary32).toReal :=
    roundBinary32_nonneg _ (Nat.cast_nonneg _)
  have hbase : ∀ a : Binary32, WithinRoundings 2
      (a * s._HZ_to_ms / ((SAMPLING_WINDOW_TICKS / TICK_HZ : Nat) : Binary32)).toReal
      (a.toReal * (s._HZ_to_ms.toReal
        / (((SAMPLING_WINDOW_TICKS / TICK_HZ : Nat) : Nat) : Binary32).toReal)) := by
    intro a
    have h := (((WithinRoundings.refl 0 (a.toReal * s._HZ_to_ms.toReal)).round_of).div
      (WithinRoundings.refl 0
        (((SAMPLING_WINDOW_TICKS / TICK_HZ : Nat) : Nat) : Binary32).toReal)).round_of
    rw [mul_div_assoc] at h
    exact h
  have hunit : ∀ (c a : Binary32), WithinRoundings 3
      (a * s._HZ_to_ms / ((SAMPLING_WINDOW_TICKS / TICK_HZ : Nat) : Binary32) * c).toReal
      (a.toReal * (s._HZ_to_ms.toReal
        / (((SAMPLING_WINDOW_TICKS / TICK_HZ : Nat) : Nat) : Binary32).toReal * c.toReal)) := by
    intro c a
    have h := ((hbase a).mul (WithinRoundings.refl 0 c.toReal)).round_of
    rw [mul_assoc] at h
    exact h
  have hc : ∀ q : ℚ, 0 ≤ q → 0 ≤ ((q : ℚ) : Binary32).toReal := fun q hq =>
    roundBinary32_nonneg _ (by exact_mod_cast hq)
  have hK0 := div_nonneg hk hN
  unfold WN_Core.pulsesToSpeedUnitInUse
  simp only
  split_ifs
  · exact ⟨_, hK0, fun a => (hbase a).mono (by omega)⟩
  · exact ⟨_, mul_nonneg hK0 (hc _ (by norm_num)), fun a => hunit _ a⟩
  · exact ⟨_, mul_nonneg hK0 (hc _ (by norm_num)), fun a => hunit _ a⟩
  · exact ⟨_, mul_nonneg hK0 (hc _ (by norm_num)), fun a => hunit _ a⟩
  · exact ⟨_, hK0, fun a => (hbase a).mono (by omega)⟩

/-- In single precision and with a calibration constant that is not negative, the speed of
a magnitude that is at most `(1 + 2 ^ (-23)) ^ n` times an integer magnitude is at most
`(1 + 2 ^ (-23)) ^ (n + 7)` times the speed of that integer magnitude. -/
theorem Binary32.speed_le (s : WN_Core Binary32) (hk : 0 ≤ s._HZ_to_ms.toReal)
    (a : Binary32) (M n : Nat) (ha0 : 0 ≤ a.toReal)
    (h : a.toReal ≤ (1 + 1 / 8388608 : ℝ) ^ n * (M : ℝ)) :
    (s.pulsesToSpeedUnitInUse a).toReal
      ≤ (1 + 1 / 8388608 : ℝ) ^ (n + 7)
        * (s.pulsesToSpeedUnitInUse ((M : Nat) : Binary32)).toReal := by
  obtain ⟨K, hK, hW⟩ := Binary32.pulsesToSpeedUnitInUse_factor s hk
  have hM0 : (0 : ℝ) ≤ (M : ℝ) := Nat.cast_nonneg M
  obtain ⟨h1, -, -⟩ := (hW a).le_of_nonneg (mul_nonneg ha0 hK)
  have hWM : WithinRoundings 4 (s.pulsesToSpeedUnitInUse ((M : Nat) : Binary32)).toReal
      ((M : ℝ) * K) :=
    (hW ((M : Nat) : Binary32)).trans
      ((WithinRoundings.round ((M : Nat) : ℝ)).mul (WithinRoundings.refl 0 K))
  obtain ⟨-, h2, h3⟩ := hWM.le_of_nonneg (mul_nonneg hM0 hK)
  generalize (s.pulsesToSpeedUnitInUse a).toReal = va at h1 ⊢
  generalize (s.pulsesToSpeedUnitInUse ((M : Nat) : Binary32)).toReal = vm at h2 h3 ⊢
  generalize a.toReal = ar at ha0 h h1
  generalize (M : ℝ) = Mr at h hM0 h2
  have hβ3 : (0 : ℝ) ≤ (1 + 1 / 8388608 : ℝ) ^ 3 := by positivity
  have hβn : (0 : ℝ) ≤ (1 + 1 / 8388608 : ℝ) ^ n := by positivity
  have s1 : ar * K ≤ (1 + 1 / 8388608 : ℝ) ^ n * Mr * K := mul_le_mul_of_nonneg_right h hK
  have s2 : (1 + 1 / 8388608 : ℝ) ^ n * (Mr * K)
      ≤ (1 + 1 / 8388608 : ℝ) ^ n * ((1 + 1 / 8388608 : ℝ) ^ 4 * vm) :=
    mul_le_mul_of_nonneg_left h2 hβn
  have s3 : (1 + 1 / 8388608 : ℝ) ^ 3 * (ar * K)
      ≤ (1 + 1 / 8388608 : ℝ) ^ 3
        * ((1 + 1 / 8388608 : ℝ) ^ n * ((1 + 1 / 8388608 : ℝ) ^ 4 * vm)) :=
    mul_le_mul_of_nonneg_left (by rw [mul_assoc] at s1; exact le_trans s1 s2) hβ3
  have e : (1 + 1 / 8388608 : ℝ) ^ 3
        * ((1 + 1 / 8388608 : ℝ) ^ n * ((1 + 1 / 8388608 : ℝ) ^ 4 * vm))
      = (1 + 1 / 8388608 : ℝ) ^ (n + 7) * vm := by ring
  rw [e] at s3
  exact le_trans h1 s3

/-- In single precision, the magnitude written by a reduction is not negative; the report
passed in is the default one. -/
theorem Binary32.raw_avg_nonneg (acc : WN_VECTOR_AVERAGER Binary32) :
    0 ≤ (acc.computeReportFromAccumulatedValues
      wn_raw_wind_report_t.init).2.pulses_avg.toReal := by
  by_cases h0 : acc.cnt = 0
  · rw [computeReport_of_cnt_zero acc h0]
    show 0 ≤ (((0 : Nat) : Binary32)).toReal
    rw [Binary32.toReal_zero]
  · rw [Binary32.pulses_avg_eq acc h0 _ _ _ rfl rfl]
    exact roundBinary32_nonneg _ (Real.sqrt_nonneg _)

/-- In single precision and with a calibration constant that is not negative, every period
report that is returned has an average speed of at most `(1 + 2 ^ (-23)) ^ (n + 14)` times
its maximum speed, `n` being the number of ages the report visits. -/
theorem Binary32.period_report_avg_le (s : WN_Core Binary32) (hk : 0 ≤ s._HZ_to_ms.toReal)
    (period index : Nat) (r : wn_wind_report_t Binary32)
    (h : s.computeReportForPeriodInSecIndexedFromLast period index = some r) :
    r.avg_speed.toReal
      ≤ (1 + 1 / 8388608 : ℝ) ^ (period / 3 % 65536 + 14) * r.max_speed.toReal := by
  by_cases hfit : period / 3 % 65536 + index * period / 3 % 65536 < 65536
  · rw [computeReportForPeriodInSecIndexedFromLast_eq s period index hfit] at h
    simp only [Option.some.injEq] at h
    subst h
    have hle : ((((List.range' (index * period / 3 % 65536) (period / 3 % 65536)).map
        s.RollingBuffer.get).filter (fun x => x.valid)).map
          (fun x => (x.pulses, x.dir))).length ≤ period / 3 % 65536 := by
      have hle := List.length_filter_le (fun x : wn_raw_wind_sample_t => x.valid)
        ((List.range' (index * period / 3 % 65536) (period / 3 % 65536)).map s.RollingBuffer.get)
      rw [List.length_map, List.length_range'] at hle
      rw [List.length_map]
      exact hle
    generalize ((((List.range' (index * period / 3 % 65536) (period / 3 % 65536)).map
        s.RollingBuffer.get).filter (fun x => x.valid)).map
          (fun x => (x.pulses, x.dir))) = obs at hle ⊢
    have hraw := Binary32.raw_avg_le obs (by
      simp only [UINT32_MOD]
      omega)
    have hnn := Binary32.raw_avg_nonneg
      ((WN_VECTOR_AVERAGER.fresh : WN_VECTOR_AVERAGER Binary32).accumulateAll obs)
    have hmono : (1 + 1 / 8388608 : ℝ) ^ (obs.length + 7)
        ≤ (1 + 1 / 8388608 : ℝ) ^ (period / 3 % 65536 + 7) :=
      pow_le_pow_right₀ (by norm_num) (by omega)
    have hraw2 := le_trans hraw (mul_le_mul_of_nonneg_right hmono (Nat.cast_nonneg _))
    exact Binary32.speed_le s hk _ _ (period / 3 % 65536 + 7) hnn hraw2
  · rw [computeReportForPeriodInSecIndexedFromLast_none s period index (by omega)] at h
    exact absurd h (by simp)

/-! ## The average after the observation count has wrapped -/

/-- Observations of a magnitude at most the maximum leave the maximum as it is. -/
theorem accumulateAll_replicate_wind_max {G : Type} [Add G] [Mul G] [Div G] [NatCast G]
    [RatCast G] [FloatFns G] (a : WN_VECTOR_AVERAGER G) (m d : Nat) (h : m ≤ a.wind_max)
    (n : Nat) : (a.accumulateAll (List.replicate n (m, d))).wind_max = a.wind_max := by
  induction n with
  | zero => rfl
  | succ k ih =>
    rw [← accumulateAll_replicate_succ]
    simp only [WN_VECTOR_AVERAGER.accumulate, ih]
    rw [if_neg (by omega)]

/-- Over the reals, two observations `(3, 0)` followed by `n` observations `(0, 0)` whose
total number is 1 modulo 2 ^ 32: the observation count has wrapped to 1, so the sum 6 is
divided by 1 and the magnitude written is 6, above the maximum 3. -/
theorem real_average_after_count_wrap_of_calm (n : Nat) (hn : (n + 2) % UINT32_MOD = 1) :
    (((3 : Nat), (0 : Nat)) :: (3, 0) :: List.replicate n (0, 0)).length = n + 2 ∧
    (((WN_VECTOR_AVERAGER.fresh : WN_VECTOR_AVERAGER ℝ).accumulateAll
        ((3, 0) :: (3, 0) :: List.replicate n (0, 0))).computeReportFromAccumulatedValues
          wn_raw_wind_report_t.init).2.pulses_avg = 6 ∧
    (((WN_VECTOR_AVERAGER.fresh : WN_VECTOR_AVERAGER ℝ).accumulateAll
        ((3, 0) :: (3, 0) :: List.replicate n (0, 0))).computeReportFromAccumulatedValues
          wn_raw_wind_report_t.init).2.pulses_max = 3 := by
  have hsplit : (WN_VECTOR_AVERAGER.fresh : WN_VECTOR_AVERAGER ℝ).accumulateAll
      ((3, 0) :: (3, 0) :: List.replicate n (0, 0))
      = (((WN_VECTOR_AVERAGER.fresh : WN_VECTOR_AVERAGER ℝ).accumulate 3 0).accumulate
          3 0).accumulateAll (List.replicate n (0, 0)) := rfl
  have hx2 : (((WN_VECTOR_AVERAGER.fresh : WN_VECTOR_AVERAGER ℝ).accumulate 3 0).accumulate
      3 0).x = 6 := by
    rw [real_accumulate_x, real_accumulate_x]
    have hfx : (WN_VECTOR_AVERAGER.fresh : WN_VECTOR_AVERAGER ℝ).x = 0 := Nat.cast_zero
    rw [hfx]
    simp only [Nat.cast_zero, zero_mul, Real.cos_zero]
    norm_num
  have hy2 : (((WN_VECTOR_AVERAGER.fresh : WN_VECTOR_AVERAGER ℝ).accumulate 3 0).accumulate
      3 0).y = 0 := by
    rw [real_accumulate_y, real_accumulate_y]
    have hfy : (WN_VECTOR_AVERAGER.fresh : WN_VECTOR_AVERAGER ℝ).y = 0 := Nat.cast_zero
    rw [hfy]
    simp only [Nat.cast_zero, zero_mul, Real.sin_zero]
    norm_num
  have hc2 : (((WN_VECTOR_AVERAGER.fresh : WN_VECTOR_AVERAGER ℝ).accumulate 3 0).accumulate
      3 0).cnt = 2 := rfl
  have hm2 : (((WN_VECTOR_AVERAGER.fresh : WN_VECTOR_AVERAGER ℝ).accumulate 3 0).accumulate
      3 0).wind_max = 3 := rfl
  rw [hsplit]
  generalize ((WN_VECTOR_AVERAGER.fresh : WN_VECTOR_AVERAGER ℝ).accumulate 3 0).accumulate
      3 0 = a2 at hx2 hy2 hc2 hm2 ⊢
  have hcnt : (a2.accumulateAll (List.replicate n (0, 0))).cnt = 1 := by
    rw [cnt_accumulateAll _ _ (by rw [hc2]; decide), hc2, List.length_replicate,
      Nat.add_comm]
    exact hn
  obtain ⟨hx, hy⟩ := real_accumulateAll_replicate a2 n 0 0
  have hmax := accumulateAll_replicate_wind_max a2 0 0 (Nat.zero_le _) n
  generalize a2.accumulateAll (List.replicate n (0, 0)) = acc at hcnt hx hy hmax ⊢
  have hne : acc.cnt ≠ 0 := by
    rw [hcnt]
    decide
  obtain ⟨computed, hcmax, -, hall⟩ := computeReport_of_cnt_ne_zero acc hne
  refine ⟨by simp, ?_, ?_⟩
  · rw [real_pulses_avg acc hne, hx, hy, hcnt, hx2, hy2]
    simp only [Nat.cast_zero, zero_mul, mul_zero, add_zero, Nat.cast_one, div_one]
    have h36 : (6 : ℝ) * 6 = 6 ^ 2 := by norm_num
    rw [h36]
    exact Real.sqrt_sq (by norm_num)
  · rw [hall]
    rw [hcmax, hmax, hm2]

/-- In single precision, `accumulate(3, 0)` adds exactly 3 to `x` and 0 to `y`, and
`accumulate(0, 0)` adds 0 to both. -/
theorem Binary32.accumulate_at_zero_degrees (a : WN_VECTOR_AVERAGER Binary32) :
    (a.accumulate 3 0).x.toReal = roundBinary32 (a.x.toReal + 3) ∧
    (a.accumulate 3 0).y.toReal = roundBinary32 (a.y.toReal + 0) ∧
    (a.accumulate 0 0).x.toReal = roundBinary32 (a.x.toReal + 0) ∧
    (a.accumulate 0 0).y.toReal = roundBinary32 (a.y.toReal + 0) := by
  obtain ⟨h3x, h3y⟩ := Binary32.accumulate_toReal a 3 0
  obtain ⟨h0x, h0y⟩ := Binary32.accumulate_toReal a 0 0
  have h3 : roundBinary32 ((3 : Nat) : ℝ) = 3 := by
    have h : ((3 : Nat) : ℝ) = 3 := by norm_num
    rw [h, roundBinary32_three]
  have h0 : roundBinary32 ((0 : Nat) : ℝ) = 0 := by
    rw [Nat.cast_zero, roundBinary32_zero]
  simp only [h0, h3, zero_mul, roundBinary32_zero, Real.cos_zero, Real.sin_zero,
    roundBinary32_one, mul_one, mul_zero, roundBinary32_three] at h3x h3y h0x h0y
  exact ⟨h3x, h3y, h0x, h0y⟩

/-- The sum 6 is a `float`. -/
theorem roundBinary32_six : roundBinary32 6 = 6 :=
  roundBinary32_val _ _ 2 12582912 (by norm_num) (by norm_num) (by norm_num) (by norm_num)
    (by norm_num)

/-- In single precision, observations `(0, 0)` leave the sums 6 and 0 as they are. -/
theorem Binary32.accumulateAll_calm (n : Nat) :
    ∀ a : WN_VECTOR_AVERAGER Binary32, a.x.toReal = 6 → a.y.toReal = 0 →
      (a.accumulateAll (List.replicate n (0, 0))).x.toReal = 6 ∧
        (a.accumulateAll (List.replicate n (0, 0))).y.toReal = 0 := by
  induction n with
  | zero =>
    intro a hx hy
    exact ⟨hx, hy⟩
  | succ k ih =>
    intro a hx hy
    obtain ⟨e1, e2⟩ := ih a hx hy
    rw [← accumulateAll_replicate_succ]
    obtain ⟨-, -, h1, h2⟩ := Binary32.accumulate_at_zero_degrees
      (a.accumulateAll (List.replicate k (0, 0)))
    show ((a.accumulateAll (List.replicate k (0, 0))).accumulate 0 0).x.toReal = 6
      ∧ ((a.accumulateAll (List.replicate k (0, 0))).accumulate 0 0).y.toReal = 0
    rw [h1, h2, e1, e2, add_zero, add_zero, roundBinary32_six, roundBinary32_zero]
    exact ⟨rfl, rfl⟩

/-- In single precision, two observations `(3, 0)` followed by `n` observations `(0, 0)`
whose total number is 1 modulo 2 ^ 32: every operation is exact, the observation count has
wrapped to 1, and the magnitude written is 6, above the maximum 3. -/
theorem Binary32.average_after_count_wrap_of_calm (n : Nat)
    (hn : (n + 2) % UINT32_MOD = 1) :
    (((WN_VECTOR_AVERAGER.fresh : WN_VECTOR_AVERAGER Binary32).accumulateAll
        ((3, 0) :: (3, 0) :: List.replicate n (0, 0))).computeReportFromAccumulatedValues
          wn_raw_wind_report_t.init).2.pulses_avg.toReal = 6 ∧
    (((WN_VECTOR_AVERAGER.fresh : WN_VECTOR_AVERAGER Binary32).accumulateAll
        ((3, 0) :: (3, 0) :: List.replicate n (0, 0))).computeReportFromAccumulatedValues
          wn_raw_wind_report_t.init).2.pulses_max = 3 := by
  have hsplit : (WN_VECTOR_AVERAGER.fresh : WN_VECTOR_AVERAGER Binary32).accumulateAll
      ((3, 0) :: (3, 0) :: List.replicate n (0, 0))
      = (((WN_VECTOR_AVERAGER.fresh : WN_VECTOR_AVERAGER Binary32).accumulate 3 0).accumulate
          3 0).accumulateAll (List.replicate n (0, 0)) := rfl
  have hfx : (WN_VECTOR_AVERAGER.fresh : WN_VECTOR_AVERAGER Binary32).x.toReal = 0 :=
    Binary32.toReal_zero
  have hfy : (WN_VECTOR_AVERAGER.fresh : WN_VECTOR_AVERAGER Binary32).y.toReal = 0 :=
    Binary32.toReal_zero
  obtain ⟨h1x, h1y, -, -⟩ := Binary32.accumulate_at_zero_degrees
    (WN_VECTOR_AVERAGER.fresh : WN_VECTOR_AVERAGER Binary32)
  obtain ⟨h2x, h2y, -, -⟩ := Binary32.accumulate_at_zero_degrees
    ((WN_VECTOR_AVERAGER.fresh : WN_VECTOR_AVERAGER Binary32).accumulate 3 0)
  rw [hfx, zero_add, roundBinary32_three] at h1x
  rw [hfy, zero_add, roundBinary32_zero] at h1y
  have h33 : roundBinary32 ((3 : ℝ) + 3) = 6 := by
    have h : (3 : ℝ) + 3 = 6 := by norm_num
    rw [h, roundBinary32_six]
  rw [h1x, h33] at h2x
  rw [h1y, zero_add, roundBinary32_zero] at h2y
  have hc2 : (((WN_VECTOR_AVERAGER.fresh : WN_VECTOR_AVERAGER Binary32).accumulate
      3 0).accumulate 3 0).cnt = 2 := rfl
  have hm2 : (((WN_VECTOR_AVERAGER.fresh : WN_VECTOR_AVERAGER Binary32).accumulate
      3 0).accumulate 3 0).wind_max = 3 := rfl
  rw [hsplit]
  generalize ((WN_VECTOR_AVERAGER.fresh : WN_VECTOR_AVERAGER Binary32).accumulate
      3 0).accumulate 3 0 = a2 at h2x h2y hc2 hm2 ⊢
  have hcnt : (a2.accumulateAll (List.replicate n (0, 0))).cnt = 1 := by
    rw [cnt_accumulateAll _ _ (by rw [hc2]; decide), hc2, List.length_replicate,
      Nat.add_comm]
    exact hn
  obtain ⟨hx, hy⟩ := Binary32.accumulateAll_calm n a2 h2x h2y
  have hmax := accumulateAll_replicate_wind_max a2 0 0 (Nat.zero_le _) n
  generalize a2.accumulateAll (List.replicate n (0, 0)) = acc at hcnt hx hy hmax ⊢
  have hne : acc.cnt ≠ 0 := by
    rw [hcnt]
    decide
  obtain ⟨computed, hcmax, -, hall⟩ := computeReport_of_cnt_ne_zero acc hne
  constructor
  · have h1 : roundBinary32 ((acc.cnt : Nat) : ℝ) = 1 := by
      rw [hcnt, Nat.cast_one, roundBinary32_one]
    have h36 : roundBinary32 ((6 : ℝ) * 6) = 36 :=
      roundBinary32_val _ _ 5 9437184 (by norm_num) (by norm_num) (by norm_num)
        (by norm_num) (by norm_num)
    have h36b : roundBinary32 ((36 : ℝ) + 0) = 36 :=
      roundBinary32_val _ _ 5 9437184 (by norm_num) (by norm_num) (by norm_num)
        (by norm_num) (by norm_num)
    have hsq : Real.sqrt 36 = 6 := by
      have h : (36 : ℝ) = 6 ^ 2 := by norm_num
      rw [h]
      exact Real.sqrt_sq (by norm_num)
    rw [Binary32.pulses_avg_eq acc hne _ _ _ rfl rfl, hx, hy, h1, div_one, div_one,
      roundBinary32_six, roundBinary32_zero, mul_zero, roundBinary32_zero, h36, h36b, hsq,
      roundBinary32_six]
  · rw [hall]
    rw [hcmax, hmax, hm2]

/-- C22 (amended): for every non-empty sequence of `n < 2 ^ 32` `accumulate(m_i, a_i)`
calls on a fresh `WN_VECTOR_AVERAGER`, whatever the report passed in, the reduction writes
pulses_min <= pulses_max; with arithmetic over the reals it writes
pulses_avg <= pulses_max, and in single precision
pulses_avg <= (1 + 2 ^ (-23)) ^ (n + 7) * pulses_max.  Consequently, in every orchestrator
state whose calibration constant is not negative (the constructor sets 1.31), every period
report that is returned has avg_speed <= max_speed over the reals and
avg_speed <= (1 + 2 ^ (-23)) ^ (v + 14) * max_speed in single precision, `v` being the
number of ages the report visits, `floor(period / 3)` as a 16-bit number. -/
theorem C22_average_at_most_maximum_up_to_rounding (obs : List (Nat × Nat)) (hne : obs ≠ [])
    (hlen : obs.length < 4294967296) (reportR : wn_raw_wind_report_t ℝ)
    (report : wn_raw_wind_report_t Binary32) :
    ((((WN_VECTOR_AVERAGER.fresh : WN_VECTOR_AVERAGER ℝ).accumulateAll obs
        ).computeReportFromAccumulatedValues reportR).2.pulses_avg
        ≤ (((((WN_VECTOR_AVERAGER.fresh : WN_VECTOR_AVERAGER ℝ).accumulateAll obs
          ).computeReportFromAccumulatedValues reportR).2.pulses_max : Nat) : ℝ) ∧
      (((WN_VECTOR_AVERAGER.fresh : WN_VECTOR_AVERAGER ℝ).accumulateAll obs
        ).computeReportFromAccumulatedValues reportR).2.pulses_min
        ≤ (((WN_VECTOR_AVERAGER.fresh : WN_VECTOR_AVERAGER ℝ).accumulateAll obs
          ).computeReportFromAccumulatedValues reportR).2.pulses_max ∧
      (0 : ℝ) ≤ (WN_Core.new : WN_Core ℝ)._HZ_to_ms ∧
      ∀ s : WN_Core ℝ, 0 ≤ s._HZ_to_ms → ∀ (period index : Nat) (r : wn_wind_report_t ℝ),
        s.computeReportForPeriodInSecIndexedFromLast period index = some r →
          r.avg_speed ≤ r.max_speed) ∧
    ((((WN_VECTOR_AVERAGER.fresh : WN_VECTOR_AVERAGER Binary32).accumulateAll obs
        ).computeReportFromAccumulatedValues report).2.pulses_avg.toReal
        ≤ (1 + 1 / 8388608 : ℝ) ^ (obs.length + 7)
          * (((((WN_VECTOR_AVERAGER.fresh : WN_VECTOR_AVERAGER Binary32).accumulateAll obs
            ).computeReportFromAccumulatedValues report).2.pulses_max : Nat) : ℝ) ∧
      (((WN_VECTOR_AVERAGER.fresh : WN_VECTOR_AVERAGER Binary32).accumulateAll obs
        ).computeReportFromAccumulatedValues report).2.pulses_min
        ≤ (((WN_VECTOR_AVERAGER.fresh : WN_VECTOR_AVERAGER Binary32).accumulateAll obs
          ).computeReportFromAccumulatedValues report).2.pulses_max ∧
      (0 : ℝ) ≤ (WN_Core.new : WN_Core Binary32)._HZ_to_ms.toReal ∧
      ∀ s : WN_Core Binary32, 0 ≤ s._HZ_to_ms.toReal →
        ∀ (period index : Nat) (r : wn_wind_report_t Binary32),
          s.computeReportForPeriodInSecIndexedFromLast period index = some r →
            r.avg_speed.toReal
              ≤ (1 + 1 / 8388608 : ℝ) ^ (period / 3 % 65536 + 14) * r.max_speed.toReal) := by
  obtain ⟨-, hR1, hR2, hR3, hR4⟩ := real_average_at_most_maximum obs hne hlen reportR
  refine ⟨⟨hR1, hR2, hR3, hR4⟩, ?_, ?_, ?_, fun s hk period index r h =>
    Binary32.period_report_avg_le s hk period index r h⟩
  · have hcnt : ((WN_VECTOR_AVERAGER.fresh : WN_VECTOR_AVERAGER Binary32).accumulateAll
        obs).cnt = obs.length := by
      rw [cnt_accumulateAll _ _ (by decide)]
      show (0 + obs.length) % 4294967296 = obs.length
      rw [Nat.zero_add, Nat.mod_eq_of_lt hlen]
    have hpos : obs.length ≠ 0 := fun h => hne (List.length_eq_zero.mp h)
    have hbound := Binary32.raw_avg_le obs (by show obs.length < 4294967296; exact hlen)
    generalize (WN_VECTOR_AVERAGER.fresh : WN_VECTOR_AVERAGER Binary32).accumulateAll obs
      = acc at hcnt hbound ⊢
    have h0 : acc.cnt ≠ 0 := by
      rw [hcnt]
      exact hpos
    obtain ⟨computed, -, -, hall⟩ := computeReport_of_cnt_ne_zero acc h0
    rw [hall wn_raw_wind_report_t.init] at hbound
    rw [hall report]
    exact hbound
  · have hcnt : ((WN_VECTOR_AVERAGER.fresh : WN_VECTOR_AVERAGER Binary32).accumulateAll
        obs).cnt = obs.length := by
      rw [cnt_accumulateAll _ _ (by decide)]
      show (0 + obs.length) % 4294967296 = obs.length
      rw [Nat.zero_add, Nat.mod_eq_of_lt hlen]
    have hpos : obs.length ≠ 0 := fun h => hne (List.length_eq_zero.mp h)
    have hmm := accumulateAll_min_le_max
      (WN_VECTOR_AVERAGER.fresh : WN_VECTOR_AVERAGER Binary32) obs hne
    generalize (WN_VECTOR_AVERAGER.fresh : WN_VECTOR_AVERAGER Binary32).accumulateAll obs
      = acc at hcnt hmm ⊢
    have h0 : acc.cnt ≠ 0 := by
      rw [hcnt]
      exact hpos
    obtain ⟨computed, hcmax, hcmin, hall⟩ := computeReport_of_cnt_ne_zero acc h0
    rw [hall report]
    show computed.pulses_min ≤ computed.pulses_max
    rw [hcmax, hcmin]
    exact hmm
  · show (0 : ℝ) ≤ roundBinary32 ((HZ_TO_MS : ℚ) : ℝ)
    refine roundBinary32_nonneg _ ?_
    simp only [HZ_TO_MS]
    norm_num

/-- Witness of C22: ten observations `(3, 45)`, for which the single-precision average
magnitude is above the maximum 3 and within the bound. -/
theorem C22_average_at_most_maximum_up_to_rounding_witness :
    List.replicate 10 ((3 : Nat), (45 : Nat)) ≠ [] ∧
    (List.replicate 10 ((3 : Nat), (45 : Nat))).length < 4294967296 ∧
    (((WN_VECTOR_AVERAGER.fresh : WN_VECTOR_AVERAGER Binary32).accumulateAll
        (List.replicate 10 (3, 45))).computeReportFromAccumulatedValues
          wn_raw_wind_report_t.init).2.pulses_avg.toReal
      ≤ (1 + 1 / 8388608 : ℝ) ^ ((List.replicate 10 ((3 : Nat), (45 : Nat))).length + 7)
        * (((((WN_VECTOR_AVERAGER.fresh : WN_VECTOR_AVERAGER Binary32).accumulateAll
          (List.replicate 10 (3, 45))).computeReportFromAccumulatedValues
            wn_raw_wind_report_t.init).2.pulses_max : Nat) : ℝ) :=
  ⟨by decide, by decide,
    (C22_average_at_most_maximum_up_to_rounding (List.replicate 10 (3, 45)) (by decide)
      (by decide) wn_raw_wind_report_t.init wn_raw_wind_report_t.init).2.1⟩

/-- Counterexample to C22 as stated.  Count wrap: two `accumulate(3, 0)` calls followed by
2 ^ 32 - 1 `accumulate(0, 0)` calls on a fresh averager leave the 32-bit observation count
at 1 and the sum `x` at 6, so the reduction writes pulses_avg = 6, above pulses_max = 3,
over the reals and, every operation being exact, in single precision.  Rounding: in single
precision ten `accumulate(3, 45)` calls give pulses_avg = 12582913 / 4194304, one unit in
the last place above pulses_max = 3, and the period report over 30 s of an orchestrator
whose buffer holds ten samples `(3, 45)` has avg_speed = 10989077 / 8388608 above
max_speed = 10989076 / 8388608 (calibration constant 1.31, m/s). -/
theorem C22_counterexample_count_wrap_and_rounding :
    ((((3 : Nat), (0 : Nat)) :: (3, 0) :: List.replicate 4294967295 (0, 0)).length
        = 4294967295 + 2 ∧
      (((WN_VECTOR_AVERAGER.fresh : WN_VECTOR_AVERAGER ℝ).accumulateAll
          ((3, 0) :: (3, 0) :: List.replicate 4294967295 (0, 0))
        ).computeReportFromAccumulatedValues wn_raw_wind_report_t.init).2.pulses_avg = 6 ∧
      (((WN_VECTOR_AVERAGER.fresh : WN_VECTOR_AVERAGER ℝ).accumulateAll
          ((3, 0) :: (3, 0) :: List.replicate 4294967295 (0, 0))
        ).computeReportFromAccumulatedValues wn_raw_wind_report_t.init).2.pulses_max = 3 ∧
      (((WN_VECTOR_AVERAGER.fresh : WN_VECTOR_AVERAGER Binary32).accumulateAll
          ((3, 0) :: (3, 0) :: List.replicate 4294967295 (0, 0))
        ).computeReportFromAccumulatedValues wn_raw_wind_report_t.init).2.pulses_avg.toReal
          = 6 ∧
      (((WN_VECTOR_AVERAGER.fresh : WN_VECTOR_AVERAGER Binary32).accumulateAll
          ((3, 0) :: (3, 0) :: List.replicate 4294967295 (0, 0))
        ).computeReportFromAccumulatedValues wn_raw_wind_report_t.init).2.pulses_max = 3 ∧
      ¬ ((6 : ℝ) ≤ ((3 : Nat) : ℝ))) ∧
    ((List.replicate 10 ((3 : Nat), (45 : Nat))).length = 10 ∧
      (((WN_VECTOR_AVERAGER.fresh : WN_VECTOR_AVERAGER Binary32).accumulateAll
          (List.replicate 10 (3, 45))).computeReportFromAccumulatedValues
            wn_raw_wind_report_t.init).2.pulses_avg.toReal = 12582913 / 4194304 ∧
      (((WN_VECTOR_AVERAGER.fresh : WN_VECTOR_AVERAGER Binary32).accumulateAll
          (List.replicate 10 (3, 45))).computeReportFromAccumulatedValues
            wn_raw_wind_report_t.init).2.pulses_max = 3 ∧
      ¬ ((12582913 / 4194304 : ℝ) ≤ ((3 : Nat) : ℝ))) ∧
    (∃ r,
      ({ (WN_Core.new : WN_Core Binary32) with
          RollingBuffer := WN_ROLLINGBUFFER.addSamples (List.replicate 10 (3, 45))
        }).computeReportForRecentPeriodInSec 30 = some r ∧
      r.avg_speed.toReal = 10989077 / 8388608 ∧
      r.max_speed.toReal = 10989076 / 8388608 ∧
      ¬ r.avg_speed.toReal ≤ r.max_speed.toReal) := by
  obtain ⟨hlenw, hRavg, hRmax⟩ := real_average_after_count_wrap_of_calm 4294967295
    (by decide)
  obtain ⟨hBavg, hBmax⟩ := Binary32.average_after_count_wrap_of_calm 4294967295 (by decide)
  obtain ⟨hmax, -, -, -⟩ := Binary32.raw_report_steady 3 (by decide)
  have hpav := Binary32.ten_samples_pulses_avg wn_raw_wind_report_t.init
  refine ⟨⟨hlenw, hRavg, hRmax, hBavg, hBmax, by norm_num⟩,
    ⟨List.length_replicate _ _, hpav, hmax, by norm_num⟩, ?_⟩
  have hrep := report_steady
    ({ (WN_Core.new : WN_Core Binary32) with
        RollingBuffer := WN_ROLLINGBUFFER.addSamples (List.replicate 10 (3, 45)) }) 3 rfl
  obtain ⟨havg, h3, -⟩ := Binary32.speeds_of_3
    ({ (WN_Core.new : WN_Core Binary32) with
        RollingBuffer := WN_ROLLINGBUFFER.addSamples (List.replicate 10 (3, 45)) })
    rfl rfl _ hpav
  have hmx : (({ (WN_Core.new : WN_Core Binary32) with
        RollingBuffer := WN_ROLLINGBUFFER.addSamples (List.replicate 10 (3, 45))
      }).formatRawReport
      (((WN_VECTOR_AVERAGER.fresh : WN_VECTOR_AVERAGER Binary32).accumulateAll
        (List.replicate 10 (3, 45))).computeReportFromAccumulatedValues
          wn_raw_wind_report_t.init).2).max_speed.toReal = 2747269 / 2097152 := by
    show (({ (WN_Core.new : WN_Core Binary32) with
        RollingBuffer := WN_ROLLINGBUFFER.addSamples (List.replicate 10 (3, 45))
      }).pulsesToSpeedUnitInUse
      (((((WN_VECTOR_AVERAGER.fresh : WN_VECTOR_AVERAGER Binary32).accumulateAll
        (List.replicate 10 (3, 45))).computeReportFromAccumulatedValues
          wn_raw_wind_report_t.init).2.pulses_max : Nat) : Binary32)).toReal = _
    rw [hmax]
    exact h3
  have hav : (({ (WN_Core.new : WN_Core Binary32) with
        RollingBuffer := WN_ROLLINGBUFFER.addSamples (List.replicate 10 (3, 45))
      }).formatRawReport
      (((WN_VECTOR_AVERAGER.fresh : WN_VECTOR_AVERAGER Binary32).accumulateAll
        (List.replicate 10 (3, 45))).computeReportFromAccumulatedValues
          wn_raw_wind_report_t.init).2).avg_speed.toReal = 10989077 / 8388608 := havg
  refine ⟨_, hrep, hav, ?_, ?_⟩
  · rw [hmx]
    norm_num
  · rw [hav, hmx]
    norm_num

end Windnerd
